import Mathlib

/-!
# S3Benchmark: the EC2 benchmark orchestrator

A shallow embedding of `benchmark_orchestrator/ec2_benchmark_orchestrator.go`,
`benchmark/benchmark_runner.go`, `report/report.go`, of the system monitor
(`system_monitor/*.go`), of `util/util.go`, of the output parser of the
`aws_cli` benchmark and of the object list of `object_provider`.

Conventions of the embedding:

* a Go `error` is `Option GoError`, `none` being `nil`;
* a Go pointer that the code tests against `nil` is an `Option`;
* the cloud client, the remote target and the benchmark plugins are scripted
  oracles: a structure of replies, indexed by the number of earlier calls
  where the code calls the same operation repeatedly;
* every function returns the ordered trace of the calls it made, so that
  "which calls were attempted, and in which order" is a property of a value;
* a Go run-time panic (explicit `panic`, nil dereference, index out of range)
  is an outcome of its own, distinct from an error return;
* an `int` is an `Int`, the result of the arithmetic of the samplers being
  taken modulo `2^64` (`wrap64`); a `float64` sample of the system monitor is
  a `Float64`: a number of the machine format, a signed zero, an infinity or
  NaN, every operation rounding its exact result to the nearest number of the
  format (ties to even).
-/

namespace S3Benchmark

/-! ## Errors and logging -/

/-- A non-nil Go `error`; `msg` is what its `Error()` method renders. -/
structure GoError where
  msg : String
deriving DecidableEq, Repr

/-- The method `Error()` of a non-nil error. -/
def GoError.Error (e : GoError) : String := e.msg

/-- The error built by `fmt.Errorf(what + ": %w", err)`. -/
def Errorf (what : String) (e : GoError) : GoError := ⟨what ++ ": " ++ e.Error⟩

/-- The error built by `fmt.Errorf(text)` with no wrapped error. -/
def ErrorNew (text : String) : GoError := ⟨text⟩

/-- Levels of `log/slog` used by the code. -/
inductive Level
  | Debug
  | Info
  | Warn
  | Error
deriving DecidableEq, Repr

/-! ## Calls to the outside world -/

/-- The two attributes `SetUp` switches on, one request each. -/
inductive VpcAttribute
  | EnableDnsSupport
  | EnableDnsHostnames
deriving DecidableEq, Repr

/-- One observable step of the orchestrator: a call to the cloud client, to the
remote target or to the operating system, a sleep, or a log line. The
arguments kept are the identifiers the requests carry. -/
inductive Event
  | MkdirAll (dir : String)
  | CreateVpc
  | ModifyVpcAttribute (vpcId : String) (attr : VpcAttribute)
  | CreateSubnet (vpcId : String)
  | CreateInternetGateway
  | AttachInternetGateway (igwId vpcId : String)
  | DescribeRouteTablesOfVpc (vpcId : String)
  | CreateRoute (routeTableId igwId : String)
  | CreateVpcEndpoint (vpcId routeTableId : String)
  | DescribeRouteTablesById (routeTableId : String)
  | GetManagedPrefixListEntries (prefixListId : String)
  | CreateSecurityGroup (vpcId : String)
  | AuthorizeSecurityGroupIngress (sgId : String)
  | CreateRole
  | PutRolePolicy (roleName policyName : String)
  | CreateInstanceProfile
  | AddRoleToInstanceProfile (insProfName roleName : String)
  | CreateKeyPair
  | DeleteKeyPair (keyPairId : String)
  | RemoveRoleFromInstanceProfile (insProfName : String) (roleName : Option String)
  | DeleteInstanceProfile (insProfName : String)
  | DeleteRolePolicy (roleName : String) (policyName : Option String)
  | DeleteRole (roleName : String)
  | DeleteSecurityGroup (sgId : String)
  | DetachInternetGateway (vpcId : Option String) (igwId : String)
  | DeleteInternetGateway (igwId : String)
  | DeleteVpcEndpoints (endpointIds : List String)
  | DeleteSubnet (subnetId : String)
  | DeleteVpc (vpcId : String)
  | DescribeInstanceTypes (instanceType : String)
  | RunInstances (instanceType : String)
  | TerminateInstances (instanceId : String)
  | DescribeInstances (instanceId : String)
  | DescribeInstanceStatus (instanceId : String)
  | RunCommand (cmd : String)
  | TargetClient
  | CopyFileFrom (remotePath localPath : String)
  | OpenFile (localPath : String)
  | BenchmarkSetUp
  | ProfilerSetUp
  | ProfileCommand (cmd : String)
  | Sleep (seconds : Nat)
  | slog (level : Level) (msg : String) (attrs : List (String × String))
deriving DecidableEq, Repr

/-! ## The orchestrator's resource identifiers -/

/-- A parsed `netip.Prefix`: the bytes of its address and its length in bits. -/
structure Prefix where
  addr : List Nat
  bits : Nat
deriving DecidableEq, Repr

/-- An `objectprovider.ObjectSpec`. -/
structure ObjectSpec where
  Key : String
  SizeBytes : Int
deriving DecidableEq, Repr

/-- The `BenchmarkConfig` handed to `SetUp`. -/
structure BenchmarkConfig where
  ObjectsName : String := ""
  ObjectsDesc : String := ""
  ObjectSpecs : List ObjectSpec := []
  ResultDir : String := ""
  WarmUpObjects : Bool := false
deriving DecidableEq, Repr

/-- The resource identifiers of `ec2BenchmarkOrchestrator`, each a `*string`
that is nil until `SetUp` has created the resource, with the signer and the
storage-service prefixes. -/
structure ec2BenchmarkOrchestrator where
  vpcID : Option String := none
  igwID : Option String := none
  sgID : Option String := none
  subnetID : Option String := none
  s3EndpointID : Option String := none
  roleArn : Option String := none
  roleName : Option String := none
  roleInlinePolicyName : Option String := none
  insProfArn : Option String := none
  insProfName : Option String := none
  keyName : Option String := none
  keyID : Option String := none
  signer : Option String := none
  s3Prefixes : List Prefix := []
  cfg : Option BenchmarkConfig := none
deriving DecidableEq, Repr

/-- The orchestrator as `NewEC2BenchmarkOrchestrator` returns it: no resource yet. -/
def NewEC2BenchmarkOrchestrator : ec2BenchmarkOrchestrator := {}

/-! ## TearDown -/

/-- What a function without result value other than an error hands back: the
returned `error` and the trace of its steps. -/
structure ErrRun where
  ret : Option GoError
  trace : List Event
deriving DecidableEq, Repr

/-- The usual tail of a deletion step: `slog.Error(what + " failed", "error", err)`
when the call failed, `slog.Debug(done, key, id)` when it succeeded. -/
def logDeletion (r : Option GoError) (what done key id : String) : Event :=
  match r with
  | some err => .slog .Error (what ++ " failed") [("error", err.Error)]
  | none => .slog .Debug done [(key, id)]

/-- The tail of the three auxiliary steps (remove role from profile, delete
inline policy, detach gateway): a log line only when the call failed. -/
def logFailure (r : Option GoError) (level : Level) (what : String) : List Event :=
  match r with
  | some err => [.slog level (what ++ " failed") [("error", err.Error)]]
  | none => []

/-- The block `if o.keyID != nil { DeleteKeyPair ... }`. -/
def tearDownKeyPair (o : ec2BenchmarkOrchestrator) (api : Event → Option GoError) : List Event :=
  match o.keyID with
  | some keyID =>
    [.DeleteKeyPair keyID,
     logDeletion (api (.DeleteKeyPair keyID)) "DeleteKeyPair" "deleted key pair" "ID" keyID]
  | none => []

/-- The block `if o.insProfName != nil { RemoveRoleFromInstanceProfile; DeleteInstanceProfile }`. -/
def tearDownInstanceProfile (o : ec2BenchmarkOrchestrator) (api : Event → Option GoError) :
    List Event :=
  match o.insProfName with
  | some name =>
    [.RemoveRoleFromInstanceProfile name o.roleName]
      ++ logFailure (api (.RemoveRoleFromInstanceProfile name o.roleName)) .Debug
          "RemoveRoleFromInstanceProfile"
      ++ [.DeleteInstanceProfile name,
          logDeletion (api (.DeleteInstanceProfile name)) "DeleteInstanceProfile"
            "deleted instance profile" "name" name]
  | none => []

/-- The block `if o.roleName != nil { DeleteRolePolicy; DeleteRole }`. -/
def tearDownRole (o : ec2BenchmarkOrchestrator) (api : Event → Option GoError) : List Event :=
  match o.roleName with
  | some name =>
    [.DeleteRolePolicy name o.roleInlinePolicyName]
      ++ logFailure (api (.DeleteRolePolicy name o.roleInlinePolicyName)) .Debug "DeleteRolePolicy"
      ++ [.DeleteRole name,
          logDeletion (api (.DeleteRole name)) "DeleteRole" "deleted role" "name" name]
  | none => []

/-- The block `if o.sgID != nil { DeleteSecurityGroup }`. -/
def tearDownSecurityGroup (o : ec2BenchmarkOrchestrator) (api : Event → Option GoError) :
    List Event :=
  match o.sgID with
  | some sgID =>
    [.DeleteSecurityGroup sgID,
     logDeletion (api (.DeleteSecurityGroup sgID)) "DeleteSecurityGroup"
       "deleted security group" "ID" sgID]
  | none => []

/-- The block `if o.igwID != nil { DetachInternetGateway; DeleteInternetGateway }`. -/
def tearDownInternetGateway (o : ec2BenchmarkOrchestrator) (api : Event → Option GoError) :
    List Event :=
  match o.igwID with
  | some igwID =>
    [.DetachInternetGateway o.vpcID igwID]
      ++ logFailure (api (.DetachInternetGateway o.vpcID igwID)) .Error "DetachInternetGateway"
      ++ [.DeleteInternetGateway igwID,
          logDeletion (api (.DeleteInternetGateway igwID)) "DeleteInternetGateway"
            "deleted internet gateway" "ID" igwID]
  | none => []

/-- The block `if o.s3EndpointID != nil { DeleteVpcEndpoints }`. -/
def tearDownS3Endpoint (o : ec2BenchmarkOrchestrator) (api : Event → Option GoError) :
    List Event :=
  match o.s3EndpointID with
  | some id =>
    [.DeleteVpcEndpoints [id],
     logDeletion (api (.DeleteVpcEndpoints [id])) "DeleteVpcEndpoints" "deleted S3 endpoint" "ID" id]
  | none => []

/-- The block `if o.subnetID != nil { DeleteSubnet }`. -/
def tearDownSubnet (o : ec2BenchmarkOrchestrator) (api : Event → Option GoError) : List Event :=
  match o.subnetID with
  | some id =>
    [.DeleteSubnet id, logDeletion (api (.DeleteSubnet id)) "DeleteSubnet" "deleted subnet" "ID" id]
  | none => []

/-- The block `if o.vpcID != nil { DeleteVpc }`. -/
def tearDownVpc (o : ec2BenchmarkOrchestrator) (api : Event → Option GoError) : List Event :=
  match o.vpcID with
  | some id =>
    [.DeleteVpc id, logDeletion (api (.DeleteVpc id)) "DeleteVpc" "deleted VPC" "ID" id]
  | none => []

/-- `(*ec2BenchmarkOrchestrator).TearDown`. `api` gives the error, if any, with
which the cloud client answers each deletion request. The eight blocks run one
after the other whatever the earlier calls returned; the function then returns
`fmt.Errorf("not implemented")`. -/
def TearDown (o : ec2BenchmarkOrchestrator) (api : Event → Option GoError) : ErrRun :=
  { ret := some (ErrorNew "not implemented")
    trace :=
      tearDownKeyPair o api ++ tearDownInstanceProfile o api ++ tearDownRole o api
        ++ tearDownSecurityGroup o api ++ tearDownInternetGateway o api
        ++ tearDownS3Endpoint o api ++ tearDownSubnet o api ++ tearDownVpc o api }

/-- The eight resources of the stack that `SetUp` creates and `TearDown`
deletes. -/
inductive Resource
  | virtualNetwork
  | subnet
  | internetGateway
  | storageEndpoint
  | securityGroup
  | role
  | instanceProfile
  | keyPair
deriving DecidableEq, Repr

/-- The resource whose deletion a call requests, if the call is one of the
eight deletion requests of `TearDown`. -/
def Event.deletes : Event → Option Resource
  | .DeleteKeyPair _ => some .keyPair
  | .DeleteInstanceProfile _ => some .instanceProfile
  | .DeleteRole _ => some .role
  | .DeleteSecurityGroup _ => some .securityGroup
  | .DeleteInternetGateway _ => some .internetGateway
  | .DeleteVpcEndpoints _ => some .storageEndpoint
  | .DeleteSubnet _ => some .subnet
  | .DeleteVpc _ => some .virtualNetwork
  | _ => none

/-- The resource whose creation a step of `SetUp` reports: `SetUp` logs one
`created ...` line right after each creation call that succeeded. -/
def Event.created : Event → Option Resource
  | .slog .Debug msg _ =>
    if msg = "created VPC" then some .virtualNetwork
    else if msg = "created subnet" then some .subnet
    else if msg = "created internet gateway" then some .internetGateway
    else if msg = "created S3 endpoint" then some .storageEndpoint
    else if msg = "created security group" then some .securityGroup
    else if msg = "created role" then some .role
    else if msg = "created instance profile" then some .instanceProfile
    else if msg = "created key pair" then some .keyPair
    else none
  | _ => none

/-- The order in which the calls of `SetUp` follow each other in the source. -/
def setUpOrder : List Resource :=
  [.virtualNetwork, .subnet, .internetGateway, .storageEndpoint, .securityGroup, .role,
   .instanceProfile, .keyPair]

/-- The order in which the blocks of `TearDown` follow each other in the source. -/
def tearDownOrder : List Resource :=
  [.keyPair, .instanceProfile, .role, .securityGroup, .internetGateway, .storageEndpoint,
   .subnet, .virtualNetwork]

/-- The identifier field that `TearDown` tests before it deletes a resource. -/
def ec2BenchmarkOrchestrator.identifier (o : ec2BenchmarkOrchestrator) : Resource → Option String
  | .virtualNetwork => o.vpcID
  | .subnet => o.subnetID
  | .internetGateway => o.igwID
  | .storageEndpoint => o.s3EndpointID
  | .securityGroup => o.sgID
  | .role => o.roleName
  | .instanceProfile => o.insProfName
  | .keyPair => o.keyID

/-! ## SetUp -/

/-- A route of a route table; only the prefix-list destination is read. -/
structure Route where
  DestinationPrefixListId : Option String
deriving DecidableEq, Repr

/-- A route table as `DescribeRouteTables` returns it. -/
structure RouteTable where
  RouteTableId : String
  Routes : List Route
deriving DecidableEq, Repr

/-- The key pair `CreateKeyPair` returns. -/
structure KeyPair where
  KeyName : String
  KeyPairId : String
  KeyMaterial : String
deriving DecidableEq, Repr

/-- The replies of the outside world to the calls of `SetUp`: for each call
either an error or the part of the response the code reads. `MkdirAll` is
the reply of the operating system for the directory it is asked to create.
The two `DescribeRouteTables` requests differ in their filter and have a
reply each. `ParsePrefix` and `ParsePrivateKey` are the library parsers the
code applies to the returned text. -/
structure SetUpApi where
  MkdirAll : String → Option GoError
  CreateVpc : Except GoError String
  ModifyVpcAttribute : VpcAttribute → Option GoError
  CreateSubnet : Except GoError String
  CreateInternetGateway : Except GoError String
  AttachInternetGateway : Option GoError
  DescribeRouteTablesOfVpc : Except GoError (List RouteTable)
  CreateRoute : Option GoError
  CreateVpcEndpoint : Except GoError String
  DescribeRouteTablesById : Except GoError (List RouteTable)
  GetManagedPrefixListEntries : String → Except GoError (List String)
  ParsePrefix : String → Except GoError Prefix
  CreateSecurityGroup : Except GoError String
  AuthorizeSecurityGroupIngress : Option GoError
  CreateRole : Except GoError (String × String)
  PutRolePolicy : Option GoError
  CreateInstanceProfile : Except GoError (String × String)
  AddRoleToInstanceProfile : Option GoError
  CreateKeyPair : Except GoError KeyPair
  ParsePrivateKey : String → Except GoError String

/-- The state in which a method of the orchestrator ends: the orchestrator's
fields, the returned error, whether the method panicked instead of returning,
and the trace of its steps. -/
structure OrchRun where
  o : ec2BenchmarkOrchestrator
  ret : Option GoError
  panicked : Bool := false
  trace : List Event
deriving DecidableEq, Repr

/-- The inner loop `for _, entry := range pl.Entries`: parse each CIDR and
append it to the prefixes; the first parse error is returned, the prefixes
appended before it stay. -/
def appendEntries (api : SetUpApi) : List String → List Prefix → Option GoError × List Prefix
  | [], acc => (none, acc)
  | cidr :: rest, acc =>
    match api.ParsePrefix cidr with
    | .error err => (some err, acc)
    | .ok p => appendEntries api rest (acc ++ [p])

/-- The outer loop `for _, route := range ...Routes`: for each route with a
prefix list, read the entries of the list and append them. Returns the error
that ends `SetUp` early, if any, the prefixes and the calls made. -/
def collectS3Prefixes (api : SetUpApi) :
    List Route → List Prefix → List Event → Option GoError × List Prefix × List Event
  | [], acc, tr => (none, acc, tr)
  | route :: rest, acc, tr =>
    match route.DestinationPrefixListId with
    | none => collectS3Prefixes api rest acc tr
    | some plId =>
      match api.GetManagedPrefixListEntries plId with
      | .error err => (some err, acc, tr ++ [.GetManagedPrefixListEntries plId])
      | .ok entries =>
        match appendEntries api entries acc with
        | (some err, acc1) => (some err, acc1, tr ++ [.GetManagedPrefixListEntries plId])
        | (none, acc1) =>
          collectS3Prefixes api rest acc1 (tr ++ [.GetManagedPrefixListEntries plId])

/-- Last part of `SetUp`: the key pair, its private key, the final sleep. -/
def setUpKeyPair (api : SetUpApi) (o : ec2BenchmarkOrchestrator) (tr : List Event) : OrchRun :=
  match api.CreateKeyPair with
  | .error err => { o := o, ret := some err, trace := tr ++ [.CreateKeyPair] }
  | .ok kp =>
    let o1 := { o with keyName := some kp.KeyName, keyID := some kp.KeyPairId }
    let tr1 := tr ++ [.CreateKeyPair, .slog .Debug "created key pair" [("ID", kp.KeyPairId)]]
    match api.ParsePrivateKey kp.KeyMaterial with
    | .error err => { o := { o1 with signer := none }, ret := some err, trace := tr1 }
    | .ok signer =>
      { o := { o1 with signer := some signer }, ret := none, trace := tr1 ++ [.Sleep 10] }

/-- Part of `SetUp`: the role, its inline policy, the instance profile and the
addition of the role to it. The two `json.Marshal` calls serialise fixed
structures of strings and cannot fail. The value returned by
`AddRoleToInstanceProfile` is discarded by the code. -/
def setUpIdentity (api : SetUpApi) (o : ec2BenchmarkOrchestrator) (tr : List Event) : OrchRun :=
  match api.CreateRole with
  | .error err => { o := o, ret := some err, trace := tr ++ [.CreateRole] }
  | .ok (arn, name) =>
    let o1 := { o with roleArn := some arn, roleName := some name,
                       roleInlinePolicyName := some "inline" }
    let tr1 := tr ++ [.CreateRole, .slog .Debug "created role" [("name", name)],
                      .PutRolePolicy name "inline"]
    match api.PutRolePolicy with
    | some err => { o := o1, ret := some err, trace := tr1 }
    | none =>
      match api.CreateInstanceProfile with
      | .error err => { o := o1, ret := some err, trace := tr1 ++ [.CreateInstanceProfile] }
      | .ok (pArn, pName) =>
        let o2 := { o1 with insProfArn := some pArn, insProfName := some pName }
        setUpKeyPair api o2
          (tr1 ++ [.CreateInstanceProfile,
                   .slog .Debug "created instance profile" [("name", pName)],
                   .AddRoleToInstanceProfile pName name])

/-- Part of `SetUp`: the security group and its inbound SSH rule. -/
def setUpSecurityGroup (api : SetUpApi) (o : ec2BenchmarkOrchestrator) (vpcID : String)
    (tr : List Event) : OrchRun :=
  match api.CreateSecurityGroup with
  | .error err => { o := o, ret := some err, trace := tr ++ [.CreateSecurityGroup vpcID] }
  | .ok sgID =>
    let o1 := { o with sgID := some sgID }
    let tr1 := tr ++ [.CreateSecurityGroup vpcID,
                      .slog .Debug "created security group" [("ID", sgID)],
                      .AuthorizeSecurityGroupIngress sgID]
    match api.AuthorizeSecurityGroupIngress with
    | some err => { o := o1, ret := some err, trace := tr1 }
    | none => setUpIdentity api o1 tr1

/-- Part of `SetUp`: the storage-service endpoint and the prefixes its route
exposes. Indexing `RouteTables[0]` of an empty reply panics. -/
def setUpS3Endpoint (api : SetUpApi) (o : ec2BenchmarkOrchestrator) (vpcID routeTableID : String)
    (tr : List Event) : OrchRun :=
  match api.CreateVpcEndpoint with
  | .error err =>
    { o := o, ret := some err, trace := tr ++ [.CreateVpcEndpoint vpcID routeTableID] }
  | .ok epID =>
    let o1 := { o with s3EndpointID := some epID }
    let tr1 := tr ++ [.CreateVpcEndpoint vpcID routeTableID,
                      .slog .Debug "created S3 endpoint" [("ID", epID)],
                      .DescribeRouteTablesById routeTableID]
    match api.DescribeRouteTablesById with
    | .error err => { o := o1, ret := some err, trace := tr1 }
    | .ok [] => { o := o1, ret := none, panicked := true, trace := tr1 }
    | .ok (rt :: _) =>
      match collectS3Prefixes api rt.Routes o1.s3Prefixes tr1 with
      | (some err, ps, tr2) => { o := { o1 with s3Prefixes := ps }, ret := some err, trace := tr2 }
      | (none, ps, tr2) => setUpSecurityGroup api { o1 with s3Prefixes := ps } vpcID tr2

/-- Part of `SetUp`: the internet gateway, its attachment, the main route
table and the default route. Indexing `RouteTables[0]` of an empty reply panics. -/
def setUpInternetGateway (api : SetUpApi) (o : ec2BenchmarkOrchestrator) (vpcID : String)
    (tr : List Event) : OrchRun :=
  match api.CreateInternetGateway with
  | .error err => { o := o, ret := some err, trace := tr ++ [.CreateInternetGateway] }
  | .ok igwID =>
    let o1 := { o with igwID := some igwID }
    let tr1 := tr ++ [.CreateInternetGateway,
                      .slog .Debug "created internet gateway" [("ID", igwID)],
                      .AttachInternetGateway igwID vpcID]
    match api.AttachInternetGateway with
    | some err => { o := o1, ret := some err, trace := tr1 }
    | none =>
      let tr2 := tr1 ++ [.DescribeRouteTablesOfVpc vpcID]
      match api.DescribeRouteTablesOfVpc with
      | .error err => { o := o1, ret := some err, trace := tr2 }
      | .ok [] => { o := o1, ret := none, panicked := true, trace := tr2 }
      | .ok (rt :: _) =>
        let tr3 := tr2 ++ [.CreateRoute rt.RouteTableId igwID]
        match api.CreateRoute with
        | some err => { o := o1, ret := some err, trace := tr3 }
        | none => setUpS3Endpoint api o1 vpcID rt.RouteTableId tr3

/-- Part of `SetUp`: the virtual network, its two DNS attributes, the subnet. -/
def setUpNetwork (api : SetUpApi) (o : ec2BenchmarkOrchestrator) (tr : List Event) : OrchRun :=
  match api.CreateVpc with
  | .error err => { o := o, ret := some err, trace := tr ++ [.CreateVpc] }
  | .ok vpcID =>
    let o1 := { o with vpcID := some vpcID }
    let tr1 := tr ++ [.CreateVpc, .slog .Debug "created VPC" [("ID", vpcID)],
                      .ModifyVpcAttribute vpcID .EnableDnsSupport]
    match api.ModifyVpcAttribute .EnableDnsSupport with
    | some err => { o := o1, ret := some err, trace := tr1 }
    | none =>
      let tr2 := tr1 ++ [.ModifyVpcAttribute vpcID .EnableDnsHostnames]
      match api.ModifyVpcAttribute .EnableDnsHostnames with
      | some err => { o := o1, ret := some err, trace := tr2 }
      | none =>
        match api.CreateSubnet with
        | .error err => { o := o1, ret := some err, trace := tr2 ++ [.CreateSubnet vpcID] }
        | .ok subnetID =>
          setUpInternetGateway api { o1 with subnetID := some subnetID } vpcID
            (tr2 ++ [.CreateSubnet vpcID, .slog .Debug "created subnet" [("ID", subnetID)]])

/-- `(*ec2BenchmarkOrchestrator).SetUp`: record the configuration, refuse
object warming, create the result directory, then create the resources in
order, returning at the first call whose error the code checks. The size of
the objects, kept by the code for the volume size of later launch requests,
takes no part in any decision and is left out. -/
def SetUp (api : SetUpApi) (o : ec2BenchmarkOrchestrator) (cfg : BenchmarkConfig) : OrchRun :=
  let o0 := { o with cfg := some cfg }
  if cfg.WarmUpObjects then
    { o := o0, ret := some (ErrorNew "object warming is not implemented"), trace := [] }
  else
    match api.MkdirAll cfg.ResultDir with
    | some err => { o := o0, ret := some err, trace := [.MkdirAll cfg.ResultDir] }
    | none => setUpNetwork api o0 [.MkdirAll cfg.ResultDir]

/-! ## Reports (`report/report.go`) -/

/-- A `report.Measurement[T]`. -/
structure Measurement (T : Type) where
  Time : Int
  Value : T
deriving DecidableEq, Repr

/-- A `report.DeviceMeasurement[T]`. -/
structure DeviceMeasurement (T : Type) where
  DeviceName : String
  Measurement : Measurement T
deriving DecidableEq, Repr

/-- The integer nearest to a rational number, the even one of the two when
the number lies halfway between them. -/
def roundHalfEven (x : Rat) : Int :=
  if x - ⌊x⌋ < 1 / 2 then ⌊x⌋
  else if 1 / 2 < x - ⌊x⌋ then ⌊x⌋ + 1
  else if ⌊x⌋ % 2 = 0 then ⌊x⌋
  else ⌊x⌋ + 1

/-- The magnitude that the `float64` format gives to the real number `q > 0`
before the test for overflow (0 for `q ≤ 0`): `q` lies in the binade
`2^e ≤ q < 2^(e+1)`, the numbers of the format there are the multiples of
`2^(e-52)`, and below `2^(-1022)` those of `2^(-1074)`; the multiple nearest
to `q` is taken, the one with the even multiplier in a tie (IEEE 754,
round to nearest even). -/
def Float64.roundMag (q : Rat) : Rat :=
  if q ≤ 0 then 0
  else
    (roundHalfEven (q / 2 ^ (max (Int.log 2 q) (-1022) - 52)) : Rat)
      * 2 ^ (max (Int.log 2 q) (-1022) - 52)

/-- A `float64` value: a finite number other than the negative zero
(`num 0` is the positive zero), the negative zero, an infinity with its sign,
or NaN. The operations below give to every finite result the value that the
machine format holds: the exact result rounded as `Float64.roundMag` says. -/
inductive Float64
  | num (q : Rat)
  | negZero
  | inf (negative : Bool)
  | nan
deriving DecidableEq, Repr

/-- The `float64` with the given sign whose magnitude is the real number
`mag ≥ 0` rounded to the format: an infinity from `2^1024` on. -/
def Float64.round (negative : Bool) (mag : Rat) : Float64 :=
  if 2 ^ 1024 ≤ Float64.roundMag mag then .inf negative
  else if Float64.roundMag mag = 0 then (if negative then .negZero else .num 0)
  else .num (if negative then -Float64.roundMag mag else Float64.roundMag mag)

/-- The sign bit of a value that is not NaN. -/
def Float64.isNeg : Float64 → Bool
  | .num q => decide (q < 0)
  | .negZero => true
  | .inf negative => negative
  | .nan => false

/-- The number that a finite value holds, both zeros being 0 (and 0 for the
values that are not finite). -/
def Float64.toRat : Float64 → Rat
  | .num q => q
  | _ => 0

/-- The conversion `float64(x)` of an integer: the nearest value of the
format, `x` itself when `|x| ≤ 2^53`. -/
def Float64.ofInt (x : Int) : Float64 := Float64.round (decide (x < 0)) |(x : Rat)|

/-- The comparison `x < y` of two `float64` values: false when either is NaN;
the two zeros are equal. -/
def Float64.lt : Float64 → Float64 → Bool
  | .nan, _ => false
  | _, .nan => false
  | .inf a, .inf b => a && !b
  | .inf a, _ => a
  | _, .inf b => !b
  | x, y => decide (x.toRat < y.toRat)

/-- The quotient `x / y` of two `float64` values. Dividing by zero does not
panic: a non-zero number over a zero is an infinity, a zero over a zero is
NaN. The sign of the result is the exclusive or of the signs. -/
def Float64.div : Float64 → Float64 → Float64
  | .nan, _ => .nan
  | _, .nan => .nan
  | .inf _, .inf _ => .nan
  | .inf a, y => .inf (a != y.isNeg)
  | x, .inf b => Float64.round (x.isNeg != b) 0
  | x, y =>
    if y.toRat = 0 then (if x.toRat = 0 then .nan else .inf (x.isNeg != y.isNeg))
    else Float64.round (x.isNeg != y.isNeg) (|x.toRat| / |y.toRat|)

/-- The product `x * y` of two `float64` values: an infinity times a zero is
NaN. The sign of the result is the exclusive or of the signs. -/
def Float64.mul : Float64 → Float64 → Float64
  | .nan, _ => .nan
  | _, .nan => .nan
  | .inf a, .inf b => .inf (a != b)
  | .inf a, y => if y.toRat = 0 then .nan else .inf (a != y.isNeg)
  | x, .inf b => if x.toRat = 0 then .nan else .inf (x.isNeg != b)
  | x, y => Float64.round (x.isNeg != y.isNeg) (|x.toRat| * |y.toRat|)

/-- The test `math.IsNaN`. -/
def Float64.IsNaN : Float64 → Bool
  | .nan => true
  | _ => false

/-- The value of the `float64` format nearest to the real number `q`, as a
number: the rounded magnitude with the sign of `q`. It is the value of the
machine result as long as that is finite. -/
def Float64.nearest (q : Rat) : Rat :=
  if q < 0 then -Float64.roundMag (-q) else Float64.roundMag q

/-- The `report.SystemMeasurements` bundle. -/
structure SystemMeasurements where
  CpuUsageUser : List (Measurement Float64) := []
  CpuUsageSystem : List (Measurement Float64) := []
  CpuUsageIdle : List (Measurement Float64) := []
  CpuUsageNice : List (Measurement Float64) := []
  CpuUsageIowait : List (Measurement Float64) := []
  CpuUsageIrq : List (Measurement Float64) := []
  CpuUsageSoftIrq : List (Measurement Float64) := []
  CpuUsageSteal : List (Measurement Float64) := []
  CpuUsageGuest : List (Measurement Float64) := []
  CpuUsageGuestNice : List (Measurement Float64) := []
  MemTotalBytes : List (Measurement Int) := []
  MemUsedBytes : List (Measurement Int) := []
  MemUsedPct : List (Measurement Float64) := []
  MemAvailBytes : List (Measurement Int) := []
  MemAvailPct : List (Measurement Float64) := []
  SwapTotalBytes : List (Measurement Int) := []
  SwapUsedBytes : List (Measurement Int) := []
  SwapUsedPct : List (Measurement Float64) := []
  DiskReads : List (DeviceMeasurement Int) := []
  DiskReadsMerged : List (DeviceMeasurement Int) := []
  DiskReadBytes : List (DeviceMeasurement Int) := []
  DiskReadTimeMs : List (DeviceMeasurement Int) := []
  DiskWrites : List (DeviceMeasurement Int) := []
  DiskWritesMerged : List (DeviceMeasurement Int) := []
  DiskWriteBytes : List (DeviceMeasurement Int) := []
  DiskWriteTimeMs : List (DeviceMeasurement Int) := []
  DiskIOTimeMs : List (DeviceMeasurement Int) := []
  DiskWeightedIOTimeMs : List (DeviceMeasurement Int) := []
  DiskFlushes : List (DeviceMeasurement Int) := []
  DiskFlushTimeMs : List (DeviceMeasurement Int) := []
  DiskIopsInProgress : List (DeviceMeasurement Int) := []
  NetBytesSent : List (DeviceMeasurement Int) := []
  NetBytesRecv : List (DeviceMeasurement Int) := []
  NetPacketsSent : List (DeviceMeasurement Int) := []
  NetPacketsRecv : List (DeviceMeasurement Int) := []
  S3IPs : List (Measurement Int) := []
  S3Networks : List (Measurement Int) := []
deriving DecidableEq, Repr

/-- An element of the `[]any` field `Metadata`: the `map[string]string` that
`Run` builds (command, profiler, and the profiling result path once known), a
value a benchmark returned with its output, or the `benchmarkMetadata` record
of the orchestrator. -/
inductive Metadata
  | runInfo (m : List (String × String))
  | fromBenchmark (v : String)
  | benchmarkMetadata (InstanceType : String)
deriving DecidableEq, Repr

/-- A `report.BenchmarkReport`. -/
structure BenchmarkReport where
  Name : String
  Metadata : List Metadata := []
  Input : List (String × String) := []
  Error : String := ""
  TotalTimeSec : List Rat := []
  SystemMeasurements : Option SystemMeasurements := none
deriving DecidableEq, Repr

/-- The `Report` that `RunBenchmarks` returns. -/
structure Report where
  Config : Option BenchmarkConfig
  Reports : List BenchmarkReport
deriving DecidableEq, Repr

/-! ## One job: the instance lifecycle -/

/-- How a call ends that yields a value: with the value, with a non-nil
error, or in a run-time panic. -/
inductive Res (α : Type)
  | ok (a : α)
  | err (e : GoError)
  | panic
deriving DecidableEq, Repr

/-- A `target.Target`. `RunCommand n cmd` is the reply (combined output and
error) to `cmd` when the target has already received `n` commands;
`CopyFileFrom` and `Client` give the error, if any, of those methods. -/
structure Target where
  RunCommand : Nat → String → String × Option GoError
  CopyFileFrom : String → Option GoError
  Client : Option GoError

/-- An instance in a cloud response: identifier, public address if it has one
yet, and the name of its state. -/
structure Instance where
  InstanceId : String
  PublicIpAddress : Option String := none
  State : String := "pending"
deriving DecidableEq, Repr

/-- A reservation of `DescribeInstances`. -/
structure Reservation where
  Instances : List Instance
deriving DecidableEq, Repr

/-- An entry of `DescribeInstanceStatus`: the two summary statuses. -/
structure InstanceStatusEntry where
  InstanceStatus : String
  SystemStatus : String
deriving DecidableEq, Repr

/-- An entry of `DescribeInstanceTypes`: the baseline bandwidth of each
network card. -/
structure InstanceTypeInfo where
  NetworkCards : List Rat
deriving DecidableEq, Repr

/-- The replies of the cloud client within one job. Slices are lists, so a
reply may be empty; the scalar fields the code dereferences without a test are
taken as populated. `RunInstances i` and `DescribeInstanceStatus i` answer
the call made after `i` earlier calls of the same operation, and so does
`DescribeInstances i`, which both the address wait and the termination wait
issue. -/
structure Ec2Api where
  DescribeInstanceTypes : Except GoError (List InstanceTypeInfo)
  RunInstances : Nat → Except GoError (List Instance)
  TerminateInstances : Option GoError
  DescribeInstances : Nat → Except GoError (List Reservation)
  DescribeInstanceStatus : Nat → Except GoError (List InstanceStatusEntry)

/-- The running state of one job: the trace so far, and how many commands the
target and how many `DescribeInstances` requests the cloud have received. -/
structure JobState where
  trace : List Event := []
  targetCalls : Nat := 0
  describeCalls : Nat := 0
deriving DecidableEq, Repr

/-- Append steps to the trace. -/
def JobState.emit (st : JobState) (es : List Event) : JobState :=
  { st with trace := st.trace ++ es }

/-- Record one `RunCommand` on the target. -/
def JobState.ran (st : JobState) (cmd : String) : JobState :=
  { st with trace := st.trace ++ [.RunCommand cmd], targetCalls := st.targetCalls + 1 }

/-- Record one `DescribeInstances` request. -/
def JobState.described (st : JobState) (id : String) : JobState :=
  { st with trace := st.trace ++ [.DescribeInstances id], describeCalls := st.describeCalls + 1 }

/-- `unicode.IsSpace`, the white space `strings.TrimSpace` removes. -/
def isSpace (c : Char) : Bool :=
  let n := c.toNat
  n == 9 || n == 10 || n == 11 || n == 12 || n == 13 || n == 32 || n == 0x85 || n == 0xA0
    || n == 0x1680 || (0x2000 ≤ n && n ≤ 0x200A) || n == 0x2028 || n == 0x2029
    || n == 0x202F || n == 0x205F || n == 0x3000

/-- `strings.TrimSpace`: drop leading and trailing white space. -/
def TrimSpace (s : String) : String :=
  ⟨((s.data.dropWhile isSpace).reverse.dropWhile isSpace).reverse⟩

/-- The loop of `launchInstance`, `n` iterations left, `i` done; `err` is
the error of the last call. A successful reply is logged with
`*resp.Instances[0].InstanceId`, which panics on an empty reply. -/
def launchInstanceLoop (ec2 : Ec2Api) (instanceType : String) :
    Nat → Nat → Option GoError → JobState → Res (List Instance) × JobState
  | 0, _, err, st =>
    match err with
    | some e => (.err (Errorf "failed to launch instance" e), st)
    | none => (.err (ErrorNew "failed to launch instance: %!w(<nil>)"), st)
  | n + 1, i, _, st =>
    let st1 := st.emit [.RunInstances instanceType]
    match ec2.RunInstances i with
    | .ok [] => (.panic, st1)
    | .ok (inst :: rest) =>
      (.ok (inst :: rest),
       st1.emit [.slog .Debug "launched instance" [("instanceID", inst.InstanceId)]])
    | .error e =>
      launchInstanceLoop ec2 instanceType n (i + 1) (some e)
        (st1.emit [.slog .Debug "waiting to launch instance" [("error", e.Error)], .Sleep 60])

/-- `launchInstance`: at most 5 `RunInstances` calls. -/
def launchInstance (ec2 : Ec2Api) (instanceType : String) (st : JobState) :
    Res (List Instance) × JobState :=
  launchInstanceLoop ec2 instanceType 5 0 none st

/-- The log line of a waiting loop: with the error when there is one. -/
def logWaiting {α : Type} (what : String) : Except GoError α → Event
  | .error e => .slog .Debug what [("error", e.Error)]
  | .ok _ => .slog .Debug what []

/-- The polling loop of the deferred function of `runBenchmark`, `n`
iterations left. A poll ends the wait when its reply comes without error, has
a reservation, and the first instance of the first reservation is in state
`terminated`; reading `Instances[0]` of a reservation that lists no instance
panics. Returns whether it panicked. -/
def waitTerminatedLoop (ec2 : Ec2Api) (instanceID : String) : Nat → JobState → Bool × JobState
  | 0, st => (false, st)
  | n + 1, st =>
    let resp := ec2.DescribeInstances st.describeCalls
    let st1 := st.described instanceID
    let st2 := st1.emit [logWaiting "waiting for instance to finish terminating" resp, .Sleep 60]
    match resp with
    | .error _ => waitTerminatedLoop ec2 instanceID n st2
    | .ok [] => waitTerminatedLoop ec2 instanceID n st2
    | .ok (r :: _) =>
      match r.Instances with
      | [] => (true, st1)
      | inst :: _ =>
        if inst.State = "terminated" then (false, st1)
        else waitTerminatedLoop ec2 instanceID n st2

/-- The deferred function of `runBenchmark`: one `TerminateInstances`, whose
error is only logged, then at most 5 polls. -/
def terminateInstance (ec2 : Ec2Api) (instanceID : String) (st : JobState) : Bool × JobState :=
  let st1 := st.emit [.TerminateInstances instanceID]
  let st2 :=
    match ec2.TerminateInstances with
    | some err =>
      st1.emit [.slog .Error "failed to destroy instance"
                  [("instanceID", instanceID), ("error", err.Error)]]
    | none => st1
  waitTerminatedLoop ec2 instanceID 5 st2

/-- The test that ends the health wait: a status entry whose instance status
and system status are both `ok`. -/
def statusOk : List InstanceStatusEntry → Bool
  | [] => false
  | s :: _ => s.InstanceStatus == "ok" && s.SystemStatus == "ok"

/-- The health-wait loop of `runBenchmark`, `n` iterations left, `i` done.
Returns the value of `err` when the loop ends: nil after a `break`, else
the error of the last poll, which is nil when that poll answered without
error. -/
def waitInitializedLoop (ec2 : Ec2Api) (instanceID : String) :
    Nat → Nat → Option GoError → JobState → Option GoError × JobState
  | 0, _, err, st => (err, st)
  | n + 1, i, _, st =>
    let resp := ec2.DescribeInstanceStatus i
    let st1 := st.emit [.DescribeInstanceStatus instanceID]
    match resp with
    | .ok statuses =>
      if statusOk statuses then (none, st1)
      else
        waitInitializedLoop ec2 instanceID n (i + 1) none
          (st1.emit [logWaiting "waiting for instance to finish initializing" resp, .Sleep 60])
    | .error e =>
      waitInitializedLoop ec2 instanceID n (i + 1) (some e)
        (st1.emit [logWaiting "waiting for instance to finish initializing" resp, .Sleep 60])

/-- The loop of `getInstanceIP`, `n` iterations left. An error ends it at
once; `Reservations[0].Instances[0]` panics on an empty reply. -/
def getInstanceIPLoop (ec2 : Ec2Api) (instanceID : String) : Nat → JobState → Res String × JobState
  | 0, st => (.err (ErrorNew ("failed to get instance " ++ instanceID ++ " IP")), st)
  | n + 1, st =>
    let st1 := st.described instanceID
    match ec2.DescribeInstances st.describeCalls with
    | .error e => (.err e, st1)
    | .ok [] => (.panic, st1)
    | .ok (r :: _) =>
      match r.Instances with
      | [] => (.panic, st1)
      | inst :: _ =>
        match inst.PublicIpAddress with
        | some ip => (.ok ip, st1)
        | none => getInstanceIPLoop ec2 instanceID n (st1.emit [.Sleep 3])

/-- `getInstanceIP`: at most 10 polls. -/
def getInstanceIP (ec2 : Ec2Api) (instanceID : String) (st : JobState) : Res String × JobState :=
  getInstanceIPLoop ec2 instanceID 10 st

/-- The loop of `waitForTargetReachable`, `n` iterations left. The branch
taken when `err != nil || TrimSpace(buf) != "ubuntu"` logs `err.Error()`
before it sleeps: with a nil `err` that call is a nil dereference. -/
def waitForTargetReachableLoop (target : Target) : Nat → JobState → Res Unit × JobState
  | 0, st => (.err (ErrorNew "timed out waiting for target to be reachable"), st)
  | n + 1, st =>
    let reply := target.RunCommand st.targetCalls "whoami"
    let st1 := st.ran "whoami"
    if reply.2.isSome || TrimSpace reply.1 != "ubuntu" then
      match reply.2 with
      | none => (.panic, st1)
      | some err =>
        waitForTargetReachableLoop target n
          (st1.emit [.slog .Debug "target reachability check failed" [("error", err.Error)],
                     .Sleep 10])
    else (.ok (), st1)

/-- `waitForTargetReachable`: at most `6*5` attempts. -/
def waitForTargetReachable (target : Target) (st : JobState) : Res Unit × JobState :=
  waitForTargetReachableLoop target (6 * 5) st

/-- The three commands of `configureForRootLogin`. -/
def sshdConfigCmd : String :=
  "sudo sed -i 's/#PermitRootLogin prohibit-password/PermitRootLogin yes/g' /etc/ssh/sshd_config"

/-- Second command of `configureForRootLogin`. -/
def authorizedKeysCmd : String :=
  "sudo sed -i -e 's/.*exit 142\" \\(.*$\\)/\\1/' /root/.ssh/authorized_keys"

/-- Third command of `configureForRootLogin`. -/
def restartSshCmd : String := "sudo systemctl restart ssh"

/-- `configureForRootLogin`: three commands, stopping at the first that fails. -/
def configureForRootLogin (target : Target) (st : JobState) : Option GoError × JobState :=
  let st1 := st.ran sshdConfigCmd
  match (target.RunCommand st.targetCalls sshdConfigCmd).2 with
  | some err => (some (Errorf "failed to change sshd_config" err), st1)
  | none =>
    let st2 := st1.ran authorizedKeysCmd
    match (target.RunCommand st1.targetCalls authorizedKeysCmd).2 with
    | some err => (some (Errorf "failed to change authorized_keys" err), st2)
    | none =>
      let st3 := st2.ran restartSshCmd
      match (target.RunCommand st2.targetCalls restartSshCmd).2 with
      | some err => (some (Errorf "failed to restart ssh" err), st3)
      | none => (none, st3)

/-! ## One job: the benchmark runner (`benchmark/benchmark_runner.go`) -/

/-- What identifies a registered `benchmark.Benchmark`: its name and the input
it echoes into the report. -/
structure Benchmark where
  GetName : String
  GetInput : List (String × String) := []
deriving DecidableEq, Repr

/-- A `benchmark.BenchmarkOutput`. -/
structure BenchmarkOutput where
  TotalTimeSec : Rat
  Metadata : List Metadata := []
deriving DecidableEq, Repr

/-- The behaviour of a benchmark plugin within one job: the outcome of its
`SetUp`, its command, and its parser, which may panic. -/
structure BenchmarkApi where
  SetUp : Option GoError
  GetCommand : Except GoError String
  ParseCommandOutput : String → Res BenchmarkOutput

/-- The profiler registry and the behaviour of the profiler within one job. -/
structure ProfilerApi where
  registered : List String
  SetUp : Option GoError
  ProfileCommand : String → Except GoError String

/-- Local file system and path functions used by `Run` when profiling. -/
structure OsApi where
  pathJoin : String → String → String
  pathBase : String → String
  OpenFile : String → Option GoError

/-- The fields of `benchmarkRunner` that `Run` reads; `hasProf` is
`br.prof != nil`. -/
structure benchmarkRunner where
  b : Benchmark
  profilerKind : String
  profileSaveDir : String
  runs : Nat
  hasProf : Bool := false
deriving DecidableEq, Repr

/-- `NewBenchmarkRunner`: the run count is `max(runs, 1)`. -/
def NewBenchmarkRunner (b : Benchmark) (profilerKind profileSaveDir : String) (runs : Int) :
    benchmarkRunner :=
  { b := b, profilerKind := profilerKind, profileSaveDir := profileSaveDir,
    runs := (max runs 1).toNat }

/-- `profile.NewProfiler`: kind `none` is reserved, an unregistered kind is
unknown. -/
def NewProfiler (registered : List String) (kind : String) : Option GoError :=
  if kind == "none" then some (ErrorNew "Profiler kind none is reserved and can't be created")
  else if registered.contains kind then none
  else some (ErrorNew ("unknown profiler kind: " ++ kind))

/-- The command with which the system monitor installs its dependencies. -/
def installCmd : String := "apt update -y && apt install -y net-tools"

/-- The loop of `systemMonitor.SetUp`, `n` iterations left; `err` is the
error of the last attempt. -/
def systemMonitorSetUpLoop (target : Target) : Nat → Option GoError → String → JobState →
    Option GoError × String × JobState
  | 0, err, out, st => (err, out, st)
  | n + 1, _, _, st =>
    let reply := target.RunCommand st.targetCalls installCmd
    let st1 := st.ran installCmd
    match reply.2 with
    | some err =>
      systemMonitorSetUpLoop target n (some err) reply.1
        (st1.emit [.slog .Debug "failed to install dependencies, will try again"
                     [("command output", reply.1), ("error", err.Error)], .Sleep 30])
    | none => (none, reply.1, st1)

/-- `systemMonitor.SetUp`: at most 3 attempts to install the dependencies. -/
def systemMonitorSetUp (target : Target) (st : JobState) : Option GoError × JobState :=
  match systemMonitorSetUpLoop target 3 none "" st with
  | (some err, out, st1) =>
    (some err, st1.emit [.slog .Error "failed to install dependencies"
                           [("command output", out), ("error", err.Error)]])
  | (none, _, st1) => (none, st1)

/-- `benchmarkRunner.SetUp`: the benchmark, the system monitor, then the
profiler when one is configured. Returns the runner with `prof` set. -/
def benchmarkRunner.SetUp (br : benchmarkRunner) (bench : BenchmarkApi) (prof : ProfilerApi)
    (target : Target) (st : JobState) : Option GoError × benchmarkRunner × JobState :=
  let st0 := st.emit [.slog .Info "starting benchmark setup" [("name", br.b.GetName)],
                      .BenchmarkSetUp]
  match bench.SetUp with
  | some err => (some (Errorf "setting up benchmark failed" err), br, st0)
  | none =>
    match systemMonitorSetUp target st0 with
    | (some err, st1) => (some (Errorf "setting up SystemMonitor failed" err), br, st1)
    | (none, st1) =>
      let done := [Event.slog .Info "finished benchmark setup" [("name", br.b.GetName)]]
      if br.profilerKind != "none" then
        match NewProfiler prof.registered br.profilerKind with
        | some err => (some (Errorf "creating profiler failed" err), br, st1)
        | none =>
          let br1 := { br with hasProf := true }
          match prof.SetUp with
          | some err =>
            (some (Errorf "setting up Profiler failed" err), br1, st1.emit [.ProfilerSetUp])
          | none => (none, br1, st1.emit ([.ProfilerSetUp] ++ done))
      else (none, br, st1.emit done)

/-- How the repetition loop of `Run` ends: all repetitions done, `Run`
returns from inside the loop, or the parser panics. -/
inductive LoopEnd
  | completed
  | returned
  | panicked
deriving DecidableEq, Repr

/-- The loop `for range br.runs` of `Run`, `n` repetitions left: run the
command, parse its output, append the timing sample and the metadata. An
error in either step is written to `rep.Error` and ends `Run`, the samples
appended so far staying in the report. -/
def runLoop (target : Target) (bench : BenchmarkApi) (name cmd : String) :
    Nat → BenchmarkReport → JobState → LoopEnd × BenchmarkReport × JobState
  | 0, rep, st => (.completed, rep, st)
  | n + 1, rep, st =>
    let reply := target.RunCommand st.targetCalls cmd
    let st1 := st.ran cmd
    match reply.2 with
    | some err =>
      (.returned,
       { rep with Error := (Errorf "running benchmark failed" err).Error },
       st1.emit [.slog .Error "running benchmark command failed"
                   [("name", name), ("error", err.Error), ("output", reply.1)]])
    | none =>
      let st2 := st1.emit [.slog .Debug "running benchmark command finished"
                             [("name", name), ("output", reply.1)]]
      match bench.ParseCommandOutput reply.1 with
      | .panic => (.panicked, rep, st2)
      | .err err =>
        (.returned, { rep with Error := (Errorf "parsing benchmark output failed" err).Error }, st2)
      | .ok benchOut =>
        runLoop target bench name cmd n
          { rep with TotalTimeSec := rep.TotalTimeSec ++ [benchOut.TotalTimeSec],
                     Metadata := rep.Metadata ++ benchOut.Metadata } st2

/-- The profiling branch of `Run`: profile the command, then copy the remote
result file to the local save directory. The report's first metadata entry is
the map to which the local path is added. Returns whether `Run` goes on. -/
def runProfiled (br : benchmarkRunner) (target : Target) (prof : ProfilerApi) (os : OsApi)
    (cmd : String) (rep : BenchmarkReport) (st : JobState) : Bool × BenchmarkReport × JobState :=
  let st1 := st.emit [.ProfileCommand cmd]
  match prof.ProfileCommand cmd with
  | .error err => (false, { rep with Error := (Errorf "profiling benchmark failed" err).Error }, st1)
  | .ok remoteResultPath =>
    let localResultPath :=
      os.pathJoin br.profileSaveDir (br.b.GetName ++ "-" ++ os.pathBase remoteResultPath)
    let rep1 :=
      { rep with Metadata := [.runInfo [("command", cmd), ("profiler", br.profilerKind),
                                        ("profilingResultPath", localResultPath)]] }
    let st2 := st1.emit [.OpenFile localResultPath]
    match os.OpenFile localResultPath with
    | some err =>
      (false,
       { rep1 with Error := (Errorf "failed to open local result path for writing" err).Error },
       st2)
    | none =>
      let st3 := st2.emit [.CopyFileFrom remoteResultPath localResultPath]
      match target.CopyFileFrom remoteResultPath with
      | some err =>
        (false, { rep1 with Error := (Errorf "failed to copy profiling result" err).Error }, st3)
      | none => (true, rep1, st3)

/-- `benchmarkRunner.Run`. It always hands back a report, unless it panics
(`none`): a failure is written to the report's `Error` field. `measurements`
is the bundle the system monitor has accumulated when it is read. -/
def benchmarkRunner.Run (br : benchmarkRunner) (bench : BenchmarkApi) (prof : ProfilerApi)
    (os : OsApi) (target : Target) (measurements : SystemMeasurements) (st : JobState) :
    Option BenchmarkReport × JobState :=
  let st0 := st.emit [.slog .Info "starting benchmark" [("name", br.b.GetName)]]
  let rep : BenchmarkReport := { Name := br.b.GetName, Input := br.b.GetInput }
  match bench.GetCommand with
  | .error err =>
    (some { rep with Error := (Errorf "getting benchmark command failed" err).Error }, st0)
  | .ok cmd =>
    let st1 := st0.emit [.slog .Debug "benchmark command" [("name", br.b.GetName), ("command", cmd)],
                         .TargetClient]
    let rep1 := { rep with Metadata := [.runInfo [("command", cmd), ("profiler", br.profilerKind)]] }
    match target.Client with
    | some err =>
      (some { rep1 with Error := (Errorf "starting SystemMonitor failed" err).Error }, st1)
    | none =>
      let finish (rep2 : BenchmarkReport) (st2 : JobState) : Option BenchmarkReport × JobState :=
        (some { rep2 with SystemMeasurements := some measurements },
         st2.emit [.slog .Info "finished benchmark" [("name", br.b.GetName)]])
      if br.hasProf then
        match runProfiled br target prof os cmd rep1 st1 with
        | (false, rep2, st2) => (some rep2, st2)
        | (true, rep2, st2) => finish rep2 st2
      else
        match runLoop target bench br.b.GetName cmd br.runs rep1 st1 with
        | (.panicked, _, st2) => (none, st2)
        | (.returned, rep2, st2) => (some rep2, st2)
        | (.completed, rep2, st2) => finish rep2 st2

/-! ## One job: `runBenchmark` -/

/-- The `EC2BenchmarkOrchestratorInput`, without the cloud credentials. -/
structure EC2BenchmarkOrchestratorInput where
  InstanceTypes : List String
  WaitToInitialize : Bool := false
  Bucket : String := ""
  ProfilerKind : String := "none"
  ProfileSaveDir : String := "."
  BenchmarkConcurrency : Int := 0
  BenchmarkRuns : Int := 0
deriving DecidableEq, Repr

/-- A `benchmarkResult`, the value a job sends to the results channel. -/
structure benchmarkResult where
  benchmark : Benchmark
  instanceType : String
  report : Option BenchmarkReport := none
  err : Option GoError := none
deriving DecidableEq, Repr

/-- The outside world as one job meets it: the random source of the jitter,
the cloud client, the machine behind the job's instance, the benchmark
plugin, the profiler, the local file system, and the measurements the system
monitor has gathered when `Run` reads them. -/
structure JobEnv where
  randInt : Except GoError Nat
  ec2 : Ec2Api
  target : Target
  bench : BenchmarkApi
  prof : ProfilerApi
  os : OsApi
  measurements : SystemMeasurements

/-- What one invocation of `runBenchmark` did: the results it sent to the
channel, whether it panicked, and its trace. -/
structure JobRun where
  sent : List benchmarkResult
  panicked : Bool
  st : JobState
deriving DecidableEq, Repr

/-- The part of `runBenchmark` that follows the `defer`: health wait when
enabled, address wait, reachability wait, root login, benchmark setup, run.
Each failing stage stores its error in the result, sends it and returns. -/
def runBenchmarkAfterLaunch (input : EC2BenchmarkOrchestratorInput) (env : JobEnv) (b : Benchmark)
    (instanceType : String) (types : List InstanceTypeInfo) (instanceID : String)
    (st : JobState) : JobRun :=
  let result : benchmarkResult := { benchmark := b, instanceType := instanceType }
  let health : Option GoError × JobState :=
    if input.WaitToInitialize then waitInitializedLoop env.ec2 instanceID 5 0 none st
    else (none, st)
  match health with
  | (some err, st1) => { sent := [{ result with err := some err }], panicked := false, st := st1 }
  | (none, st1) =>
    match getInstanceIP env.ec2 instanceID st1 with
    | (.panic, st2) => { sent := [], panicked := true, st := st2 }
    | (.err err, st2) => { sent := [{ result with err := some err }], panicked := false, st := st2 }
    | (.ok instanceIP, st2) =>
      let st3 := st2.emit [.slog .Debug "instance got IP"
                             [("instanceID", instanceID), ("ip", instanceIP)]]
      match waitForTargetReachable env.target st3 with
      | (.panic, st4) => { sent := [], panicked := true, st := st4 }
      | (.err err, st4) =>
        { sent := [{ result with err := some err }], panicked := false,
          st := st4.emit [.slog .Error "instance is not reachable"
                            [("instanceID", instanceID), ("error", err.Error)]] }
      | (.ok _, st4) =>
        match configureForRootLogin env.target st4 with
        | (some err, st5) =>
          { sent := [{ result with err := some err }], panicked := false,
            st := st5.emit [.slog .Error "failed to configure target for root login"
                              [("instanceID", instanceID), ("error", err.Error)]] }
        | (none, st5) =>
          match types with
          | [] => { sent := [], panicked := true, st := st5 }
          | info :: _ =>
            match info.NetworkCards with
            | [] => { sent := [], panicked := true, st := st5 }
            | _ :: _ =>
              let br := NewBenchmarkRunner b input.ProfilerKind input.ProfileSaveDir
                          input.BenchmarkRuns
              match br.SetUp env.bench env.prof env.target st5 with
              | (some err, _, st6) =>
                { sent := [{ result with err := some err }], panicked := false,
                  st := st6.emit [.slog .Error "benchmark setup failed"
                                    [("benchmarkName", b.GetName), ("error", err.Error)]] }
              | (none, br1, st6) =>
                match br1.Run env.bench env.prof env.os env.target env.measurements st6 with
                | (none, st7) => { sent := [], panicked := true, st := st7 }
                | (some rep, st7) =>
                  { sent := [{ result with report := some rep }], panicked := false, st := st7 }

/-- `runBenchmark`: jitter, instance-type lookup, launch; once an instance
is launched its termination is deferred, so it runs when the rest of the
function returns or panics. A failing random source is an explicit `panic`. -/
def runBenchmark (input : EC2BenchmarkOrchestratorInput) (env : JobEnv) (b : Benchmark)
    (instanceType : String) : JobRun :=
  let result : benchmarkResult := { benchmark := b, instanceType := instanceType }
  match env.randInt with
  | .error _ => { sent := [], panicked := true, st := {} }
  | .ok n =>
    let st0 := ({} : JobState).emit [.Sleep n, .DescribeInstanceTypes instanceType]
    match env.ec2.DescribeInstanceTypes with
    | .error err => { sent := [{ result with err := some err }], panicked := false, st := st0 }
    | .ok types =>
      match launchInstance env.ec2 instanceType st0 with
      | (.panic, st1) => { sent := [], panicked := true, st := st1 }
      | (.err err, st1) =>
        { sent := [{ result with err := some err }], panicked := false, st := st1 }
      | (.ok [], st1) => { sent := [], panicked := true, st := st1 }
      | (.ok (inst :: _), st1) =>
        let body := runBenchmarkAfterLaunch input env b instanceType types inst.InstanceId st1
        let term := terminateInstance env.ec2 inst.InstanceId body.st
        { sent := body.sent, panicked := body.panicked || term.1, st := term.2 }

/-! ## The scheduler: `RunBenchmarks` -/

/-- The inner loop of `RunBenchmarks`: one job per instance type for
benchmark number `i`; `j` counts the instance types already taken. -/
def jobsOfBenchmark (input : EC2BenchmarkOrchestratorInput) (env : Nat → Nat → JobEnv)
    (b : Benchmark) (i : Nat) : List String → Nat → List JobRun
  | [], _ => []
  | instanceType :: rest, j =>
    runBenchmark input (env i j) b instanceType :: jobsOfBenchmark input env b i rest (j + 1)

/-- The outer loop of `RunBenchmarks`: the jobs of every benchmark, `i`
counting the benchmarks already taken. Closures capture the loop variables of
their own iteration. -/
def allJobs (input : EC2BenchmarkOrchestratorInput) (env : Nat → Nat → JobEnv) :
    List Benchmark → Nat → List JobRun
  | [], _ => []
  | b :: rest, i =>
    jobsOfBenchmark input env b i input.InstanceTypes 0 ++ allJobs input env rest (i + 1)

/-- The order in which concurrent senders reach the channel: at each step
the schedule picks which of the values still to come arrives next. -/
def arrival {α : Type} : List Nat → List α → List α
  | _, [] => []
  | [], x :: xs => x :: xs
  | k :: ks, x :: xs =>
    match (x :: xs)[k % (xs.length + 1)]? with
    | some y => y :: arrival ks ((x :: xs).eraseIdx (k % (xs.length + 1)))
    | none => x :: xs

/-- The report entry the final loop of `RunBenchmarks` builds from one result;
`none` when a result without error has no report (nil dereference). -/
def reportEntry (result : benchmarkResult) : Option BenchmarkReport :=
  let meta := Metadata.benchmarkMetadata result.instanceType
  match result.err with
  | none =>
    match result.report with
    | none => none
    | some rep => some { rep with Metadata := rep.Metadata ++ [meta] }
  | some err =>
    some { Name := result.benchmark.GetName, Metadata := [meta], Error := err.Error }

/-- The final loop of `RunBenchmarks` over the closed channel. -/
def assemble : List benchmarkResult → Option (List BenchmarkReport)
  | [] => some []
  | result :: rest =>
    match reportEntry result, assemble rest with
    | some entry, some entries => some (entry :: entries)
    | _, _ => none

/-- What a call of `RunBenchmarks` did: `ret` is the pair it returns, `none`
when the call does not return because of a panic; `jobs` are the invocations
of `runBenchmark` in the order of the loops. -/
structure BenchmarksRun where
  ret : Option (Report × Option GoError)
  jobs : List JobRun

/-- `RunBenchmarks`. With concurrency 0 every job is a goroutine, and a
panicking goroutine ends the process; otherwise the jobs are submitted to a
worker pool, and `poolRecovers` says whether the pool library recovers the
panic of a task. `env i j` is the world of the job of benchmark `i` on
instance type `j`, `schedule` the order in which results reach the channel.
Reading `o.cfg` before `SetUp` has set it is a nil dereference. -/
def RunBenchmarks (o : ec2BenchmarkOrchestrator) (input : EC2BenchmarkOrchestratorInput)
    (benchmarks : List Benchmark) (env : Nat → Nat → JobEnv) (schedule : List Nat)
    (poolRecovers : Bool) : BenchmarksRun :=
  match o.cfg with
  | none => { ret := none, jobs := [] }
  | some cfg =>
    let jobs := allJobs input env benchmarks 0
    let crashed :=
      if input.BenchmarkConcurrency == 0 then jobs.any (·.panicked)
      else jobs.any (·.panicked) && !poolRecovers
    if crashed then { ret := none, jobs := jobs }
    else
      let resultCh := arrival schedule (jobs.flatMap (·.sent))
      match assemble resultCh with
      | none => { ret := none, jobs := jobs }
      | some reports => { ret := some ({ Config := some cfg, Reports := reports }, none), jobs := jobs }

/-- The identifier fields in creation order, as "is recorded" flags. -/
def idFlags (o : ec2BenchmarkOrchestrator) : List Bool :=
  [o.vpcID.isSome, o.subnetID.isSome, o.igwID.isSome, o.s3EndpointID.isSome, o.sgID.isSome,
   o.roleName.isSome, o.insProfName.isSome, o.keyID.isSome]

/-- A run of `SetUp` (or of a tail of it) is at stage `k` when exactly the
first `k` resources of the creation order were created and recorded. -/
def AtStage (k : Nat) (o : ec2BenchmarkOrchestrator) (tr : List Event) : Prop :=
  tr.filterMap Event.created = setUpOrder.take k ∧
    idFlags o = List.replicate k true ++ List.replicate (8 - k) false

/-- Some stage is reached at the end of a run. -/
def Staged (r : OrchRun) : Prop := ∃ k, k ≤ 8 ∧ AtStage k r.o r.trace

/-- A configuration that names a directory for the results. -/
def configResults : BenchmarkConfig := { ResultDir := "results" }

/-- A world in which every call of `SetUp` succeeds: the operating system
creates every directory with a name (an empty path is refused, as
`os.MkdirAll` does), and the cloud has one route table whose single route
leads to a prefix list of one entry. -/
def cloudOk : SetUpApi where
  MkdirAll := fun dir =>
    if dir = "" then some (ErrorNew "mkdir : no such file or directory") else none
  CreateVpc := .ok "vpc-1"
  ModifyVpcAttribute := fun _ => none
  CreateSubnet := .ok "subnet-1"
  CreateInternetGateway := .ok "igw-1"
  AttachInternetGateway := none
  DescribeRouteTablesOfVpc := .ok [{ RouteTableId := "rtb-1", Routes := [] }]
  CreateRoute := none
  CreateVpcEndpoint := .ok "vpce-1"
  DescribeRouteTablesById :=
    .ok [{ RouteTableId := "rtb-1", Routes := [{ DestinationPrefixListId := some "pl-1" }] }]
  GetManagedPrefixListEntries := fun _ => .ok ["52.216.0.0/15"]
  ParsePrefix := fun _ => .ok { addr := [52, 216, 0, 0], bits := 15 }
  CreateSecurityGroup := .ok "sg-1"
  AuthorizeSecurityGroupIngress := none
  CreateRole := .ok ("arn:role", "benchmark-role")
  PutRolePolicy := none
  CreateInstanceProfile := .ok ("arn:profile", "benchmark-profile")
  AddRoleToInstanceProfile := none
  CreateKeyPair := .ok { KeyName := "benchmark-key", KeyPairId := "key-1", KeyMaterial := "pem" }
  ParsePrivateKey := fun _ => .ok "signer"

/-- The cloud of `cloudOk`, except that adding the role to the instance
profile is refused. -/
def cloudAddRoleFails : SetUpApi :=
  { cloudOk with AddRoleToInstanceProfile := some (ErrorNew "LimitExceeded") }

/-- A target that refuses the first `k` commands and then answers `ubuntu`. -/
def targetReachableAfter (k : Nat) : Target where
  RunCommand := fun n _ =>
    if n < k then ("", some (ErrorNew "dial tcp: connection refused")) else ("ubuntu", none)
  CopyFileFrom := fun _ => none
  Client := none

/-- A target that answers every command without error, `whoami` with `out`. -/
def targetAnswering (out : String) : Target where
  RunCommand := fun _ _ => (out, none)
  CopyFileFrom := fun _ => none
  Client := none

/-- Whether a step is a `TerminateInstances` request. -/
def Event.isTerminate : Event → Bool
  | .TerminateInstances _ => true
  | _ => false

/-- Whether a step is a `DescribeInstances` request. -/
def Event.isDescribe : Event → Bool
  | .DescribeInstances _ => true
  | _ => false

/-- The state `st1` continues `st`: its trace extends the trace of `st` by
steps none of which is a termination request, and its count of
`DescribeInstances` requests grew by the number of such requests among them. -/
def Advances (st st1 : JobState) : Prop :=
  ∃ es, st1.trace = st.trace ++ es ∧ es.all (fun e => !e.isTerminate) = true ∧
    st1.describeCalls = st.describeCalls + es.countP Event.isDescribe

/-- A cloud in which a job runs smoothly: the instance has its public address
at the first poll and is reported terminated at every later one. -/
def ec2Ok : Ec2Api where
  DescribeInstanceTypes := .ok [{ NetworkCards := [25] }]
  RunInstances := fun _ => .ok [{ InstanceId := "i-1" }]
  TerminateInstances := none
  DescribeInstances := fun n =>
    .ok [{ Instances := [{ InstanceId := "i-1", PublicIpAddress := some "203.0.113.7",
                           State := if n = 0 then "running" else "terminated" }] }]
  DescribeInstanceStatus := fun _ => .ok [{ InstanceStatus := "ok", SystemStatus := "ok" }]

/-- A benchmark plugin whose every method succeeds. -/
def benchOk : BenchmarkApi where
  SetUp := none
  GetCommand := .ok "run-benchmark"
  ParseCommandOutput := fun _ => .ok { TotalTimeSec := 42 }

/-- A profiler registry with one kind, whose profiler succeeds. -/
def profOk : ProfilerApi where
  registered := ["vtune"]
  SetUp := none
  ProfileCommand := fun _ => .ok "/tmp/result.tar"

/-- A local file system in which every file can be opened. -/
def osOk : OsApi where
  pathJoin := fun dir file => dir ++ "/" ++ file
  pathBase := fun path => path
  OpenFile := fun _ => none

/-- The world of a job in which nothing fails. -/
def jobOk : JobEnv where
  randInt := .ok 3
  ec2 := ec2Ok
  target := targetAnswering "ubuntu"
  bench := benchOk
  prof := profOk
  os := osOk
  measurements := {}

/-- The world of `jobOk`, except that the random source of the jitter fails. -/
def jobRandFails : JobEnv := { jobOk with randInt := .error (ErrorNew "no entropy") }

/-- A target that answers `ubuntu` to every command but fails the one it
receives after `n` earlier ones. -/
def targetFailingAt (n : Nat) : Target where
  RunCommand := fun i _ => if i = n then ("", some (ErrorNew "exit status 1")) else ("ubuntu", none)
  CopyFileFrom := fun _ => none
  Client := none

/-- The world of `jobOk`, except that the target fails the command it
receives after `n` earlier ones. A job sends one `whoami`, three commands for
the root login and one to install the monitor's dependencies before the
benchmark command: the first repetition is command 5, the second command 6. -/
def jobCommandFails (n : Nat) : JobEnv := { jobOk with target := targetFailingAt n }

/-- An orchestrator on which `SetUp` has succeeded in the cloud `cloudOk`,
with the configuration `configResults`. -/
def orchestratorReady : ec2BenchmarkOrchestrator :=
  (SetUp cloudOk NewEC2BenchmarkOrchestrator configResults).o

/-- An input with two instance types. -/
def inputTwoTypes : EC2BenchmarkOrchestratorInput :=
  { InstanceTypes := ["m6i.8xlarge", "c6in.32xlarge"] }

/-- Two registered benchmarks. -/
def twoBenchmarks : List Benchmark := [{ GetName := "aws-cli" }, { GetName := "go-sdk" }]

/-- The cloud of `ec2Ok`, except that every launch request is refused. -/
def ec2LaunchFails : Ec2Api :=
  { ec2Ok with RunInstances := fun _ => Except.error (ErrorNew "InsufficientInstanceCapacity") }

/-- The world of `jobOk` in the cloud that refuses every launch. -/
def jobLaunchFails : JobEnv := { jobOk with ec2 := ec2LaunchFails }

/-- The worlds of a 2 x 2 matrix: the first benchmark runs on the first type,
meets a refused launch on the second; the second benchmark fails its root
login on the first type and its benchmark command on the second. -/
def jobsMixed (i j : Nat) : JobEnv :=
  if i = 0 then (if j = 0 then jobOk else jobLaunchFails)
  else (if j = 0 then jobCommandFails 2 else jobCommandFails 5)

/-- An input with one instance type and two repetitions of each benchmark. -/
def inputTwoRuns : EC2BenchmarkOrchestratorInput :=
  { InstanceTypes := ["m6i.8xlarge"], BenchmarkRuns := 2 }

/-- An input with one instance type and a worker pool of two. -/
def inputPool : EC2BenchmarkOrchestratorInput :=
  { InstanceTypes := ["m6i.8xlarge"], BenchmarkConcurrency := 2 }

/-- An input with one instance type, every other setting at its default. -/
def inputOneType : EC2BenchmarkOrchestratorInput := { InstanceTypes := ["m6i.8xlarge"] }

/-- The errors that reach a job's result unwrapped come from three cloud
calls (instance-type lookup, instance status, instance description); this
says that each of them renders a non-empty text. -/
def Ec2Api.errorsHaveText (ec2 : Ec2Api) : Prop :=
  (∀ e, ec2.DescribeInstanceTypes = .error e → e.Error ≠ "") ∧
    (∀ i e, ec2.DescribeInstanceStatus i = .error e → e.Error ≠ "") ∧
    (∀ i e, ec2.DescribeInstances i = .error e → e.Error ≠ "")

/-- What holds of a result `r` that the job of benchmark `b` on instance type
`t` sends: it names its own job, and it carries either an error and no report
(a failure before the benchmark was run) or no error and the report of `Run`,
which has the benchmark's name and, when `Run` recorded a failure, fewer
timing samples than the `max(runs, 1)` repetitions asked for. -/
def SentBy (input : EC2BenchmarkOrchestratorInput) (env : JobEnv) (b : Benchmark) (t : String)
    (r : benchmarkResult) : Prop :=
  r.benchmark = b ∧ r.instanceType = t ∧
    ((∃ e, r.err = some e ∧ r.report = none ∧ (env.ec2.errorsHaveText → e.Error ≠ "")) ∨
     (r.err = none ∧ ∃ rep, r.report = some rep ∧ rep.Name = b.GetName ∧
        (rep.Error ≠ "" → rep.TotalTimeSec.length < (max input.BenchmarkRuns 1).toNat)))

/-- What holds of every invocation of `runBenchmark`: it sends at most one
result, exactly one unless it panicked, and what it sends is as `SentBy` says. -/
def JobGood (input : EC2BenchmarkOrchestratorInput) (env : JobEnv) (b : Benchmark) (t : String)
    (job : JobRun) : Prop :=
  (∀ r ∈ job.sent, SentBy input env b t r) ∧ job.sent.length ≤ 1 ∧
    (job.panicked = false → job.sent.length = 1)

/-- The identifier of the instance that a job launches: `none` on the paths
of `runBenchmark` that end before a launch has succeeded (failing random
source, failing instance-type lookup, launch given up or panicking). -/
def launchedInstance (env : JobEnv) (instanceType : String) : Option String :=
  match env.randInt, env.ec2.DescribeInstanceTypes with
  | .ok n, .ok _ =>
    match (launchInstance env.ec2 instanceType
            (({} : JobState).emit [.Sleep n, .DescribeInstanceTypes instanceType])).1 with
    | .ok (inst :: _) => some inst.InstanceId
    | _ => none
  | _, _ => none

/-- What one poll of the termination wait shows of the instance: the error of
the request, nothing when the reply has no reservation, a panic when the first
reservation lists no instance, and otherwise the name of the state of the
first instance of the first reservation. -/
def seenState : Except GoError (List Reservation) → Res (Option String)
  | .error e => .err e
  | .ok [] => .ok none
  | .ok (r :: _) =>
    match r.Instances with
    | [] => .panic
    | inst :: _ => .ok (some inst.State)

/-! ## The stages of a job and what it is for a job to fail at one of them -/

/-- The stages of a job, in the order in which `runBenchmark` goes through
them. -/
inductive JobStage
  | instanceTypeLookup
  | launch
  | healthWait
  | publicIPWait
  | reachability
  | rootLogin
  | benchmarkSetUp
  | run
deriving DecidableEq, Repr

/-- The state in which `runBenchmark` starts: the jitter has been slept and
the instance-type lookup requested. -/
def jobStart (n : Nat) (t : String) : JobState :=
  ({} : JobState).emit [.Sleep n, .DescribeInstanceTypes t]

/-- The job has launched the instance `id` and stands in state `st`: the
random source and the instance-type lookup have answered, the latter with
`types`, and `launchInstance` has returned the instance. -/
def Launched (env : JobEnv) (t : String) (types : List InstanceTypeInfo) (id : String)
    (st : JobState) : Prop :=
  ∃ n inst rest, env.randInt = .ok n ∧ env.ec2.DescribeInstanceTypes = .ok types ∧
    launchInstance env.ec2 t (jobStart n t) = (.ok (inst :: rest), st) ∧ id = inst.InstanceId

/-- The job is past the health wait and stands in state `st`: the wait is
disabled, or its loop has ended with a nil error. -/
def PastHealthWait (input : EC2BenchmarkOrchestratorInput) (env : JobEnv) (t : String)
    (types : List InstanceTypeInfo) (id : String) (st : JobState) : Prop :=
  ∃ st0, Launched env t types id st0 ∧
    ((input.WaitToInitialize = false ∧ st = st0) ∨
     (input.WaitToInitialize = true ∧ waitInitializedLoop env.ec2 id 5 0 none st0 = (none, st)))

/-- The job has read the public address of its instance and logged it. -/
def GotAddress (input : EC2BenchmarkOrchestratorInput) (env : JobEnv) (t : String)
    (types : List InstanceTypeInfo) (id : String) (st : JobState) : Prop :=
  ∃ st0 ip st1, PastHealthWait input env t types id st0 ∧
    getInstanceIP env.ec2 id st0 = (.ok ip, st1) ∧
    st = st1.emit [.slog .Debug "instance got IP" [("instanceID", id), ("ip", ip)]]

/-- The job has found its target reachable. -/
def Reached (input : EC2BenchmarkOrchestratorInput) (env : JobEnv) (t : String)
    (types : List InstanceTypeInfo) (id : String) (st : JobState) : Prop :=
  ∃ st0, GotAddress input env t types id st0 ∧
    waitForTargetReachable env.target st0 = (.ok (), st)

/-- The job has configured the target for root login and read the baseline
bandwidth of the first network card of the instance type. -/
def LoggedIn (input : EC2BenchmarkOrchestratorInput) (env : JobEnv) (t : String)
    (types : List InstanceTypeInfo) (id : String) (st : JobState) : Prop :=
  ∃ st0 info rest card cards, Reached input env t types id st0 ∧
    configureForRootLogin env.target st0 = (none, st) ∧
    types = info :: rest ∧ info.NetworkCards = card :: cards

/-- The job has set up its benchmark runner `br` without error. -/
def SetUpDone (input : EC2BenchmarkOrchestratorInput) (env : JobEnv) (b : Benchmark) (t : String)
    (br : benchmarkRunner) (st : JobState) : Prop :=
  ∃ types id st0, LoggedIn input env t types id st0 ∧
    (NewBenchmarkRunner b input.ProfilerKind input.ProfileSaveDir input.BenchmarkRuns).SetUp
        env.bench env.prof env.target st0 = (none, br, st)

/-- A repetition of the benchmark command fails, with the error `e` that
`Run` records, after the repetitions before it have given the outputs `outs`:
each of those commands, the target having received `first` commands before
the first of them, returned without error an output that the benchmark
parsed; the next command returns an error, or an output that the benchmark
fails to parse. -/
def RepetitionFails (runs : Nat) (env : JobEnv) (cmd : String) (first : Nat) (e : GoError)
    (outs : List BenchmarkOutput) : Prop :=
  outs.length < runs ∧
    (∀ i out, outs[i]? = some out →
      (env.target.RunCommand (first + i) cmd).2 = none ∧
        env.bench.ParseCommandOutput (env.target.RunCommand (first + i) cmd).1 = .ok out) ∧
    ((∃ e0, (env.target.RunCommand (first + outs.length) cmd).2 = some e0 ∧
        e = Errorf "running benchmark failed" e0) ∨
     ((env.target.RunCommand (first + outs.length) cmd).2 = none ∧
      ∃ e0, env.bench.ParseCommandOutput (env.target.RunCommand (first + outs.length) cmd).1
          = .err e0 ∧
        e = Errorf "parsing benchmark output failed" e0))

/-- The profiling of the command fails, with the error `e` that `Run`
records: the profiler fails, or the local result file cannot be opened, or the
copy of the remote result fails. -/
def ProfilingFails (br : benchmarkRunner) (env : JobEnv) (cmd : String) (e : GoError) : Prop :=
  (∃ e0, env.prof.ProfileCommand cmd = .error e0 ∧ e = Errorf "profiling benchmark failed" e0) ∨
  (∃ remote, env.prof.ProfileCommand cmd = .ok remote ∧
    ((∃ e0,
        env.os.OpenFile
            (env.os.pathJoin br.profileSaveDir (br.b.GetName ++ "-" ++ env.os.pathBase remote))
          = some e0 ∧
        e = Errorf "failed to open local result path for writing" e0) ∨
     (env.os.OpenFile
          (env.os.pathJoin br.profileSaveDir (br.b.GetName ++ "-" ++ env.os.pathBase remote))
        = none ∧
      ∃ e0, env.target.CopyFileFrom remote = some e0 ∧
        e = Errorf "failed to copy profiling result" e0)))

/-- The run of the benchmark fails, with the error `e` that `Run` records and
the timing samples `samples` gathered before the failure: the benchmark has no
command, the system monitor cannot be started, the profiling fails, or a
repetition of the command fails. `st` is the state in which `Run` starts. -/
def RunFails (br : benchmarkRunner) (env : JobEnv) (st : JobState) (e : GoError)
    (samples : List Rat) : Prop :=
  (∃ e0, env.bench.GetCommand = .error e0 ∧
      e = Errorf "getting benchmark command failed" e0 ∧ samples = []) ∨
  (∃ cmd, env.bench.GetCommand = .ok cmd ∧
    ((∃ e0, env.target.Client = some e0 ∧
        e = Errorf "starting SystemMonitor failed" e0 ∧ samples = []) ∨
     (env.target.Client = none ∧ br.hasProf = true ∧ ProfilingFails br env cmd e ∧
        samples = []) ∨
     (env.target.Client = none ∧ br.hasProf = false ∧
        ∃ outs, RepetitionFails br.runs env cmd st.targetCalls e outs ∧
          samples = outs.map (·.TotalTimeSec))))

/-- The job of benchmark `b` on instance type `t` fails at stage `stage` with
the error `e`, having gathered the timing samples `samples`: every earlier
stage has returned without error, and the function of the stage returns `e`.
The health wait fails when it is enabled and its loop ends with the error of
its last poll; the run fails as `RunFails` says; a failure before the run has
no samples. -/
def FailsAt (input : EC2BenchmarkOrchestratorInput) (env : JobEnv) (b : Benchmark) (t : String)
    (stage : JobStage) (e : GoError) (samples : List Rat) : Prop :=
  match stage with
  | .instanceTypeLookup =>
    samples = [] ∧ ∃ n, env.randInt = .ok n ∧ env.ec2.DescribeInstanceTypes = .error e
  | .launch =>
    samples = [] ∧ ∃ n types st, env.randInt = .ok n ∧ env.ec2.DescribeInstanceTypes = .ok types ∧
      launchInstance env.ec2 t (jobStart n t) = (.err e, st)
  | .healthWait =>
    samples = [] ∧ ∃ types id st0 st, Launched env t types id st0 ∧
      input.WaitToInitialize = true ∧ waitInitializedLoop env.ec2 id 5 0 none st0 = (some e, st)
  | .publicIPWait =>
    samples = [] ∧ ∃ types id st0 st, PastHealthWait input env t types id st0 ∧
      getInstanceIP env.ec2 id st0 = (.err e, st)
  | .reachability =>
    samples = [] ∧ ∃ types id st0 st, GotAddress input env t types id st0 ∧
      waitForTargetReachable env.target st0 = (.err e, st)
  | .rootLogin =>
    samples = [] ∧ ∃ types id st0 st, Reached input env t types id st0 ∧
      configureForRootLogin env.target st0 = (some e, st)
  | .benchmarkSetUp =>
    samples = [] ∧ ∃ types id st0 br st, LoggedIn input env t types id st0 ∧
      (NewBenchmarkRunner b input.ProfilerKind input.ProfileSaveDir input.BenchmarkRuns).SetUp
          env.bench env.prof env.target st0 = (some e, br, st)
  | .run => ∃ br st, SetUpDone input env b t br st ∧ RunFails br env st e samples

/-- The states through which the job of `aws-cli` on `m6i.8xlarge` goes in
the world `jobCommandFails 6`: after the launch. -/
def stLaunched : JobState :=
  (launchInstance (jobCommandFails 6).ec2 "m6i.8xlarge" (jobStart 3 "m6i.8xlarge")).2

/-- The state of that job after the public address was read and logged. -/
def stAddress : JobState :=
  (getInstanceIP (jobCommandFails 6).ec2 "i-1" stLaunched).2.emit
    [.slog .Debug "instance got IP" [("instanceID", "i-1"), ("ip", "203.0.113.7")]]

/-- The state of that job after the target was found reachable. -/
def stReached : JobState := (waitForTargetReachable (jobCommandFails 6).target stAddress).2

/-- The state of that job after the configuration for root login. -/
def stLoggedIn : JobState := (configureForRootLogin (jobCommandFails 6).target stReached).2

/-- The runner of that job, for the input `inputTwoRuns`, before its set-up. -/
def runnerTwoRuns : benchmarkRunner :=
  NewBenchmarkRunner { GetName := "aws-cli" } inputTwoRuns.ProfilerKind
    inputTwoRuns.ProfileSaveDir inputTwoRuns.BenchmarkRuns

/-- The state of that job after the set-up of the runner. -/
def stSetUp : JobState :=
  (runnerTwoRuns.SetUp (jobCommandFails 6).bench (jobCommandFails 6).prof
    (jobCommandFails 6).target stLoggedIn).2.2

/-- The cloud of `ec2Ok`, except that the first `k` launch requests are
refused for lack of capacity. -/
def ec2LaunchAfter (k : Nat) : Ec2Api :=
  { ec2Ok with RunInstances := fun i =>
      if i < k then Except.error (ErrorNew "InsufficientInstanceCapacity")
      else Except.ok [{ InstanceId := "i-1" }] }

/-- The cloud of `ec2Ok`, except that every status poll answers without
error that the instance is still initializing. -/
def ec2Initializing : Ec2Api :=
  { ec2Ok with DescribeInstanceStatus := fun _ =>
      Except.ok [{ InstanceStatus := "initializing", SystemStatus := "ok" }] }

/-- The world of `jobOk` in the cloud `ec2Initializing`. -/
def jobInitializing : JobEnv := { jobOk with ec2 := ec2Initializing }

/-- An input with one instance type and the health wait enabled. -/
def inputWaitToInitialize : EC2BenchmarkOrchestratorInput :=
  { InstanceTypes := ["m6i.8xlarge"], WaitToInitialize := true }

/-- The cloud of `ec2Ok`, except that the instance shows no public address
in the first `k` descriptions. -/
def ec2AddressAfter (k : Nat) : Ec2Api :=
  { ec2Ok with
    DescribeInstances := fun i =>
      Except.ok [{ Instances :=
        [{ InstanceId := "i-1",
           PublicIpAddress := if i < k then none else some "203.0.113.7" }] }] }

/-- The cloud of `ec2Ok`, except that the first description of the instance
is refused; the later ones show its public address. -/
def ec2DescribeFailsOnce : Ec2Api :=
  { ec2Ok with
    DescribeInstances := fun i =>
      if i = 0 then Except.error (ErrorNew "RequestLimitExceeded")
      else Except.ok [{ Instances :=
        [{ InstanceId := "i-1", PublicIpAddress := some "203.0.113.7" }] }] }

/-- What one poll of `getInstanceIP` reads in a reply: the error, the public
address of the first instance of the first reservation (nil when it has none
yet), or a panic when the reply lists no instance. -/
def seenAddress : Except GoError (List Reservation) → Res (Option String)
  | .error e => .err e
  | .ok [] => .panic
  | .ok (r :: _) =>
    match r.Instances with
    | [] => .panic
    | inst :: _ => .ok inst.PublicIpAddress

/-- The step is a command run on the target. -/
def Event.isRunCommand : Event → Bool
  | .RunCommand _ => true
  | _ => false

/-- A target that answers the first command it receives with `3` and every
later one with `5`, never with an error. -/
def targetTimed : Target where
  RunCommand := fun n _ => (if n = 0 then "3" else "5", none)
  CopyFileFrom := fun _ => none
  Client := none

/-- A benchmark plugin that reads the time from the output of its command. -/
def benchTimed : BenchmarkApi where
  SetUp := none
  GetCommand := .ok "run-benchmark"
  ParseCommandOutput := fun out => .ok { TotalTimeSec := if out = "3" then 3 else 5 }

/-! ## The system monitor (`system_monitor/cpu.go`, `system_monitor/memory.go`) -/

/-- The value an `int` holds after an arithmetic operation whose exact result
is `x`: the machine keeps `x` modulo `2^64`, as a signed number. Wrapping
every intermediate result of a sum, a difference or a product gives the same
value as wrapping the exact result once. -/
def wrap64 (x : Int) : Int := (x + 2 ^ 63) % 2 ^ 64 - 2 ^ 63

/-- One reading of the counters of the `cpu` line of `/proc/stat`. -/
structure cpuTimeStat where
  user : Int := 0
  system : Int := 0
  idle : Int := 0
  nice : Int := 0
  iowait : Int := 0
  irq : Int := 0
  softIrq : Int := 0
  steal : Int := 0
  guest : Int := 0
  guestNice : Int := 0
deriving DecidableEq, Repr

/-- `(*cpuTimeStat).totalCPUTime`: the sum of eight counters; `guest` and
`guestNice` are not added. -/
def cpuTimeStat.totalCPUTime (ts : cpuTimeStat) : Int :=
  wrap64 (ts.user + ts.system + ts.nice + ts.iowait + ts.irq + ts.softIrq + ts.steal + ts.idle)

/-- `(*systemMonitor).appendCPUMetrics`, on the measurements `sm` of the
monitor; `now` is `now.Unix()`. A negative difference of the totals returns
at once; otherwise each of the ten series receives the difference of its
counter, times 100, over the difference of the totals. -/
def appendCPUMetrics (sm : SystemMeasurements) (now : Int) (curr prev : cpuTimeStat) :
    SystemMeasurements :=
  let delta := Float64.ofInt (wrap64 (curr.totalCPUTime - prev.totalCPUTime))
  if delta.lt (.num 0) then sm
  else
    let sample (x : Int) : Measurement Float64 :=
      { Time := now, Value := (Float64.ofInt (wrap64 x)).div delta }
    { sm with
      CpuUsageUser :=
        sm.CpuUsageUser ++ [sample (100 * (curr.user - prev.user - (curr.guest - prev.guest)))]
      CpuUsageSystem := sm.CpuUsageSystem ++ [sample (100 * (curr.system - prev.system))]
      CpuUsageIdle := sm.CpuUsageIdle ++ [sample (100 * (curr.idle - prev.idle))]
      CpuUsageNice :=
        sm.CpuUsageNice
          ++ [sample (100 * (curr.nice - prev.nice - (curr.guestNice - prev.guestNice)))]
      CpuUsageIowait := sm.CpuUsageIowait ++ [sample (100 * (curr.iowait - prev.iowait))]
      CpuUsageIrq := sm.CpuUsageIrq ++ [sample (100 * (curr.irq - prev.irq))]
      CpuUsageSoftIrq := sm.CpuUsageSoftIrq ++ [sample (100 * (curr.softIrq - prev.softIrq))]
      CpuUsageSteal := sm.CpuUsageSteal ++ [sample (100 * (curr.steal - prev.steal))]
      CpuUsageGuest := sm.CpuUsageGuest ++ [sample (100 * (curr.guest - prev.guest))]
      CpuUsageGuestNice :=
        sm.CpuUsageGuestNice ++ [sample (100 * (curr.guestNice - prev.guestNice))] }

/-- The ten CPU usage series of a bundle, in the order of the source. -/
def cpuSeries (sm : SystemMeasurements) : List (List (Measurement Float64)) :=
  [sm.CpuUsageUser, sm.CpuUsageSystem, sm.CpuUsageIdle, sm.CpuUsageNice, sm.CpuUsageIowait,
   sm.CpuUsageIrq, sm.CpuUsageSoftIrq, sm.CpuUsageSteal, sm.CpuUsageGuest, sm.CpuUsageGuestNice]

/-- A reading of the counters after some time of activity. -/
def cpuBusy : cpuTimeStat :=
  { user := 700, system := 200, idle := 9000, nice := 10, iowait := 50, irq := 5, softIrq := 5,
    steal := 30, guest := 0, guestNice := 0 }

/-- A reading after the counters were reset: its total is below that of
`cpuBusy`. -/
def cpuAfterReset : cpuTimeStat :=
  { user := 7, system := 2, idle := 90, nice := 0, iowait := 1, irq := 0, softIrq := 0,
    steal := 0, guest := 0, guestNice := 0 }

/-- The pieces between the occurrences of the character `sep` in a text. -/
def SplitChars (sep : Char) : List Char → List (List Char)
  | [] => [[]]
  | c :: cs =>
    if c = sep then [] :: SplitChars sep cs
    else
      match SplitChars sep cs with
      | [] => [[c]]
      | piece :: pieces => (c :: piece) :: pieces

/-- `strings.Split(s, sep)` for a separator of one character: the pieces of
`s` between the separators, empty pieces included. -/
def Split (s : String) (sep : Char) : List String :=
  (SplitChars sep s.data).map String.mk

/-- The maximal runs of characters other than white space; `cur` is the run
being read, last character first. -/
def FieldsChars : List Char → List Char → List (List Char)
  | [], cur => if cur.isEmpty then [] else [cur.reverse]
  | c :: cs, cur =>
    if isSpace c then
      (if cur.isEmpty then FieldsChars cs [] else cur.reverse :: FieldsChars cs [])
    else FieldsChars cs (c :: cur)

/-- `strings.Fields`: the text split around each run of white space, without
empty fields. -/
def Fields (s : String) : List String :=
  (FieldsChars s.data []).map String.mk

/-- The number written by a list of decimal digits, after the digits `acc`
already read; nothing if a character is not a digit. -/
def parseDigits : List Char → Nat → Option Nat
  | [], acc => some acc
  | c :: cs, acc =>
    if 48 ≤ c.toNat ∧ c.toNat ≤ 57 then parseDigits cs (10 * acc + (c.toNat - 48)) else none

/-- The loop of `strconv.ParseUint` in base 10 on 64 bits, `n` being the
number read so far. A character that is not a decimal digit is a syntax error
(`none`). A digit with which the number would leave the range of `uint64`
ends the loop at once with a range error (`true`) and the largest value,
whatever follows it. -/
def parseUintLoop : List Char → Nat → Option (Nat × Bool)
  | [], n => some (n, false)
  | c :: cs, n =>
    if 48 ≤ c.toNat ∧ c.toNat ≤ 57 then
      if (2 ^ 64 - 1) / 10 + 1 ≤ n then some (2 ^ 64 - 1, true)
      else if 2 ^ 64 - 1 < 10 * n + (c.toNat - 48) then some (2 ^ 64 - 1, true)
      else parseUintLoop cs (10 * n + (c.toNat - 48))
    else none

/-- `strconv.Atoi`: the value, and whether the error is non-nil. An optional
sign is followed by decimal digits, at least one; anything else is a syntax
error with the value 0, unless the digits read before it already leave the
range of `uint64`. A number outside the range of `int` is a range error with
the nearest value of the range. The short texts, which the library reads in
a loop of its own, get the same result. -/
def Atoi (s : String) : Int × Bool :=
  let signed : Bool × List Char :=
    match s.data with
    | [] => (false, [])
    | c :: cs => if c.toNat = 43 then (false, cs) else if c.toNat = 45 then (true, cs)
                 else (false, c :: cs)
  if signed.2.isEmpty then (0, true)
  else
    match parseUintLoop signed.2 0 with
    | none => (0, true)
    | some (n, _) =>
      if !signed.1 && 2 ^ 63 ≤ n then (2 ^ 63 - 1, true)
      else if signed.1 && 2 ^ 63 < n then (-2 ^ 63, true)
      else (if signed.1 then -(n : Int) else (n : Int), false)

/-- The slice `s[:len(s)-1]` as a text: `s` without its last byte. When the
last character of `s` takes more than one byte the slice ends inside that
character and is no text, in particular none of the keys of the `switch`. On
an empty `s` the slice expression panics; `strings.Fields` returns no empty
field, so the code never meets that case. -/
def dropLastByte (s : String) : Option String :=
  match s.data.reverse with
  | [] => none
  | c :: rest => if c.toNat < 128 then some (String.mk rest.reverse) else none

/-- The local variables of `appendMemoryMetrics` that the loop assigns. -/
structure memoryTotals where
  total : Int := 0
  free : Int := 0
  buffers : Int := 0
  cached : Int := 0
  available : Int := 0
  swapCached : Int := 0
  swapFree : Int := 0
  swapTotal : Int := 0
deriving DecidableEq, Repr

/-- The `switch` of `appendMemoryMetrics` on the key of a line. -/
def memoryEntry (acc : memoryTotals) (key : Option String) (bytes : Int) : memoryTotals :=
  if key = some "MemTotal" then { acc with total := bytes }
  else if key = some "MemFree" then { acc with free := bytes }
  else if key = some "MemAvailable" then { acc with available := bytes }
  else if key = some "Buffers" then { acc with buffers := bytes }
  else if key = some "Cached" then { acc with cached := bytes }
  else if key = some "SReclaimable" then { acc with cached := wrap64 (acc.cached + bytes) }
  else if key = some "SwapCached" then { acc with swapCached := bytes }
  else if key = some "SwapFree" then { acc with swapFree := bytes }
  else if key = some "SwapTotal" then { acc with swapTotal := bytes }
  else acc

/-- The body of the loop of `appendMemoryMetrics` for one line: a line that
has not exactly three fields is skipped; the error of `strconv.Atoi` is
ignored. -/
def memoryLine (acc : memoryTotals) (line : String) : memoryTotals :=
  match Fields line with
  | [name, number, _] =>
    memoryEntry acc (dropLastByte name) (wrap64 ((Atoi number).1 * 1024))
  | _ => acc

/-- `(*systemMonitor).appendMemoryMetrics`, on the measurements `sm` of the
monitor; `now` is `now.Unix()` and `buf` the text of `/proc/meminfo`. -/
def appendMemoryMetrics (sm : SystemMeasurements) (now : Int) (buf : String) :
    SystemMeasurements :=
  let t := (Split buf (Char.ofNat 10)).foldl memoryLine {}
  let used := wrap64 (t.total - t.free - t.buffers - t.cached)
  let usedPct := (Float64.num 100).mul ((Float64.ofInt used).div (Float64.ofInt t.total))
  let availablePct :=
    (Float64.num 100).mul ((Float64.ofInt t.available).div (Float64.ofInt t.total))
  let swapUsed := wrap64 (t.swapTotal - t.swapFree - t.swapCached)
  let swapUsedPct :=
    (Float64.num 100).mul ((Float64.ofInt swapUsed).div (Float64.ofInt t.swapTotal))
  { sm with
    MemUsedBytes := sm.MemUsedBytes ++ [{ Time := now, Value := used }]
    MemUsedPct := sm.MemUsedPct ++ [{ Time := now, Value := usedPct }]
    MemAvailBytes := sm.MemAvailBytes ++ [{ Time := now, Value := t.available }]
    MemAvailPct := sm.MemAvailPct ++ [{ Time := now, Value := availablePct }]
    SwapUsedBytes := sm.SwapUsedBytes ++ [{ Time := now, Value := swapUsed }]
    SwapUsedPct :=
      sm.SwapUsedPct
        ++ [{ Time := now, Value := if swapUsedPct.IsNaN then .num 0 else swapUsedPct }] }

/-- The lines of a meminfo text that have the form `Key: value kB`, as pairs
of the key and the value. -/
def meminfoLines (buf : String) : List (String × Int) :=
  (Split buf (Char.ofNat 10)).filterMap fun line =>
    match Fields line with
    | [name, number, _] => (dropLastByte name).map fun key => (key, (Atoi number).1)
    | _ => none

/-- The value of a key among the lines of a meminfo text: that of the first
line with the key, 0 when no line has it. -/
def valueOf (key : String) : List (String × Int) → Int
  | [] => 0
  | (k, v) :: rest => if k = key then v else valueOf key rest

/-- The value of a key in a meminfo text, an absent key counting as 0. -/
def meminfoValue (buf key : String) : Int := valueOf key (meminfoLines buf)

/-- The memory in use that the specification derives from a meminfo text:
`(MemTotal - MemFree - Buffers - Cached - SReclaimable) * 1024`. -/
def meminfoUsedBytes (buf : String) : Int :=
  (meminfoValue buf "MemTotal" - meminfoValue buf "MemFree" - meminfoValue buf "Buffers"
    - meminfoValue buf "Cached" - meminfoValue buf "SReclaimable") * 1024

/-- The sample text of the specification. -/
def meminfoSample : String :=
  "MemTotal: 16000000 kB\nMemFree: 8000000 kB\nBuffers: 0 kB\nCached: 0 kB\n"

/-- A text in the order of the kernel, with more lines than the code reads. -/
def meminfoKernel : String :=
  "MemTotal:       16000000 kB\nMemFree:         8000000 kB\nMemAvailable:   12000000 kB\nBuffers:          200000 kB\nCached:          3000000 kB\nSwapCached:            0 kB\nActive:          5000000 kB\nSwapTotal:       2000000 kB\nSwapFree:        2000000 kB\nSlab:             900000 kB\nSReclaimable:     800000 kB\nHugePages_Total:       0\n"

/-- A text with seven hundredths of the memory in use. -/
def meminfoSevenPercent : String := "MemTotal: 100 kB\nMemFree: 93 kB\n"

/-- A text whose `SReclaimable` line comes before its `Cached` line. -/
def meminfoReordered : String :=
  "MemTotal: 100 kB\nMemFree: 10 kB\nSReclaimable: 5 kB\nCached: 3 kB\n"

/-- The body of the loop of `appendMemoryMetrics` on a line already read as a
key and a value. -/
def memoryStep (acc : memoryTotals) (entry : String × Int) : memoryTotals :=
  memoryEntry acc (some entry.1) (wrap64 (entry.2 * 1024))

/-! ## The system monitor: shares of the CPU time -/

/-- The ten counters of a reading, in the order of the ten usage series. -/
def cpuTimeStat.counters (ts : cpuTimeStat) : List Int :=
  [ts.user, ts.system, ts.idle, ts.nice, ts.iowait, ts.irq, ts.softIrq, ts.steal, ts.guest,
   ts.guestNice]

/-- The ten percentages of a tick as exact rationals, in the order of the ten
usage series: the difference of each counter, times 100, over the difference
of the totals; the user and nice shares without the guest and guest-nice
differences. -/
def cpuShares (curr prev : cpuTimeStat) : List Rat :=
  let delta : Rat :=
    ((curr.user + curr.system + curr.nice + curr.iowait + curr.irq + curr.softIrq + curr.steal
        + curr.idle
      - (prev.user + prev.system + prev.nice + prev.iowait + prev.irq + prev.softIrq
        + prev.steal + prev.idle) : Int) : Rat)
  [((100 * (curr.user - prev.user - (curr.guest - prev.guest)) : Int) : Rat) / delta,
   ((100 * (curr.system - prev.system) : Int) : Rat) / delta,
   ((100 * (curr.idle - prev.idle) : Int) : Rat) / delta,
   ((100 * (curr.nice - prev.nice - (curr.guestNice - prev.guestNice)) : Int) : Rat) / delta,
   ((100 * (curr.iowait - prev.iowait) : Int) : Rat) / delta,
   ((100 * (curr.irq - prev.irq) : Int) : Rat) / delta,
   ((100 * (curr.softIrq - prev.softIrq) : Int) : Rat) / delta,
   ((100 * (curr.steal - prev.steal) : Int) : Rat) / delta,
   ((100 * (curr.guest - prev.guest) : Int) : Rat) / delta,
   ((100 * (curr.guestNice - prev.guestNice) : Int) : Rat) / delta]

/-- A reading taken one second after `cpuBusy` on a machine of four cores. -/
def cpuLater : cpuTimeStat :=
  { user := 900, system := 250, idle := 9100, nice := 10, iowait := 60, irq := 5, softIrq := 5,
    steal := 70, guest := 40, guestNice := 0 }

/-- A reading taken after `cpuBusy` when one tick of user, one of system and
one of idle time have passed: three shares of a third each. -/
def cpuThirds : cpuTimeStat := { cpuBusy with user := 701, system := 201, idle := 9001 }

/-! ## The system monitor: the `cpu` line of `/proc/stat` -/

/-- `strings.HasPrefix`. -/
def HasPrefix (s pre : String) : Bool := pre.data.isPrefixOf s.data

/-- The counters read from the fields of the `cpu` line: the fields 1 to 10,
the errors of `strconv.Atoi` being ignored. A line of fewer than 11 fields
makes the index expression panic. -/
def cpuLineCounters (parts : List String) : Res cpuTimeStat :=
  match parts with
  | _ :: f1 :: f2 :: f3 :: f4 :: f5 :: f6 :: f7 :: f8 :: f9 :: f10 :: _ =>
    .ok { user := (Atoi f1).1, nice := (Atoi f2).1, system := (Atoi f3).1, idle := (Atoi f4).1,
          iowait := (Atoi f5).1, irq := (Atoi f6).1, softIrq := (Atoi f7).1,
          steal := (Atoi f8).1, guest := (Atoi f9).1, guestNice := (Atoi f10).1 }
  | _ => .panic

/-- The loop of `parseCPUTimeStat` over the lines: a line that does not begin
with `cpu ` is passed over, the first line that does ends the function. -/
def parseCPUTimeStatLines : List String → Res (Option cpuTimeStat)
  | [] => .ok none
  | line :: rest =>
    if HasPrefix line "cpu " then
      match cpuLineCounters (Fields line) with
      | .ok ts => .ok (some ts)
      | .err e => .err e
      | .panic => .panic
    else parseCPUTimeStatLines rest

/-- `parseCPUTimeStat`: the pointer returned, `none` for nil. -/
def parseCPUTimeStat (buf : String) : Res (Option cpuTimeStat) :=
  parseCPUTimeStatLines (Split buf (Char.ofNat 10))

/-- The first lines of a `/proc/stat`. -/
def procStat : String :=
  "cpu  700 10 200 9000 50 5 5 30 0 0\ncpu0 350 5 100 4500 25 3 2 15 0 0\ncpu1 350 5 100 4500 25 2 3 15 0 0\nintr 123456 0 0\nctxt 98765\n"

/-- A text without the line of the totals. -/
def procStatPerCore : String :=
  "cpu0 350 5 100 4500 25 3 2 15 0 0\ncpu1 350 5 100 4500 25 2 3 15 0 0\n"

/-! ## The last line of a command output (`util/util.go`) -/

/-- The loop of `LastNonEmptyLine` over the lines from the last to the first:
the value of `offset` when the loop ends; `k` is `len(lines) - i`. -/
def lastNonEmptyOffset : List String → Nat → Nat
  | [], _ => 0
  | line :: earlier, k => if line.length > 0 then k else lastNonEmptyOffset earlier (k + 1)

/-- `util.LastNonEmptyLine`: the element `lines[len(lines)-offset]`. With an
offset of 0 the index is `len(lines)` and the index expression panics. -/
def LastNonEmptyLine (out : String) : Res String :=
  let lines := Split out (Char.ofNat 10)
  let offset := lastNonEmptyOffset lines.reverse 1
  match lines.get? (lines.length - offset) with
  | some line => .ok line
  | none => .panic

/-- The error of `strconv.Atoi` on the text `s`. Its message quotes `s` with
`strconv.Quote`, here the function `quote`. A syntax error comes with the
value 0, a range error with a value that is not 0. -/
def NumError (quote : String → String) (s : String) : GoError :=
  ErrorNew ("strconv.Atoi: parsing " ++ quote s ++ ": "
    ++ (if (Atoi s).1 = 0 then "invalid syntax" else "value out of range"))

/-- The rendering of `strconv.Quote` for a text of printable ASCII characters
without quotation mark or backslash: the text between quotation marks. -/
def quoteAscii (s : String) : String :=
  String.mk (Char.ofNat 34 :: s.data ++ [Char.ofNat 34])

/-- The method `ParseCommandOutput` of the `aws_cli` benchmark: the total time
is the last field but one of the last non-empty line of the output. -/
def awscli.ParseCommandOutput (quote : String → String) (out : String) : Res BenchmarkOutput :=
  match LastNonEmptyLine out with
  | .panic => .panic
  | .err e => .err e
  | .ok line =>
    let parts := Fields line
    if parts.length < 9 then .err (ErrorNew "did not find time in command output")
    else
      match parts.get? (parts.length - 2) with
      | none => .panic
      | some field =>
        if (Atoi field).2 then .err (Errorf "failed to parse total time" (NumError quote field))
        else .ok { TotalTimeSec := ((Atoi field).1 : Rat) }

/-! ## The object specifications (`object_provider/object_provider.go`) -/

/-- The loop of `LoadObjectSpecsFromBuf` over the lines; `out` holds the
specifications accepted so far. -/
def LoadObjectSpecsLoop (quote : String → String) :
    List String → List ObjectSpec → Except GoError (List ObjectSpec)
  | [], out => .ok out
  | line :: rest, out =>
    match Split line (Char.ofNat 44) with
    | key :: field :: _ =>
      if (Atoi field).2 then .error (NumError quote field)
      else if out.any (fun it => it.Key = key) then .error (ErrorNew ("duplicate key: " ++ key))
      else LoadObjectSpecsLoop quote rest (out ++ [{ Key := key, SizeBytes := (Atoi field).1 }])
    | _ => LoadObjectSpecsLoop quote rest out

/-- `LoadObjectSpecsFromBuf`: the specifications, or the error with a nil
list. -/
def LoadObjectSpecsFromBuf (quote : String → String) (buf : String) :
    Except GoError (List ObjectSpec) :=
  LoadObjectSpecsLoop quote (Split buf (Char.ofNat 10)) []

/-- The first and the second field of a line that contains a comma. -/
def commaFields (line : String) : Option (String × String) :=
  match Split line (Char.ofNat 44) with
  | key :: field :: _ => some (key, field)
  | _ => none

/-- The lines of a text that contain a comma, as pairs of their first and
second field. -/
def commaLines (buf : String) : List (String × String) :=
  (Split buf (Char.ofNat 10)).filterMap commaFields

/-- The specification that a line with a comma stands for. -/
def specOfLine (entry : String × String) : ObjectSpec :=
  { Key := entry.1, SizeBytes := (Atoi entry.2).1 }

/-- A list of three objects. -/
def objectsCsv : String := "a/one.bin,1024\nb/two.bin,2048\n\nc/three.bin,4096\n"

/-- A list in which a key comes twice. -/
def objectsCsvDuplicate : String := "a/one.bin,1024\nb/two.bin,2048\na/one.bin,4096\n"

/-- A list with a size that is no number. -/
def objectsCsvBadSize : String := "a/one.bin,1024\nb/two.bin,2 KiB\n"

/-! ## The system monitor: disks and network interfaces (`disk_io.go`, `network.go`) -/

/-- The index expression `parts[i]` for an index below `len(parts)`. -/
def fieldAt (parts : List String) (i : Nat) : String := parts.getD i ""

/-- One line of `/proc/diskstats`. -/
structure diskstatEntry where
  major : Int
  minor : Int
  deviceName : String
  readsCompleted : Int
  readsMerged : Int
  sectorsRead : Int
  timeSpentReading : Int
  writesCompleted : Int
  writesMerged : Int
  sectorsWritten : Int
  timeSpentWriting : Int
  iosInProgress : Int
  timeSpentDoingIos : Int
  weightedTimeSpentDoingIos : Int
  discardsCompleted : Int
  discardsMerged : Int
  sectorsDiscarded : Int
  timeSpentDiscarding : Int
  flushesCompleted : Int
  timeSpentFlushing : Int
deriving DecidableEq

/-- The entry read from the fields of a line, the errors of `strconv.Atoi`
being ignored. The last index read is 19: on a line of fewer than 20 fields
the index expression panics (the caller passes lines of at least 19). -/
def diskLineEntry (parts : List String) : Res diskstatEntry :=
  if parts.length < 20 then .panic
  else
    .ok { major := (Atoi (fieldAt parts 0)).1, minor := (Atoi (fieldAt parts 1)).1,
          deviceName := fieldAt parts 2,
          readsCompleted := (Atoi (fieldAt parts 3)).1,
          readsMerged := (Atoi (fieldAt parts 4)).1,
          sectorsRead := (Atoi (fieldAt parts 5)).1,
          timeSpentReading := (Atoi (fieldAt parts 6)).1,
          writesCompleted := (Atoi (fieldAt parts 7)).1,
          writesMerged := (Atoi (fieldAt parts 8)).1,
          sectorsWritten := (Atoi (fieldAt parts 9)).1,
          timeSpentWriting := (Atoi (fieldAt parts 10)).1,
          iosInProgress := (Atoi (fieldAt parts 11)).1,
          timeSpentDoingIos := (Atoi (fieldAt parts 12)).1,
          weightedTimeSpentDoingIos := (Atoi (fieldAt parts 13)).1,
          discardsCompleted := (Atoi (fieldAt parts 14)).1,
          discardsMerged := (Atoi (fieldAt parts 15)).1,
          sectorsDiscarded := (Atoi (fieldAt parts 16)).1,
          timeSpentDiscarding := (Atoi (fieldAt parts 17)).1,
          flushesCompleted := (Atoi (fieldAt parts 18)).1,
          timeSpentFlushing := (Atoi (fieldAt parts 19)).1 }

/-- A sample of a device. -/
def deviceSample (name : String) (now value : Int) : DeviceMeasurement Int :=
  { DeviceName := name, Measurement := { Time := now, Value := value } }

/-- The thirteen appends of `appendDiskIOMetrics` for one entry. `cap` is the
capacity of the array behind `DiskReads`, and `grow n` the capacity of the
array that `append` allocates for a full slice of length `n` (at least
`n + 1`), which the language leaves to the implementation.

Only the first assignment appends a series to itself. The twelve others
assign `append(mon.sm.DiskReads, sample)`: the new contents of `DiskReads`
followed by one sample. When the array behind `DiskReads` has no room left
each of them gets an array of its own; when it has room, the twelve samples
are written to the same place of that array, one over the other, and the
twelve series end with the sample written last, that of `DiskIopsInProgress`. -/
def appendDiskEntry (grow : Nat → Nat) (now : Int) (sm : SystemMeasurements) (cap : Nat)
    (entry : diskstatEntry) : SystemMeasurements × Nat :=
  let readBytes := wrap64 (entry.sectorsRead * 512)
  let writeBytes := wrap64 (entry.sectorsWritten * 512)
  let n := sm.DiskReads.length
  let cap1 := if n < cap then cap else max (grow n) (n + 1)
  let reads := sm.DiskReads ++ [deviceSample entry.deviceName now entry.readsCompleted]
  let onto (value : Int) : List (DeviceMeasurement Int) :=
    reads ++ [deviceSample entry.deviceName now
                (if n + 1 < cap1 then entry.iosInProgress else value)]
  ({ sm with
     DiskReads := reads
     DiskReadsMerged := onto entry.readsMerged
     DiskReadBytes := onto readBytes
     DiskReadTimeMs := onto entry.timeSpentReading
     DiskWrites := onto entry.writesCompleted
     DiskWritesMerged := onto entry.writesMerged
     DiskWriteBytes := onto writeBytes
     DiskWriteTimeMs := onto entry.timeSpentWriting
     DiskIOTimeMs := onto entry.timeSpentDoingIos
     DiskWeightedIOTimeMs := onto entry.weightedTimeSpentDoingIos
     DiskFlushes := onto entry.flushesCompleted
     DiskFlushTimeMs := onto entry.timeSpentFlushing
     DiskIopsInProgress := onto entry.iosInProgress },
   cap1)

/-- The loop of `appendDiskIOMetrics` over the lines: a line of fewer than 19
fields is skipped. -/
def appendDiskLines (grow : Nat → Nat) (now : Int) :
    List String → SystemMeasurements → Nat → Res (SystemMeasurements × Nat)
  | [], sm, cap => .ok (sm, cap)
  | line :: rest, sm, cap =>
    if (Fields line).length < 19 then appendDiskLines grow now rest sm cap
    else
      match diskLineEntry (Fields line) with
      | .ok entry =>
        appendDiskLines grow now rest (appendDiskEntry grow now sm cap entry).1
          (appendDiskEntry grow now sm cap entry).2
      | .err e => .err e
      | .panic => .panic

/-- `(*systemMonitor).appendDiskIOMetrics`, on the measurements `sm` of the
monitor and the capacity `cap` of the array behind `DiskReads`; `now` is
`now.Unix()` and `buf` the text of `/proc/diskstats`. -/
def appendDiskIOMetrics (grow : Nat → Nat) (sm : SystemMeasurements) (cap : Nat) (now : Int)
    (buf : String) : Res (SystemMeasurements × Nat) :=
  appendDiskLines grow now (Split buf (Char.ofNat 10)) sm cap

/-- The twelve disk series other than `DiskReads`, in the order of the
source. -/
def diskSeriesOntoReads (sm : SystemMeasurements) : List (List (DeviceMeasurement Int)) :=
  [sm.DiskReadsMerged, sm.DiskReadBytes, sm.DiskReadTimeMs, sm.DiskWrites,
   sm.DiskWritesMerged, sm.DiskWriteBytes, sm.DiskWriteTimeMs, sm.DiskIOTimeMs,
   sm.DiskWeightedIOTimeMs, sm.DiskFlushes, sm.DiskFlushTimeMs, sm.DiskIopsInProgress]

/-- A `/proc/diskstats` of one device, 20 fields: 1200 reads completed, 96000
sectors read, 800 writes completed, 3 requests in progress. -/
def diskstatsOneDevice : String :=
  " 259       0 nvme0n1 1200 30 96000 450 800 20 64000 900 3 1100 1350 0 0 0 0 70 40\n"

/-- A line of exactly 19 fields: the line of `diskstatsOneDevice` without its
last field. -/
def diskstats19Fields : String :=
  " 259       0 nvme0n1 1200 30 96000 450 800 20 64000 900 3 1100 1350 0 0 0 0 70\n"

/-- The text of a slice of `s` without its last byte, as the JSON encoding of
the report shows it: when the last character of `s` takes more than one byte,
each byte left of it is shown as U+FFFD. -/
def cutLastByte (s : String) : String :=
  match s.data.reverse with
  | [] => ""
  | c :: rest =>
    String.mk (rest.reverse ++ List.replicate (c.utf8Size - 1) (Char.ofNat 0xFFFD))

/-- The values read from a line of `/proc/net/dev`. -/
structure netdevEntry where
  iface : String
  recvBytes : Int
  recvPackets : Int
  sendBytes : Int
  sendPackets : Int
deriving DecidableEq, Repr

/-- The values read from a line of 17 fields, the errors of `strconv.Atoi`
being ignored; nothing from another line, which is skipped. -/
def netdevLineEntry (line : String) : Option netdevEntry :=
  let parts := Fields line
  if parts.length ≠ 17 then none
  else
    some { iface := cutLastByte (fieldAt parts 0),
           recvBytes := (Atoi (fieldAt parts 1)).1,
           recvPackets := (Atoi (fieldAt parts 2)).1,
           sendBytes := (Atoi (fieldAt parts 9)).1,
           sendPackets := (Atoi (fieldAt parts 10)).1 }

/-- The body of the loop of `appendNetworkMetrics`: the four appends for a
line of 17 fields. -/
def appendNetworkLine (now : Int) (sm : SystemMeasurements) (line : String) :
    SystemMeasurements :=
  match netdevLineEntry line with
  | none => sm
  | some entry =>
    { sm with
      NetBytesSent := sm.NetBytesSent ++ [deviceSample entry.iface now entry.sendBytes]
      NetBytesRecv := sm.NetBytesRecv ++ [deviceSample entry.iface now entry.recvBytes]
      NetPacketsSent := sm.NetPacketsSent ++ [deviceSample entry.iface now entry.sendPackets]
      NetPacketsRecv := sm.NetPacketsRecv ++ [deviceSample entry.iface now entry.recvPackets] }

/-- `(*systemMonitor).appendNetworkMetrics`; `buf` is the text of
`/proc/net/dev`. -/
def appendNetworkMetrics (sm : SystemMeasurements) (now : Int) (buf : String) :
    SystemMeasurements :=
  (Split buf (Char.ofNat 10)).foldl (appendNetworkLine now) sm

/-- The entry of the line of `diskstatsOneDevice`. -/
def diskEntryNvme : diskstatEntry :=
  { major := 259, minor := 0, deviceName := "nvme0n1", readsCompleted := 1200,
    readsMerged := 30, sectorsRead := 96000, timeSpentReading := 450,
    writesCompleted := 800, writesMerged := 20, sectorsWritten := 64000,
    timeSpentWriting := 900, iosInProgress := 3, timeSpentDoingIos := 1100,
    weightedTimeSpentDoingIos := 1350, discardsCompleted := 0, discardsMerged := 0,
    sectorsDiscarded := 0, timeSpentDiscarding := 0, flushesCompleted := 70,
    timeSpentFlushing := 40 }

/-! ## The system monitor: peers in the storage service (`s3_ip.go`) -/

/-- A `netip.Addr`: the bytes of the address, four or sixteen; the zero `Addr`
has none. -/
structure Addr where
  bytes : List Nat
deriving DecidableEq, Repr

/-- One field of a dotted address: one to three digits of value at most 255,
without a leading zero before another digit. -/
def parseOctet (cs : List Char) : Option Nat :=
  match cs with
  | [] => none
  | c :: rest =>
    if c.toNat = 48 ∧ rest ≠ [] then none
    else
      match parseDigits (c :: rest) 0 with
      | some value => if value ≤ 255 then some value else none
      | none => none

/-- `netip.ParseAddr` on a text without a colon, as is every text the monitor
hands to it (the piece of a column before its first colon): the address, and
whether the error is non-nil. Such a text is an address only in the dotted
form of four fields; with an error the address returned is the zero `Addr`. -/
def ParseAddr (s : String) : Addr × Bool :=
  match (SplitChars (Char.ofNat 46) s.data).map parseOctet with
  | [some a, some b, some c, some d] => ({ bytes := [a, b, c, d] }, false)
  | _ => ({ bytes := [] }, true)

/-- The number that a list of bytes writes, the first byte being the highest. -/
def bytesValue (bs : List Nat) : Nat := bs.foldl (fun acc b => acc * 256 + b) 0

/-- `netip.Prefix.Contains`: the address and the prefix are of the same
family, the prefix is valid, and the address agrees with the address of the
prefix on the first `bits` bits. The zero `Addr` is in no prefix. -/
def Prefix.Contains (p : Prefix) (ip : Addr) : Bool :=
  (ip.bytes.length = 4 ∨ ip.bytes.length = 16) ∧ p.addr.length = ip.bytes.length ∧
    p.bits ≤ 8 * ip.bytes.length ∧
    bytesValue p.addr / 2 ^ (8 * ip.bytes.length - p.bits)
      = bytesValue ip.bytes / 2 ^ (8 * ip.bytes.length - p.bits)

/-- The local variables of `appendS3IPMetrics`. -/
structure s3Found where
  uniqueIPs : Int := 0
  uniqueNetworks : Int := 0
  foundIPs : List String := []
  foundNetworks : List Prefix := []
deriving DecidableEq, Repr

/-- The body of the loop over the prefixes, for the address text
`foreignAddress` and its parsed value: an address inside the prefix and not
yet found is recorded, and the prefix with it unless it is recorded already. -/
def s3PrefixStep (foreignAddress : String) (parsedForeignAddress : Addr) (acc : s3Found)
    (p : Prefix) : s3Found :=
  if p.Contains parsedForeignAddress then
    if acc.foundIPs.contains foreignAddress then acc
    else
      let acc1 := { acc with foundIPs := acc.foundIPs ++ [foreignAddress],
                             uniqueIPs := acc.uniqueIPs + 1 }
      if acc1.foundNetworks.contains p then acc1
      else { acc1 with foundNetworks := acc1.foundNetworks ++ [p],
                       uniqueNetworks := acc1.uniqueNetworks + 1 }
  else acc

/-- The foreign address of a line of six fields: the fifth field up to its
first colon. -/
def foreignAddressOf (line : String) : String :=
  match Split (fieldAt (Fields line) 4) (Char.ofNat 58) with
  | first :: _ => first
  | [] => ""

/-- The body of the loop over the lines for a line that is not skipped. The
error of `netip.ParseAddr` is logged and the zero `Addr` used. -/
def s3IPLine (s3Prefixes : List Prefix) (acc : s3Found) (line : String) : s3Found :=
  s3Prefixes.foldl (s3PrefixStep (foreignAddressOf line) (ParseAddr (foreignAddressOf line)).1) acc

/-- The loop of `appendS3IPMetrics` over the lines, `i` being the index of the
first of them: the lines 0 and 1 and the lines that have not six fields are
skipped. -/
def s3IPLines (s3Prefixes : List Prefix) : Nat → List String → s3Found → s3Found
  | _, [], acc => acc
  | i, line :: rest, acc =>
    s3IPLines s3Prefixes (i + 1) rest
      (if i < 2 ∨ (Fields line).length ≠ 6 then acc else s3IPLine s3Prefixes acc line)

/-- `(*systemMonitor).appendS3IPMetrics`, on the measurements `sm` of the
monitor; `now` is `now.Unix()` and `buf` the output of `netstat -n -4`. -/
def appendS3IPMetrics (sm : SystemMeasurements) (now : Int) (buf : String)
    (s3Prefixes : List Prefix) : SystemMeasurements :=
  let found := s3IPLines s3Prefixes 0 (Split buf (Char.ofNat 10)) {}
  { sm with
    S3IPs := sm.S3IPs ++ [{ Time := now, Value := found.uniqueIPs }]
    S3Networks := sm.S3Networks ++ [{ Time := now, Value := found.uniqueNetworks }] }

/-- The foreign addresses of a connection listing: the fifth column with the
port removed, of the lines of six fields after the two header lines. -/
def foreignAddresses (buf : String) : List String :=
  (((Split buf (Char.ofNat 10)).drop 2).filter (fun line => (Fields line).length = 6)).map
    foreignAddressOf

/-- The address written by a text lies inside at least one of the prefixes. -/
def insideSome (s3Prefixes : List Prefix) (address : String) : Bool :=
  s3Prefixes.any (fun p => p.Contains (ParseAddr address).1)

/-- The first of the prefixes, in their order, that contains the address
written by a text. -/
def firstPrefix (s3Prefixes : List Prefix) (address : String) : Option Prefix :=
  s3Prefixes.find? (fun p => p.Contains (ParseAddr address).1)

/-- The output of `netstat -n -4` on a machine with one shell session, two
connections to one address of the storage service and one to another. -/
def netstatOutput : String :=
  "Active Internet connections (w/o servers)\nProto Recv-Q Send-Q Local Address           Foreign Address         State\ntcp        0     36 10.0.0.5:22             203.0.113.9:51234       ESTABLISHED\ntcp        0      0 10.0.0.5:44321          52.216.10.20:443        ESTABLISHED\ntcp        0      0 10.0.0.5:44322          52.216.10.20:443        ESTABLISHED\ntcp        0      0 10.0.0.5:44323          52.217.1.2:443          TIME_WAIT\n"

/-- The prefix `52.216.0.0/15`. -/
def prefix15 : Prefix := { addr := [52, 216, 0, 0], bits := 15 }

/-- The prefix `52.216.0.0/16`, inside `prefix15`. -/
def prefix16 : Prefix := { addr := [52, 216, 0, 0], bits := 16 }

/-- The prefix `3.5.0.0/19`. -/
def prefix19 : Prefix := { addr := [3, 5, 0, 0], bits := 19 }

/-- The loop over the prefixes for one address text. -/
def recordAddress (s3Prefixes : List Prefix) (acc : s3Found) (address : String) : s3Found :=
  s3Prefixes.foldl (s3PrefixStep address (ParseAddr address).1) acc

/-! ## The system monitor: one iteration of the sampling loop -/

/-- How one use of the shared connection ends: `NewSession` returns `io.EOF`,
or another error, or the session opens and `CombinedOutput` returns an output
and possibly an error. -/
inductive SessionOutcome
  | eof
  | refused
  | ran (out : String) (failed : Bool)
deriving DecidableEq, Repr

/-- The `ssh.Client` of the monitor: `session n cmd` is what happens when the
command `cmd` is sent after `n` earlier uses of the connection. -/
structure SshClient where
  session : Nat → String → SessionOutcome

/-- The state of the sampling task: the measurements, the capacity of the
array behind `DiskReads`, the stop flag, the previous reading of the CPU
counters, the number of uses of the connection, the commands executed on the
target, and the number of readings of the clock that stamp a sample. -/
structure MonitorState where
  sm : SystemMeasurements := {}
  diskReadsCap : Nat := 0
  stop : Bool := false
  prevCPU : Option cpuTimeStat := none
  sessions : Nat := 0
  commands : List String := []
  clockReads : Nat := 0

/-- `(*systemMonitor).runCommand`: the output of the command, or nil (the
empty text) when the session does not open or the command fails. On `io.EOF`
the stop flag is set. The log lines are left out. -/
def runCommand (client : SshClient) (cmd : String) (st : MonitorState) : String × MonitorState :=
  match client.session st.sessions cmd with
  | .eof => ("", { st with sessions := st.sessions + 1, stop := true })
  | .refused => ("", { st with sessions := st.sessions + 1 })
  | .ran out failed =>
    (if failed then "" else out,
     { st with sessions := st.sessions + 1, commands := st.commands ++ [cmd] })

/-- One iteration of the loop of `runMonitor`; with the stop flag set the loop
ends and nothing is done. `clock n` is the Unix time of the reading number
`n` of the clock among those that stamp a sample; the measure of the jitter,
its log line and the sleep at the end are left out. A panic of a parser ends
the iteration. -/
def runMonitorIteration (grow : Nat → Nat) (client : SshClient) (clock : Nat → Int)
    (s3Prefixes : List Prefix) (st : MonitorState) : Res MonitorState :=
  if st.stop then .ok st
  else
    let r1 := runCommand client "cat /proc/stat" st
    let t := clock r1.2.clockReads
    match parseCPUTimeStat r1.1 with
    | .panic => .panic
    | .err e => .err e
    | .ok currCPU =>
      let smCPU :=
        match r1.2.prevCPU, currCPU with
        | some prev, some curr => appendCPUMetrics r1.2.sm t curr prev
        | _, _ => r1.2.sm
      let st1 := { r1.2 with sm := smCPU, prevCPU := currCPU, clockReads := r1.2.clockReads + 1 }
      let r2 := runCommand client "cat /proc/diskstats" st1
      match appendDiskIOMetrics grow r2.2.sm r2.2.diskReadsCap (clock r2.2.clockReads) r2.1 with
      | .panic => .panic
      | .err e => .err e
      | .ok disk1 =>
        let st2 := { r2.2 with sm := disk1.1, diskReadsCap := disk1.2,
                               clockReads := r2.2.clockReads + 1 }
        let r3 := runCommand client "cat /proc/diskstats" st2
        match appendDiskIOMetrics grow r3.2.sm r3.2.diskReadsCap (clock r3.2.clockReads) r3.1 with
        | .panic => .panic
        | .err e => .err e
        | .ok disk2 =>
          let st3 := { r3.2 with sm := disk2.1, diskReadsCap := disk2.2,
                                 clockReads := r3.2.clockReads + 1 }
          let r4 := runCommand client "cat /proc/meminfo" st3
          let st4 := { r4.2 with sm := appendMemoryMetrics r4.2.sm (clock r4.2.clockReads) r4.1,
                                 clockReads := r4.2.clockReads + 1 }
          let r5 := runCommand client "cat /proc/net/dev" st4
          let st5 := { r5.2 with sm := appendNetworkMetrics r5.2.sm (clock r5.2.clockReads) r5.1,
                                 clockReads := r5.2.clockReads + 1 }
          let r6 := runCommand client "netstat -n -4" st5
          .ok { r6.2 with
                sm := appendS3IPMetrics r6.2.sm (clock r6.2.clockReads) r6.1 s3Prefixes,
                clockReads := r6.2.clockReads + 1 }

/-- The six commands of an iteration, in the order of the source. -/
def iterationCommands : List String :=
  ["cat /proc/stat", "cat /proc/diskstats", "cat /proc/diskstats", "cat /proc/meminfo",
   "cat /proc/net/dev", "netstat -n -4"]

/-- The text of a `/proc/net/dev` with two interfaces. -/
def procNetDev : String :=
  "Inter-|   Receive                                                |  Transmit\n face |bytes    packets errs drop fifo frame compressed multicast|bytes    packets errs drop fifo colls carrier compressed\n    lo:    1000      10    0    0    0     0          0         0     1000      10    0    0    0     0       0          0\n  ens5: 9000000    7000    0    0    0     0          0         0  5000000    6000    0    0    0     0       0          0\n"

/-- A target on which every session opens and every command succeeds, with
the texts of one moment. -/
def clientOk : SshClient where
  session := fun _ cmd =>
    if cmd = "cat /proc/stat" then .ran procStat false
    else if cmd = "cat /proc/diskstats" then .ran diskstatsOneDevice false
    else if cmd = "cat /proc/meminfo" then .ran meminfoKernel false
    else if cmd = "cat /proc/net/dev" then .ran procNetDev false
    else .ran netstatOutput false

/-! # Theorems -/

/-! ## TearDown: which deletions are requested, and in which order -/

theorem filter_cons_append {α : Type} (p : α → Bool) (a : α) (l : List α) :
    (a :: l).filter p = (if p a then [a] else []) ++ l.filter p := by
  cases h : p a <;> simp [List.filter_cons, h]

theorem deletes_tearDownKeyPair (o : ec2BenchmarkOrchestrator) (api : Event → Option GoError) :
    (tearDownKeyPair o api).filterMap Event.deletes
      = if (o.identifier .keyPair).isSome then [.keyPair] else [] := by
  unfold tearDownKeyPair ec2BenchmarkOrchestrator.identifier
  cases o.keyID with
  | none => simp
  | some v =>
    simp only []
    generalize api _ = r
    cases r
    all_goals simp [logDeletion, logFailure, Event.deletes]

theorem deletes_tearDownInstanceProfile (o : ec2BenchmarkOrchestrator)
    (api : Event → Option GoError) :
    (tearDownInstanceProfile o api).filterMap Event.deletes
      = if (o.identifier .instanceProfile).isSome then [.instanceProfile] else [] := by
  unfold tearDownInstanceProfile ec2BenchmarkOrchestrator.identifier
  cases o.insProfName with
  | none => simp
  | some v =>
    simp only []
    generalize api (Event.DeleteInstanceProfile v) = r2
    generalize api _ = r
    cases r <;> cases r2
    all_goals simp [logDeletion, logFailure, Event.deletes]

theorem deletes_tearDownRole (o : ec2BenchmarkOrchestrator) (api : Event → Option GoError) :
    (tearDownRole o api).filterMap Event.deletes
      = if (o.identifier .role).isSome then [.role] else [] := by
  unfold tearDownRole ec2BenchmarkOrchestrator.identifier
  cases o.roleName with
  | none => simp
  | some v =>
    simp only []
    generalize api (Event.DeleteRole v) = r2
    generalize api _ = r
    cases r <;> cases r2
    all_goals simp [logDeletion, logFailure, Event.deletes]

theorem deletes_tearDownSecurityGroup (o : ec2BenchmarkOrchestrator)
    (api : Event → Option GoError) :
    (tearDownSecurityGroup o api).filterMap Event.deletes
      = if (o.identifier .securityGroup).isSome then [.securityGroup] else [] := by
  unfold tearDownSecurityGroup ec2BenchmarkOrchestrator.identifier
  cases o.sgID with
  | none => simp
  | some v =>
    simp only []
    generalize api _ = r
    cases r
    all_goals simp [logDeletion, logFailure, Event.deletes]

theorem deletes_tearDownInternetGateway (o : ec2BenchmarkOrchestrator)
    (api : Event → Option GoError) :
    (tearDownInternetGateway o api).filterMap Event.deletes
      = if (o.identifier .internetGateway).isSome then [.internetGateway] else [] := by
  unfold tearDownInternetGateway ec2BenchmarkOrchestrator.identifier
  cases o.igwID with
  | none => simp
  | some v =>
    simp only []
    generalize api (Event.DeleteInternetGateway v) = r2
    generalize api _ = r
    cases r <;> cases r2
    all_goals simp [logDeletion, logFailure, Event.deletes]

theorem deletes_tearDownS3Endpoint (o : ec2BenchmarkOrchestrator) (api : Event → Option GoError) :
    (tearDownS3Endpoint o api).filterMap Event.deletes
      = if (o.identifier .storageEndpoint).isSome then [.storageEndpoint] else [] := by
  unfold tearDownS3Endpoint ec2BenchmarkOrchestrator.identifier
  cases o.s3EndpointID with
  | none => simp
  | some v =>
    simp only []
    generalize api _ = r
    cases r
    all_goals simp [logDeletion, logFailure, Event.deletes]

theorem deletes_tearDownSubnet (o : ec2BenchmarkOrchestrator) (api : Event → Option GoError) :
    (tearDownSubnet o api).filterMap Event.deletes
      = if (o.identifier .subnet).isSome then [.subnet] else [] := by
  unfold tearDownSubnet ec2BenchmarkOrchestrator.identifier
  cases o.subnetID with
  | none => simp
  | some v =>
    simp only []
    generalize api _ = r
    cases r
    all_goals simp [logDeletion, logFailure, Event.deletes]

theorem deletes_tearDownVpc (o : ec2BenchmarkOrchestrator) (api : Event → Option GoError) :
    (tearDownVpc o api).filterMap Event.deletes
      = if (o.identifier .virtualNetwork).isSome then [.virtualNetwork] else [] := by
  unfold tearDownVpc ec2BenchmarkOrchestrator.identifier
  cases o.vpcID with
  | none => simp
  | some v =>
    simp only []
    generalize api _ = r
    cases r
    all_goals simp [logDeletion, logFailure, Event.deletes]

theorem TearDown_deletes (o : ec2BenchmarkOrchestrator) (api : Event → Option GoError) :
    (TearDown o api).trace.filterMap Event.deletes
      = tearDownOrder.filter (fun r => (o.identifier r).isSome) := by
  simp only [TearDown, List.filterMap_append, deletes_tearDownKeyPair,
    deletes_tearDownInstanceProfile, deletes_tearDownRole, deletes_tearDownSecurityGroup,
    deletes_tearDownInternetGateway, deletes_tearDownS3Endpoint, deletes_tearDownSubnet,
    deletes_tearDownVpc, tearDownOrder, filter_cons_append, List.filter_nil, List.append_nil,
    List.append_assoc]

theorem not_deletes_logDeletion {e : Event} (he : e.deletes.isSome) (r : Option GoError)
    (what done key id : String) : e ≠ logDeletion r what done key id := by
  rintro rfl
  cases r <;> simp [logDeletion, Event.deletes] at he

theorem not_mem_logFailure {e : Event} (he : e.deletes.isSome) (r : Option GoError)
    (level : Level) (what : String) : e ∉ logFailure r level what := by
  intro hm
  cases r <;> simp [logFailure] at hm
  subst hm
  simp [Event.deletes] at he

theorem mem_tearDownKeyPair {o : ec2BenchmarkOrchestrator} {api : Event → Option GoError}
    {e : Event} (he : e.deletes.isSome) :
    e ∈ tearDownKeyPair o api ↔ ∃ v, o.keyID = some v ∧ e = .DeleteKeyPair v := by
  unfold tearDownKeyPair
  cases o.keyID <;> simp [not_deletes_logDeletion he]

theorem mem_tearDownInstanceProfile {o : ec2BenchmarkOrchestrator}
    {api : Event → Option GoError} {e : Event} (he : e.deletes.isSome) :
    e ∈ tearDownInstanceProfile o api ↔ ∃ v, o.insProfName = some v ∧ e = .DeleteInstanceProfile v := by
  unfold tearDownInstanceProfile
  cases o.insProfName with
  | none => simp
  | some v =>
    simp [not_deletes_logDeletion he, not_mem_logFailure he]
    rintro rfl
    simp [Event.deletes] at he

theorem mem_tearDownRole {o : ec2BenchmarkOrchestrator} {api : Event → Option GoError}
    {e : Event} (he : e.deletes.isSome) :
    e ∈ tearDownRole o api ↔ ∃ v, o.roleName = some v ∧ e = .DeleteRole v := by
  unfold tearDownRole
  cases o.roleName with
  | none => simp
  | some v =>
    simp [not_deletes_logDeletion he, not_mem_logFailure he]
    rintro rfl
    simp [Event.deletes] at he

theorem mem_tearDownSecurityGroup {o : ec2BenchmarkOrchestrator} {api : Event → Option GoError}
    {e : Event} (he : e.deletes.isSome) :
    e ∈ tearDownSecurityGroup o api ↔ ∃ v, o.sgID = some v ∧ e = .DeleteSecurityGroup v := by
  unfold tearDownSecurityGroup
  cases o.sgID <;> simp [not_deletes_logDeletion he]

theorem mem_tearDownInternetGateway {o : ec2BenchmarkOrchestrator}
    {api : Event → Option GoError} {e : Event} (he : e.deletes.isSome) :
    e ∈ tearDownInternetGateway o api ↔ ∃ v, o.igwID = some v ∧ e = .DeleteInternetGateway v := by
  unfold tearDownInternetGateway
  cases o.igwID with
  | none => simp
  | some v =>
    simp [not_deletes_logDeletion he, not_mem_logFailure he]
    rintro rfl
    simp [Event.deletes] at he

theorem mem_tearDownS3Endpoint {o : ec2BenchmarkOrchestrator} {api : Event → Option GoError}
    {e : Event} (he : e.deletes.isSome) :
    e ∈ tearDownS3Endpoint o api ↔ ∃ v, o.s3EndpointID = some v ∧ e = .DeleteVpcEndpoints [v] := by
  unfold tearDownS3Endpoint
  cases o.s3EndpointID <;> simp [not_deletes_logDeletion he]

theorem mem_tearDownSubnet {o : ec2BenchmarkOrchestrator} {api : Event → Option GoError}
    {e : Event} (he : e.deletes.isSome) :
    e ∈ tearDownSubnet o api ↔ ∃ v, o.subnetID = some v ∧ e = .DeleteSubnet v := by
  unfold tearDownSubnet
  cases o.subnetID <;> simp [not_deletes_logDeletion he]

theorem mem_tearDownVpc {o : ec2BenchmarkOrchestrator} {api : Event → Option GoError}
    {e : Event} (he : e.deletes.isSome) :
    e ∈ tearDownVpc o api ↔ ∃ v, o.vpcID = some v ∧ e = .DeleteVpc v := by
  unfold tearDownVpc
  cases o.vpcID <;> simp [not_deletes_logDeletion he]

theorem mem_TearDown {o : ec2BenchmarkOrchestrator} {api : Event → Option GoError}
    {e : Event} (he : e.deletes.isSome) :
    e ∈ (TearDown o api).trace ↔
      (∃ v, o.keyID = some v ∧ e = .DeleteKeyPair v) ∨
      (∃ v, o.insProfName = some v ∧ e = .DeleteInstanceProfile v) ∨
      (∃ v, o.roleName = some v ∧ e = .DeleteRole v) ∨
      (∃ v, o.sgID = some v ∧ e = .DeleteSecurityGroup v) ∨
      (∃ v, o.igwID = some v ∧ e = .DeleteInternetGateway v) ∨
      (∃ v, o.s3EndpointID = some v ∧ e = .DeleteVpcEndpoints [v]) ∨
      (∃ v, o.subnetID = some v ∧ e = .DeleteSubnet v) ∨
      (∃ v, o.vpcID = some v ∧ e = .DeleteVpc v) := by
  simp only [TearDown, List.mem_append, mem_tearDownKeyPair he, mem_tearDownInstanceProfile he,
    mem_tearDownRole he, mem_tearDownSecurityGroup he, mem_tearDownInternetGateway he,
    mem_tearDownS3Endpoint he, mem_tearDownSubnet he, mem_tearDownVpc he, or_assoc]

/-! ## SetUp: the resources created so far -/

theorem setUpKeyPair_stage (api : SetUpApi) (o : ec2BenchmarkOrchestrator) (tr : List Event)
    (h : AtStage 7 o tr) : Staged (setUpKeyPair api o tr) := by
  obtain ⟨h1, h2⟩ := h
  simp [idFlags, List.replicate] at h2
  unfold setUpKeyPair
  split
  · exact ⟨7, by omega, by
      simp [AtStage, List.filterMap_append, h1, Event.created, idFlags, h2, List.replicate]⟩
  · split <;> exact ⟨8, by omega, by
      simp [AtStage, List.filterMap_append, h1, Event.created, idFlags, h2, List.replicate,
        setUpOrder]⟩

theorem setUpIdentity_stage (api : SetUpApi) (o : ec2BenchmarkOrchestrator) (tr : List Event)
    (h : AtStage 5 o tr) : Staged (setUpIdentity api o tr) := by
  obtain ⟨h1, h2⟩ := h
  simp [idFlags, List.replicate] at h2
  unfold setUpIdentity
  split
  · exact ⟨5, by omega, by
      simp [AtStage, List.filterMap_append, h1, Event.created, idFlags, h2, List.replicate]⟩
  · split
    · exact ⟨6, by omega, by
        simp [AtStage, List.filterMap_append, h1, Event.created, idFlags, h2, List.replicate,
          setUpOrder]⟩
    · split
      · exact ⟨6, by omega, by
          simp [AtStage, List.filterMap_append, h1, Event.created, idFlags, h2, List.replicate,
            setUpOrder]⟩
      · apply setUpKeyPair_stage
        simp [AtStage, List.filterMap_append, h1, Event.created, idFlags, h2, List.replicate,
          setUpOrder]

theorem setUpSecurityGroup_stage (api : SetUpApi) (o : ec2BenchmarkOrchestrator) (vpcID : String)
    (tr : List Event) (h : AtStage 4 o tr) : Staged (setUpSecurityGroup api o vpcID tr) := by
  obtain ⟨h1, h2⟩ := h
  simp [idFlags, List.replicate] at h2
  unfold setUpSecurityGroup
  split
  · exact ⟨4, by omega, by
      simp [AtStage, List.filterMap_append, h1, Event.created, idFlags, h2, List.replicate]⟩
  · split
    · exact ⟨5, by omega, by
        simp [AtStage, List.filterMap_append, h1, Event.created, idFlags, h2, List.replicate,
          setUpOrder]⟩
    · apply setUpIdentity_stage
      simp [AtStage, List.filterMap_append, h1, Event.created, idFlags, h2, List.replicate,
        setUpOrder]

theorem collectS3Prefixes_created (api : SetUpApi) (routes : List Route) (acc : List Prefix)
    (tr : List Event) :
    (collectS3Prefixes api routes acc tr).2.2.filterMap Event.created
      = tr.filterMap Event.created := by
  induction routes generalizing acc tr with
  | nil => simp [collectS3Prefixes]
  | cons route rest ih =>
    unfold collectS3Prefixes
    split
    · exact ih _ _
    · split
      · simp [List.filterMap_append, Event.created]
      · split
        · simp [List.filterMap_append, Event.created]
        · rw [ih]; simp [List.filterMap_append, Event.created]

theorem setUpS3Endpoint_stage (api : SetUpApi) (o : ec2BenchmarkOrchestrator)
    (vpcID routeTableID : String) (tr : List Event) (h : AtStage 3 o tr) :
    Staged (setUpS3Endpoint api o vpcID routeTableID tr) := by
  obtain ⟨h1, h2⟩ := h
  simp [idFlags, List.replicate] at h2
  unfold setUpS3Endpoint
  cases api.CreateVpcEndpoint with
  | error err =>
    exact ⟨3, by omega, by
      simp [AtStage, List.filterMap_append, h1, Event.created, idFlags, h2, List.replicate]⟩
  | ok epID =>
    dsimp only
    cases api.DescribeRouteTablesById with
    | error err =>
      exact ⟨4, by omega, by
        simp [AtStage, List.filterMap_append, h1, Event.created, idFlags, h2, List.replicate,
          setUpOrder]⟩
    | ok rts =>
      cases rts with
      | nil =>
        exact ⟨4, by omega, by
          simp [AtStage, List.filterMap_append, h1, Event.created, idFlags, h2, List.replicate,
            setUpOrder]⟩
      | cons rt rest =>
        dsimp only
        generalize hres : collectS3Prefixes api rt.Routes _ _ = res
        have hc := collectS3Prefixes_created api rt.Routes o.s3Prefixes
          (tr ++ [.CreateVpcEndpoint vpcID routeTableID,
                  .slog .Debug "created S3 endpoint" [("ID", epID)],
                  .DescribeRouteTablesById routeTableID])
        rw [hres] at hc
        obtain ⟨e, ps, tr2⟩ := res
        simp [List.filterMap_append, h1, Event.created] at hc
        cases e with
        | some err =>
          exact ⟨4, by omega, by
            simp [AtStage, hc, idFlags, h2, List.replicate, setUpOrder]⟩
        | none =>
          apply setUpSecurityGroup_stage
          simp [AtStage, hc, idFlags, h2, List.replicate, setUpOrder]

theorem setUpInternetGateway_stage (api : SetUpApi) (o : ec2BenchmarkOrchestrator)
    (vpcID : String) (tr : List Event) (h : AtStage 2 o tr) :
    Staged (setUpInternetGateway api o vpcID tr) := by
  obtain ⟨h1, h2⟩ := h
  simp [idFlags, List.replicate] at h2
  unfold setUpInternetGateway
  cases api.CreateInternetGateway with
  | error err =>
    exact ⟨2, by omega, by
      simp [AtStage, List.filterMap_append, h1, Event.created, idFlags, h2, List.replicate]⟩
  | ok igwID =>
    dsimp only
    cases api.AttachInternetGateway with
    | some err =>
      exact ⟨3, by omega, by
        simp [AtStage, List.filterMap_append, h1, Event.created, idFlags, h2, List.replicate,
          setUpOrder]⟩
    | none =>
      dsimp only
      cases api.DescribeRouteTablesOfVpc with
      | error err =>
        exact ⟨3, by omega, by
          simp [AtStage, List.filterMap_append, h1, Event.created, idFlags, h2, List.replicate,
            setUpOrder]⟩
      | ok rts =>
        cases rts with
        | nil =>
          exact ⟨3, by omega, by
            simp [AtStage, List.filterMap_append, h1, Event.created, idFlags, h2, List.replicate,
              setUpOrder]⟩
        | cons rt rest =>
          dsimp only
          cases api.CreateRoute with
          | some err =>
            exact ⟨3, by omega, by
              simp [AtStage, List.filterMap_append, h1, Event.created, idFlags, h2,
                List.replicate, setUpOrder]⟩
          | none =>
            apply setUpS3Endpoint_stage
            simp [AtStage, List.filterMap_append, h1, Event.created, idFlags, h2, List.replicate,
              setUpOrder]

theorem setUpNetwork_stage (api : SetUpApi) (o : ec2BenchmarkOrchestrator) (tr : List Event)
    (h : AtStage 0 o tr) : Staged (setUpNetwork api o tr) := by
  obtain ⟨h1, h2⟩ := h
  simp [idFlags, List.replicate] at h2
  unfold setUpNetwork
  cases api.CreateVpc with
  | error err =>
    exact ⟨0, by omega, by
      simp [AtStage, List.filterMap_append, h1, Event.created, idFlags, h2, List.replicate]⟩
  | ok vpcID =>
    dsimp only
    cases api.ModifyVpcAttribute .EnableDnsSupport with
    | some err =>
      exact ⟨1, by omega, by
        simp [AtStage, List.filterMap_append, h1, Event.created, idFlags, h2, List.replicate,
          setUpOrder]⟩
    | none =>
      dsimp only
      cases api.ModifyVpcAttribute .EnableDnsHostnames with
      | some err =>
        exact ⟨1, by omega, by
          simp [AtStage, List.filterMap_append, h1, Event.created, idFlags, h2, List.replicate,
            setUpOrder]⟩
      | none =>
        dsimp only
        cases api.CreateSubnet with
        | error err =>
          exact ⟨1, by omega, by
            simp [AtStage, List.filterMap_append, h1, Event.created, idFlags, h2, List.replicate,
              setUpOrder]⟩
        | ok subnetID =>
          apply setUpInternetGateway_stage
          simp [AtStage, List.filterMap_append, h1, Event.created, idFlags, h2, List.replicate,
            setUpOrder]

theorem SetUp_stage (api : SetUpApi) (cfg : BenchmarkConfig) :
    Staged (SetUp api NewEC2BenchmarkOrchestrator cfg) := by
  unfold SetUp
  dsimp only
  split
  · exact ⟨0, by omega, by simp [AtStage, idFlags, NewEC2BenchmarkOrchestrator, List.replicate]⟩
  · cases api.MkdirAll cfg.ResultDir with
    | some err =>
      exact ⟨0, by omega, by
        simp [AtStage, idFlags, NewEC2BenchmarkOrchestrator, List.replicate, Event.created]⟩
    | none =>
      apply setUpNetwork_stage
      simp [AtStage, idFlags, NewEC2BenchmarkOrchestrator, List.replicate, Event.created]

/-! ## SetUp and TearDown: the settled claims -/

/-- C3 (as stated, refuted): after a `SetUp` in which every call succeeds
(result directory `results`, `SetUp` returns nil), the resources were created
in the order virtual network, subnet, internet gateway, storage endpoint,
security group, role, instance profile, key pair, and `TearDown` requests the
deletions in the order key pair, instance profile, role, security group,
internet gateway, storage endpoint, subnet, virtual network, which is not the
reverse: the gateway goes before the endpoint. -/
theorem TearDown_order_is_not_reverse_of_SetUp :
    (SetUp cloudOk NewEC2BenchmarkOrchestrator configResults).ret = none ∧
      (SetUp cloudOk NewEC2BenchmarkOrchestrator configResults).trace.filterMap Event.created
        = [.virtualNetwork, .subnet, .internetGateway, .storageEndpoint, .securityGroup, .role,
           .instanceProfile, .keyPair] ∧
      (TearDown (SetUp cloudOk NewEC2BenchmarkOrchestrator configResults).o
          (fun _ => none)).trace.filterMap Event.deletes
        = [.keyPair, .instanceProfile, .role, .securityGroup, .internetGateway, .storageEndpoint,
           .subnet, .virtualNetwork] ∧
      (TearDown (SetUp cloudOk NewEC2BenchmarkOrchestrator configResults).o
          (fun _ => none)).trace.filterMap Event.deletes
        ≠ ((SetUp cloudOk NewEC2BenchmarkOrchestrator configResults).trace.filterMap
            Event.created).reverse := by
  decide

/-- C3 (amended): whatever the cloud answers to `SetUp` and to the deletion
requests, the resources `SetUp` created form an initial segment of the
creation order (virtual network, subnet, internet gateway, storage endpoint,
security group, role, instance profile, key pair), and `TearDown` requests the
deletion of exactly these resources in the fixed order key pair, instance
profile, role, security group, internet gateway, storage endpoint, subnet,
virtual network: the reverse of the creation order except that the internet
gateway is deleted before the storage endpoint. -/
theorem TearDown_order_after_SetUp (api : SetUpApi) (cfg : BenchmarkConfig)
    (del : Event → Option GoError) :
    (SetUp api NewEC2BenchmarkOrchestrator cfg).trace.filterMap Event.created <+: setUpOrder ∧
      (TearDown (SetUp api NewEC2BenchmarkOrchestrator cfg).o del).trace.filterMap Event.deletes
        = tearDownOrder.filter
            (fun res => decide
              (res ∈ (SetUp api NewEC2BenchmarkOrchestrator cfg).trace.filterMap Event.created)) := by
  obtain ⟨k, hk, hc, hf⟩ := SetUp_stage api cfg
  rw [TearDown_deletes, hc]
  refine ⟨List.take_prefix _ _, ?_⟩
  simp only [idFlags] at hf
  interval_cases k <;>
    simp [List.replicate] at hf <;>
    simp [tearDownOrder, setUpOrder, ec2BenchmarkOrchestrator.identifier, hf, List.filter]

/-- C2: for every orchestrator state and every outcome of the deletion calls,
the trace of `TearDown` contains the deletion request of a resource exactly
when the identifier of that resource is non-nil, and the request carries that
identifier. No error of an earlier call removes a later request, and nothing
is requested for a nil identifier. -/
theorem TearDown_attempts_every_recorded_identifier (o : ec2BenchmarkOrchestrator)
    (api : Event → Option GoError) :
    (∀ x, .DeleteKeyPair x ∈ (TearDown o api).trace ↔ o.keyID = some x) ∧
    (∀ x, .DeleteInstanceProfile x ∈ (TearDown o api).trace ↔ o.insProfName = some x) ∧
    (∀ x, .DeleteRole x ∈ (TearDown o api).trace ↔ o.roleName = some x) ∧
    (∀ x, .DeleteSecurityGroup x ∈ (TearDown o api).trace ↔ o.sgID = some x) ∧
    (∀ x, .DeleteInternetGateway x ∈ (TearDown o api).trace ↔ o.igwID = some x) ∧
    (∀ xs, .DeleteVpcEndpoints xs ∈ (TearDown o api).trace ↔
      ∃ x, o.s3EndpointID = some x ∧ xs = [x]) ∧
    (∀ x, .DeleteSubnet x ∈ (TearDown o api).trace ↔ o.subnetID = some x) ∧
    (∀ x, .DeleteVpc x ∈ (TearDown o api).trace ↔ o.vpcID = some x) := by
  refine ⟨?_, ?_, ?_, ?_, ?_, ?_, ?_, ?_⟩ <;> intro x <;>
    rw [mem_TearDown (by simp [Event.deletes])] <;> simp

theorem appendEntries_congr (a b : SetUpApi) (h : a.ParsePrefix = b.ParsePrefix) :
    ∀ (es : List String) (acc : List Prefix), appendEntries a es acc = appendEntries b es acc := by
  intro es
  induction es with
  | nil => intro acc; rfl
  | cons cidr rest ih =>
    intro acc
    simp only [appendEntries, h, ih]

theorem collectS3Prefixes_congr (a b : SetUpApi) (h1 : a.ParsePrefix = b.ParsePrefix)
    (h2 : a.GetManagedPrefixListEntries = b.GetManagedPrefixListEntries) :
    ∀ (rs : List Route) (acc : List Prefix) (tr : List Event),
      collectS3Prefixes a rs acc tr = collectS3Prefixes b rs acc tr := by
  intro rs
  induction rs with
  | nil => intro acc tr; rfl
  | cons route rest ih =>
    intro acc tr
    simp only [collectS3Prefixes, h2, appendEntries_congr a b h1, ih]

theorem SetUp_discards_AddRoleToInstanceProfile (api : SetUpApi) (o : ec2BenchmarkOrchestrator)
    (cfg : BenchmarkConfig) (r1 r2 : Option GoError) :
    SetUp { api with AddRoleToInstanceProfile := r1 } o cfg
      = SetUp { api with AddRoleToInstanceProfile := r2 } o cfg := by
  have hc := collectS3Prefixes_congr { api with AddRoleToInstanceProfile := r1 }
    { api with AddRoleToInstanceProfile := r2 } rfl rfl
  simp only [SetUp, setUpNetwork, setUpInternetGateway, setUpS3Endpoint, setUpSecurityGroup,
    setUpIdentity, setUpKeyPair, hc]

/-- C4 (the code departs from it): the value that `AddRoleToInstanceProfile`
returns takes no part in what `SetUp` does: for every world, orchestrator and
configuration, `SetUp` ends in the same state, with the same returned error
and the same trace, whether that call fails with an error `e` or succeeds. So
in the world `cloudAddRoleFails`, where the result directory `results` is
created and every call of the cloud succeeds except `AddRoleToInstanceProfile`,
`SetUp` makes that call, receives its error, goes on to create the key pair,
and returns nil. -/
theorem SetUp_ignores_AddRoleToInstanceProfile_error :
    (∀ (api : SetUpApi) (o : ec2BenchmarkOrchestrator) (cfg : BenchmarkConfig) (e : GoError),
        SetUp { api with AddRoleToInstanceProfile := some e } o cfg
          = SetUp { api with AddRoleToInstanceProfile := none } o cfg) ∧
      cloudAddRoleFails.MkdirAll configResults.ResultDir = none ∧
      cloudAddRoleFails.AddRoleToInstanceProfile = some (ErrorNew "LimitExceeded") ∧
      (SetUp cloudAddRoleFails NewEC2BenchmarkOrchestrator configResults).trace.head?
        = some (.MkdirAll "results") ∧
      Event.AddRoleToInstanceProfile "benchmark-profile" "benchmark-role"
        ∈ (SetUp cloudAddRoleFails NewEC2BenchmarkOrchestrator configResults).trace ∧
      Event.CreateKeyPair
        ∈ (SetUp cloudAddRoleFails NewEC2BenchmarkOrchestrator configResults).trace ∧
      (SetUp cloudAddRoleFails NewEC2BenchmarkOrchestrator configResults).ret = none ∧
      (SetUp cloudAddRoleFails NewEC2BenchmarkOrchestrator configResults).panicked = false ∧
      (SetUp cloudAddRoleFails NewEC2BenchmarkOrchestrator configResults).o.keyID
        = some "key-1" := by
  refine ⟨fun api o cfg e => SetUp_discards_AddRoleToInstanceProfile api o cfg _ _,
    ?_, ?_, ?_, ?_, ?_, ?_, ?_, ?_⟩ <;> decide

/-- C5 (the code departs from it): for every orchestrator state and every
outcome of the deletion calls, `TearDown` returns the non-nil error
`not implemented`. -/
theorem TearDown_returns_not_implemented (o : ec2BenchmarkOrchestrator)
    (api : Event → Option GoError) :
    (TearDown o api).ret = some (ErrorNew "not implemented") ∧ (TearDown o api).ret ≠ none := by
  simp [TearDown]

/-! ## The reachability wait -/

theorem waitForTargetReachableLoop_succeeds (target : Target) (k : Nat) :
    ∀ (n : Nat) (st : JobState), k < n →
      (∀ i, i < k → (target.RunCommand (st.targetCalls + i) "whoami").2 ≠ none) →
      (target.RunCommand (st.targetCalls + k) "whoami").2 = none →
      TrimSpace (target.RunCommand (st.targetCalls + k) "whoami").1 = "ubuntu" →
      ∃ es, waitForTargetReachableLoop target n st
            = (.ok (), { st with trace := st.trace ++ es, targetCalls := st.targetCalls + (k + 1) }) ∧
          es.count (.RunCommand "whoami") = k + 1 := by
  induction k with
  | zero =>
    intro n st hn _ herr hout
    obtain ⟨m, rfl⟩ : ∃ m, n = m + 1 := ⟨n - 1, by omega⟩
    refine ⟨[.RunCommand "whoami"], ?_, by simp⟩
    simp only [Nat.add_zero] at herr hout
    simp [waitForTargetReachableLoop, herr, hout, JobState.ran]
  | succ k ih =>
    intro n st hn hfail herr hout
    obtain ⟨m, rfl⟩ : ∃ m, n = m + 1 := ⟨n - 1, by omega⟩
    have h0 := hfail 0 (by omega)
    simp only [Nat.add_zero] at h0
    obtain ⟨err, he⟩ := Option.ne_none_iff_exists'.mp h0
    obtain ⟨es, hes, hcount⟩ := ih m
      ((st.ran "whoami").emit
        [.slog .Debug "target reachability check failed" [("error", err.Error)], .Sleep 10])
      (by omega)
      (fun i hi => by
        have := hfail (i + 1) (by omega)
        simpa [JobState.ran, JobState.emit, Nat.add_assoc, Nat.add_comm 1 i] using this)
      (by simpa [JobState.ran, JobState.emit, Nat.add_assoc, Nat.add_comm 1 k] using herr)
      (by simpa [JobState.ran, JobState.emit, Nat.add_assoc, Nat.add_comm 1 k] using hout)
    refine ⟨[.RunCommand "whoami",
      .slog .Debug "target reachability check failed" [("error", err.Error)], .Sleep 10] ++ es,
      ?_, ?_⟩
    · rw [waitForTargetReachableLoop]
      simp only [he, Option.isSome_some, Bool.true_or, if_true]
      rw [hes]
      simp [JobState.ran, JobState.emit, Nat.add_assoc, Nat.add_comm 1 k]
      omega
    · simp [List.count_append, hcount, List.count_cons]

theorem waitForTargetReachableLoop_calls (target : Target) :
    ∀ (n : Nat) (st : JobState),
      (waitForTargetReachableLoop target n st).2.targetCalls ≤ st.targetCalls + n := by
  intro n
  induction n with
  | zero => intro st; simp [waitForTargetReachableLoop]
  | succ n ih =>
    intro st
    rw [waitForTargetReachableLoop]
    split
    · split
      · simp [JobState.ran]
      · rename_i err _
        have := ih ((st.ran "whoami").emit
          [.slog .Debug "target reachability check failed" [("error", err.Error)], .Sleep 10])
        simp [JobState.ran, JobState.emit] at this ⊢
        omega
    · simp [JobState.ran]

/-- C9: if the target fails `whoami` with an error on its next `k < 30` calls
and then answers `ubuntu` without error, `waitForTargetReachable` returns nil,
the target has received exactly `k + 1` further commands, all of them `whoami`
calls of this wait; and whatever a target answers, the wait sends it at most
30 commands. -/
theorem waitForTargetReachable_succeeds_on_attempt (target : Target) (st : JobState) (k : Nat)
    (hk : k < 30)
    (hfail : ∀ i, i < k → (target.RunCommand (st.targetCalls + i) "whoami").2 ≠ none)
    (hok : target.RunCommand (st.targetCalls + k) "whoami" = ("ubuntu", none)) :
    (waitForTargetReachable target st).1 = .ok () ∧
      (waitForTargetReachable target st).2.targetCalls = st.targetCalls + (k + 1) ∧
      (∃ es, (waitForTargetReachable target st).2.trace = st.trace ++ es ∧
        es.count (.RunCommand "whoami") = k + 1) ∧
      (∀ (t : Target) (s : JobState),
        (waitForTargetReachable t s).2.targetCalls ≤ s.targetCalls + 30) := by
  have hout : TrimSpace (target.RunCommand (st.targetCalls + k) "whoami").1 = "ubuntu" := by
    rw [hok]; decide
  obtain ⟨es, hes, hcount⟩ := waitForTargetReachableLoop_succeeds target k 30 st hk hfail
    (by rw [hok]) hout
  refine ⟨?_, ?_, ⟨es, ?_, hcount⟩, fun t s => waitForTargetReachableLoop_calls t 30 s⟩ <;>
    simp [waitForTargetReachable, hes]

/-- C9, witness: refused three times, the wait succeeds on the fourth attempt. -/
theorem waitForTargetReachable_succeeds_on_fourth_attempt :
    (∀ i, i < 3 →
        ((targetReachableAfter 3).RunCommand (({} : JobState).targetCalls + i) "whoami").2 ≠ none) ∧
      (targetReachableAfter 3).RunCommand (({} : JobState).targetCalls + 3) "whoami"
        = ("ubuntu", none) ∧
      (waitForTargetReachable (targetReachableAfter 3) {}).1 = .ok () ∧
      (waitForTargetReachable (targetReachableAfter 3) {}).2.targetCalls
        = ({} : JobState).targetCalls + (3 + 1) ∧
      (∃ es, (waitForTargetReachable (targetReachableAfter 3) {}).2.trace
          = ({} : JobState).trace ++ es ∧ es.count (.RunCommand "whoami") = 3 + 1) ∧
      (∀ (t : Target) (s : JobState),
        (waitForTargetReachable t s).2.targetCalls ≤ s.targetCalls + 30) :=
  ⟨by decide, by decide,
    waitForTargetReachable_succeeds_on_attempt (targetReachableAfter 3) {} 3 (by decide)
      (by decide) (by decide)⟩

/-- C10 (the code departs from it): a target that answers `whoami` without
error but with `root`, or with an empty output, is not retried: the first
such reply makes `waitForTargetReachable` panic, after one command and
without any sleep, instead of returning the timeout error after 30 attempts. -/
theorem waitForTargetReachable_panics_on_other_user :
    (waitForTargetReachable (targetAnswering "root") {}).1 = .panic ∧
      (waitForTargetReachable (targetAnswering "root") {}).2.trace = [.RunCommand "whoami"] ∧
      (waitForTargetReachable (targetAnswering "") {}).1 = .panic ∧
      (waitForTargetReachable (targetAnswering "") {}).2.trace = [.RunCommand "whoami"] := by
  decide

/-! ## The trace of a job before its instance is terminated -/

theorem Advances.refl (st : JobState) : Advances st st := ⟨[], by simp⟩

theorem Advances.trans {a b c : JobState} (h1 : Advances a b) (h2 : Advances b c) :
    Advances a c := by
  obtain ⟨es, he, ht, hd⟩ := h1
  obtain ⟨fs, hf, ht2, hd2⟩ := h2
  refine ⟨es ++ fs, by rw [hf, he, List.append_assoc], ?_, ?_⟩
  · simp only [List.all_append, ht, ht2, Bool.and_self]
  · rw [hd2, hd, List.countP_append]; omega

theorem Advances.emit {a b : JobState} (h : Advances a b) (es : List Event)
    (hq : es.all (fun e => !e.isTerminate && !e.isDescribe) = true) :
    Advances a (b.emit es) := by
  refine h.trans ⟨es, rfl, ?_, ?_⟩
  · simp only [List.all_eq_true, Bool.and_eq_true, Bool.not_eq_true'] at hq ⊢
    exact fun e he => (hq e he).1
  · have : es.countP Event.isDescribe = 0 := by
      rw [List.countP_eq_zero]
      simp only [List.all_eq_true, Bool.and_eq_true, Bool.not_eq_true'] at hq
      intro e he
      simp [(hq e he).2]
    simp [JobState.emit, this]

theorem Advances.ran {a b : JobState} (h : Advances a b) (cmd : String) :
    Advances a (b.ran cmd) :=
  h.trans ⟨[.RunCommand cmd], rfl, by simp [Event.isTerminate], by
    simp [JobState.ran, Event.isDescribe]⟩

theorem Advances.described {a b : JobState} (h : Advances a b) (id : String) :
    Advances a (b.described id) :=
  h.trans ⟨[.DescribeInstances id], rfl, by simp [Event.isTerminate], by
    simp [JobState.described, Event.isDescribe]⟩

theorem launchInstanceLoop_advances (ec2 : Ec2Api) (ty : String) :
    ∀ (n i : Nat) (err : Option GoError) (a st : JobState), Advances a st →
      Advances a (launchInstanceLoop ec2 ty n i err st).2 := by
  intro n
  induction n with
  | zero =>
    intro i err a st h
    unfold launchInstanceLoop
    split <;> exact h
  | succ n ih =>
    intro i err a st h
    unfold launchInstanceLoop
    dsimp only
    split
    · exact h.emit _ (by simp [Event.isTerminate, Event.isDescribe])
    · exact (h.emit _ (by simp [Event.isTerminate, Event.isDescribe])).emit _
        (by simp [Event.isTerminate, Event.isDescribe])
    · exact ih _ _ _ _ ((h.emit _ (by simp [Event.isTerminate, Event.isDescribe])).emit _
        (by simp [Event.isTerminate, Event.isDescribe]))

theorem waitInitializedLoop_advances (ec2 : Ec2Api) (id : String) :
    ∀ (n i : Nat) (err : Option GoError) (a st : JobState), Advances a st →
      Advances a (waitInitializedLoop ec2 id n i err st).2 := by
  intro n
  induction n with
  | zero => intro i err a st h; exact h
  | succ n ih =>
    intro i err a st h
    unfold waitInitializedLoop
    dsimp only
    split
    · split
      · exact h.emit _ (by simp [Event.isTerminate, Event.isDescribe])
      · exact ih _ _ _ _ ((h.emit _ (by simp [Event.isTerminate, Event.isDescribe])).emit _
          (by simp [*, Event.isTerminate, Event.isDescribe, logWaiting]))
    · exact ih _ _ _ _ ((h.emit _ (by simp [Event.isTerminate, Event.isDescribe])).emit _
        (by simp [*, Event.isTerminate, Event.isDescribe, logWaiting]))

theorem getInstanceIPLoop_advances (ec2 : Ec2Api) (id : String) :
    ∀ (n : Nat) (a st : JobState), Advances a st →
      Advances a (getInstanceIPLoop ec2 id n st).2 := by
  intro n
  induction n with
  | zero => intro a st h; exact h
  | succ n ih =>
    intro a st h
    unfold getInstanceIPLoop
    dsimp only
    split
    · exact h.described _
    · exact h.described _
    · split
      · exact h.described _
      · split
        · exact h.described _
        · exact ih _ _ ((h.described _).emit _ (by simp [Event.isTerminate, Event.isDescribe]))

theorem waitForTargetReachableLoop_advances (target : Target) :
    ∀ (n : Nat) (a st : JobState), Advances a st →
      Advances a (waitForTargetReachableLoop target n st).2 := by
  intro n
  induction n with
  | zero => intro a st h; exact h
  | succ n ih =>
    intro a st h
    unfold waitForTargetReachableLoop
    dsimp only
    split
    · split
      · exact h.ran _
      · exact ih _ _ ((h.ran _).emit _ (by simp [Event.isTerminate, Event.isDescribe]))
    · exact h.ran _

theorem configureForRootLogin_advances (target : Target) (a st : JobState) (h : Advances a st) :
    Advances a (configureForRootLogin target st).2 := by
  unfold configureForRootLogin
  dsimp only
  split
  · exact h.ran _
  · split
    · exact (h.ran _).ran _
    · split
      · exact ((h.ran _).ran _).ran _
      · exact ((h.ran _).ran _).ran _

theorem systemMonitorSetUpLoop_advances (target : Target) :
    ∀ (n : Nat) (err : Option GoError) (out : String) (a st : JobState), Advances a st →
      Advances a (systemMonitorSetUpLoop target n err out st).2.2 := by
  intro n
  induction n with
  | zero => intro err out a st h; exact h
  | succ n ih =>
    intro err out a st h
    unfold systemMonitorSetUpLoop
    dsimp only
    split
    · exact ih _ _ _ _ ((h.ran _).emit _ (by simp [Event.isTerminate, Event.isDescribe]))
    · exact h.ran _

theorem systemMonitorSetUp_advances (target : Target) (a st : JobState) (h : Advances a st) :
    Advances a (systemMonitorSetUp target st).2 := by
  unfold systemMonitorSetUp
  have := systemMonitorSetUpLoop_advances target 3 none "" a st h
  generalize systemMonitorSetUpLoop target 3 none "" st = res at this ⊢
  obtain ⟨e, out, st1⟩ := res
  cases e with
  | none => exact this
  | some err => exact Advances.emit this _ (by simp [Event.isTerminate, Event.isDescribe])

theorem benchmarkRunner_SetUp_advances (br : benchmarkRunner) (bench : BenchmarkApi)
    (prof : ProfilerApi) (target : Target) (a st : JobState) (h : Advances a st) :
    Advances a (br.SetUp bench prof target st).2.2 := by
  unfold benchmarkRunner.SetUp
  dsimp only
  have h0 := h.emit [.slog .Info "starting benchmark setup" [("name", br.b.GetName)],
    .BenchmarkSetUp] (by simp [Event.isTerminate, Event.isDescribe])
  split
  · exact h0
  · have := systemMonitorSetUp_advances target a _ h0
    generalize systemMonitorSetUp target _ = res at this ⊢
    obtain ⟨e, st1⟩ := res
    cases e with
    | some err => exact this
    | none =>
      dsimp only
      split
      · split
        · exact this
        · split
          · exact Advances.emit this _ (by simp [Event.isTerminate, Event.isDescribe])
          · exact Advances.emit this _ (by simp [Event.isTerminate, Event.isDescribe])
      · exact Advances.emit this _ (by simp [Event.isTerminate, Event.isDescribe])

theorem runLoop_advances (target : Target) (bench : BenchmarkApi) (name cmd : String) :
    ∀ (n : Nat) (rep : BenchmarkReport) (a st : JobState), Advances a st →
      Advances a (runLoop target bench name cmd n rep st).2.2 := by
  intro n
  induction n with
  | zero => intro rep a st h; exact h
  | succ n ih =>
    intro rep a st h
    unfold runLoop
    dsimp only
    split
    · exact (h.ran _).emit _ (by simp [Event.isTerminate, Event.isDescribe])
    · split
      · exact (h.ran _).emit _ (by simp [Event.isTerminate, Event.isDescribe])
      · exact (h.ran _).emit _ (by simp [Event.isTerminate, Event.isDescribe])
      · exact ih _ _ _ ((h.ran _).emit _ (by simp [Event.isTerminate, Event.isDescribe]))

theorem runProfiled_advances (br : benchmarkRunner) (target : Target) (prof : ProfilerApi)
    (os : OsApi) (cmd : String) (rep : BenchmarkReport) (a st : JobState) (h : Advances a st) :
    Advances a (runProfiled br target prof os cmd rep st).2.2 := by
  unfold runProfiled
  dsimp only
  split
  · exact h.emit _ (by simp [Event.isTerminate, Event.isDescribe])
  · split
    · exact (h.emit _ (by simp [Event.isTerminate, Event.isDescribe])).emit _
        (by simp [Event.isTerminate, Event.isDescribe])
    · split <;>
        exact ((h.emit _ (by simp [Event.isTerminate, Event.isDescribe])).emit _
          (by simp [Event.isTerminate, Event.isDescribe])).emit _
          (by simp [Event.isTerminate, Event.isDescribe])

theorem benchmarkRunner_Run_advances (br : benchmarkRunner) (bench : BenchmarkApi)
    (prof : ProfilerApi) (os : OsApi) (target : Target) (m : SystemMeasurements)
    (a st : JobState) (h : Advances a st) :
    Advances a (br.Run bench prof os target m st).2 := by
  unfold benchmarkRunner.Run
  dsimp only
  have h0 := h.emit [.slog .Info "starting benchmark" [("name", br.b.GetName)]]
    (by simp [Event.isTerminate, Event.isDescribe])
  split
  · exact h0
  · rename_i cmd _
    have h1 := h0.emit [.slog .Debug "benchmark command"
      [("name", br.b.GetName), ("command", cmd)], .TargetClient]
      (by simp [Event.isTerminate, Event.isDescribe])
    split
    · exact h1
    · split
      · generalize hres : runProfiled br target prof os cmd _ _ = res
        have hadv : Advances a res.2.2 := by
          rw [← hres]; exact runProfiled_advances br target prof os cmd _ a _ h1
        obtain ⟨ok, rep2, st2⟩ := res
        cases ok with
        | false => exact hadv
        | true => exact Advances.emit hadv _ (by simp [Event.isTerminate, Event.isDescribe])
      · generalize hres : runLoop target bench br.b.GetName cmd br.runs _ _ = res
        have hadv : Advances a res.2.2 := by
          rw [← hres]; exact runLoop_advances target bench br.b.GetName cmd br.runs _ a _ h1
        obtain ⟨ending, rep2, st2⟩ := res
        cases ending with
        | panicked => exact hadv
        | returned => exact hadv
        | completed => exact Advances.emit hadv _ (by simp [Event.isTerminate, Event.isDescribe])

/-! ## The deferred termination -/

theorem isTerminate_DescribeInstances (id : String) :
    (Event.DescribeInstances id).isTerminate = false := rfl

theorem isTerminate_Sleep (n : Nat) : (Event.Sleep n).isTerminate = false := rfl

theorem isTerminate_slog (l : Level) (m : String) (a : List (String × String)) :
    (Event.slog l m a).isTerminate = false := rfl

theorem isDescribe_DescribeInstances (id : String) :
    (Event.DescribeInstances id).isDescribe = true := rfl

theorem isDescribe_Sleep (n : Nat) : (Event.Sleep n).isDescribe = false := rfl

theorem isDescribe_slog (l : Level) (m : String) (a : List (String × String)) :
    (Event.slog l m a).isDescribe = false := rfl

theorem logWaiting_quiet {α : Type} (what : String) (r : Except GoError α) :
    (logWaiting what r).isTerminate = false ∧ (logWaiting what r).isDescribe = false := by
  cases r <;> exact ⟨rfl, rfl⟩

theorem waitTerminatedLoop_polls (ec2 : Ec2Api) (id : String) :
    ∀ (n : Nat) (st : JobState), ∃ k es,
      (waitTerminatedLoop ec2 id n st).2.trace = st.trace ++ es ∧
      es.all (fun e => !e.isTerminate) = true ∧
      es.filter Event.isDescribe = List.replicate k (.DescribeInstances id) ∧
      k ≤ n ∧ (0 < n → 0 < k) ∧
      (∀ i, i + 1 < k →
        seenState (ec2.DescribeInstances (st.describeCalls + i)) ≠ .ok (some "terminated") ∧
          seenState (ec2.DescribeInstances (st.describeCalls + i)) ≠ .panic) ∧
      (k < n →
        seenState (ec2.DescribeInstances (st.describeCalls + (k - 1)))
            = .ok (some "terminated") ∨
          seenState (ec2.DescribeInstances (st.describeCalls + (k - 1))) = .panic) := by
  intro n
  induction n with
  | zero =>
    intro st
    exact ⟨0, [], by simp [waitTerminatedLoop], by simp, by simp, by omega, by omega,
      by intro i hi; omega, by omega⟩
  | succ n ih =>
    intro st
    have stop : ∀ b : Bool,
        (seenState (ec2.DescribeInstances st.describeCalls) = .ok (some "terminated") ∨
          seenState (ec2.DescribeInstances st.describeCalls) = .panic) →
        ∃ k es,
          ((b, st.described id) : Bool × JobState).2.trace = st.trace ++ es ∧
          es.all (fun e => !e.isTerminate) = true ∧
          es.filter Event.isDescribe = List.replicate k (.DescribeInstances id) ∧
          k ≤ n + 1 ∧ (0 < n + 1 → 0 < k) ∧
          (∀ i, i + 1 < k →
            seenState (ec2.DescribeInstances (st.describeCalls + i))
                ≠ .ok (some "terminated") ∧
              seenState (ec2.DescribeInstances (st.describeCalls + i)) ≠ .panic) ∧
          (k < n + 1 →
            seenState (ec2.DescribeInstances (st.describeCalls + (k - 1)))
                = .ok (some "terminated") ∨
              seenState (ec2.DescribeInstances (st.describeCalls + (k - 1))) = .panic) := by
      intro b hseen
      exact ⟨1, [.DescribeInstances id], by simp [JobState.described],
        by simp [Event.isTerminate], by simp [Event.isDescribe], by omega, by omega,
        by intro i hi; omega, fun _ => by simpa using hseen⟩
    have again :
        (seenState (ec2.DescribeInstances st.describeCalls) ≠ .ok (some "terminated") ∧
          seenState (ec2.DescribeInstances st.describeCalls) ≠ .panic) →
        ∃ k es,
          (waitTerminatedLoop ec2 id n
            ((st.described id).emit
              [logWaiting "waiting for instance to finish terminating"
                (ec2.DescribeInstances st.describeCalls), .Sleep 60])).2.trace = st.trace ++ es ∧
          es.all (fun e => !e.isTerminate) = true ∧
          es.filter Event.isDescribe = List.replicate k (.DescribeInstances id) ∧
          k ≤ n + 1 ∧ (0 < n + 1 → 0 < k) ∧
          (∀ i, i + 1 < k →
            seenState (ec2.DescribeInstances (st.describeCalls + i))
                ≠ .ok (some "terminated") ∧
              seenState (ec2.DescribeInstances (st.describeCalls + i)) ≠ .panic) ∧
          (k < n + 1 →
            seenState (ec2.DescribeInstances (st.describeCalls + (k - 1)))
                = .ok (some "terminated") ∨
              seenState (ec2.DescribeInstances (st.describeCalls + (k - 1))) = .panic) := by
      intro hseen
      obtain ⟨k, es, htr, hterm, hdesc, hk, hpos, hbefore, hlast⟩ := ih
        ((st.described id).emit
          [logWaiting "waiting for instance to finish terminating"
            (ec2.DescribeInstances st.describeCalls), .Sleep 60])
      have hq := logWaiting_quiet "waiting for instance to finish terminating"
        (ec2.DescribeInstances st.describeCalls)
      refine ⟨k + 1, [.DescribeInstances id,
        logWaiting "waiting for instance to finish terminating"
          (ec2.DescribeInstances st.describeCalls), .Sleep 60] ++ es, ?_, ?_, ?_, by omega,
        by omega, ?_, ?_⟩
      · rw [htr]; simp [JobState.described, JobState.emit]
      · simp only [List.cons_append, List.nil_append, List.all_cons, isTerminate_DescribeInstances,
          hq.1, isTerminate_Sleep, hterm, Bool.not_false, Bool.and_self]
      · simp only [List.cons_append, List.nil_append, List.filter_cons,
          isDescribe_DescribeInstances, hq.2, isDescribe_Sleep, hdesc, List.replicate_succ,
          ↓reduceIte, Bool.false_eq_true]
      · intro i hi
        cases i with
        | zero => simpa using hseen
        | succ j =>
          have := hbefore j (by omega)
          simpa [JobState.described, JobState.emit, Nat.add_assoc, Nat.add_comm 1 j] using this
      · intro hlt
        have hk0 : 0 < k := hpos (by omega)
        have := hlast (by omega)
        have hidx : st.describeCalls + 1 + (k - 1) = st.describeCalls + (k + 1 - 1) := by omega
        simpa [JobState.described, JobState.emit, hidx] using this
    unfold waitTerminatedLoop
    dsimp only
    cases hresp : ec2.DescribeInstances st.describeCalls with
    | error e =>
      rw [hresp] at again
      exact again (by simp [seenState])
    | ok rs =>
      rw [hresp] at again stop
      cases rs with
      | nil => exact again (by simp [seenState])
      | cons r rest =>
        dsimp only
        cases hins : r.Instances with
        | nil => exact stop true (Or.inr (by simp [seenState, hins]))
        | cons inst insts =>
          dsimp only
          by_cases hstate : inst.State = "terminated"
          · rw [if_pos hstate]
            exact stop false (Or.inl (by simp [seenState, hins, hstate]))
          · rw [if_neg hstate]
            exact again (by simp [seenState, hins, hstate])

theorem terminateInstance_trace (ec2 : Ec2Api) (id : String) (st : JobState) :
    ∃ k post,
      (terminateInstance ec2 id st).2.trace = st.trace ++ .TerminateInstances id :: post ∧
      post.all (fun e => !e.isTerminate) = true ∧
      post.filter Event.isDescribe = List.replicate k (.DescribeInstances id) ∧
      1 ≤ k ∧ k ≤ 5 ∧
      (∀ i, i + 1 < k →
        seenState (ec2.DescribeInstances (st.describeCalls + i)) ≠ .ok (some "terminated") ∧
          seenState (ec2.DescribeInstances (st.describeCalls + i)) ≠ .panic) ∧
      (k < 5 →
        seenState (ec2.DescribeInstances (st.describeCalls + (k - 1)))
            = .ok (some "terminated") ∨
          seenState (ec2.DescribeInstances (st.describeCalls + (k - 1))) = .panic) := by
  unfold terminateInstance
  dsimp only
  cases ec2.TerminateInstances with
  | none =>
    obtain ⟨k, es, htr, hterm, hdesc, hk, hpos, hbefore, hlast⟩ :=
      waitTerminatedLoop_polls ec2 id 5 (st.emit [.TerminateInstances id])
    refine ⟨k, es, ?_, hterm, hdesc, hpos (by omega), hk, ?_, ?_⟩
    · rw [htr]; simp [JobState.emit]
    · simpa [JobState.emit] using hbefore
    · simpa [JobState.emit] using hlast
  | some err =>
    obtain ⟨k, es, htr, hterm, hdesc, hk, hpos, hbefore, hlast⟩ :=
      waitTerminatedLoop_polls ec2 id 5
        ((st.emit [.TerminateInstances id]).emit [.slog .Error "failed to destroy instance"
          [("instanceID", id), ("error", err.Error)]])
    refine ⟨k, .slog .Error "failed to destroy instance"
      [("instanceID", id), ("error", err.Error)] :: es, ?_, ?_, ?_, hpos (by omega), hk, ?_, ?_⟩
    · rw [htr]; simp [JobState.emit]
    · simp only [List.all_cons, isTerminate_slog, hterm, Bool.not_false, Bool.and_self]
    · simp only [List.filter_cons, isDescribe_slog, hdesc, ↓reduceIte, Bool.false_eq_true]
    · simpa [JobState.emit] using hbefore
    · simpa [JobState.emit] using hlast

theorem runBenchmarkAfterLaunch_advances (input : EC2BenchmarkOrchestratorInput) (env : JobEnv)
    (b : Benchmark) (t : String) (types : List InstanceTypeInfo) (id : String)
    (a st : JobState) (h : Advances a st) :
    Advances a (runBenchmarkAfterLaunch input env b t types id st).st := by
  unfold runBenchmarkAfterLaunch
  dsimp only
  generalize hh : (if input.WaitToInitialize = true then
      waitInitializedLoop env.ec2 id 5 0 none st else (none, st)) = health
  have h1 : Advances a health.2 := by
    rw [← hh]
    split
    · exact waitInitializedLoop_advances env.ec2 id 5 0 none a st h
    · exact h
  obtain ⟨herr, st1⟩ := health
  cases herr with
  | some err => exact h1
  | none =>
    dsimp only
    generalize hip : getInstanceIP env.ec2 id st1 = ip
    have h2 : Advances a ip.2 := by
      rw [← hip]; exact getInstanceIPLoop_advances env.ec2 id 10 a st1 h1
    obtain ⟨rip, st2⟩ := ip
    cases rip with
    | panic => exact h2
    | err e => exact h2
    | ok ipaddr =>
      dsimp only
      have h3 := Advances.emit h2 [.slog .Debug "instance got IP"
        [("instanceID", id), ("ip", ipaddr)]] (by simp [Event.isTerminate, Event.isDescribe])
      generalize hw : waitForTargetReachable env.target _ = w
      have h4 : Advances a w.2 := by
        rw [← hw]; exact waitForTargetReachableLoop_advances env.target (6 * 5) a _ h3
      obtain ⟨rw1, st4⟩ := w
      cases rw1 with
      | panic => exact h4
      | err e => exact Advances.emit h4 _ (by simp [Event.isTerminate, Event.isDescribe])
      | ok u =>
        dsimp only
        generalize hc : configureForRootLogin env.target st4 = c
        have h5 : Advances a c.2 := by
          rw [← hc]; exact configureForRootLogin_advances env.target a st4 h4
        obtain ⟨rc, st5⟩ := c
        cases rc with
        | some e => exact Advances.emit h5 _ (by simp [Event.isTerminate, Event.isDescribe])
        | none =>
          dsimp only
          cases types with
          | nil => exact h5
          | cons info rest =>
            dsimp only
            cases info.NetworkCards with
            | nil => exact h5
            | cons card cards =>
              dsimp only
              generalize hs : benchmarkRunner.SetUp
                (NewBenchmarkRunner b input.ProfilerKind input.ProfileSaveDir input.BenchmarkRuns)
                env.bench env.prof env.target st5 = s
              have h6 : Advances a s.2.2 := by
                rw [← hs]; exact benchmarkRunner_SetUp_advances _ env.bench env.prof env.target
                  a st5 h5
              obtain ⟨rs, br1, st6⟩ := s
              cases rs with
              | some e => exact Advances.emit h6 _ (by simp [Event.isTerminate, Event.isDescribe])
              | none =>
                dsimp only
                generalize hr : br1.Run env.bench env.prof env.os env.target env.measurements
                  st6 = r
                have h7 : Advances a r.2 := by
                  rw [← hr]; exact benchmarkRunner_Run_advances br1 env.bench env.prof env.os
                    env.target env.measurements a st6 h6
                obtain ⟨rr, st7⟩ := r
                cases rr with
                | none => exact h7
                | some rep => exact h7

/-! ## The text of a job's error -/

theorem eq_empty_of_length_zero (a : String) (h : a.length = 0) : a = "" := by
  cases a with
  | mk d =>
    simp only [String.length, List.length_eq_zero] at h
    subst h
    rfl

theorem append_ne_empty_left {a : String} (b : String) (h : a ≠ "") : a ++ b ≠ "" := by
  intro hab
  have hl : (a ++ b).length = 0 := by rw [hab]; rfl
  rw [String.length_append] at hl
  exact h (eq_empty_of_length_zero a (by omega))

theorem append_ne_empty_right (a : String) {b : String} (h : b ≠ "") : a ++ b ≠ "" := by
  intro hab
  have hl : (a ++ b).length = 0 := by rw [hab]; rfl
  rw [String.length_append] at hl
  exact h (eq_empty_of_length_zero b (by omega))

theorem Errorf_ne_empty (what : String) (e : GoError) : (Errorf what e).Error ≠ "" := by
  show what ++ ": " ++ e.Error ≠ ""
  exact append_ne_empty_left _ (append_ne_empty_right _ (by decide))

theorem launchInstanceLoop_error_text (ec2 : Ec2Api) (ty : String) :
    ∀ (n i : Nat) (err : Option GoError) (st : JobState) (e : GoError),
      (launchInstanceLoop ec2 ty n i err st).1 = .err e → e.Error ≠ "" := by
  intro n
  induction n with
  | zero =>
    intro i err st e h
    unfold launchInstanceLoop at h
    split at h
    · simp only [Res.err.injEq] at h; subst h; exact Errorf_ne_empty _ _
    · simp only [Res.err.injEq] at h; subst h; decide
  | succ n ih =>
    intro i err st e h
    unfold launchInstanceLoop at h
    dsimp only at h
    split at h
    · cases h
    · cases h
    · exact ih _ _ _ _ h

theorem waitInitializedLoop_error_text (ec2 : Ec2Api) (id : String) (ht : ec2.errorsHaveText) :
    ∀ (n i : Nat) (err : Option GoError) (st : JobState) (e : GoError),
      (∀ e0, err = some e0 → e0.Error ≠ "") →
      (waitInitializedLoop ec2 id n i err st).1 = some e → e.Error ≠ "" := by
  intro n
  induction n with
  | zero =>
    intro i err st e h0 h
    exact h0 e h
  | succ n ih =>
    intro i err st e h0 h
    unfold waitInitializedLoop at h
    dsimp only at h
    split at h
    · split at h
      · cases h
      · exact ih _ _ _ _ (by simp) h
    · rename_i e1 heq
      exact ih _ _ _ _ (by
        intro e0 he0
        simp only [Option.some.injEq] at he0
        subst he0
        exact ht.2.1 _ _ heq) h

theorem getInstanceIPLoop_error_text (ec2 : Ec2Api) (id : String) (ht : ec2.errorsHaveText) :
    ∀ (n : Nat) (st : JobState) (e : GoError),
      (getInstanceIPLoop ec2 id n st).1 = .err e → e.Error ≠ "" := by
  intro n
  induction n with
  | zero =>
    intro st e h
    simp only [getInstanceIPLoop, Res.err.injEq] at h
    subst h
    show "failed to get instance " ++ id ++ " IP" ≠ ""
    exact append_ne_empty_right _ (by decide)
  | succ n ih =>
    intro st e h
    unfold getInstanceIPLoop at h
    dsimp only at h
    split at h
    · rename_i e1 heq
      simp only [Res.err.injEq] at h
      subst h
      exact ht.2.2 _ _ heq
    · cases h
    · split at h
      · cases h
      · split at h
        · cases h
        · exact ih _ _ h

theorem waitForTargetReachableLoop_error_text (target : Target) :
    ∀ (n : Nat) (st : JobState) (e : GoError),
      (waitForTargetReachableLoop target n st).1 = .err e → e.Error ≠ "" := by
  intro n
  induction n with
  | zero =>
    intro st e h
    simp only [waitForTargetReachableLoop, Res.err.injEq] at h
    subst h
    decide
  | succ n ih =>
    intro st e h
    unfold waitForTargetReachableLoop at h
    dsimp only at h
    split at h
    · split at h
      · cases h
      · exact ih _ _ h
    · cases h

theorem configureForRootLogin_error_text (target : Target) (st : JobState) (e : GoError)
    (h : (configureForRootLogin target st).1 = some e) : e.Error ≠ "" := by
  unfold configureForRootLogin at h
  dsimp only at h
  split at h
  · simp only [Option.some.injEq] at h; subst h; exact Errorf_ne_empty _ _
  · split at h
    · simp only [Option.some.injEq] at h; subst h; exact Errorf_ne_empty _ _
    · split at h
      · simp only [Option.some.injEq] at h; subst h; exact Errorf_ne_empty _ _
      · cases h

theorem benchmarkRunner_SetUp_error_text (br : benchmarkRunner) (bench : BenchmarkApi)
    (prof : ProfilerApi) (target : Target) (st : JobState) (e : GoError)
    (h : (br.SetUp bench prof target st).1 = some e) : e.Error ≠ "" := by
  unfold benchmarkRunner.SetUp at h
  dsimp only at h
  split at h
  · simp only [Option.some.injEq] at h; subst h; exact Errorf_ne_empty _ _
  · split at h
    · simp only [Option.some.injEq] at h; subst h; exact Errorf_ne_empty _ _
    · split at h
      · split at h
        · simp only [Option.some.injEq] at h; subst h; exact Errorf_ne_empty _ _
        · split at h
          · simp only [Option.some.injEq] at h; subst h; exact Errorf_ne_empty _ _
          · cases h
      · cases h

theorem benchmarkRunner_SetUp_runner (br : benchmarkRunner) (bench : BenchmarkApi)
    (prof : ProfilerApi) (target : Target) (st : JobState) :
    (br.SetUp bench prof target st).2.1.runs = br.runs ∧
      (br.SetUp bench prof target st).2.1.b = br.b := by
  unfold benchmarkRunner.SetUp
  dsimp only
  split
  · simp
  · split
    · simp
    · split
      · split
        · simp
        · split <;> simp
      · simp

/-! ## The report of `Run` and the result a job sends -/

theorem runLoop_report (target : Target) (bench : BenchmarkApi) (name cmd : String) :
    ∀ (n : Nat) (rep : BenchmarkReport) (st : JobState),
      (runLoop target bench name cmd n rep st).2.1.Name = rep.Name ∧
      ((runLoop target bench name cmd n rep st).1 = .returned →
        (runLoop target bench name cmd n rep st).2.1.Error ≠ "" ∧
        (runLoop target bench name cmd n rep st).2.1.TotalTimeSec.length
          < rep.TotalTimeSec.length + n) ∧
      ((runLoop target bench name cmd n rep st).1 = .completed →
        (runLoop target bench name cmd n rep st).2.1.Error = rep.Error ∧
        (runLoop target bench name cmd n rep st).2.1.TotalTimeSec.length
          = rep.TotalTimeSec.length + n) := by
  intro n
  induction n with
  | zero => intro rep st; simp [runLoop]
  | succ n ih =>
    intro rep st
    unfold runLoop
    dsimp only
    split
    · refine ⟨rfl, fun _ => ⟨Errorf_ne_empty _ _, by dsimp only; omega⟩, ?_⟩
      intro h; simp at h
    · split
      · refine ⟨rfl, ?_, ?_⟩ <;> intro h <;> simp at h
      · refine ⟨rfl, fun _ => ⟨Errorf_ne_empty _ _, by dsimp only; omega⟩, ?_⟩
        intro h; simp at h
      · rename_i benchOut _
        obtain ⟨h1, h2, h3⟩ := ih
          { rep with TotalTimeSec := rep.TotalTimeSec ++ [benchOut.TotalTimeSec],
                     Metadata := rep.Metadata ++ benchOut.Metadata }
          ((st.ran cmd).emit [.slog .Debug "running benchmark command finished"
            [("name", name), ("output", (target.RunCommand st.targetCalls cmd).1)]])
        refine ⟨h1, fun h => ?_, fun h => ?_⟩
        · obtain ⟨ha, hb⟩ := h2 h
          refine ⟨ha, ?_⟩
          simp only [List.length_append, List.length_singleton] at hb
          omega
        · obtain ⟨ha, hb⟩ := h3 h
          refine ⟨ha, ?_⟩
          simp only [List.length_append, List.length_singleton] at hb
          omega

theorem runProfiled_report (br : benchmarkRunner) (target : Target) (prof : ProfilerApi)
    (os : OsApi) (cmd : String) (rep : BenchmarkReport) (st : JobState) :
    (runProfiled br target prof os cmd rep st).2.1.Name = rep.Name ∧
      (runProfiled br target prof os cmd rep st).2.1.TotalTimeSec = rep.TotalTimeSec ∧
      ((runProfiled br target prof os cmd rep st).1 = true →
        (runProfiled br target prof os cmd rep st).2.1.Error = rep.Error) := by
  unfold runProfiled
  dsimp only
  split
  · simp
  · split
    · simp
    · split <;> simp

theorem benchmarkRunner_Run_report (br : benchmarkRunner) (bench : BenchmarkApi)
    (prof : ProfilerApi) (os : OsApi) (target : Target) (m : SystemMeasurements)
    (st : JobState) (rep : BenchmarkReport) (hruns : 0 < br.runs)
    (h : (br.Run bench prof os target m st).1 = some rep) :
    rep.Name = br.b.GetName ∧ (rep.Error ≠ "" → rep.TotalTimeSec.length < br.runs) := by
  unfold benchmarkRunner.Run at h
  dsimp only at h
  split at h
  · simp only [Option.some.injEq] at h; subst h; exact ⟨rfl, fun _ => hruns⟩
  · split at h
    · simp only [Option.some.injEq] at h; subst h; exact ⟨rfl, fun _ => hruns⟩
    · rename_i cmd _ _ _
      split at h
      · generalize hres : runProfiled br target prof os cmd _ _ = res at h
        have hp := runProfiled_report br target prof os cmd
          { Name := br.b.GetName, Input := br.b.GetInput,
            Metadata := [.runInfo [("command", cmd), ("profiler", br.profilerKind)]] }
          ((st.emit [.slog .Info "starting benchmark" [("name", br.b.GetName)]]).emit
            [.slog .Debug "benchmark command" [("name", br.b.GetName), ("command", cmd)],
             .TargetClient])
        rw [hres] at hp
        obtain ⟨ok, rep2, st2⟩ := res
        obtain ⟨hn, ht, he⟩ := hp
        dsimp only at hn ht he
        cases ok with
        | false =>
          simp only [Option.some.injEq] at h; subst h
          exact ⟨hn, fun _ => by rw [ht]; exact hruns⟩
        | true =>
          simp only [Option.some.injEq] at h; subst h
          exact ⟨hn, fun _ => by dsimp only; rw [ht]; exact hruns⟩
      · generalize hres : runLoop target bench br.b.GetName cmd br.runs _ _ = res at h
        have hp := runLoop_report target bench br.b.GetName cmd br.runs
          { Name := br.b.GetName, Input := br.b.GetInput,
            Metadata := [.runInfo [("command", cmd), ("profiler", br.profilerKind)]] }
          ((st.emit [.slog .Info "starting benchmark" [("name", br.b.GetName)]]).emit
            [.slog .Debug "benchmark command" [("name", br.b.GetName), ("command", cmd)],
             .TargetClient])
        rw [hres] at hp
        obtain ⟨ending, rep2, st2⟩ := res
        obtain ⟨hn, hr, hc⟩ := hp
        dsimp only at hn hr hc
        cases ending with
        | panicked => cases h
        | returned =>
          simp only [Option.some.injEq] at h; subst h
          exact ⟨hn, fun _ => by have := (hr rfl).2; simpa using this⟩
        | completed =>
          simp only [Option.some.injEq] at h; subst h
          refine ⟨hn, fun hne => ?_⟩
          exact absurd (hc rfl).1 hne

theorem JobGood_panic (input : EC2BenchmarkOrchestratorInput) (env : JobEnv) (b : Benchmark)
    (t : String) (st : JobState) :
    JobGood input env b t { sent := [], panicked := true, st := st } := by
  simp [JobGood]

theorem JobGood_error (input : EC2BenchmarkOrchestratorInput) (env : JobEnv) (b : Benchmark)
    (t : String) (st : JobState) (e : GoError) (he : env.ec2.errorsHaveText → e.Error ≠ "") :
    JobGood input env b t
      { sent := [{ benchmark := b, instanceType := t, err := some e }], panicked := false,
        st := st } := by
  refine ⟨?_, by simp, by simp⟩
  intro r hr
  simp only [List.mem_singleton] at hr
  subst hr
  exact ⟨rfl, rfl, Or.inl ⟨e, rfl, rfl, he⟩⟩

theorem NewBenchmarkRunner_runs (b : Benchmark) (kind dir : String) (runs : Int) :
    0 < (NewBenchmarkRunner b kind dir runs).runs ∧
      (NewBenchmarkRunner b kind dir runs).runs = (max runs 1).toNat ∧
      (NewBenchmarkRunner b kind dir runs).b = b := by
  refine ⟨?_, rfl, rfl⟩
  show 0 < (max runs 1).toNat
  omega

theorem runBenchmarkAfterLaunch_good (input : EC2BenchmarkOrchestratorInput) (env : JobEnv)
    (b : Benchmark) (t : String) (types : List InstanceTypeInfo) (id : String) (st : JobState) :
    JobGood input env b t (runBenchmarkAfterLaunch input env b t types id st) := by
  unfold runBenchmarkAfterLaunch
  dsimp only
  generalize hh : (if input.WaitToInitialize = true then
      waitInitializedLoop env.ec2 id 5 0 none st else (none, st)) = health
  obtain ⟨herr, st1⟩ := health
  cases herr with
  | some err =>
    apply JobGood_error
    intro ht
    split at hh
    · have := waitInitializedLoop_error_text env.ec2 id ht 5 0 none st err (by simp)
      exact this (by rw [hh])
    · cases hh
  | none =>
    dsimp only
    generalize hip : getInstanceIP env.ec2 id st1 = ip
    obtain ⟨rip, st2⟩ := ip
    cases rip with
    | panic => exact JobGood_panic _ _ _ _ _
    | err e =>
      apply JobGood_error
      intro ht
      exact getInstanceIPLoop_error_text env.ec2 id ht 10 st1 e (by
        unfold getInstanceIP at hip; rw [hip])
    | ok ipaddr =>
      dsimp only
      generalize hw : waitForTargetReachable env.target _ = w
      obtain ⟨rw1, st4⟩ := w
      cases rw1 with
      | panic => exact JobGood_panic _ _ _ _ _
      | err e =>
        apply JobGood_error
        intro _
        exact waitForTargetReachableLoop_error_text env.target (6 * 5) _ e (by
          unfold waitForTargetReachable at hw; rw [hw])
      | ok u =>
        dsimp only
        generalize hc : configureForRootLogin env.target st4 = c
        obtain ⟨rc, st5⟩ := c
        cases rc with
        | some e =>
          apply JobGood_error
          intro _
          exact configureForRootLogin_error_text env.target st4 e (by rw [hc])
        | none =>
          dsimp only
          cases types with
          | nil => exact JobGood_panic _ _ _ _ _
          | cons info rest =>
            dsimp only
            cases hcards : info.NetworkCards with
            | nil => exact JobGood_panic _ _ _ _ _
            | cons card cards =>
              dsimp only
              generalize hs : benchmarkRunner.SetUp
                (NewBenchmarkRunner b input.ProfilerKind input.ProfileSaveDir input.BenchmarkRuns)
                env.bench env.prof env.target st5 = s
              have hrunner := benchmarkRunner_SetUp_runner
                (NewBenchmarkRunner b input.ProfilerKind input.ProfileSaveDir input.BenchmarkRuns)
                env.bench env.prof env.target st5
              rw [hs] at hrunner
              obtain ⟨rs, br1, st6⟩ := s
              dsimp only at hrunner
              cases rs with
              | some e =>
                apply JobGood_error
                intro _
                exact benchmarkRunner_SetUp_error_text _ env.bench env.prof env.target st5 e
                  (by rw [hs])
              | none =>
                dsimp only
                generalize hr : br1.Run env.bench env.prof env.os env.target env.measurements
                  st6 = r
                obtain ⟨rr, st7⟩ := r
                cases rr with
                | none => exact JobGood_panic _ _ _ _ _
                | some rep =>
                  have hnew := NewBenchmarkRunner_runs b input.ProfilerKind input.ProfileSaveDir
                    input.BenchmarkRuns
                  have hrep := benchmarkRunner_Run_report br1 env.bench env.prof env.os
                    env.target env.measurements st6 rep (by rw [hrunner.1]; exact hnew.1)
                    (by rw [hr])
                  rw [hrunner.1, hrunner.2, hnew.2.1, hnew.2.2] at hrep
                  refine ⟨?_, by simp, by simp⟩
                  intro r0 hr0
                  simp only [List.mem_singleton] at hr0
                  subst hr0
                  exact ⟨rfl, rfl, Or.inr ⟨rfl, rep, rfl, hrep.1, hrep.2⟩⟩

theorem runBenchmark_good (input : EC2BenchmarkOrchestratorInput) (env : JobEnv)
    (b : Benchmark) (t : String) : JobGood input env b t (runBenchmark input env b t) := by
  unfold runBenchmark
  dsimp only
  cases env.randInt with
  | error e => exact JobGood_panic _ _ _ _ _
  | ok n =>
    dsimp only
    cases hty : env.ec2.DescribeInstanceTypes with
    | error e =>
      apply JobGood_error
      intro ht
      exact ht.1 e hty
    | ok types =>
      dsimp only
      generalize hl : launchInstance env.ec2 t _ = l
      obtain ⟨rl, st1⟩ := l
      cases rl with
      | panic => exact JobGood_panic _ _ _ _ _
      | err e =>
        apply JobGood_error
        intro _
        exact launchInstanceLoop_error_text env.ec2 t 5 0 none _ e (by
          unfold launchInstance at hl; rw [hl])
      | ok insts =>
        cases insts with
        | nil => exact JobGood_panic _ _ _ _ _
        | cons inst rest =>
          dsimp only
          have hb := runBenchmarkAfterLaunch_good input env b t types inst.InstanceId st1
          obtain ⟨h1, h2, h3⟩ := hb
          refine ⟨h1, h2, fun hp => h3 ?_⟩
          simp only [Bool.or_eq_false_iff] at hp
          exact hp.1

/-! ## The job matrix and the results channel -/

theorem jobsOfBenchmark_length (input : EC2BenchmarkOrchestratorInput) (env : Nat → Nat → JobEnv)
    (b : Benchmark) (i : Nat) :
    ∀ (ts : List String) (j : Nat), (jobsOfBenchmark input env b i ts j).length = ts.length := by
  intro ts
  induction ts with
  | nil => intro j; rfl
  | cons t rest ih => intro j; simp [jobsOfBenchmark, ih]

theorem allJobs_length (input : EC2BenchmarkOrchestratorInput) (env : Nat → Nat → JobEnv) :
    ∀ (bs : List Benchmark) (i : Nat),
      (allJobs input env bs i).length = bs.length * input.InstanceTypes.length := by
  intro bs
  induction bs with
  | nil => intro i; simp [allJobs]
  | cons b rest ih =>
    intro i
    simp only [allJobs, List.length_append, jobsOfBenchmark_length, ih, List.length_cons]
    rw [Nat.add_mul, Nat.one_mul, Nat.add_comm]

theorem mem_jobsOfBenchmark (input : EC2BenchmarkOrchestratorInput) (env : Nat → Nat → JobEnv)
    (b : Benchmark) (i : Nat) (job : JobRun) :
    ∀ (ts : List String) (j : Nat), job ∈ jobsOfBenchmark input env b i ts j →
      ∃ k t, ts[k]? = some t ∧ job = runBenchmark input (env i (j + k)) b t := by
  intro ts
  induction ts with
  | nil => intro j h; simp [jobsOfBenchmark] at h
  | cons t rest ih =>
    intro j h
    simp only [jobsOfBenchmark, List.mem_cons] at h
    rcases h with h | h
    · exact ⟨0, t, by simp, by simpa using h⟩
    · obtain ⟨k, t1, hk, hj⟩ := ih (j + 1) h
      refine ⟨k + 1, t1, by simpa using hk, ?_⟩
      rw [hj]
      congr 2
      omega

theorem mem_allJobs (input : EC2BenchmarkOrchestratorInput) (env : Nat → Nat → JobEnv)
    (job : JobRun) :
    ∀ (bs : List Benchmark) (i0 : Nat), job ∈ allJobs input env bs i0 →
      ∃ i k b t, bs[i]? = some b ∧ input.InstanceTypes[k]? = some t ∧
        job = runBenchmark input (env (i0 + i) k) b t := by
  intro bs
  induction bs with
  | nil => intro i0 h; simp [allJobs] at h
  | cons b rest ih =>
    intro i0 h
    simp only [allJobs, List.mem_append] at h
    rcases h with h | h
    · obtain ⟨k, t, hk, hj⟩ := mem_jobsOfBenchmark input env b i0 job _ 0 h
      exact ⟨0, k, b, t, by simp, hk, by simpa using hj⟩
    · obtain ⟨i, k, b1, t, hb, hk, hj⟩ := ih (i0 + 1) h
      refine ⟨i + 1, k, b1, t, by simpa using hb, hk, ?_⟩
      rw [hj]
      congr 2
      omega

theorem allJobs_good (input : EC2BenchmarkOrchestratorInput) (env : Nat → Nat → JobEnv)
    (bs : List Benchmark) (i0 : Nat) (job : JobRun) (h : job ∈ allJobs input env bs i0) :
    ∃ i k b t, bs[i]? = some b ∧ input.InstanceTypes[k]? = some t ∧
      job = runBenchmark input (env (i0 + i) k) b t ∧
      JobGood input (env (i0 + i) k) b t job := by
  obtain ⟨i, k, b, t, hb, hk, hj⟩ := mem_allJobs input env job bs i0 h
  exact ⟨i, k, b, t, hb, hk, hj, hj ▸ runBenchmark_good input (env (i0 + i) k) b t⟩

theorem perm_cons_eraseIdx {α : Type} :
    ∀ (l : List α) (i : Nat) (y : α), l[i]? = some y → (y :: l.eraseIdx i).Perm l := by
  intro l
  induction l with
  | nil => intro i y h; simp at h
  | cons x xs ih =>
    intro i y h
    cases i with
    | zero =>
      simp only [List.getElem?_cons_zero, Option.some.injEq] at h
      subst h
      simp
    | succ i =>
      simp only [List.getElem?_cons_succ] at h
      simp only [List.eraseIdx_cons_succ]
      exact (List.Perm.swap x y _).trans ((ih i y h).cons x)

theorem arrival_perm {α : Type} : ∀ (s : List Nat) (l : List α), (arrival s l).Perm l := by
  intro s
  induction s with
  | nil => intro l; cases l <;> simp [arrival]
  | cons k ks ih =>
    intro l
    cases l with
    | nil => simp [arrival]
    | cons x xs =>
      unfold arrival
      split
      · rename_i y hy
        exact ((ih _).cons y).trans (perm_cons_eraseIdx _ _ y hy)
      · exact List.Perm.refl _

theorem assemble_entries :
    ∀ (l : List benchmarkResult) (reports : List BenchmarkReport), assemble l = some reports →
      reports.length = l.length ∧ ∀ x ∈ reports, ∃ r ∈ l, reportEntry r = some x := by
  intro l
  induction l with
  | nil =>
    intro reports h
    simp only [assemble, Option.some.injEq] at h
    subst h
    simp
  | cons r rest ih =>
    intro reports h
    unfold assemble at h
    split at h
    · rename_i entry entries he hes
      simp only [Option.some.injEq] at h
      subst h
      obtain ⟨hl, hm⟩ := ih entries hes
      refine ⟨by simp [hl], ?_⟩
      intro x hx
      simp only [List.mem_cons] at hx
      rcases hx with hx | hx
      · exact ⟨r, by simp, hx ▸ he⟩
      · obtain ⟨r1, hr1, hx1⟩ := hm x hx
        exact ⟨r1, by simp [hr1], hx1⟩
    · cases h

theorem assemble_succeeds :
    ∀ (l : List benchmarkResult), (∀ r ∈ l, (reportEntry r).isSome = true) →
      ∃ reports, assemble l = some reports := by
  intro l
  induction l with
  | nil => intro _; exact ⟨[], rfl⟩
  | cons r rest ih =>
    intro h
    obtain ⟨entries, hes⟩ := ih (fun r1 hr1 => h r1 (by simp [hr1]))
    obtain ⟨entry, he⟩ := Option.isSome_iff_exists.mp (h r (by simp))
    exact ⟨entry :: entries, by simp [assemble, he, hes]⟩

theorem reportEntry_of_SentBy {input : EC2BenchmarkOrchestratorInput} {env : JobEnv}
    {b : Benchmark} {t : String} {r : benchmarkResult} (h : SentBy input env b t r) :
    (reportEntry r).isSome = true := by
  obtain ⟨_, _, h | h⟩ := h
  · obtain ⟨e, he, _, _⟩ := h
    simp [reportEntry, he]
  · obtain ⟨he, rep, hrep, _⟩ := h
    simp [reportEntry, he, hrep]

theorem length_flatMap_sent :
    ∀ (jobs : List JobRun), (∀ job ∈ jobs, job.sent.length = 1) →
      (jobs.flatMap (·.sent)).length = jobs.length := by
  intro jobs
  induction jobs with
  | nil => intro _; rfl
  | cons job rest ih =>
    intro h
    simp only [List.flatMap_cons, List.length_append, List.length_cons]
    rw [ih (fun j hj => h j (by simp [hj])), h job (by simp)]
    omega

theorem length_flatMap_sent_le :
    ∀ (jobs : List JobRun), (∀ job ∈ jobs, job.sent.length ≤ 1) →
      (jobs.flatMap (·.sent)).length ≤ jobs.length := by
  intro jobs
  induction jobs with
  | nil => intro _; simp
  | cons job rest ih =>
    intro h
    simp only [List.flatMap_cons, List.length_append, List.length_cons]
    have h1 := ih (fun j hj => h j (by simp [hj]))
    have h2 := h job (by simp)
    omega

theorem jobsOfBenchmark_mem (input : EC2BenchmarkOrchestratorInput) (env : Nat → Nat → JobEnv)
    (b : Benchmark) (i : Nat) :
    ∀ (ts : List String) (j k : Nat) (t : String), ts[k]? = some t →
      runBenchmark input (env i (j + k)) b t ∈ jobsOfBenchmark input env b i ts j := by
  intro ts
  induction ts with
  | nil => intro j k t h; simp at h
  | cons t0 rest ih =>
    intro j k t h
    cases k with
    | zero =>
      simp only [List.getElem?_cons_zero, Option.some.injEq] at h
      subst h
      simp [jobsOfBenchmark]
    | succ k =>
      simp only [List.getElem?_cons_succ] at h
      have := ih (j + 1) k t h
      simp only [jobsOfBenchmark, List.mem_cons]
      right
      have hidx : j + 1 + k = j + (k + 1) := by omega
      rw [hidx] at this
      exact this

theorem allJobs_mem (input : EC2BenchmarkOrchestratorInput) (env : Nat → Nat → JobEnv) :
    ∀ (bs : List Benchmark) (i0 i k : Nat) (b : Benchmark) (t : String),
      bs[i]? = some b → input.InstanceTypes[k]? = some t →
      runBenchmark input (env (i0 + i) k) b t ∈ allJobs input env bs i0 := by
  intro bs
  induction bs with
  | nil => intro i0 i k b t h; simp at h
  | cons b0 rest ih =>
    intro i0 i k b t hb hk
    simp only [allJobs, List.mem_append]
    cases i with
    | zero =>
      simp only [List.getElem?_cons_zero, Option.some.injEq] at hb
      subst hb
      left
      have := jobsOfBenchmark_mem input env b0 i0 input.InstanceTypes 0 k t hk
      simpa using this
    | succ i =>
      simp only [List.getElem?_cons_succ] at hb
      right
      have := ih (i0 + 1) i k b t hb hk
      have hidx : i0 + 1 + i = i0 + (i + 1) := by omega
      rw [hidx] at this
      exact this

theorem RunBenchmarks_ret (o : ec2BenchmarkOrchestrator)
    (input : EC2BenchmarkOrchestratorInput) (benchmarks : List Benchmark)
    (env : Nat → Nat → JobEnv) (schedule : List Nat) (poolRecovers : Bool) (rep : Report)
    (err : Option GoError)
    (h : (RunBenchmarks o input benchmarks env schedule poolRecovers).ret = some (rep, err)) :
    err = none ∧ rep.Config = o.cfg ∧
      assemble (arrival schedule ((allJobs input env benchmarks 0).flatMap (·.sent)))
        = some rep.Reports := by
  unfold RunBenchmarks at h
  cases hc : o.cfg with
  | none => simp [hc] at h
  | some cfg =>
    simp only [hc] at h
    generalize (if (input.BenchmarkConcurrency == 0) = true then
      (allJobs input env benchmarks 0).any (·.panicked)
      else (allJobs input env benchmarks 0).any (·.panicked) && !poolRecovers) = crashed at h
    cases crashed with
    | true => simp at h
    | false =>
      cases hrep : assemble (arrival schedule
          ((allJobs input env benchmarks 0).flatMap (·.sent))) with
      | none => simp [hrep] at h
      | some reports =>
        simp only [hrep, Bool.false_eq_true, if_false, Option.some.injEq, Prod.mk.injEq] at h
        obtain ⟨h1, h2⟩ := h
        subst h1
        exact ⟨h2.symm, rfl, rfl⟩

theorem assemble_entry_of_mem :
    ∀ (l : List benchmarkResult) (reports : List BenchmarkReport), assemble l = some reports →
      ∀ r ∈ l, ∃ x ∈ reports, reportEntry r = some x := by
  intro l
  induction l with
  | nil => intro reports _ r hr; simp at hr
  | cons r0 rest ih =>
    intro reports h r hr
    unfold assemble at h
    split at h
    · rename_i entry entries he hes
      simp only [Option.some.injEq] at h
      subst h
      simp only [List.mem_cons] at hr
      rcases hr with hr | hr
      · subst hr
        exact ⟨entry, by simp, he⟩
      · obtain ⟨x, hx, hrx⟩ := ih entries hes r hr
        exact ⟨x, by simp [hx], hrx⟩
    · cases h

/-! ## A job that fails at a stage -/

theorem runBenchmark_sent_of_Launched (input : EC2BenchmarkOrchestratorInput) (env : JobEnv)
    (b : Benchmark) (t : String) (types : List InstanceTypeInfo) (id : String) (st : JobState)
    (h : Launched env t types id st) :
    (runBenchmark input env b t).sent = (runBenchmarkAfterLaunch input env b t types id st).sent := by
  obtain ⟨n, inst, rest, hr, hty, hl, hid⟩ := h
  unfold jobStart at hl
  subst hid
  simp only [runBenchmark, hr, hty, hl]

theorem sent_of_failure_before_run (input : EC2BenchmarkOrchestratorInput) (env : JobEnv)
    (b : Benchmark) (t : String) (stage : JobStage) (e : GoError) (samples : List Rat)
    (hstage : stage ≠ .run) (h : FailsAt input env b t stage e samples) :
    samples = [] ∧
      (runBenchmark input env b t).sent = [{ benchmark := b, instanceType := t, err := some e }] := by
  cases stage with
  | instanceTypeLookup =>
    obtain ⟨hs, n, hr, hty⟩ := h
    exact ⟨hs, by simp only [runBenchmark, hr, hty]⟩
  | launch =>
    obtain ⟨hs, n, types, st, hr, hty, hl⟩ := h
    unfold jobStart at hl
    exact ⟨hs, by simp only [runBenchmark, hr, hty, hl]⟩
  | healthWait =>
    obtain ⟨hs, types, id, st0, st, hlaunch, hw, hloop⟩ := h
    refine ⟨hs, ?_⟩
    rw [runBenchmark_sent_of_Launched input env b t types id st0 hlaunch]
    simp only [runBenchmarkAfterLaunch, hw, hloop, if_true]
  | publicIPWait =>
    obtain ⟨hs, types, id, st0, st, ⟨st5, hlaunch, hhealth⟩, hip⟩ := h
    refine ⟨hs, ?_⟩
    rw [runBenchmark_sent_of_Launched input env b t types id st5 hlaunch]
    rcases hhealth with ⟨hw, hst⟩ | ⟨hw, hloop⟩
    · subst hst
      simp only [runBenchmarkAfterLaunch, hw, hip, Bool.false_eq_true, if_false]
    · simp only [runBenchmarkAfterLaunch, hw, hloop, hip, if_true]
  | reachability =>
    obtain ⟨hs, types, id, st0, st, ⟨st3, ip, st4, ⟨st5, hlaunch, hhealth⟩, hip, hst2⟩,
      hreach⟩ := h
    refine ⟨hs, ?_⟩
    rw [runBenchmark_sent_of_Launched input env b t types id st5 hlaunch]
    subst hst2
    rcases hhealth with ⟨hw, hst⟩ | ⟨hw, hloop⟩
    · subst hst
      simp only [runBenchmarkAfterLaunch, hw, hip, hreach, Bool.false_eq_true, if_false]
    · simp only [runBenchmarkAfterLaunch, hw, hloop, hip, hreach, if_true]
  | rootLogin =>
    obtain ⟨hs, types, id, st0, st, ⟨st2, ⟨st3, ip, st4, ⟨st5, hlaunch, hhealth⟩, hip, hst2⟩,
      hreach⟩, hlogin⟩ := h
    refine ⟨hs, ?_⟩
    rw [runBenchmark_sent_of_Launched input env b t types id st5 hlaunch]
    subst hst2
    rcases hhealth with ⟨hw, hst⟩ | ⟨hw, hloop⟩
    · subst hst
      simp only [runBenchmarkAfterLaunch, hw, hip, hreach, hlogin, Bool.false_eq_true, if_false]
    · simp only [runBenchmarkAfterLaunch, hw, hloop, hip, hreach, hlogin, if_true]
  | benchmarkSetUp =>
    obtain ⟨hs0, types, id, st0, br, st, ⟨st1, info, rest, card, cards, ⟨st2, ⟨st3, ip, st4,
      ⟨st5, hlaunch, hhealth⟩, hip, hst2⟩, hreach⟩, hlogin, htypes, hcards⟩, hs⟩ := h
    refine ⟨hs0, ?_⟩
    rw [runBenchmark_sent_of_Launched input env b t types id st5 hlaunch]
    subst hst2
    rcases hhealth with ⟨hw, hst⟩ | ⟨hw, hloop⟩
    · subst hst
      simp only [runBenchmarkAfterLaunch, hw, hip, hreach, hlogin, htypes, hcards, hs,
        Bool.false_eq_true, if_false]
    · simp only [runBenchmarkAfterLaunch, hw, hloop, hip, hreach, hlogin, htypes, hcards, hs,
        if_true]
  | run => exact absurd rfl hstage

theorem sent_of_SetUpDone (input : EC2BenchmarkOrchestratorInput) (env : JobEnv)
    (b : Benchmark) (t : String) (br : benchmarkRunner) (st : JobState) (rep : BenchmarkReport)
    (st7 : JobState) (h : SetUpDone input env b t br st)
    (hrun : br.Run env.bench env.prof env.os env.target env.measurements st = (some rep, st7)) :
    (runBenchmark input env b t).sent
      = [{ benchmark := b, instanceType := t, report := some rep }] := by
  obtain ⟨types, id, st0, ⟨st1, info, rest, card, cards, ⟨st2, ⟨st3, ip, st4,
    ⟨st5, hlaunch, hhealth⟩, hip, hst2⟩, hreach⟩, hlogin, htypes, hcards⟩, hs⟩ := h
  rw [runBenchmark_sent_of_Launched input env b t types id st5 hlaunch]
  subst hst2
  rcases hhealth with ⟨hw, hst⟩ | ⟨hw, hloop⟩
  · subst hst
    simp only [runBenchmarkAfterLaunch, hw, hip, hreach, hlogin, htypes, hcards, hs, hrun,
      Bool.false_eq_true, if_false]
  · simp only [runBenchmarkAfterLaunch, hw, hloop, hip, hreach, hlogin, htypes, hcards, hs, hrun,
      if_true]

theorem SetUpDone_runner (input : EC2BenchmarkOrchestratorInput) (env : JobEnv)
    (b : Benchmark) (t : String) (br : benchmarkRunner) (st : JobState)
    (h : SetUpDone input env b t br st) :
    br.runs = (max input.BenchmarkRuns 1).toNat ∧ br.b = b := by
  obtain ⟨types, id, st0, _, hs⟩ := h
  have hrunner := benchmarkRunner_SetUp_runner
    (NewBenchmarkRunner b input.ProfilerKind input.ProfileSaveDir input.BenchmarkRuns)
    env.bench env.prof env.target st0
  rw [hs] at hrunner
  exact ⟨hrunner.1, hrunner.2⟩

theorem runLoop_of_RepetitionFails (env : JobEnv) (name cmd : String) (e : GoError) :
    ∀ (outs : List BenchmarkOutput) (n : Nat) (rep : BenchmarkReport) (st : JobState),
      RepetitionFails n env cmd st.targetCalls e outs →
      (runLoop env.target env.bench name cmd n rep st).1 = .returned ∧
        (runLoop env.target env.bench name cmd n rep st).2.1.Error = e.Error ∧
        (runLoop env.target env.bench name cmd n rep st).2.1.TotalTimeSec
          = rep.TotalTimeSec ++ outs.map (·.TotalTimeSec) ∧
        (runLoop env.target env.bench name cmd n rep st).2.1.Name = rep.Name := by
  intro outs
  induction outs with
  | nil =>
    intro n rep st h
    obtain ⟨hlen, _, hfail⟩ := h
    simp only [List.length_nil, Nat.add_zero] at hlen hfail
    cases n with
    | zero => omega
    | succ n =>
      rcases hfail with ⟨e0, hcmd, he⟩ | ⟨hcmd, e0, hparse, he⟩
      · subst he
        simp [runLoop, hcmd]
      · subst he
        simp [runLoop, hcmd, hparse]
  | cons out rest ih =>
    intro n rep st h
    obtain ⟨hlen, hok, hfail⟩ := h
    simp only [List.length_cons] at hlen hfail
    cases n with
    | zero => omega
    | succ n =>
      obtain ⟨hcmd, hparse⟩ := hok 0 out (by simp)
      simp only [Nat.add_zero] at hcmd hparse
      have hnext : RepetitionFails n env cmd
          ((st.ran cmd).emit [.slog .Debug "running benchmark command finished"
            [("name", name), ("output", (env.target.RunCommand st.targetCalls cmd).1)]]).targetCalls
          e rest := by
        refine ⟨by omega, ?_, ?_⟩
        · intro i o hi
          have := hok (i + 1) o (by simpa using hi)
          simpa [JobState.ran, JobState.emit, Nat.add_assoc, Nat.add_comm 1 i] using this
        · have hidx : st.targetCalls + (rest.length + 1) = st.targetCalls + 1 + rest.length := by
            omega
          rw [hidx] at hfail
          simpa [JobState.ran, JobState.emit] using hfail
      obtain ⟨h1, h2, h3, h4⟩ := ih n
        { rep with TotalTimeSec := rep.TotalTimeSec ++ [out.TotalTimeSec],
                   Metadata := rep.Metadata ++ out.Metadata }
        ((st.ran cmd).emit [.slog .Debug "running benchmark command finished"
          [("name", name), ("output", (env.target.RunCommand st.targetCalls cmd).1)]]) hnext
      unfold runLoop
      simp only [hcmd, hparse]
      refine ⟨h1, h2, ?_, h4⟩
      rw [h3]
      simp

theorem Run_of_RunFails (br : benchmarkRunner) (env : JobEnv) (st : JobState) (e : GoError)
    (samples : List Rat) (h : RunFails br env st e samples) :
    ∃ rep st7, br.Run env.bench env.prof env.os env.target env.measurements st = (some rep, st7) ∧
      rep.Name = br.b.GetName ∧ rep.Error = e.Error ∧ rep.TotalTimeSec = samples := by
  rcases h with ⟨e0, hcmd, he, hs⟩ | ⟨cmd, hcmd, h⟩
  · subst he hs
    simp only [benchmarkRunner.Run, hcmd]
    exact ⟨_, _, rfl, rfl, rfl, rfl⟩
  · rcases h with ⟨e0, hclient, he, hs⟩ | ⟨hclient, hprof, hfail, hs⟩ | ⟨hclient, hprof, outs, hfail, hs⟩
    · subst he hs
      simp only [benchmarkRunner.Run, hcmd, hclient]
      exact ⟨_, _, rfl, rfl, rfl, rfl⟩
    · subst hs
      rcases hfail with ⟨e0, hp, he⟩ | ⟨remote, hp, ⟨e0, hopen, he⟩ | ⟨hopen, e0, hcopy, he⟩⟩
      · subst he
        simp only [benchmarkRunner.Run, hcmd, hclient, hprof, runProfiled, hp, if_true]
        exact ⟨_, _, rfl, rfl, rfl, rfl⟩
      · subst he
        simp only [benchmarkRunner.Run, hcmd, hclient, hprof, runProfiled, hp, hopen, if_true]
        exact ⟨_, _, rfl, rfl, rfl, rfl⟩
      · subst he
        simp only [benchmarkRunner.Run, hcmd, hclient, hprof, runProfiled, hp, hopen, hcopy,
          if_true]
        exact ⟨_, _, rfl, rfl, rfl, rfl⟩
    · subst hs
      have hloop := runLoop_of_RepetitionFails env br.b.GetName cmd e outs br.runs
        { Name := br.b.GetName, Input := br.b.GetInput,
          Metadata := [.runInfo [("command", cmd), ("profiler", br.profilerKind)]] }
        ((st.emit [.slog .Info "starting benchmark" [("name", br.b.GetName)]]).emit
          [.slog .Debug "benchmark command" [("name", br.b.GetName), ("command", cmd)],
           .TargetClient]) (by simpa [JobState.emit] using hfail)
      generalize hres : runLoop env.target env.bench br.b.GetName cmd br.runs _ _ = res at hloop
      obtain ⟨ending, rep2, st2⟩ := res
      obtain ⟨h1, h2, h3, h4⟩ := hloop
      dsimp only at h1 h2 h3 h4
      subst h1
      refine ⟨rep2, st2, ?_, h4, h2, by simpa using h3⟩
      simp only [benchmarkRunner.Run, hcmd, hclient, hprof, hres, Bool.false_eq_true, if_false]

theorem entry_in_report (input : EC2BenchmarkOrchestratorInput) (env : JobEnv) (b : Benchmark)
    (t : String) (r : benchmarkResult) (entry : BenchmarkReport)
    (hsent : (runBenchmark input env b t).sent = [r]) (hentry : reportEntry r = some entry)
    (o : ec2BenchmarkOrchestrator) (benchmarks : List Benchmark) (envs : Nat → Nat → JobEnv)
    (schedule : List Nat) (poolRecovers : Bool) (rep : Report) (err : Option GoError) (i k : Nat)
    (hret : (RunBenchmarks o input benchmarks envs schedule poolRecovers).ret = some (rep, err))
    (hb : benchmarks[i]? = some b) (hk : input.InstanceTypes[k]? = some t)
    (henv : envs i k = env) : entry ∈ rep.Reports := by
  obtain ⟨_, _, hass⟩ := RunBenchmarks_ret o input benchmarks envs schedule poolRecovers rep err
    hret
  have hjob := allJobs_mem input envs benchmarks 0 i k b t hb hk
  simp only [Nat.zero_add, henv] at hjob
  have hr : r ∈ arrival schedule ((allJobs input envs benchmarks 0).flatMap (·.sent)) := by
    rw [(arrival_perm schedule _).mem_iff]
    exact List.mem_flatMap.mpr ⟨_, hjob, by rw [hsent]; simp⟩
  obtain ⟨x, hx, hrx⟩ := assemble_entry_of_mem _ _ hass r hr
  rw [hentry] at hrx
  simp only [Option.some.injEq] at hrx
  rw [hrx]
  exact hx

/-! ## Jobs and the aggregate report: the settled claims -/

/-- C1 (as stated, refuted): one benchmark on one instance type, in a job
whose random jitter source fails: `runBenchmark` runs into its explicit
`panic` and sends nothing. With concurrency 0 the panic is in a goroutine and
`RunBenchmarks` does not return; in a worker pool of two that recovers the
panic it returns a report with no entry instead of one. -/
theorem RunBenchmarks_misses_panicking_job :
    (runBenchmark inputOneType jobRandFails { GetName := "aws-cli" } "m6i.8xlarge").sent = [] ∧
      (RunBenchmarks orchestratorReady inputOneType [{ GetName := "aws-cli" }]
          (fun _ _ => jobRandFails) [] false).ret = none ∧
      (RunBenchmarks orchestratorReady inputPool [{ GetName := "aws-cli" }]
          (fun _ _ => jobRandFails) [] true).ret.map (fun r => r.1.Reports.length) = some 0 := by
  decide

/-- C1 (amended): for every list of benchmarks and of instance types, every
concurrency setting and every order of arrival, `RunBenchmarks` (called after
`SetUp` has recorded the configuration) starts exactly `len(B) * len(T)`
invocations of `runBenchmark`, one for each benchmark on each instance type.
Every invocation sends at most one result: exactly one when it does not
panic, be its job a success or a failure at any stage, and none when it
panics at the failing random source of the jitter. When no invocation panics,
`RunBenchmarks` returns a nil error and a report with exactly
`len(B) * len(T)` entries. Whenever it returns, the error is nil and the
report has one entry for each result sent, hence at most `len(B) * len(T)`. -/
theorem RunBenchmarks_reports_every_job (o : ec2BenchmarkOrchestrator)
    (input : EC2BenchmarkOrchestratorInput) (benchmarks : List Benchmark)
    (env : Nat → Nat → JobEnv) (schedule : List Nat) (poolRecovers : Bool)
    (hcfg : o.cfg ≠ none) :
    (RunBenchmarks o input benchmarks env schedule poolRecovers).jobs
        = allJobs input env benchmarks 0 ∧
      (allJobs input env benchmarks 0).length = benchmarks.length * input.InstanceTypes.length ∧
      (∀ i k b t, benchmarks[i]? = some b → input.InstanceTypes[k]? = some t →
        runBenchmark input (env i k) b t ∈ allJobs input env benchmarks 0) ∧
      (∀ job ∈ allJobs input env benchmarks 0,
        job.sent.length ≤ 1 ∧ (job.panicked = false → job.sent.length = 1)) ∧
      (∀ (world : JobEnv) (b : Benchmark) (t : String) (e : GoError),
        world.randInt = .error e →
          (runBenchmark input world b t).sent = [] ∧
            (runBenchmark input world b t).panicked = true) ∧
      ((∀ job ∈ allJobs input env benchmarks 0, job.panicked = false) →
        ∃ rep, (RunBenchmarks o input benchmarks env schedule poolRecovers).ret
            = some (rep, none) ∧
          rep.Reports.length = benchmarks.length * input.InstanceTypes.length) ∧
      (∀ rep err, (RunBenchmarks o input benchmarks env schedule poolRecovers).ret
          = some (rep, err) →
        err = none ∧
          rep.Reports.length = ((allJobs input env benchmarks 0).flatMap (·.sent)).length ∧
          rep.Reports.length ≤ benchmarks.length * input.InstanceTypes.length) := by
  obtain ⟨cfg, hc⟩ := Option.ne_none_iff_exists'.mp hcfg
  have hgood : ∀ job ∈ allJobs input env benchmarks 0,
      job.sent.length ≤ 1 ∧ (job.panicked = false → job.sent.length = 1) := by
    intro job hj
    obtain ⟨i, k, b, t, _, _, _, hg⟩ := allJobs_good input env benchmarks 0 job hj
    exact ⟨hg.2.1, hg.2.2⟩
  have hentry : ∀ r ∈ arrival schedule ((allJobs input env benchmarks 0).flatMap (·.sent)),
      (reportEntry r).isSome = true := by
    intro r hr
    have hr1 := (arrival_perm schedule _).mem_iff.mp hr
    obtain ⟨job, hj, hrj⟩ := List.mem_flatMap.mp hr1
    obtain ⟨i, k, b, t, _, _, _, hg⟩ := allJobs_good input env benchmarks 0 job hj
    exact reportEntry_of_SentBy (hg.1 r hrj)
  obtain ⟨reports, hrep⟩ := assemble_succeeds _ hentry
  have hjobs : (RunBenchmarks o input benchmarks env schedule poolRecovers).jobs
      = allJobs input env benchmarks 0 := by
    unfold RunBenchmarks
    simp only [hc, hrep]
    split <;> split <;> rfl
  refine ⟨hjobs, allJobs_length _ _ _ _, ?_, hgood, ?_, ?_, ?_⟩
  · intro i k b t hb hk
    have := allJobs_mem input env benchmarks 0 i k b t hb hk
    simpa using this
  · intro world b t e he
    simp [runBenchmark, he]
  · intro hnone
    have hany : (allJobs input env benchmarks 0).any (·.panicked) = false := by
      rw [List.any_eq_false]
      intro job hj
      simp [hnone job hj]
    have hone : ∀ job ∈ allJobs input env benchmarks 0, job.sent.length = 1 :=
      fun job hj => (hgood job hj).2 (hnone job hj)
    have hlen : reports.length = benchmarks.length * input.InstanceTypes.length := by
      rw [(assemble_entries _ _ hrep).1, (arrival_perm schedule _).length_eq,
        length_flatMap_sent _ hone, allJobs_length]
    exact ⟨{ Config := some cfg, Reports := reports }, by simp [RunBenchmarks, hc, hany, hrep],
      hlen⟩
  · intro rep err hret
    obtain ⟨herr, _, hass⟩ := RunBenchmarks_ret o input benchmarks env schedule poolRecovers
      rep err hret
    have hlen : rep.Reports.length
        = ((allJobs input env benchmarks 0).flatMap (·.sent)).length := by
      rw [(assemble_entries _ _ hass).1, (arrival_perm schedule _).length_eq]
    refine ⟨herr, hlen, ?_⟩
    rw [hlen, ← allJobs_length input env benchmarks 0]
    exact length_flatMap_sent_le _ (fun job hj => (hgood job hj).1)

/-- C1, witness: two benchmarks on two instance types, one job succeeding
and three failing at different stages, arrive out of order: no invocation
panics and the report has four entries. -/
theorem RunBenchmarks_reports_mixed_matrix :
    orchestratorReady.cfg ≠ none ∧
      (∀ job ∈ allJobs inputTwoTypes jobsMixed twoBenchmarks 0, job.panicked = false) ∧
      (∃ rep, (RunBenchmarks orchestratorReady inputTwoTypes twoBenchmarks jobsMixed [2, 0, 1]
            false).ret = some (rep, none) ∧
        rep.Reports.length = 4) ∧
      (allJobs inputTwoTypes jobsMixed twoBenchmarks 0).length = 4 ∧
      ∀ job ∈ allJobs inputTwoTypes jobsMixed twoBenchmarks 0, job.sent.length = 1 := by
  have h := RunBenchmarks_reports_every_job orchestratorReady inputTwoTypes twoBenchmarks
    jobsMixed [2, 0, 1] false (by decide)
  have hnone : ∀ job ∈ allJobs inputTwoTypes jobsMixed twoBenchmarks 0, job.panicked = false := by
    decide
  exact ⟨by decide, hnone, h.2.2.2.2.2.1 hnone, h.2.1,
    fun job hj => (h.2.2.2.1 job hj).2 (hnone job hj)⟩

/-- C6 (as stated, refuted): with two repetitions, a job whose benchmark
command succeeds the first time and fails the second has an entry with a
non-empty `Error` and one timing sample, the one of the first repetition. -/
theorem failed_job_keeps_earlier_samples :
    (RunBenchmarks orchestratorReady inputTwoRuns [{ GetName := "aws-cli" }]
        (fun _ _ => jobCommandFails 6) [] false).ret.map
        (fun r => r.1.Reports.map (fun e => (e.Error, e.TotalTimeSec)))
      = some [("running benchmark failed: exit status 1", [42])] := by
  decide

/-- C6 (amended): a job fails at a stage when every earlier stage has
returned without error and the function of the stage returns an error `e`
(instance-type lookup, launch, health wait when enabled, public-IP wait,
reachability, root login, benchmark set-up), or when the run records an error
`e` (no command, monitor not started, profiling failed, or a repetition of the
benchmark command whose execution or parsing failed after the earlier
repetitions had given the samples `samples`). In a cloud whose unwrapped
errors have a text, such a job sends exactly one result, and the entry that
`RunBenchmarks` builds from it has the name of the benchmark, the text of `e`
as its `Error`, which is not empty, and the samples gathered before the
failure as its `TotalTimeSec`: none when the failure came before the run, and
in every case fewer than the `max(runs, 1)` repetitions asked for. Whenever a
call of `RunBenchmarks` whose matrix holds the job returns a report, that
entry is in the report. -/
theorem failed_job_entry (input : EC2BenchmarkOrchestratorInput) (env : JobEnv) (b : Benchmark)
    (t : String) (stage : JobStage) (e : GoError) (samples : List Rat)
    (htext : env.ec2.errorsHaveText) (hfail : FailsAt input env b t stage e samples) :
    ∃ r entry, (runBenchmark input env b t).sent = [r] ∧ reportEntry r = some entry ∧
      entry.Name = b.GetName ∧ entry.Error = e.Error ∧ entry.Error ≠ "" ∧
      entry.TotalTimeSec = samples ∧ (stage ≠ .run → entry.TotalTimeSec = []) ∧
      entry.TotalTimeSec.length < (max input.BenchmarkRuns 1).toNat ∧
      ∀ (o : ec2BenchmarkOrchestrator) (benchmarks : List Benchmark) (envs : Nat → Nat → JobEnv)
        (schedule : List Nat) (poolRecovers : Bool) (rep : Report) (err : Option GoError)
        (i k : Nat),
        (RunBenchmarks o input benchmarks envs schedule poolRecovers).ret = some (rep, err) →
        benchmarks[i]? = some b → input.InstanceTypes[k]? = some t → envs i k = env →
        entry ∈ rep.Reports := by
  have hpos : 0 < (max input.BenchmarkRuns 1).toNat := by omega
  by_cases hstage : stage = .run
  · subst hstage
    obtain ⟨br, st, hdone, hrun⟩ := hfail
    obtain ⟨hruns, hb⟩ := SetUpDone_runner input env b t br st hdone
    obtain ⟨rep, st7, hRun, hname, herr, hsamples⟩ := Run_of_RunFails br env st e samples hrun
    have hsent := sent_of_SetUpDone input env b t br st rep st7 hdone hRun
    have hgood := (runBenchmark_good input env b t).1
      { benchmark := b, instanceType := t, report := some rep } (by rw [hsent]; simp)
    obtain ⟨_, _, hs | hs⟩ := hgood
    · obtain ⟨e1, he1, _⟩ := hs
      cases he1
    · obtain ⟨_, rep1, hrep1, _, hlt⟩ := hs
      simp only [Option.some.injEq] at hrep1
      subst hrep1
      have hne : rep.Error ≠ "" := by
        rw [herr]
        rcases hrun with ⟨e0, _, he, _⟩ | ⟨cmd, _, h⟩
        · rw [he]; exact Errorf_ne_empty _ _
        · rcases h with ⟨e0, _, he, _⟩ | ⟨_, _, hp, _⟩ | ⟨_, _, outs, hrep, _⟩
          · rw [he]; exact Errorf_ne_empty _ _
          · rcases hp with ⟨e0, _, he⟩ | ⟨remote, _, ⟨e0, _, he⟩ | ⟨_, e0, _, he⟩⟩ <;>
              rw [he] <;> exact Errorf_ne_empty _ _
          · rcases hrep.2.2 with ⟨e0, _, he⟩ | ⟨_, e0, _, he⟩ <;>
              rw [he] <;> exact Errorf_ne_empty _ _
      refine ⟨_, { rep with Metadata := rep.Metadata ++ [.benchmarkMetadata t] }, hsent, rfl,
        by rw [← hb]; exact hname, herr, hne, hsamples, fun h => absurd rfl h, hlt hne, ?_⟩
      intro o benchmarks envs schedule poolRecovers rep0 err i k hret hbi hk henv
      exact entry_in_report input env b t _ _ hsent rfl o benchmarks envs schedule poolRecovers
        rep0 err i k hret hbi hk henv
  · obtain ⟨hs, hsent⟩ := sent_of_failure_before_run input env b t stage e samples hstage hfail
    have hgood := (runBenchmark_good input env b t).1
      { benchmark := b, instanceType := t, err := some e } (by rw [hsent]; simp)
    obtain ⟨_, _, hg | hg⟩ := hgood
    · obtain ⟨e1, he1, _, htxt⟩ := hg
      simp only [Option.some.injEq] at he1
      subst he1
      refine ⟨_, { Name := b.GetName, Metadata := [.benchmarkMetadata t], Error := e.Error },
        hsent, rfl, rfl, rfl, htxt htext, hs.symm, fun _ => rfl, hpos, ?_⟩
      intro o benchmarks envs schedule poolRecovers rep0 err i k hret hbi hk henv
      exact entry_in_report input env b t _ _ hsent rfl o benchmarks envs schedule poolRecovers
        rep0 err i k hret hbi hk henv
    · obtain ⟨he1, _⟩ := hg
      cases he1

/-- C6, witness: the job of the refuted statement, two repetitions of which
the second fails: every stage before the run succeeds, the first repetition
gives the sample 42, the second command returns `exit status 1`; the entry
has that error and the one sample, fewer than the two asked for. And a job
whose five launch requests are refused fails at the launch: its entry has the
error of `launchInstance` and no sample. -/
theorem failed_job_entry_second_repetition :
    ((jobCommandFails 6).ec2.errorsHaveText ∧
      FailsAt inputTwoRuns (jobCommandFails 6) { GetName := "aws-cli" } "m6i.8xlarge" .run
        (Errorf "running benchmark failed" (ErrorNew "exit status 1")) [42] ∧
      ∃ r entry,
        (runBenchmark inputTwoRuns (jobCommandFails 6) { GetName := "aws-cli" }
          "m6i.8xlarge").sent = [r] ∧
        reportEntry r = some entry ∧ entry.Error = "running benchmark failed: exit status 1" ∧
        entry.TotalTimeSec = [42]) ∧
    (jobLaunchFails.ec2.errorsHaveText ∧
      FailsAt inputOneType jobLaunchFails { GetName := "aws-cli" } "m6i.8xlarge" .launch
        (Errorf "failed to launch instance" (ErrorNew "InsufficientInstanceCapacity")) [] ∧
      ∃ r entry,
        (runBenchmark inputOneType jobLaunchFails { GetName := "aws-cli" } "m6i.8xlarge").sent
          = [r] ∧
        reportEntry r = some entry ∧
        entry.Error = "failed to launch instance: InsufficientInstanceCapacity" ∧
        entry.TotalTimeSec = []) := by
  have htext : (jobCommandFails 6).ec2.errorsHaveText := by
    refine ⟨?_, ?_, ?_⟩ <;> intros <;> simp_all [jobCommandFails, jobOk, ec2Ok]
  have hL : Launched (jobCommandFails 6) "m6i.8xlarge" [{ NetworkCards := [25] }] "i-1"
      stLaunched :=
    ⟨3, { InstanceId := "i-1" }, [], rfl, rfl, by decide, rfl⟩
  have hH : PastHealthWait inputTwoRuns (jobCommandFails 6) "m6i.8xlarge"
      [{ NetworkCards := [25] }] "i-1" stLaunched :=
    ⟨stLaunched, hL, Or.inl ⟨rfl, rfl⟩⟩
  have hA : GotAddress inputTwoRuns (jobCommandFails 6) "m6i.8xlarge"
      [{ NetworkCards := [25] }] "i-1" stAddress :=
    ⟨stLaunched, "203.0.113.7", (getInstanceIP (jobCommandFails 6).ec2 "i-1" stLaunched).2, hH,
      by decide, rfl⟩
  have hR : Reached inputTwoRuns (jobCommandFails 6) "m6i.8xlarge"
      [{ NetworkCards := [25] }] "i-1" stReached :=
    ⟨stAddress, hA, by decide⟩
  have hI : LoggedIn inputTwoRuns (jobCommandFails 6) "m6i.8xlarge"
      [{ NetworkCards := [25] }] "i-1" stLoggedIn :=
    ⟨stReached, { NetworkCards := [25] }, [], 25, [], hR, by decide, rfl, rfl⟩
  have hS : SetUpDone inputTwoRuns (jobCommandFails 6) { GetName := "aws-cli" } "m6i.8xlarge"
      runnerTwoRuns stSetUp :=
    ⟨[{ NetworkCards := [25] }], "i-1", stLoggedIn, hI, by decide⟩
  have hcalls : stSetUp.targetCalls = 5 := by decide
  have hrep : RepetitionFails runnerTwoRuns.runs (jobCommandFails 6) "run-benchmark"
      stSetUp.targetCalls (Errorf "running benchmark failed" (ErrorNew "exit status 1"))
      [{ TotalTimeSec := 42 }] := by
    rw [hcalls]
    refine ⟨by decide, ?_, Or.inl ⟨ErrorNew "exit status 1", by decide, rfl⟩⟩
    intro i out hi
    cases i with
    | zero =>
      simp only [List.getElem?_cons_zero, Option.some.injEq] at hi
      subst hi
      exact ⟨by decide, by decide⟩
    | succ j => simp at hi
  have hfail : FailsAt inputTwoRuns (jobCommandFails 6) { GetName := "aws-cli" } "m6i.8xlarge"
      .run (Errorf "running benchmark failed" (ErrorNew "exit status 1")) [42] :=
    ⟨runnerTwoRuns, stSetUp, hS,
      Or.inr ⟨"run-benchmark", rfl,
        Or.inr (Or.inr ⟨rfl, rfl, [{ TotalTimeSec := 42 }], hrep, rfl⟩)⟩⟩
  obtain ⟨r, entry, hsent, hentry, _, herr, _, hsamples, _⟩ :=
    failed_job_entry inputTwoRuns (jobCommandFails 6) { GetName := "aws-cli" } "m6i.8xlarge"
      .run (Errorf "running benchmark failed" (ErrorNew "exit status 1")) [42] htext hfail
  have htext2 : jobLaunchFails.ec2.errorsHaveText := by
    refine ⟨?_, ?_, ?_⟩ <;> intros <;> simp_all [jobLaunchFails, ec2LaunchFails, jobOk, ec2Ok]
  have hfail2 : FailsAt inputOneType jobLaunchFails { GetName := "aws-cli" } "m6i.8xlarge"
      .launch (Errorf "failed to launch instance" (ErrorNew "InsufficientInstanceCapacity"))
      [] :=
    ⟨rfl, 3, [{ NetworkCards := [25] }],
      (launchInstance jobLaunchFails.ec2 "m6i.8xlarge" (jobStart 3 "m6i.8xlarge")).2, rfl, rfl,
      by decide⟩
  obtain ⟨r2, entry2, hsent2, hentry2, _, herr2, _, hsamples2, _⟩ :=
    failed_job_entry inputOneType jobLaunchFails { GetName := "aws-cli" } "m6i.8xlarge"
      .launch (Errorf "failed to launch instance" (ErrorNew "InsufficientInstanceCapacity")) []
      htext2 hfail2
  exact ⟨⟨htext, hfail, r, entry, hsent, hentry, by rw [herr]; decide, hsamples⟩,
    ⟨htext2, hfail2, r2, entry2, hsent2, hentry2, by rw [herr2]; decide, hsamples2⟩⟩

theorem RunBenchmarks_entries (o : ec2BenchmarkOrchestrator)
    (input : EC2BenchmarkOrchestratorInput) (benchmarks : List Benchmark)
    (env : Nat → Nat → JobEnv) (schedule : List Nat) (poolRecovers : Bool) (rep : Report)
    (err : Option GoError)
    (h : (RunBenchmarks o input benchmarks env schedule poolRecovers).ret = some (rep, err)) :
    ∀ e ∈ rep.Reports, ∃ job ∈ allJobs input env benchmarks 0, ∃ r ∈ job.sent,
      reportEntry r = some e := by
  unfold RunBenchmarks at h
  cases hc : o.cfg with
  | none => simp [hc] at h
  | some cfg =>
    simp only [hc] at h
    generalize (if (input.BenchmarkConcurrency == 0) = true then
      (allJobs input env benchmarks 0).any (·.panicked)
      else (allJobs input env benchmarks 0).any (·.panicked) && !poolRecovers) = crashed at h
    cases crashed with
    | true => simp at h
    | false =>
      cases hrep : assemble (arrival schedule
          ((allJobs input env benchmarks 0).flatMap (·.sent))) with
      | none => simp [hrep] at h
      | some reports =>
        simp only [hrep, Bool.false_eq_true, if_false, Option.some.injEq, Prod.mk.injEq] at h
        obtain ⟨h1, _⟩ := h
        subst h1
        intro e he
        obtain ⟨r, hr, hre⟩ := (assemble_entries _ _ hrep).2 e he
        have hr1 := (arrival_perm schedule _).mem_iff.mp hr
        obtain ⟨job, hj, hrj⟩ := List.mem_flatMap.mp hr1
        exact ⟨job, hj, r, hrj, hre⟩

/-- C7 (as stated, refuted): a job whose benchmark command fails in its
single repetition is a failed job, its entry has a non-empty `Error`, and the
`Metadata` of the entry is not the instance-type record alone: the record
comes after the command record that `Run` had already written. -/
theorem failed_run_keeps_run_metadata :
    (RunBenchmarks orchestratorReady inputOneType [{ GetName := "aws-cli" }]
        (fun _ _ => jobCommandFails 5) [] false).ret.map
        (fun r => r.1.Reports.map (fun e => (e.Error, e.Metadata)))
      = some [("running benchmark failed: exit status 1",
               [.runInfo [("command", "run-benchmark"), ("profiler", "none")],
                .benchmarkMetadata "m6i.8xlarge"])] := by
  decide

/-- C7 (amended): every entry of the report that `RunBenchmarks` returns is
built from the result of one job of the matrix, has the name of that job's
benchmark, and carries the instance type of that job as the last element of
its `Metadata`: when the job failed before the benchmark was run (the result
carries an error) `Metadata` is exactly that one record; when the job reached
`Run`, whether `Run` succeeded or recorded a failure, the record is appended
after the metadata of the report of `Run`. -/
theorem report_entries_carry_instance_type (o : ec2BenchmarkOrchestrator)
    (input : EC2BenchmarkOrchestratorInput) (benchmarks : List Benchmark)
    (env : Nat → Nat → JobEnv) (schedule : List Nat) (poolRecovers : Bool) (rep : Report)
    (err : Option GoError)
    (h : (RunBenchmarks o input benchmarks env schedule poolRecovers).ret = some (rep, err)) :
    ∀ e ∈ rep.Reports, ∃ i k b t r,
      benchmarks[i]? = some b ∧ input.InstanceTypes[k]? = some t ∧
      r ∈ (runBenchmark input (env i k) b t).sent ∧ reportEntry r = some e ∧
      e.Name = b.GetName ∧ e.Metadata.getLast? = some (.benchmarkMetadata t) ∧
      ((r.err ≠ none ∧ e.Metadata = [.benchmarkMetadata t]) ∨
       (r.err = none ∧ ∃ run, r.report = some run ∧
          e.Metadata = run.Metadata ++ [.benchmarkMetadata t])) := by
  intro e he
  obtain ⟨job, hj, r, hr, hre⟩ := RunBenchmarks_entries o input benchmarks env schedule
    poolRecovers rep err h e he
  obtain ⟨i, k, b, t, hb, hk, hjob, hg⟩ := allJobs_good input env benchmarks 0 job hj
  simp only [Nat.zero_add] at hjob hg
  subst hjob
  refine ⟨i, k, b, t, r, hb, hk, hr, hre, ?_⟩
  obtain ⟨hbench, hty, hs | hs⟩ := hg.1 r hr
  · obtain ⟨e1, herr, _, _⟩ := hs
    simp only [reportEntry, herr, Option.some.injEq] at hre
    subst hre
    exact ⟨by rw [hbench], by simp [hty], Or.inl ⟨by simp [herr], by simp [hty]⟩⟩
  · obtain ⟨herr, run, hrun, hname, _⟩ := hs
    simp only [reportEntry, herr, hrun, Option.some.injEq] at hre
    subst hre
    exact ⟨hname, by simp [hty], Or.inr ⟨herr, run, hrun, by simp [hty]⟩⟩

/-- C7, witness: the mixed 2 x 2 matrix, whose report has an entry of each
kind. -/
theorem report_entries_carry_instance_type_mixed :
    ∃ rep err,
      (RunBenchmarks orchestratorReady inputTwoTypes twoBenchmarks jobsMixed [2, 0, 1] false).ret
        = some (rep, err) ∧
      ∀ e ∈ rep.Reports, ∃ i k b t r,
        twoBenchmarks[i]? = some b ∧ inputTwoTypes.InstanceTypes[k]? = some t ∧
        r ∈ (runBenchmark inputTwoTypes (jobsMixed i k) b t).sent ∧ reportEntry r = some e ∧
        e.Name = b.GetName ∧ e.Metadata.getLast? = some (.benchmarkMetadata t) ∧
        ((r.err ≠ none ∧ e.Metadata = [.benchmarkMetadata t]) ∨
         (r.err = none ∧ ∃ run, r.report = some run ∧
            e.Metadata = run.Metadata ++ [.benchmarkMetadata t])) := by
  have hret : (RunBenchmarks orchestratorReady inputTwoTypes twoBenchmarks jobsMixed [2, 0, 1]
      false).ret ≠ none := by decide
  obtain ⟨⟨rep, err⟩, h⟩ := Option.ne_none_iff_exists'.mp hret
  exact ⟨rep, err, h,
    report_entries_carry_instance_type orchestratorReady inputTwoTypes twoBenchmarks jobsMixed
      [2, 0, 1] false rep err h⟩

/-- C8: on every path of `runBenchmark` on which an instance was launched,
whether the rest of the function then returns a success, returns an error at
any later stage, or panics, the trace has exactly one `TerminateInstances`
request, for the launched instance, followed by `k` polls of
`DescribeInstances` for that instance with `1 ≤ k ≤ 5`. The polls are the
requests numbered from the count of `DescribeInstances` requests made before
the termination. None of the polls but the last showed the instance in the
state `terminated` (nor was its reply unreadable), and when fewer than 5
polls were made the last one ended the wait: its reply came without error and
showed the first instance of the first reservation in the state `terminated`,
or the reading of its reply panicked because the reservation lists no
instance. On the paths that end before a launch has succeeded the trace has
no `TerminateInstances` request. -/
theorem runBenchmark_terminates_launched_instance (input : EC2BenchmarkOrchestratorInput)
    (env : JobEnv) (b : Benchmark) (t : String) :
    match launchedInstance env t with
    | some id =>
      ∃ pre post k,
        (runBenchmark input env b t).st.trace = pre ++ .TerminateInstances id :: post ∧
        pre.all (fun e => !e.isTerminate) = true ∧ post.all (fun e => !e.isTerminate) = true ∧
        post.filter Event.isDescribe = List.replicate k (.DescribeInstances id) ∧
        1 ≤ k ∧ k ≤ 5 ∧
        (∀ i, i + 1 < k →
          seenState (env.ec2.DescribeInstances (pre.countP Event.isDescribe + i))
              ≠ .ok (some "terminated") ∧
            seenState (env.ec2.DescribeInstances (pre.countP Event.isDescribe + i)) ≠ .panic) ∧
        (k < 5 →
          seenState (env.ec2.DescribeInstances (pre.countP Event.isDescribe + (k - 1)))
              = .ok (some "terminated") ∨
            seenState (env.ec2.DescribeInstances (pre.countP Event.isDescribe + (k - 1)))
              = .panic)
    | none => (runBenchmark input env b t).st.trace.all (fun e => !e.isTerminate) = true := by
  have hnone : ∀ st : JobState, Advances {} st →
      st.trace.all (fun e => !e.isTerminate) = true := by
    intro st ⟨es, he, ht, _⟩
    rw [he]
    simpa using ht
  unfold launchedInstance runBenchmark
  cases env.randInt with
  | error e => simp
  | ok n =>
    dsimp only
    have h0 : Advances {} (({} : JobState).emit [.Sleep n, .DescribeInstanceTypes t]) :=
      (Advances.refl {}).emit _ (by simp [Event.isTerminate, Event.isDescribe])
    cases env.ec2.DescribeInstanceTypes with
    | error e => exact hnone _ h0
    | ok types =>
      dsimp only
      generalize hl : launchInstance env.ec2 t _ = l
      have h1 : Advances {} l.2 := by
        rw [← hl]; exact launchInstanceLoop_advances env.ec2 t 5 0 none {} _ h0
      obtain ⟨rl, st1⟩ := l
      cases rl with
      | panic => exact hnone _ h1
      | err e => exact hnone _ h1
      | ok insts =>
        cases insts with
        | nil => exact hnone _ h1
        | cons inst rest =>
          dsimp only
          have h2 := runBenchmarkAfterLaunch_advances input env b t types inst.InstanceId {} st1 h1
          obtain ⟨es, hes, hterm, hcount⟩ := h2
          obtain ⟨k, post, htr, hpost, hdesc, hk1, hk5, hbefore, hlast⟩ :=
            terminateInstance_trace env.ec2 inst.InstanceId
              (runBenchmarkAfterLaunch input env b t types inst.InstanceId st1).st
          have hpre : (runBenchmarkAfterLaunch input env b t types inst.InstanceId st1).st.trace
              = es := by rw [hes]; rfl
          have hcnt : (runBenchmarkAfterLaunch input env b t types inst.InstanceId
              st1).st.describeCalls = es.countP Event.isDescribe := by
            rw [hcount]; show 0 + _ = _; omega
          rw [hpre] at htr
          rw [hcnt] at hbefore hlast
          exact ⟨es, post, k, htr, hterm, hpost, hdesc, hk1, hk5, hbefore, hlast⟩

/-! ## The launch retries -/

theorem launchInstanceLoop_succeeds (ec2 : Ec2Api) (t : String) (inst : Instance)
    (rest : List Instance) (k : Nat) :
    ∀ (n i : Nat) (err : Option GoError) (st : JobState), k < n →
      (∀ j, j < k → ∃ e, ec2.RunInstances (i + j) = .error e) →
      ec2.RunInstances (i + k) = .ok (inst :: rest) →
      ∃ es, launchInstanceLoop ec2 t n i err st = (.ok (inst :: rest), st.emit es) ∧
        es.count (.RunInstances t) = k + 1 := by
  induction k with
  | zero =>
    intro n i err st hn _ hok
    obtain ⟨m, rfl⟩ : ∃ m, n = m + 1 := ⟨n - 1, by omega⟩
    simp only [Nat.add_zero] at hok
    refine ⟨[.RunInstances t,
      .slog .Debug "launched instance" [("instanceID", inst.InstanceId)]], ?_, by simp⟩
    simp [launchInstanceLoop, hok, JobState.emit]
  | succ k ih =>
    intro n i err st hn hfail hok
    obtain ⟨m, rfl⟩ : ∃ m, n = m + 1 := ⟨n - 1, by omega⟩
    obtain ⟨e, he⟩ := hfail 0 (by omega)
    simp only [Nat.add_zero] at he
    obtain ⟨es, hes, hcount⟩ := ih m (i + 1) (some e)
      ((st.emit [.RunInstances t]).emit
        [.slog .Debug "waiting to launch instance" [("error", e.Error)], .Sleep 60])
      (by omega)
      (fun j hj => by
        obtain ⟨e1, he1⟩ := hfail (j + 1) (by omega)
        exact ⟨e1, by rw [← he1]; congr 1; omega⟩)
      (by rw [← hok]; congr 1; omega)
    refine ⟨[.RunInstances t, .slog .Debug "waiting to launch instance" [("error", e.Error)],
      .Sleep 60] ++ es, ?_, ?_⟩
    · rw [launchInstanceLoop]
      simp only [he]
      rw [hes]
      simp [JobState.emit]
    · simp [List.count_append, hcount, List.count_cons]

theorem launchInstanceLoop_gives_up (ec2 : Ec2Api) (t : String) (errs : Nat → GoError) :
    ∀ (n i : Nat) (e0 : GoError) (st : JobState),
      (∀ j, j < n → ec2.RunInstances (i + j) = .error (errs (i + j))) →
      ∃ es, launchInstanceLoop ec2 t n i (some e0) st
          = (.err (Errorf "failed to launch instance" (if n = 0 then e0 else errs (i + n - 1))),
             st.emit es) ∧
        es.count (.RunInstances t) = n := by
  intro n
  induction n with
  | zero =>
    intro i e0 st _
    exact ⟨[], by simp [launchInstanceLoop, JobState.emit], by simp⟩
  | succ n ih =>
    intro i e0 st hfail
    have he := hfail 0 (by omega)
    simp only [Nat.add_zero] at he
    obtain ⟨es, hes, hcount⟩ := ih (i + 1) (errs i)
      ((st.emit [.RunInstances t]).emit
        [.slog .Debug "waiting to launch instance" [("error", (errs i).Error)], .Sleep 60])
      (fun j hj => by
        have := hfail (j + 1) (by omega)
        rw [show i + 1 + j = i + (j + 1) by omega]
        exact this)
    refine ⟨[.RunInstances t,
      .slog .Debug "waiting to launch instance" [("error", (errs i).Error)], .Sleep 60] ++ es,
      ?_, ?_⟩
    · rw [launchInstanceLoop]
      simp only [he]
      rw [hes]
      have hidx : (if n = 0 then errs i else errs (i + 1 + n - 1))
          = (if n + 1 = 0 then e0 else errs (i + (n + 1) - 1)) := by
        by_cases hn : n = 0
        · subst hn; simp
        · simp only [hn, if_false, Nat.add_one_ne_zero]
          congr 1
          omega
      rw [hidx]
      simp [JobState.emit]
    · simp [List.count_append, hcount, List.count_cons]

theorem launchInstanceLoop_calls (ec2 : Ec2Api) (t : String) :
    ∀ (n i : Nat) (err : Option GoError) (st : JobState),
      ∃ es, (launchInstanceLoop ec2 t n i err st).2 = st.emit es ∧
        es.count (.RunInstances t) ≤ n := by
  intro n
  induction n with
  | zero =>
    intro i err st
    refine ⟨[], ?_, by simp⟩
    unfold launchInstanceLoop
    split <;> simp [JobState.emit]
  | succ n ih =>
    intro i err st
    unfold launchInstanceLoop
    dsimp only
    split
    · exact ⟨[.RunInstances t], rfl, by simp⟩
    · rename_i inst rest _
      exact ⟨[.RunInstances t,
        .slog .Debug "launched instance" [("instanceID", inst.InstanceId)]],
        by simp [JobState.emit], by simp⟩
    · rename_i e _
      obtain ⟨es, hes, hcount⟩ := ih (i + 1) (some e)
        ((st.emit [.RunInstances t]).emit
          [.slog .Debug "waiting to launch instance" [("error", e.Error)], .Sleep 60])
      refine ⟨[.RunInstances t, .slog .Debug "waiting to launch instance" [("error", e.Error)],
        .Sleep 60] ++ es, ?_, ?_⟩
      · rw [hes]; simp [JobState.emit]
      · simp [List.count_append, List.count_cons]
        omega

/-- C11: `launchInstance` sends at most 5 `RunInstances` requests, whatever
the cloud answers. If the first `k < 5` requests fail and the next one
succeeds, it returns the response of that request after exactly `k + 1`
requests; if all 5 requests fail it returns, after exactly 5 requests, the
error `failed to launch instance` wrapping the error of the fifth. -/
theorem launchInstance_retries (ec2 : Ec2Api) (t : String) (st : JobState) (k : Nat)
    (errs : Nat → GoError) (hk : k ≤ 5)
    (hfail : ∀ j, j < k → ec2.RunInstances j = .error (errs j))
    (hsucc : k < 5 → ∃ inst rest, ec2.RunInstances k = .ok (inst :: rest)) :
    (∃ es, (launchInstance ec2 t st).2 = st.emit es ∧
        es.count (.RunInstances t) = min (k + 1) 5) ∧
      (k < 5 → ∀ resp, ec2.RunInstances k = .ok resp →
        (launchInstance ec2 t st).1 = .ok resp) ∧
      (k = 5 → (launchInstance ec2 t st).1
        = .err (Errorf "failed to launch instance" (errs 4))) ∧
      (∀ (cloud : Ec2Api) (ty : String) (s : JobState),
        ∃ es, (launchInstance cloud ty s).2 = s.emit es ∧ es.count (.RunInstances ty) ≤ 5) := by
  have hbound : ∀ (cloud : Ec2Api) (ty : String) (s : JobState),
      ∃ es, (launchInstance cloud ty s).2 = s.emit es ∧ es.count (.RunInstances ty) ≤ 5 :=
    fun cloud ty s => launchInstanceLoop_calls cloud ty 5 0 none s
  by_cases h5 : k < 5
  · obtain ⟨inst, rest, hok⟩ := hsucc h5
    obtain ⟨es, hes, hcount⟩ := launchInstanceLoop_succeeds ec2 t inst rest k 5 0 none st h5
      (fun j hj => ⟨errs j, by simpa using hfail j hj⟩) (by simpa using hok)
    refine ⟨⟨es, by simp [launchInstance, hes], by rw [hcount]; omega⟩, ?_, ?_, hbound⟩
    · intro _ resp hresp
      rw [hok] at hresp
      cases hresp
      simp [launchInstance, hes]
    · intro h; omega
  · have hk5 : k = 5 := by omega
    subst hk5
    have h0 := hfail 0 (by omega)
    obtain ⟨es, hes, hcount⟩ := launchInstanceLoop_gives_up ec2 t errs 4 1 (errs 0)
      ((st.emit [.RunInstances t]).emit
        [.slog .Debug "waiting to launch instance" [("error", (errs 0).Error)], .Sleep 60])
      (fun j hj => hfail (1 + j) (by omega))
    have hrun : launchInstance ec2 t st
        = (.err (Errorf "failed to launch instance" (errs 4)),
           st.emit ([.RunInstances t,
             .slog .Debug "waiting to launch instance" [("error", (errs 0).Error)],
             .Sleep 60] ++ es)) := by
      unfold launchInstance
      rw [launchInstanceLoop]
      simp only [h0]
      rw [show (0 : Nat) + 1 = 1 from rfl, hes]
      simp [JobState.emit]
    refine ⟨⟨_, by rw [hrun], ?_⟩, fun h => by omega, fun _ => by rw [hrun], hbound⟩
    simp [List.count_append, hcount, List.count_cons]

/-- C11, witness: refused twice, the launch succeeds at the third request. -/
theorem launchInstance_succeeds_on_third_request :
    (∀ j, j < 2 → (ec2LaunchAfter 2).RunInstances j
        = .error (ErrorNew "InsufficientInstanceCapacity")) ∧
      (2 < 5 → ∃ inst rest, (ec2LaunchAfter 2).RunInstances 2 = .ok (inst :: rest)) ∧
      (∃ es, (launchInstance (ec2LaunchAfter 2) "m6i.8xlarge" {}).2 = ({} : JobState).emit es ∧
        es.count (.RunInstances "m6i.8xlarge") = min (2 + 1) 5) ∧
      (2 < 5 → ∀ resp, (ec2LaunchAfter 2).RunInstances 2 = .ok resp →
        (launchInstance (ec2LaunchAfter 2) "m6i.8xlarge" {}).1 = .ok resp) ∧
      (2 = 5 → (launchInstance (ec2LaunchAfter 2) "m6i.8xlarge" {}).1
        = .err (Errorf "failed to launch instance" (ErrorNew "InsufficientInstanceCapacity"))) ∧
      (∀ (cloud : Ec2Api) (ty : String) (s : JobState),
        ∃ es, (launchInstance cloud ty s).2 = s.emit es ∧ es.count (.RunInstances ty) ≤ 5) :=
  ⟨fun j hj => by interval_cases j <;> rfl, fun _ => ⟨{ InstanceId := "i-1" }, [], rfl⟩,
    launchInstance_retries (ec2LaunchAfter 2) "m6i.8xlarge" {} 2
      (fun _ => ErrorNew "InsufficientInstanceCapacity") (by decide)
      (fun j hj => by interval_cases j <;> rfl)
      (fun _ => ⟨{ InstanceId := "i-1" }, [], rfl⟩)⟩

/-! ## The health wait, the address wait and the root login -/

/-- C12 (the code departs from it): with the health wait enabled and a cloud
whose five status polls all answer without error that the instance is still
initializing, the wait ends after 5 polls with a nil error, and the job goes
on: it polls the instance description for the address and runs the benchmark
to a successful report, instead of ending with an error result. -/
theorem health_wait_proceeds_when_never_healthy :
    (waitInitializedLoop ec2Initializing "i-1" 5 0 none {}).1 = none ∧
      (waitInitializedLoop ec2Initializing "i-1" 5 0 none {}).2.trace.count
        (.DescribeInstanceStatus "i-1") = 5 ∧
      (runBenchmark inputWaitToInitialize jobInitializing { GetName := "aws-cli" }
        "m6i.8xlarge").st.trace.count (.DescribeInstanceStatus "i-1") = 5 ∧
      Event.DescribeInstances "i-1" ∈
        (runBenchmark inputWaitToInitialize jobInitializing { GetName := "aws-cli" }
          "m6i.8xlarge").st.trace ∧
      (runBenchmark inputWaitToInitialize jobInitializing { GetName := "aws-cli" }
        "m6i.8xlarge").sent.map (fun r => (r.err, r.report.map (fun rep => rep.Error)))
        = [(none, some "")] := by
  decide

theorem getInstanceIPLoop_succ (ec2 : Ec2Api) (id : String) (n : Nat) (st : JobState) :
    getInstanceIPLoop ec2 id (n + 1) st
      = match seenAddress (ec2.DescribeInstances st.describeCalls) with
        | .err e => (.err e, st.described id)
        | .panic => (.panic, st.described id)
        | .ok (some ip) => (.ok ip, st.described id)
        | .ok none => getInstanceIPLoop ec2 id n ((st.described id).emit [.Sleep 3]) := by
  rw [getInstanceIPLoop]
  cases h : ec2.DescribeInstances st.describeCalls with
  | error e => simp [seenAddress]
  | ok rs =>
    cases rs with
    | nil => simp [seenAddress]
    | cons r rest =>
      cases hi : r.Instances with
      | nil => simp [seenAddress, hi]
      | cons inst more =>
        cases ha : inst.PublicIpAddress <;> simp [seenAddress, hi, ha]

theorem getInstanceIPLoop_stops (ec2 : Ec2Api) (id : String) (k : Nat) :
    ∀ (n : Nat) (st : JobState), k < n →
      (∀ j, j < k → seenAddress (ec2.DescribeInstances (st.describeCalls + j)) = .ok none) →
      seenAddress (ec2.DescribeInstances (st.describeCalls + k)) ≠ .ok none →
      ∃ es, (getInstanceIPLoop ec2 id n st).2.trace = st.trace ++ es ∧
        es.count (.DescribeInstances id) = k + 1 ∧
        (getInstanceIPLoop ec2 id n st).1
          = (match seenAddress (ec2.DescribeInstances (st.describeCalls + k)) with
             | .err e => .err e
             | .ok (some ip) => .ok ip
             | _ => .panic) := by
  induction k with
  | zero =>
    intro n st hn _ hstop
    obtain ⟨m, rfl⟩ : ∃ m, n = m + 1 := ⟨n - 1, by omega⟩
    simp only [Nat.add_zero] at hstop ⊢
    rw [getInstanceIPLoop_succ]
    refine ⟨[.DescribeInstances id], ?_, by simp, ?_⟩
    · cases h : seenAddress (ec2.DescribeInstances st.describeCalls) with
      | err e => simp [JobState.described]
      | panic => simp [JobState.described]
      | ok a =>
        cases a with
        | none => exact absurd h hstop
        | some ip => simp [JobState.described]
    · cases h : seenAddress (ec2.DescribeInstances st.describeCalls) with
      | err e => simp
      | panic => simp
      | ok a =>
        cases a with
        | none => exact absurd h hstop
        | some ip => simp
  | succ k ih =>
    intro n st hn hwait hstop
    obtain ⟨m, rfl⟩ : ∃ m, n = m + 1 := ⟨n - 1, by omega⟩
    have h0 := hwait 0 (by omega)
    simp only [Nat.add_zero] at h0
    obtain ⟨es, hes, hcount, hres⟩ := ih m ((st.described id).emit [.Sleep 3]) (by omega)
      (fun j hj => by
        have := hwait (j + 1) (by omega)
        simpa [JobState.described, JobState.emit, Nat.add_assoc, Nat.add_comm 1 j] using this)
      (by simpa [JobState.described, JobState.emit, Nat.add_assoc, Nat.add_comm 1 k] using hstop)
    rw [getInstanceIPLoop_succ, h0]
    refine ⟨[.DescribeInstances id, .Sleep 3] ++ es, ?_, ?_, ?_⟩
    · rw [hes]; simp [JobState.described, JobState.emit]
    · simp [List.count_append, hcount, List.count_cons]
    · rw [hres]
      simp [JobState.described, JobState.emit, Nat.add_assoc, Nat.add_comm 1 k]

theorem getInstanceIPLoop_times_out (ec2 : Ec2Api) (id : String) :
    ∀ (n : Nat) (st : JobState),
      (∀ j, j < n → seenAddress (ec2.DescribeInstances (st.describeCalls + j)) = .ok none) →
      ∃ es, (getInstanceIPLoop ec2 id n st).2.trace = st.trace ++ es ∧
        es.count (.DescribeInstances id) = n ∧
        (getInstanceIPLoop ec2 id n st).1
          = .err (ErrorNew ("failed to get instance " ++ id ++ " IP")) := by
  intro n
  induction n with
  | zero => intro st _; exact ⟨[], by simp [getInstanceIPLoop], by simp, rfl⟩
  | succ n ih =>
    intro st hwait
    have h0 := hwait 0 (by omega)
    simp only [Nat.add_zero] at h0
    obtain ⟨es, hes, hcount, hres⟩ := ih ((st.described id).emit [.Sleep 3])
      (fun j hj => by
        have := hwait (j + 1) (by omega)
        simpa [JobState.described, JobState.emit, Nat.add_assoc, Nat.add_comm 1 j] using this)
    rw [getInstanceIPLoop_succ, h0]
    refine ⟨[.DescribeInstances id, .Sleep 3] ++ es, ?_, ?_, hres⟩
    · rw [hes]; simp [JobState.described, JobState.emit]
    · simp [List.count_append, hcount, List.count_cons]

theorem getInstanceIPLoop_calls (ec2 : Ec2Api) (id : String) :
    ∀ (n : Nat) (st : JobState),
      ∃ es, (getInstanceIPLoop ec2 id n st).2.trace = st.trace ++ es ∧
        es.count (.DescribeInstances id) ≤ n := by
  intro n
  induction n with
  | zero => intro st; exact ⟨[], by simp [getInstanceIPLoop], by simp⟩
  | succ n ih =>
    intro st
    rw [getInstanceIPLoop_succ]
    obtain ⟨es, hes, hcount⟩ := ih ((st.described id).emit [.Sleep 3])
    cases h : seenAddress (ec2.DescribeInstances st.describeCalls) with
    | err e => exact ⟨[.DescribeInstances id], by simp [JobState.described], by simp⟩
    | panic => exact ⟨[.DescribeInstances id], by simp [JobState.described], by simp⟩
    | ok a =>
      cases a with
      | some ip => exact ⟨[.DescribeInstances id], by simp [JobState.described], by simp⟩
      | none =>
        refine ⟨[.DescribeInstances id, .Sleep 3] ++ es, ?_, ?_⟩
        · simp only []; rw [hes]; simp [JobState.described, JobState.emit]
        · simp [List.count_append, List.count_cons]
          omega

/-- C13 (as stated, refuted): in a cloud that refuses the first description
of the instance and would show its public address from the second on,
`getInstanceIP` returns the error of the first poll after that single poll:
neither the address nor the timeout error naming the instance. -/
theorem getInstanceIP_stops_at_poll_error :
    (getInstanceIP ec2DescribeFailsOnce "i-1" {}).1 = .err (ErrorNew "RequestLimitExceeded") ∧
      (getInstanceIP ec2DescribeFailsOnce "i-1" {}).2.trace = [.DescribeInstances "i-1"] ∧
      seenAddress (ec2DescribeFailsOnce.DescribeInstances 1) = .ok (some "203.0.113.7") ∧
      (getInstanceIP ec2DescribeFailsOnce "i-1" {}).1
        ≠ .err (ErrorNew ("failed to get instance " ++ "i-1" ++ " IP")) := by
  decide

/-- C13 (amended): `getInstanceIP` polls the instance description at most 10
times, whatever the cloud answers. If the first `k < 10` polls answer without
error and show no public address, the next poll ends the wait after exactly
`k + 1` polls: with the address when it shows one (nil error), with the error
of the poll when it fails (nil address); if all 10 polls answer without
error and none shows an address, the wait returns after exactly 10 polls a
nil address and the error `failed to get instance <id> IP`. -/
theorem getInstanceIP_polls (ec2 : Ec2Api) (id : String) (st : JobState) (k : Nat)
    (hk : k ≤ 10)
    (hwait : ∀ j, j < k →
      seenAddress (ec2.DescribeInstances (st.describeCalls + j)) = .ok none)
    (hstop : k < 10 → seenAddress (ec2.DescribeInstances (st.describeCalls + k)) ≠ .ok none) :
    (∃ es, (getInstanceIP ec2 id st).2.trace = st.trace ++ es ∧
        es.count (.DescribeInstances id) = min (k + 1) 10) ∧
      (k < 10 → ∀ ip,
        seenAddress (ec2.DescribeInstances (st.describeCalls + k)) = .ok (some ip) →
        (getInstanceIP ec2 id st).1 = .ok ip) ∧
      (k < 10 → ∀ e, seenAddress (ec2.DescribeInstances (st.describeCalls + k)) = .err e →
        (getInstanceIP ec2 id st).1 = .err e) ∧
      (k = 10 → (getInstanceIP ec2 id st).1
        = .err (ErrorNew ("failed to get instance " ++ id ++ " IP"))) ∧
      (∀ (cloud : Ec2Api) (i : String) (s : JobState),
        ∃ es, (getInstanceIP cloud i s).2.trace = s.trace ++ es ∧
          es.count (.DescribeInstances i) ≤ 10) := by
  have hbound : ∀ (cloud : Ec2Api) (i : String) (s : JobState),
      ∃ es, (getInstanceIP cloud i s).2.trace = s.trace ++ es ∧
        es.count (.DescribeInstances i) ≤ 10 :=
    fun cloud i s => getInstanceIPLoop_calls cloud i 10 s
  by_cases h10 : k < 10
  · obtain ⟨es, hes, hcount, hres⟩ := getInstanceIPLoop_stops ec2 id k 10 st h10 hwait
      (hstop h10)
    refine ⟨⟨es, hes, by rw [hcount]; omega⟩, ?_, ?_, fun h => by omega, hbound⟩
    · intro _ ip hip
      unfold getInstanceIP
      rw [hres, hip]
    · intro _ e he
      unfold getInstanceIP
      rw [hres, he]
  · have hk10 : k = 10 := by omega
    subst hk10
    obtain ⟨es, hes, hcount, hres⟩ := getInstanceIPLoop_times_out ec2 id 10 st hwait
    exact ⟨⟨es, hes, by rw [hcount]; rfl⟩, fun h => by omega, fun h => by omega,
      fun _ => hres, hbound⟩

/-- C13, witness: no address in the first two descriptions, the address in the
third. -/
theorem getInstanceIP_address_on_third_poll :
    (2 ≤ 10) ∧
      (∀ j, j < 2 → seenAddress ((ec2AddressAfter 2).DescribeInstances
        (({} : JobState).describeCalls + j)) = .ok none) ∧
      (2 < 10 → seenAddress ((ec2AddressAfter 2).DescribeInstances
        (({} : JobState).describeCalls + 2)) ≠ .ok none) ∧
      (∃ es, (getInstanceIP (ec2AddressAfter 2) "i-1" {}).2.trace = ({} : JobState).trace ++ es ∧
        es.count (.DescribeInstances "i-1") = min (2 + 1) 10) ∧
      (2 < 10 → ∀ ip,
        seenAddress ((ec2AddressAfter 2).DescribeInstances (({} : JobState).describeCalls + 2))
          = .ok (some ip) →
        (getInstanceIP (ec2AddressAfter 2) "i-1" {}).1 = .ok ip) ∧
      (2 < 10 → ∀ e,
        seenAddress ((ec2AddressAfter 2).DescribeInstances (({} : JobState).describeCalls + 2))
          = .err e →
        (getInstanceIP (ec2AddressAfter 2) "i-1" {}).1 = .err e) ∧
      (2 = 10 → (getInstanceIP (ec2AddressAfter 2) "i-1" {}).1
        = .err (ErrorNew ("failed to get instance " ++ "i-1" ++ " IP"))) ∧
      (∀ (cloud : Ec2Api) (i : String) (s : JobState),
        ∃ es, (getInstanceIP cloud i s).2.trace = s.trace ++ es ∧
          es.count (.DescribeInstances i) ≤ 10) :=
  ⟨by decide, by decide, by decide,
    getInstanceIP_polls (ec2AddressAfter 2) "i-1" {} 2 (by decide) (by decide) (by decide)⟩

theorem staged_identifiers (o : ec2BenchmarkOrchestrator) (k : Nat) (hk : k ≤ 8)
    (hf : idFlags o = List.replicate k true ++ List.replicate (8 - k) false) :
    (∀ res, res ∈ setUpOrder.take k → (o.identifier res).isSome = true) ∧
      (∀ res, res ∈ setUpOrder.drop k → o.identifier res = none) := by
  simp only [idFlags] at hf
  interval_cases k <;>
    simp [List.replicate] at hf <;>
    simp [setUpOrder, ec2BenchmarkOrchestrator.identifier, hf]

/-- C18: whatever the cloud answers, when `SetUp` returns on a new
orchestrator, with or without an error, there is a step `k` of the creation
order (virtual network, subnet, internet gateway, storage endpoint, security
group, role, instance profile, key pair) such that the resources created
during the call are exactly the first `k` of that order, the identifier of
each of them is non-nil, and the identifier of every resource after them is
nil. So whenever the identifier of a resource is non-nil, the identifier of
every resource that comes before it in the creation order is non-nil too. -/
theorem SetUp_identifiers_form_prefix (api : SetUpApi) (cfg : BenchmarkConfig) :
    (∃ k, k ≤ 8 ∧
        (SetUp api NewEC2BenchmarkOrchestrator cfg).trace.filterMap Event.created
          = setUpOrder.take k ∧
        (∀ res, res ∈ setUpOrder.take k →
          ((SetUp api NewEC2BenchmarkOrchestrator cfg).o.identifier res).isSome = true) ∧
        (∀ res, res ∈ setUpOrder.drop k →
          (SetUp api NewEC2BenchmarkOrchestrator cfg).o.identifier res = none)) ∧
      (∀ before res later, setUpOrder = before ++ res :: later →
        ((SetUp api NewEC2BenchmarkOrchestrator cfg).o.identifier res).isSome = true →
        ∀ p, p ∈ before →
          ((SetUp api NewEC2BenchmarkOrchestrator cfg).o.identifier p).isSome = true) := by
  obtain ⟨k, hk, hc, hf⟩ := SetUp_stage api cfg
  obtain ⟨hsome, hnone⟩ := staged_identifiers _ k hk hf
  refine ⟨⟨k, hk, hc, hsome, hnone⟩, ?_⟩
  intro before res later hsplit hres p hp
  apply hsome
  by_cases hlen : before.length < k
  · rw [hsplit, List.take_append_eq_append_take]
    rw [List.take_of_length_le (by omega : before.length ≤ k)]
    exact List.mem_append_left _ hp
  · have hmem : res ∈ setUpOrder.drop k := by
      rw [hsplit, List.drop_append_eq_append_drop]
      apply List.mem_append_right
      have h0 : k - before.length = 0 := by omega
      rw [h0]
      exact List.mem_cons_self _ _
    rw [hnone res hmem] at hres
    cases hres

theorem runLoop_all_succeed (target : Target) (bench : BenchmarkApi) (name cmd : String) :
    ∀ (n : Nat) (outs : Nat → BenchmarkOutput) (rep : BenchmarkReport) (st : JobState),
      (∀ i, i < n → (target.RunCommand (st.targetCalls + i) cmd).2 = none) →
      (∀ i, i < n →
        bench.ParseCommandOutput (target.RunCommand (st.targetCalls + i) cmd).1 = .ok (outs i)) →
      ∃ rep1 st1, runLoop target bench name cmd n rep st = (.completed, rep1, st1) ∧
        rep1.TotalTimeSec
          = rep.TotalTimeSec ++ (List.range n).map (fun i => (outs i).TotalTimeSec) ∧
        rep1.Error = rep.Error ∧
        (st1.trace.filter Event.isRunCommand).length
          = (st.trace.filter Event.isRunCommand).length + n := by
  intro n
  induction n with
  | zero => intro outs rep st _ _; exact ⟨rep, st, rfl, by simp, rfl, rfl⟩
  | succ n ih =>
    intro outs rep st hrun hparse
    have hr0 := hrun 0 (by omega)
    have hp0 := hparse 0 (by omega)
    simp only [Nat.add_zero] at hr0 hp0
    obtain ⟨rep1, st1, hloop, htimes, herr, hcount⟩ :=
      ih (fun i => outs (i + 1))
        { rep with TotalTimeSec := rep.TotalTimeSec ++ [(outs 0).TotalTimeSec],
                   Metadata := rep.Metadata ++ (outs 0).Metadata }
        ((st.ran cmd).emit [.slog .Debug "running benchmark command finished"
                              [("name", name), ("output", (target.RunCommand st.targetCalls cmd).1)]])
        (fun i hi => by
          have := hrun (i + 1) (by omega)
          simpa [JobState.emit, JobState.ran, Nat.add_assoc, Nat.add_comm 1 i] using this)
        (fun i hi => by
          have := hparse (i + 1) (by omega)
          simpa [JobState.emit, JobState.ran, Nat.add_assoc, Nat.add_comm 1 i] using this)
    refine ⟨rep1, st1, ?_, ?_, ?_, ?_⟩
    · rw [runLoop]
      simp only [hr0, hp0]
      exact hloop
    · rw [htimes, List.range_succ_eq_map]
      simp [List.map_map, Function.comp_def]
    · rw [herr]
    · rw [hcount]
      simp [JobState.emit, JobState.ran, List.filter_append, Event.isRunCommand]
      omega

theorem Run_profiled (br : benchmarkRunner) (bench : BenchmarkApi) (prof : ProfilerApi)
    (os : OsApi) (target : Target) (m : SystemMeasurements) (s : JobState)
    (h : br.hasProf = true) :
    ∃ rep s1, br.Run bench prof os target m s = (some rep, s1) ∧ rep.TotalTimeSec = [] ∧
      s1.trace.filter Event.isRunCommand = s.trace.filter Event.isRunCommand ∧
      s1.targetCalls = s.targetCalls := by
  unfold benchmarkRunner.Run
  dsimp only
  cases bench.GetCommand with
  | error err => exact ⟨_, _, rfl, rfl, by simp [JobState.emit, Event.isRunCommand], rfl⟩
  | ok cmd =>
    dsimp only
    cases target.Client with
    | some err => exact ⟨_, _, rfl, rfl, by simp [JobState.emit, Event.isRunCommand], rfl⟩
    | none =>
      simp only [h, if_true]
      unfold runProfiled
      dsimp only
      cases prof.ProfileCommand cmd with
      | error err => exact ⟨_, _, rfl, rfl, by simp [JobState.emit, Event.isRunCommand], rfl⟩
      | ok remote =>
        dsimp only
        cases os.OpenFile _ with
        | some err => exact ⟨_, _, rfl, rfl, by simp [JobState.emit, Event.isRunCommand], rfl⟩
        | none =>
          dsimp only
          cases target.CopyFileFrom remote with
          | some err => exact ⟨_, _, rfl, rfl, by simp [JobState.emit, Event.isRunCommand], rfl⟩
          | none => exact ⟨_, _, rfl, rfl, by simp [JobState.emit, Event.isRunCommand], rfl⟩

theorem SetUp_sets_profiler (br br1 : benchmarkRunner) (bench : BenchmarkApi) (prof : ProfilerApi)
    (target : Target) (s s1 : JobState)
    (h : br.SetUp bench prof target s = (none, br1, s1)) :
    (br.profilerKind ≠ "none" → br1.hasProf = true) ∧ (br.profilerKind = "none" → br1 = br) := by
  unfold benchmarkRunner.SetUp at h
  dsimp only at h
  cases hb : bench.SetUp with
  | some err => rw [hb] at h; simp at h
  | none =>
    rw [hb] at h
    dsimp only at h
    generalize systemMonitorSetUp target _ = res at h
    obtain ⟨e, s2⟩ := res
    cases e with
    | some err => simp at h
    | none =>
      dsimp only at h
      by_cases hk : br.profilerKind = "none"
      · simp [hk] at h
        exact ⟨fun hne => absurd hk hne, fun _ => h.1.symm⟩
      · simp only [bne_iff_ne, ne_eq, hk, not_false_eq_true, if_true] at h
        cases hp : NewProfiler prof.registered br.profilerKind with
        | some err => rw [hp] at h; simp at h
        | none =>
          rw [hp] at h
          dsimp only at h
          cases hs : prof.SetUp with
          | some err => rw [hs] at h; simp at h
          | none =>
            rw [hs] at h
            simp at h
            exact ⟨fun _ => by rw [← h.1], fun hne => absurd hne hk⟩

/-- C20: `NewBenchmarkRunner` stores `max(runs, 1)` as the run count. When no
profiler is configured (kind `none`), the command is obtained, monitoring
starts, and each of the `max(runs, 1)` repetitions runs and parses without
error, `Run` returns a report with an empty `Error` whose `TotalTimeSec` holds
exactly the `max(runs, 1)` parsed times in the order of the repetitions, and
it has run the command on the target that many times; for `runs = 0` that is
one sample. A runner whose `SetUp` succeeded has a profiler exactly when its
kind is not `none`; with a profiler, `Run` always returns a report without
timing samples and runs no command on the target itself. -/
theorem Run_timing_samples (b : Benchmark) (dir : String) (runs : Int) (bench : BenchmarkApi)
    (prof : ProfilerApi) (os : OsApi) (target : Target) (m : SystemMeasurements) (st : JobState)
    (cmd : String) (outs : Nat → BenchmarkOutput)
    (hcmd : bench.GetCommand = .ok cmd) (hclient : target.Client = none)
    (hrun : ∀ i, i < (max runs 1).toNat →
      (target.RunCommand (st.targetCalls + i) cmd).2 = none)
    (hparse : ∀ i, i < (max runs 1).toNat →
      bench.ParseCommandOutput (target.RunCommand (st.targetCalls + i) cmd).1 = .ok (outs i)) :
    (∃ rep st1,
        (NewBenchmarkRunner b "none" dir runs).Run bench prof os target m st = (some rep, st1) ∧
        rep.Error = "" ∧
        rep.TotalTimeSec
          = (List.range (max runs 1).toNat).map (fun i => (outs i).TotalTimeSec) ∧
        rep.TotalTimeSec.length = (max runs 1).toNat ∧
        (st1.trace.filter Event.isRunCommand).length
          = (st.trace.filter Event.isRunCommand).length + (max runs 1).toNat ∧
        (runs = 0 → rep.TotalTimeSec = [(outs 0).TotalTimeSec])) ∧
      (∀ (kind : String) (plugin : BenchmarkApi) (profiler : ProfilerApi) (machine : Target)
          (s s1 : JobState) (br : benchmarkRunner),
        (NewBenchmarkRunner b kind dir runs).SetUp plugin profiler machine s = (none, br, s1) →
        (kind ≠ "none" → br.hasProf = true) ∧
        (kind = "none" → br = NewBenchmarkRunner b "none" dir runs)) ∧
      (∀ (br : benchmarkRunner) (plugin : BenchmarkApi) (profiler : ProfilerApi)
          (machine : Target) (s : JobState), br.hasProf = true →
        ∃ rep s1, br.Run plugin profiler os machine m s = (some rep, s1) ∧
          rep.TotalTimeSec = [] ∧
          s1.trace.filter Event.isRunCommand = s.trace.filter Event.isRunCommand ∧
          s1.targetCalls = s.targetCalls) := by
  refine ⟨?_, ?_, fun br plugin profiler machine s h =>
    Run_profiled br plugin profiler os machine m s h⟩
  · obtain ⟨rep1, st1, hloop, htimes, herr, hcount⟩ :=
      runLoop_all_succeed target bench b.GetName cmd (max runs 1).toNat outs
        { Name := b.GetName, Input := b.GetInput,
          Metadata := [.runInfo [("command", cmd), ("profiler", "none")]] }
        ((st.emit [.slog .Info "starting benchmark" [("name", b.GetName)]]).emit
          [.slog .Debug "benchmark command" [("name", b.GetName), ("command", cmd)],
           .TargetClient])
        (fun i hi => by simpa [JobState.emit] using hrun i hi)
        (fun i hi => by simpa [JobState.emit] using hparse i hi)
    refine ⟨{ rep1 with SystemMeasurements := some m },
      st1.emit [.slog .Info "finished benchmark" [("name", b.GetName)]], ?_, ?_, ?_, ?_, ?_, ?_⟩
    · unfold benchmarkRunner.Run
      simp only [hcmd, hclient, NewBenchmarkRunner]
      simp only [Bool.false_eq_true, if_false]
      rw [hloop]
    · exact herr
    · simpa using htimes
    · simp [htimes]
    · rw [JobState.emit]
      simp only [List.filter_append]
      rw [List.length_append, hcount]
      simp [JobState.emit, List.filter_append, Event.isRunCommand]
    · intro h0
      subst h0
      simpa using htimes
  · intro kind plugin profiler machine s s1 br h
    obtain ⟨h1, h2⟩ := SetUp_sets_profiler _ br plugin profiler machine s s1 h
    refine ⟨fun hk => h1 hk, fun hk => ?_⟩
    have := h2 hk
    rw [this]
    simp [NewBenchmarkRunner, hk]

/-- C20, witness: two repetitions without a profiler give the two parsed
times in order; an unset run count gives one. -/
theorem Run_two_repetitions :
    (benchTimed.GetCommand = .ok "run-benchmark" ∧ targetTimed.Client = none) ∧
      ((NewBenchmarkRunner { GetName := "aws-cli" } "none" "." 2).Run benchTimed profOk osOk
          targetTimed {} {}).1.map (fun rep => rep.TotalTimeSec) = some [3, 5] := by
  obtain ⟨⟨rep, st1, hrun, _, htimes, _⟩, _⟩ :=
    Run_timing_samples { GetName := "aws-cli" } "." 2 benchTimed profOk osOk targetTimed {} {}
      "run-benchmark"
      (fun i => { TotalTimeSec := if i = 0 then 3 else 5 })
      rfl rfl (fun i _ => rfl)
      (fun i hi => by
        have hi2 : i < 2 := by simpa using hi
        interval_cases i <;> rfl)
  refine ⟨⟨rfl, rfl⟩, ?_⟩
  rw [hrun]
  simp only [Option.map]
  rw [htimes]
  decide

/-! ## The arithmetic of `float64` -/

theorem roundHalfEven_intCast (n : Int) : roundHalfEven (n : Rat) = n := by
  simp [roundHalfEven]

theorem roundHalfEven_error (x : Rat) : |(roundHalfEven x : Rat) - x| ≤ 1 / 2 := by
  unfold roundHalfEven
  have h1 := Int.floor_le x
  have h2 := Int.lt_floor_add_one x
  split_ifs <;> push_cast <;> rw [abs_le] <;> constructor <;> linarith

theorem roundHalfEven_eq_of_near (x : Rat) (m : Int) (h : |x - m| < 1 / 2) :
    roundHalfEven x = m := by
  have h1 := roundHalfEven_error x
  rw [abs_le] at h1
  rw [abs_lt] at h
  have h2 : ((roundHalfEven x - m : Int) : Rat) < 1 := by push_cast; linarith
  have h3 : (-1 : Rat) < ((roundHalfEven x - m : Int) : Rat) := by push_cast; linarith
  have h4 : roundHalfEven x - m < 1 := by exact_mod_cast h2
  have h5 : -1 < roundHalfEven x - m := by exact_mod_cast h3
  omega

theorem le_roundHalfEven (x : Rat) (n : Int) (h : (n : Rat) ≤ x) : n ≤ roundHalfEven x := by
  have hf : n ≤ ⌊x⌋ := Int.le_floor.mpr h
  unfold roundHalfEven
  split_ifs <;> omega

theorem roundHalfEven_le (x : Rat) (n : Int) (h : x ≤ (n : Rat)) : roundHalfEven x ≤ n := by
  have h1 := Int.floor_le x
  have hf : ⌊x⌋ ≤ n := by
    have : ((⌊x⌋ : Int) : Rat) ≤ n := le_trans h1 h
    exact_mod_cast this
  have hlt : 0 < x - ⌊x⌋ → ⌊x⌋ + 1 ≤ n := by
    intro hpos
    have : ((⌊x⌋ : Int) : Rat) < n := by linarith
    have : ⌊x⌋ < n := by exact_mod_cast this
    omega
  unfold roundHalfEven
  split_ifs with c1 c2 c3
  · exact hf
  · exact hlt (by linarith)
  · exact hf
  · exact hlt (by linarith)

theorem roundMag_zero : Float64.roundMag 0 = 0 := by
  simp [Float64.roundMag]

theorem roundMag_of_nonpos (q : Rat) (h : q ≤ 0) : Float64.roundMag q = 0 := by
  simp [Float64.roundMag, h]

theorem roundMag_of_pos (q : Rat) (h : 0 < q) :
    Float64.roundMag q
      = (roundHalfEven (q / 2 ^ (max (Int.log 2 q) (-1022) - 52)) : Rat)
          * 2 ^ (max (Int.log 2 q) (-1022) - 52) := by
  simp [Float64.roundMag, not_le.mpr h]

theorem two_zpow_pos (k : Int) : (0 : Rat) < 2 ^ k := zpow_pos (by norm_num) k

theorem roundMag_nonneg (q : Rat) : 0 ≤ Float64.roundMag q := by
  by_cases h : 0 < q
  · rw [roundMag_of_pos q h]
    apply mul_nonneg _ (two_zpow_pos _).le
    have : (0 : Int) ≤ roundHalfEven (q / 2 ^ (max (Int.log 2 q) (-1022) - 52)) :=
      le_roundHalfEven _ 0 (by
        push_cast
        exact div_nonneg h.le (two_zpow_pos _).le)
    exact_mod_cast this
  · rw [roundMag_of_nonpos q (not_lt.mp h)]

theorem roundMag_error (q : Rat) (h : 0 < q) :
    |Float64.roundMag q - q| ≤ 2 ^ (max (Int.log 2 q) (-1022) - 52) / 2 := by
  rw [roundMag_of_pos q h]
  have hu := two_zpow_pos (max (Int.log 2 q) (-1022) - 52)
  have he := roundHalfEven_error (q / 2 ^ (max (Int.log 2 q) (-1022) - 52))
  have hq : q = q / 2 ^ (max (Int.log 2 q) (-1022) - 52)
      * 2 ^ (max (Int.log 2 q) (-1022) - 52) := by
    field_simp
  generalize (2 : Rat) ^ (max (Int.log 2 q) (-1022) - 52) = u at hu he hq ⊢
  generalize (roundHalfEven (q / u) : Rat) = r at he ⊢
  have : r * u - q = (r - q / u) * u := by
    field_simp
  rw [this, abs_mul, abs_of_pos hu]
  calc |r - q / u| * u ≤ 1 / 2 * u := by
        apply mul_le_mul_of_nonneg_right he hu.le
    _ = u / 2 := by ring

theorem two_zpow_log_le (q : Rat) (h : 0 < q) : (2 : Rat) ^ Int.log 2 q ≤ q := by
  have := Int.zpow_log_le_self (b := 2) (by norm_num) h
  simpa using this

theorem lt_two_zpow_log_succ (q : Rat) : q < (2 : Rat) ^ (Int.log 2 q + 1) := by
  have := Int.lt_zpow_succ_log_self (b := 2) (by norm_num) q
  simpa using this

theorem log_eq_of_bracket (q : Rat) (e : Int) (h1 : (2 : Rat) ^ e ≤ q) (h2 : q < 2 ^ (e + 1)) :
    Int.log 2 q = e := by
  have hq : 0 < q := lt_of_lt_of_le (two_zpow_pos e) h1
  have a : e ≤ Int.log 2 q := by
    apply (Int.zpow_le_iff_le_log (b := 2) (by norm_num) hq).mp
    simpa using h1
  have b : Int.log 2 q < e + 1 := by
    apply (Int.lt_zpow_iff_log_lt (b := 2) (by norm_num) hq).mp
    simpa using h2
  omega

theorem log_ge_of_normal (q : Rat) (h : (2 : Rat) ^ (-1022 : Int) ≤ q) :
    -1022 ≤ Int.log 2 q := by
  have hq : 0 < q := lt_of_lt_of_le (two_zpow_pos _) h
  apply (Int.zpow_le_iff_le_log (b := 2) (by norm_num) hq).mp
  simpa using h

theorem roundMag_of_normal (q : Rat) (h : (2 : Rat) ^ (-1022 : Int) ≤ q) :
    Float64.roundMag q
      = (roundHalfEven (q / 2 ^ (Int.log 2 q - 52)) : Rat) * 2 ^ (Int.log 2 q - 52) := by
  have hq : 0 < q := lt_of_lt_of_le (two_zpow_pos _) h
  rw [roundMag_of_pos q hq, max_eq_left (log_ge_of_normal q h)]

theorem two_zpow_split (e : Int) : (2 : Rat) ^ e = 2 ^ (e - 52) * 2 ^ (52 : Nat) := by
  rw [← zpow_natCast, ← zpow_add₀ (by norm_num : (2 : Rat) ≠ 0)]
  congr 1
  omega

theorem roundMag_error_normal (q : Rat) (h : (2 : Rat) ^ (-1022 : Int) ≤ q) :
    |Float64.roundMag q - q| ≤ q / 2 ^ 53 := by
  have hq : 0 < q := lt_of_lt_of_le (two_zpow_pos _) h
  have he := roundMag_error q hq
  rw [max_eq_left (log_ge_of_normal q h)] at he
  have hlow := two_zpow_log_le q hq
  rw [two_zpow_split] at hlow
  have hu := two_zpow_pos (Int.log 2 q - 52)
  generalize (2 : Rat) ^ (Int.log 2 q - 52) = u at he hlow hu
  calc |Float64.roundMag q - q| ≤ u / 2 := he
    _ = u * 2 ^ 52 / 2 ^ 53 := by ring
    _ ≤ q / 2 ^ 53 := by
      apply div_le_div_of_nonneg_right hlow (by positivity)

theorem le_roundMag_of_normal (q : Rat) (h : (2 : Rat) ^ (-1022 : Int) ≤ q) :
    (2 : Rat) ^ Int.log 2 q ≤ Float64.roundMag q := by
  have hq : 0 < q := lt_of_lt_of_le (two_zpow_pos _) h
  rw [roundMag_of_normal q h]
  have hlow := two_zpow_log_le q hq
  have hu := two_zpow_pos (Int.log 2 q - 52)
  rw [two_zpow_split (Int.log 2 q)] at hlow ⊢
  generalize (2 : Rat) ^ (Int.log 2 q - 52) = u at hlow hu ⊢
  rw [mul_comm u]
  apply mul_le_mul_of_nonneg_right _ hu.le
  have : ((2 ^ 52 : Int) : Rat) ≤ q / u := by
    rw [le_div_iff₀ hu]
    push_cast
    linarith
  have := le_roundHalfEven _ _ this
  exact_mod_cast this

theorem roundMag_pos_of_normal (q : Rat) (h : (2 : Rat) ^ (-1022 : Int) ≤ q) :
    0 < Float64.roundMag q :=
  lt_of_lt_of_le (two_zpow_pos _) (le_roundMag_of_normal q h)

theorem roundMag_le_of_normal (q : Rat) (h : (2 : Rat) ^ (-1022 : Int) ≤ q) :
    Float64.roundMag q ≤ q + q / 2 ^ 53 := by
  have := roundMag_error_normal q h
  rw [abs_le] at this
  linarith

theorem roundMag_eq_of_near (q : Rat) (e m : Int) (he : -1022 ≤ e) (h1 : (2 : Rat) ^ e ≤ q)
    (h2 : q < 2 ^ (e + 1)) (hm : |q / 2 ^ (e - 52) - m| < 1 / 2) :
    Float64.roundMag q = m * 2 ^ (e - 52) := by
  have hq : 0 < q := lt_of_lt_of_le (two_zpow_pos e) h1
  rw [roundMag_of_pos q hq, log_eq_of_bracket q e h1 h2, max_eq_left he,
    roundHalfEven_eq_of_near _ m hm]

theorem roundMag_exact (m : Nat) (k : Int) (hm : m < 2 ^ 53) (hk : -1074 ≤ k) :
    Float64.roundMag ((m : Rat) * 2 ^ k) = (m : Rat) * 2 ^ k := by
  rcases Nat.eq_zero_or_pos m with h0 | hpos
  · subst h0
    simp [roundMag_zero]
  · have hk0 := two_zpow_pos k
    have hq : (0 : Rat) < (m : Rat) * 2 ^ k := mul_pos (by exact_mod_cast hpos) hk0
    have hlt : (m : Rat) * 2 ^ k < 2 ^ (53 + k) := by
      rw [zpow_add₀ (by norm_num : (2 : Rat) ≠ 0)]
      apply mul_lt_mul_of_pos_right _ hk0
      have : ((m : Nat) : Rat) < ((2 ^ 53 : Nat) : Rat) := by exact_mod_cast hm
      rw [show (2 : Rat) ^ (53 : Int) = ((2 ^ 53 : Nat) : Rat) by norm_num]
      exact this
    have hlog : Int.log 2 ((m : Rat) * 2 ^ k) < 53 + k := by
      apply (Int.lt_zpow_iff_log_lt (b := 2) (by norm_num) hq).mp
      simpa using hlt
    rw [roundMag_of_pos _ hq]
    generalize hE : max (Int.log 2 ((m : Rat) * 2 ^ k)) (-1022) = E
    have hEk : E - 52 ≤ k := by
      rw [← hE]
      rcases max_cases (Int.log 2 ((m : Rat) * 2 ^ k)) (-1022) with ⟨h, _⟩ | ⟨h, _⟩ <;>
        rw [h] <;> omega
    obtain ⟨n, hn⟩ : ∃ n : Nat, k = (E - 52) + n := ⟨(k - (E - 52)).toNat, by omega⟩
    have hu := two_zpow_pos (E - 52)
    have hdiv : (m : Rat) * 2 ^ k / 2 ^ (E - 52) = ((m * 2 ^ n : Int) : Rat) := by
      rw [hn, zpow_add₀ (by norm_num : (2 : Rat) ≠ 0), zpow_natCast]
      push_cast
      field_simp
      ring
    rw [hdiv, roundHalfEven_intCast, ← hdiv]
    field_simp

theorem roundMag_natCast (m : Nat) (hm : m < 2 ^ 53) : Float64.roundMag (m : Rat) = m := by
  have := roundMag_exact m 0 hm (by norm_num)
  simpa using this

theorem nearest_zero : Float64.nearest 0 = 0 := by
  simp [Float64.nearest, roundMag_zero]

theorem nearest_of_nonneg (q : Rat) (h : 0 ≤ q) : Float64.nearest q = Float64.roundMag q := by
  simp [Float64.nearest, not_lt.mpr h]

theorem nearest_of_neg (q : Rat) (h : q < 0) : Float64.nearest q = -Float64.roundMag (-q) := by
  simp [Float64.nearest, h]

theorem nearest_error (q : Rat) (h : (2 : Rat) ^ (-1022 : Int) ≤ |q|) :
    |Float64.nearest q - q| ≤ |q| / 2 ^ 53 := by
  by_cases hq : q < 0
  · rw [nearest_of_neg q hq]
    rw [abs_of_neg hq] at h ⊢
    have := roundMag_error_normal (-q) h
    rw [show -Float64.roundMag (-q) - q = -(Float64.roundMag (-q) - -q) by ring, abs_neg]
    exact this
  · have hq0 : 0 ≤ q := not_lt.mp hq
    rw [nearest_of_nonneg q hq0]
    rw [abs_of_nonneg hq0] at h ⊢
    exact roundMag_error_normal q h

theorem nearest_error_of_zero_or_normal (q : Rat) (h : q = 0 ∨ (2 : Rat) ^ (-1022 : Int) ≤ |q|) :
    |Float64.nearest q - q| ≤ |q| / 2 ^ 53 := by
  rcases h with h | h
  · subst h
    simp [nearest_zero]
  · exact nearest_error q h

theorem nearest_intCast (x : Int) (h : |x| < 2 ^ 53) : Float64.nearest (x : Rat) = x := by
  by_cases hx : x < 0
  · have hq : (x : Rat) < 0 := by exact_mod_cast hx
    rw [nearest_of_neg _ hq]
    have hn : (-(x : Rat)) = ((x.natAbs : Nat) : Rat) := by
      rw [Nat.cast_natAbs, Int.cast_abs, abs_of_neg hq]
    rw [hn, roundMag_natCast _ (by
      have : (x.natAbs : Int) = |x| := Int.natCast_natAbs x
      have : (x.natAbs : Int) < 2 ^ 53 := by rw [this]; exact h
      exact_mod_cast this), ← hn]
    ring
  · have hx0 : 0 ≤ x := not_lt.mp hx
    have hq : (0 : Rat) ≤ x := by exact_mod_cast hx0
    rw [nearest_of_nonneg _ hq]
    have hn : (x : Rat) = ((x.natAbs : Nat) : Rat) := by
      rw [Nat.cast_natAbs, Int.cast_abs, abs_of_nonneg hq]
    rw [hn, roundMag_natCast _ (by
      have : (x.natAbs : Int) = |x| := Int.natCast_natAbs x
      have : (x.natAbs : Int) < 2 ^ 53 := by rw [this]; exact h
      exact_mod_cast this)]

theorem round_eq_nearest (q : Rat)
    (h : q = 0 ∨ ((2 : Rat) ^ (-1022 : Int) ≤ |q| ∧ |q| ≤ 2 ^ (1023 : Nat))) :
    Float64.round (decide (q < 0)) |q| = .num (Float64.nearest q) := by
  rcases h with h | ⟨h1, h2⟩
  · subst h
    simp [Float64.round, roundMag_zero, nearest_zero]
  · have hpos := roundMag_pos_of_normal |q| h1
    have hle := roundMag_le_of_normal |q| h1
    have hsmall : ¬ (2 : Rat) ^ 1024 ≤ Float64.roundMag |q| := by
      have h3 : |q| / 2 ^ 53 ≤ 2 ^ (1023 : Nat) / 2 ^ 53 :=
        div_le_div_of_nonneg_right h2 (by positivity)
      have h4 : (2 : Rat) ^ (1023 : Nat) + 2 ^ (1023 : Nat) / 2 ^ 53 < 2 ^ 1024 := by norm_num
      intro hc
      linarith
    unfold Float64.round
    rw [if_neg hsmall, if_neg hpos.ne']
    by_cases hq : q < 0
    · simp only [hq, decide_True, if_true]
      rw [nearest_of_neg q hq, abs_of_neg hq]
    · have hq0 : 0 ≤ q := not_lt.mp hq
      simp only [hq, decide_False, Bool.false_eq_true, if_false]
      rw [nearest_of_nonneg q hq0, abs_of_nonneg hq0]

theorem nearest_sign (q : Rat) (h : (2 : Rat) ^ (-1022 : Int) ≤ |q|) :
    (q < 0 → Float64.nearest q < 0) ∧ (0 < q → 0 < Float64.nearest q) := by
  constructor
  · intro hq
    rw [nearest_of_neg q hq]
    rw [abs_of_neg hq] at h
    have := roundMag_pos_of_normal (-q) h
    linarith
  · intro hq
    rw [nearest_of_nonneg q hq.le]
    rw [abs_of_pos hq] at h
    exact roundMag_pos_of_normal q h

theorem ofInt_eq_nearest (x : Int) (h : |x| ≤ 2 ^ 63) :
    Float64.ofInt x = .num (Float64.nearest (x : Rat)) := by
  unfold Float64.ofInt
  have hd : decide (x < 0) = decide ((x : Rat) < 0) := by
    by_cases hx : x < 0
    · have : (x : Rat) < 0 := by exact_mod_cast hx
      simp [hx, this]
    · have : ¬ (x : Rat) < 0 := by
        have : (0 : Rat) ≤ x := by exact_mod_cast not_lt.mp hx
        exact not_lt.mpr this
      simp [hx, this]
  rw [hd]
  apply round_eq_nearest
  by_cases hx : x = 0
  · left; exact_mod_cast hx
  · right
    have h1 : (1 : Rat) ≤ |(x : Rat)| := by
      have : (1 : Int) ≤ |x| := Int.one_le_abs hx
      exact_mod_cast this
    have h2 : |(x : Rat)| ≤ 2 ^ (63 : Nat) := by exact_mod_cast h
    constructor
    · have : (2 : Rat) ^ (-1022 : Int) ≤ 1 := by
        apply zpow_le_one_of_nonpos₀ (by norm_num) (by norm_num)
      linarith
    · have : (2 : Rat) ^ (63 : Nat) ≤ 2 ^ (1023 : Nat) := by norm_num
      linarith

theorem ofInt_of_small (x : Int) (h : |x| < 2 ^ 53) : Float64.ofInt x = .num (x : Rat) := by
  rw [ofInt_eq_nearest x (by omega), nearest_intCast x h]

theorem ofInt_zero : Float64.ofInt 0 = .num 0 := by
  have := ofInt_of_small 0 (by norm_num)
  simpa using this

theorem div_num_pos (a b : Rat) (hb : 0 < b)
    (h : a = 0 ∨ ((2 : Rat) ^ (-1022 : Int) ≤ |a / b| ∧ |a / b| ≤ 2 ^ (1023 : Nat))) :
    (Float64.num a).div (.num b) = .num (Float64.nearest (a / b)) := by
  have hb0 : b ≠ 0 := hb.ne'
  have hnb : ¬ b < 0 := not_lt.mpr hb.le
  have hsign : (decide (a < 0) != decide (b < 0)) = decide (a / b < 0) := by
    by_cases ha : a < 0
    · have : a / b < 0 := div_neg_of_neg_of_pos ha hb
      simp [ha, hnb, this]
    · have : ¬ a / b < 0 := not_lt.mpr (div_nonneg (not_lt.mp ha) hb.le)
      simp [ha, hnb, this]
  have hq : a / b = 0 ∨ ((2 : Rat) ^ (-1022 : Int) ≤ |a / b| ∧ |a / b| ≤ 2 ^ (1023 : Nat)) := by
    rcases h with h | h
    · left; rw [h]; simp
    · right; exact h
  show (if (Float64.num b).toRat = 0 then _ else _) = _
  simp only [Float64.toRat, Float64.isNeg, if_neg hb0, hsign, ← abs_div]
  exact round_eq_nearest _ hq

theorem mul_num_pos (a b : Rat) (ha : 0 < a)
    (h : b = 0 ∨ ((2 : Rat) ^ (-1022 : Int) ≤ |a * b| ∧ |a * b| ≤ 2 ^ (1023 : Nat))) :
    (Float64.num a).mul (.num b) = .num (Float64.nearest (a * b)) := by
  have hna : ¬ a < 0 := not_lt.mpr ha.le
  have hsign : (decide (a < 0) != decide (b < 0)) = decide (a * b < 0) := by
    by_cases hb : b < 0
    · have : a * b < 0 := mul_neg_of_pos_of_neg ha hb
      simp [hna, hb, this]
    · have : ¬ a * b < 0 := not_lt.mpr (mul_nonneg ha.le (not_lt.mp hb))
      simp [hna, hb, this]
  have hq : a * b = 0 ∨ ((2 : Rat) ^ (-1022 : Int) ≤ |a * b| ∧ |a * b| ≤ 2 ^ (1023 : Nat)) := by
    rcases h with h | h
    · left; rw [h]; simp
    · right; exact h
  show Float64.round _ _ = _
  simp only [Float64.toRat, Float64.isNeg, ← abs_mul, hsign]
  exact round_eq_nearest _ hq

theorem lt_num_zero (a : Rat) : (Float64.num a).lt (.num 0) = decide (a < 0) := rfl

theorem ofInt_neg_lt_zero (x : Int) (hx : x < 0) (hlow : -2 ^ 63 ≤ x) :
    (Float64.ofInt x).lt (.num 0) = true := by
  have habs : |x| ≤ 2 ^ 63 := by rw [abs_of_neg hx]; omega
  rw [ofInt_eq_nearest x habs, lt_num_zero, decide_eq_true_eq]
  have hq : (x : Rat) < 0 := by exact_mod_cast hx
  apply (nearest_sign _ _).1 hq
  have h1 : (1 : Rat) ≤ |(x : Rat)| := by
    have : (1 : Int) ≤ |x| := Int.one_le_abs hx.ne
    exact_mod_cast this
  have : (2 : Rat) ^ (-1022 : Int) ≤ 1 := zpow_le_one_of_nonpos₀ (by norm_num) (by norm_num)
  linarith

theorem ofInt_nonneg_not_lt_zero (x : Int) (hx : 0 ≤ x) (hhigh : x ≤ 2 ^ 63) :
    (Float64.ofInt x).lt (.num 0) = false := by
  have habs : |x| ≤ 2 ^ 63 := by rw [abs_of_nonneg hx]; exact hhigh
  rw [ofInt_eq_nearest x habs, lt_num_zero, decide_eq_false_iff_not, not_lt]
  have hq : (0 : Rat) ≤ x := by exact_mod_cast hx
  rw [nearest_of_nonneg _ hq]
  exact roundMag_nonneg _

theorem div_ofInt (a d : Int) (ha : |a| < 2 ^ 53) (hd0 : 0 < d) (hd : d < 2 ^ 53) :
    (Float64.ofInt a).div (Float64.ofInt d) = .num (Float64.nearest ((a : Rat) / d)) ∧
      |Float64.nearest ((a : Rat) / d) - (a : Rat) / d| ≤ |(a : Rat) / d| / 2 ^ 53 := by
  have hdq : (0 : Rat) < d := by exact_mod_cast hd0
  have hnormal : a ≠ 0 →
      (2 : Rat) ^ (-1022 : Int) ≤ |(a : Rat) / d| ∧ |(a : Rat) / d| ≤ 2 ^ (1023 : Nat) := by
    intro ha0
    have h1 : (1 : Rat) ≤ |(a : Rat)| := by
      have : (1 : Int) ≤ |a| := Int.one_le_abs ha0
      exact_mod_cast this
    have h2 : |(a : Rat)| < 2 ^ 53 := by exact_mod_cast ha
    have h3 : (d : Rat) < 2 ^ 53 := by exact_mod_cast hd
    have h4 : (1 : Rat) ≤ d := by
      have : (1 : Int) ≤ d := hd0
      exact_mod_cast this
    rw [abs_div, abs_of_pos hdq]
    constructor
    · rw [le_div_iff₀ hdq]
      have : (2 : Rat) ^ (-1022 : Int) * d ≤ 2 ^ (-1022 : Int) * 2 ^ 53 :=
        mul_le_mul_of_nonneg_left h3.le (two_zpow_pos _).le
      have h5 : (2 : Rat) ^ (-1022 : Int) * 2 ^ 53 ≤ 1 := by
        rw [show (2 : Rat) ^ 53 = 2 ^ (53 : Int) by norm_num,
          ← zpow_add₀ (by norm_num : (2 : Rat) ≠ 0)]
        exact zpow_le_one_of_nonpos₀ (by norm_num) (by norm_num)
      linarith
    · rw [div_le_iff₀ hdq]
      have : (2 : Rat) ^ 53 ≤ 2 ^ (1023 : Nat) := by norm_num
      nlinarith
  have hcase : (a : Rat) = 0 ∨
      ((2 : Rat) ^ (-1022 : Int) ≤ |(a : Rat) / d| ∧ |(a : Rat) / d| ≤ 2 ^ (1023 : Nat)) := by
    by_cases ha0 : a = 0
    · left; exact_mod_cast ha0
    · right; exact hnormal ha0
  refine ⟨?_, ?_⟩
  · rw [ofInt_of_small a ha, ofInt_of_small d (by rw [abs_of_pos hd0]; exact hd)]
    exact div_num_pos _ _ hdq hcase
  · apply nearest_error_of_zero_or_normal
    rcases hcase with h | h
    · left; rw [h]; simp
    · right; exact h.1

theorem nearest_eq_of_near (q : Rat) (e m : Int) (he : -1022 ≤ e) (h1 : (2 : Rat) ^ e ≤ q)
    (h2 : q < 2 ^ (e + 1)) (hm : |q / 2 ^ (e - 52) - m| < 1 / 2) :
    Float64.nearest q = m * 2 ^ (e - 52) := by
  have hq : 0 < q := lt_of_lt_of_le (two_zpow_pos e) h1
  rw [nearest_of_nonneg q hq.le]
  exact roundMag_eq_of_near q e m he h1 h2 hm

theorem nearest_exact (m : Nat) (k : Int) (hm : m < 2 ^ 53) (hk : -1074 ≤ k) :
    Float64.nearest ((m : Rat) * 2 ^ k) = (m : Rat) * 2 ^ k := by
  have : (0 : Rat) ≤ (m : Rat) * 2 ^ k := mul_nonneg (by positivity) (two_zpow_pos k).le
  rw [nearest_of_nonneg _ this]
  exact roundMag_exact m k hm hk

theorem mul_hundred_div_ofInt (a d : Int) (ha : |a| < 2 ^ 53) (hd0 : 0 < d) (hd : d < 2 ^ 53) :
    (Float64.num 100).mul ((Float64.ofInt a).div (Float64.ofInt d))
        = .num (Float64.nearest (100 * Float64.nearest ((a : Rat) / d))) ∧
      |Float64.nearest (100 * Float64.nearest ((a : Rat) / d)) - 100 * ((a : Rat) / d)|
        ≤ |100 * ((a : Rat) / d)| * (1 / 2 ^ 52 + 1 / 2 ^ 106) := by
  obtain ⟨hdiv, herr⟩ := div_ofInt a d ha hd0 hd
  have hdq : (0 : Rat) < d := by exact_mod_cast hd0
  generalize hq : (a : Rat) / d = q at hdiv herr ⊢
  generalize hp : Float64.nearest q = p at hdiv herr ⊢
  have hcase : p = 0 ∨
      ((2 : Rat) ^ (-1022 : Int) ≤ |100 * p| ∧ |100 * p| ≤ 2 ^ (1023 : Nat)) := by
    by_cases ha0 : a = 0
    · left
      rw [← hp, ← hq, ha0]
      simp [nearest_zero]
    · right
      have h1 : (1 : Rat) ≤ |(a : Rat)| := by
        have : (1 : Int) ≤ |a| := Int.one_le_abs ha0
        exact_mod_cast this
      have h2 : |(a : Rat)| < 2 ^ 53 := by exact_mod_cast ha
      have h3 : (d : Rat) < 2 ^ 53 := by exact_mod_cast hd
      have h4 : (1 : Rat) ≤ d := by
        have : (1 : Int) ≤ d := hd0
        exact_mod_cast this
      have hqabs : |q| = |(a : Rat)| / d := by rw [← hq, abs_div, abs_of_pos hdq]
      have hqlow : 1 / 2 ^ 53 ≤ |q| := by
        rw [hqabs, div_le_div_iff₀ (by positivity) hdq]
        nlinarith
      have hqhigh : |q| ≤ 2 ^ 53 := by
        rw [hqabs, div_le_iff₀ hdq]
        nlinarith
      have hlow : |q| - |q| / 2 ^ 53 ≤ |p| := by
        have := abs_sub_abs_le_abs_sub q p
        rw [abs_sub_comm] at this
        linarith
      have hhigh : |p| ≤ |q| + |q| / 2 ^ 53 := by
        have := abs_sub_abs_le_abs_sub p q
        linarith
      rw [abs_mul, abs_of_pos (by norm_num : (0 : Rat) < 100)]
      constructor
      · have : (2 : Rat) ^ (-1022 : Int) ≤ 1 / 2 ^ 53 := by
          rw [show (1 : Rat) / 2 ^ 53 = 2 ^ (-53 : Int) by norm_num [zpow_neg]]
          exact zpow_le_zpow_right₀ (by norm_num) (by norm_num)
        have h5 : |q| / 2 ^ 53 ≤ |q| / 2 := by
          apply div_le_div_of_nonneg_left (abs_nonneg q) (by norm_num) (by norm_num)
        have h6 : |q| / 2 ≤ |p| := by linarith
        have h7 : (1 : Rat) / 2 ^ 53 ≤ 100 * |p| := by linarith
        exact le_trans this h7
      · have : (2 : Rat) ^ 53 * 200 ≤ 2 ^ (1023 : Nat) := by norm_num
        have h5 : |q| / 2 ^ 53 ≤ |q| := div_le_self (abs_nonneg q) (by norm_num)
        linarith
  have hmul := mul_num_pos 100 p (by norm_num) hcase
  refine ⟨by rw [hdiv, hmul], ?_⟩
  have herr2 : |Float64.nearest (100 * p) - 100 * p| ≤ |100 * p| / 2 ^ 53 := by
    apply nearest_error_of_zero_or_normal
    rcases hcase with h | h
    · left; rw [h]; simp
    · right; exact h.1
  have hp2 : |p| ≤ |q| + |q| / 2 ^ 53 := by
    have := abs_sub_abs_le_abs_sub p q
    linarith
  have hq0 := abs_nonneg q
  rw [abs_mul, abs_of_pos (by norm_num : (0 : Rat) < 100)] at herr2 ⊢
  have htri : |Float64.nearest (100 * p) - 100 * q|
      ≤ |Float64.nearest (100 * p) - 100 * p| + 100 * |p - q| := by
    have : Float64.nearest (100 * p) - 100 * q
        = (Float64.nearest (100 * p) - 100 * p) + 100 * (p - q) := by ring
    rw [this]
    refine le_trans (abs_add _ _) ?_
    rw [abs_mul, abs_of_pos (by norm_num : (0 : Rat) < 100)]
  have hfinal : 100 * |p| / 2 ^ 53 + 100 * (|q| / 2 ^ 53)
      ≤ 100 * |q| * (1 / 2 ^ 52 + 1 / 2 ^ 106) := by
    have : 100 * |p| / 2 ^ 53 ≤ 100 * (|q| + |q| / 2 ^ 53) / 2 ^ 53 := by
      apply div_le_div_of_nonneg_right _ (by positivity)
      linarith
    have heq : 100 * (|q| + |q| / 2 ^ 53) / 2 ^ 53 + 100 * (|q| / 2 ^ 53)
        = 100 * |q| * (1 / 2 ^ 52 + 1 / 2 ^ 106) := by
      ring
    linarith
  linarith

theorem wrap64_range (x : Int) : -2 ^ 63 ≤ wrap64 x ∧ wrap64 x < 2 ^ 63 := by
  unfold wrap64
  omega

theorem wrap64_of_range (x : Int) (h1 : -2 ^ 63 ≤ x) (h2 : x < 2 ^ 63) : wrap64 x = x := by
  unfold wrap64
  omega

/-- C15: for every pair of readings of the CPU counters whose current total is
a counter value (not negative) and is below the previous total,
`appendCPUMetrics` returns the measurements unchanged: each of the ten CPU
usage series is exactly as it was, no sample is recorded for the tick. -/
theorem appendCPUMetrics_skips_decreasing_total (sm : SystemMeasurements) (now : Int)
    (curr prev : cpuTimeStat) (hcounter : 0 ≤ curr.totalCPUTime)
    (hless : curr.totalCPUTime < prev.totalCPUTime) :
    appendCPUMetrics sm now curr prev = sm ∧
      cpuSeries (appendCPUMetrics sm now curr prev) = cpuSeries sm := by
  have hprev := wrap64_range
    (prev.user + prev.system + prev.nice + prev.iowait + prev.irq + prev.softIrq + prev.steal
      + prev.idle)
  have hneg : wrap64 (curr.totalCPUTime - prev.totalCPUTime) < 0 := by
    have hp : prev.totalCPUTime < 2 ^ 63 := hprev.2
    rw [wrap64_of_range _ (by omega) (by omega)]
    omega
  have hlt : (Float64.ofInt (wrap64 (curr.totalCPUTime - prev.totalCPUTime))).lt (.num 0)
      = true :=
    ofInt_neg_lt_zero _ hneg (wrap64_range _).1
  have h : appendCPUMetrics sm now curr prev = sm := by
    unfold appendCPUMetrics
    simp only [hlt, if_true]
  exact ⟨h, by rw [h]⟩

/-- C15, witness: a reading taken after a reset of the counters. -/
theorem appendCPUMetrics_skips_after_reset :
    (0 ≤ cpuAfterReset.totalCPUTime ∧ cpuAfterReset.totalCPUTime < cpuBusy.totalCPUTime) ∧
      appendCPUMetrics {} 1700000000 cpuAfterReset cpuBusy = {} :=
  ⟨by decide,
   (appendCPUMetrics_skips_decreasing_total {} 1700000000 cpuAfterReset cpuBusy (by decide)
      (by decide)).1⟩

/-- C16: two consecutive readings of the CPU counters with the same values
have a total-time difference of zero, and `appendCPUMetrics` does not skip
the tick: the test `delta < 0` is false, each of the ten CPU usage series
receives one sample, and the value of that sample is zero divided by the zero
difference, NaN. -/
theorem appendCPUMetrics_divides_by_zero_delta (sm : SystemMeasurements) (now : Int)
    (s : cpuTimeStat) :
    cpuSeries (appendCPUMetrics sm now s s)
      = (cpuSeries sm).map (fun series => series ++ [{ Time := now, Value := .nan }]) := by
  have h0 : wrap64 0 = 0 := by decide
  have hlt : (Float64.num 0).lt (.num 0) = false := by decide
  have hdiv : (Float64.num 0).div (.num 0) = .nan := by decide
  unfold appendCPUMetrics
  simp [cpuSeries, h0, ofInt_zero, hlt, hdiv]

/-- C17 (as stated, refuted): in a text of lines `Key: value kB` whose
`SReclaimable` line precedes its `Cached` line, the `Cached` line overwrites
the sum: with MemTotal 100, MemFree 10, SReclaimable 5, Cached 3 the recorded
MemUsedBytes is `(100 - 10 - 3) * 1024 = 89088`, not
`(100 - 10 - 0 - 3 - 5) * 1024 = 83968`. -/
theorem appendMemoryMetrics_loses_early_SReclaimable :
    meminfoLines meminfoReordered
        = [("MemTotal", 100), ("MemFree", 10), ("SReclaimable", 5), ("Cached", 3)] ∧
      (appendMemoryMetrics {} 1700000000 meminfoReordered).MemUsedBytes
        = [{ Time := 1700000000, Value := 89088 }] ∧
      meminfoUsedBytes meminfoReordered = 83968 := by
  decide

theorem memoryEntry_none (acc : memoryTotals) (b : Int) : memoryEntry acc none b = acc := by
  simp [memoryEntry]

theorem foldl_memoryLine (ls : List String) :
    ∀ acc : memoryTotals, ls.foldl memoryLine acc
      = (ls.filterMap fun line =>
          match Fields line with
          | [name, number, _] => (dropLastByte name).map fun key => (key, (Atoi number).1)
          | _ => none).foldl memoryStep acc := by
  induction ls with
  | nil => intro acc; rfl
  | cons line rest ih =>
    intro acc
    rw [List.foldl_cons, ih, List.filterMap_cons]
    unfold memoryLine
    split
    · rename_i name number unit hf
      cases hk : dropLastByte name with
      | none => simp [memoryEntry_none]
      | some key => simp [memoryStep]
    · rfl

theorem valueOf_absent (key : String) (es : List (String × Int))
    (h : key ∉ es.map Prod.fst) : valueOf key es = 0 := by
  induction es with
  | nil => rfl
  | cons kv rest ih =>
    obtain ⟨k, v⟩ := kv
    simp only [List.map_cons, List.mem_cons, not_or] at h
    simp only [valueOf]
    rw [if_neg (fun hk => h.1 hk.symm)]
    exact ih h.2

theorem foldl_memoryStep_field (K : String) (f : memoryTotals → Int)
    (hset : ∀ a b, f (memoryEntry a (some K) b) = b)
    (hkeep : ∀ a k b, k ≠ K → f (memoryEntry a (some k) b) = f a)
    (es : List (String × Int)) :
    ∀ acc : memoryTotals, (es.map Prod.fst).Nodup →
      f (es.foldl memoryStep acc)
        = if K ∈ es.map Prod.fst then wrap64 (valueOf K es * 1024) else f acc := by
  induction es with
  | nil => intro acc _; simp
  | cons kv rest ih =>
    obtain ⟨k, v⟩ := kv
    intro acc hnd
    simp only [List.map_cons, List.nodup_cons] at hnd
    rw [List.foldl_cons, ih _ hnd.2]
    by_cases hk : k = K
    · subst hk
      simp [hnd.1, memoryStep, hset, valueOf]
    · have hk2 : ¬ K = k := fun h => hk h.symm
      have hmem : K ∈ k :: rest.map Prod.fst ↔ K ∈ rest.map Prod.fst := by
        simp [List.mem_cons, hk2]
      simp only [valueOf, if_neg hk, memoryStep, hkeep _ _ _ hk, List.map_cons, hmem]

theorem foldl_memoryStep_total (es : List (String × Int)) (acc : memoryTotals)
    (h : (es.map Prod.fst).Nodup) :
    (es.foldl memoryStep acc).total
      = if "MemTotal" ∈ es.map Prod.fst then wrap64 (valueOf "MemTotal" es * 1024)
        else acc.total :=
  foldl_memoryStep_field "MemTotal" (fun t => t.total)
    (fun a b => by simp [memoryEntry])
    (fun a k b hk => by
      unfold memoryEntry
      simp only [Option.some.injEq]
      split_ifs <;> simp_all)
    es acc h

theorem foldl_memoryStep_free (es : List (String × Int)) (acc : memoryTotals)
    (h : (es.map Prod.fst).Nodup) :
    (es.foldl memoryStep acc).free
      = if "MemFree" ∈ es.map Prod.fst then wrap64 (valueOf "MemFree" es * 1024)
        else acc.free :=
  foldl_memoryStep_field "MemFree" (fun t => t.free)
    (fun a b => by simp [memoryEntry])
    (fun a k b hk => by
      unfold memoryEntry
      simp only [Option.some.injEq]
      split_ifs <;> simp_all)
    es acc h

theorem foldl_memoryStep_buffers (es : List (String × Int)) (acc : memoryTotals)
    (h : (es.map Prod.fst).Nodup) :
    (es.foldl memoryStep acc).buffers
      = if "Buffers" ∈ es.map Prod.fst then wrap64 (valueOf "Buffers" es * 1024)
        else acc.buffers :=
  foldl_memoryStep_field "Buffers" (fun t => t.buffers)
    (fun a b => by simp [memoryEntry])
    (fun a k b hk => by
      unfold memoryEntry
      simp only [Option.some.injEq]
      split_ifs <;> simp_all)
    es acc h

theorem wrap64_wrap64 (x : Int) : wrap64 (wrap64 x) = wrap64 x := by
  unfold wrap64
  omega

theorem foldl_memoryStep_cached (es : List (String × Int)) :
    ∀ acc : memoryTotals, (es.map Prod.fst).Nodup →
      (es.map Prod.fst).Pairwise (fun a b => ¬ (a = "SReclaimable" ∧ b = "Cached")) →
      (es.foldl memoryStep acc).cached
        = if "Cached" ∈ es.map Prod.fst then
            wrap64 (wrap64 (valueOf "Cached" es * 1024)
              + wrap64 (valueOf "SReclaimable" es * 1024))
          else if "SReclaimable" ∈ es.map Prod.fst then
            wrap64 (acc.cached + wrap64 (valueOf "SReclaimable" es * 1024))
          else acc.cached := by
  induction es with
  | nil => intro acc _ _; simp
  | cons kv rest ih =>
    obtain ⟨k, v⟩ := kv
    intro acc hnd hord
    simp only [List.map_cons, List.nodup_cons] at hnd
    simp only [List.map_cons, List.pairwise_cons] at hord
    rw [List.foldl_cons, ih _ hnd.2 hord.2]
    by_cases hc : k = "Cached"
    · subst hc
      have hs : ¬ "SReclaimable" = "Cached" := by decide
      by_cases hin : "SReclaimable" ∈ rest.map Prod.fst
      · simp [hnd.1, hin, memoryStep, memoryEntry, valueOf]
      · have h0 := valueOf_absent "SReclaimable" rest hin
        simp [hnd.1, hin, memoryStep, memoryEntry, valueOf, h0]
        unfold wrap64
        omega
    · by_cases hs : k = "SReclaimable"
      · subst hs
        have hno : "Cached" ∉ rest.map Prod.fst := fun hmem => hord.1 _ hmem ⟨rfl, rfl⟩
        simp [hnd.1, hno, memoryStep, memoryEntry, valueOf]
      · have hc2 : ¬ "Cached" = k := fun h => hc h.symm
        have hs2 : ¬ "SReclaimable" = k := fun h => hs h.symm
        have hkeep : (memoryStep acc (k, v)).cached = acc.cached := by
          unfold memoryStep memoryEntry
          simp only [Option.some.injEq]
          split_ifs <;> rfl
        have hmc : "Cached" ∈ k :: rest.map Prod.fst ↔ "Cached" ∈ rest.map Prod.fst := by
          simp [List.mem_cons, hc2]
        have hms : "SReclaimable" ∈ k :: rest.map Prod.fst
            ↔ "SReclaimable" ∈ rest.map Prod.fst := by
          simp [List.mem_cons, hs2]
        simp only [valueOf, if_neg hc, if_neg hs, hkeep, List.map_cons, hmc, hms]

theorem memoryTotals_of_lines (buf : String)
    (hunique : ((meminfoLines buf).map Prod.fst).Nodup)
    (horder : ((meminfoLines buf).map Prod.fst).Pairwise
      (fun a b => ¬ (a = "SReclaimable" ∧ b = "Cached"))) :
    ((Split buf (Char.ofNat 10)).foldl memoryLine {}).total
        = wrap64 (meminfoValue buf "MemTotal" * 1024) ∧
      ((Split buf (Char.ofNat 10)).foldl memoryLine {}).free
        = wrap64 (meminfoValue buf "MemFree" * 1024) ∧
      ((Split buf (Char.ofNat 10)).foldl memoryLine {}).buffers
        = wrap64 (meminfoValue buf "Buffers" * 1024) ∧
      ((Split buf (Char.ofNat 10)).foldl memoryLine {}).cached
        = wrap64 ((meminfoValue buf "Cached" + meminfoValue buf "SReclaimable") * 1024) := by
  have hfold : (Split buf (Char.ofNat 10)).foldl memoryLine {}
      = (meminfoLines buf).foldl memoryStep {} := foldl_memoryLine _ _
  have h0 : wrap64 (0 * 1024) = 0 := by decide
  rw [hfold]
  unfold meminfoValue
  refine ⟨?_, ?_, ?_, ?_⟩
  · rw [foldl_memoryStep_total _ _ hunique]
    split
    · rfl
    · rename_i h
      rw [valueOf_absent _ _ h, h0]
  · rw [foldl_memoryStep_free _ _ hunique]
    split
    · rfl
    · rename_i h
      rw [valueOf_absent _ _ h, h0]
  · rw [foldl_memoryStep_buffers _ _ hunique]
    split
    · rfl
    · rename_i h
      rw [valueOf_absent _ _ h, h0]
  · rw [foldl_memoryStep_cached _ _ hunique horder]
    split
    · unfold wrap64
      omega
    · rename_i hc
      rw [valueOf_absent _ _ hc]
      split
      · show wrap64 (0 + wrap64 _) = _
        unfold wrap64
        omega
      · rename_i hs
        rw [valueOf_absent _ _ hs]
        decide

theorem appendMemoryMetrics_of_lines (sm : SystemMeasurements) (now : Int) (buf : String)
    (hunique : ((meminfoLines buf).map Prod.fst).Nodup)
    (horder : ((meminfoLines buf).map Prod.fst).Pairwise
      (fun a b => ¬ (a = "SReclaimable" ∧ b = "Cached"))) :
    (appendMemoryMetrics sm now buf).MemUsedBytes
        = sm.MemUsedBytes ++ [{ Time := now, Value := wrap64 (meminfoUsedBytes buf) }] ∧
      (appendMemoryMetrics sm now buf).MemUsedPct
        = sm.MemUsedPct ++
            [{ Time := now,
               Value := (Float64.num 100).mul
                 ((Float64.ofInt (wrap64 (meminfoUsedBytes buf))).div
                   (Float64.ofInt (wrap64 (meminfoValue buf "MemTotal" * 1024)))) }] ∧
      ((∀ key, key ∈ ["MemTotal", "MemFree", "Buffers", "Cached", "SReclaimable"] →
          0 ≤ meminfoValue buf key ∧ meminfoValue buf key < 2 ^ 41) →
        (appendMemoryMetrics sm now buf).MemUsedBytes
            = sm.MemUsedBytes ++ [{ Time := now, Value := meminfoUsedBytes buf }] ∧
          (meminfoValue buf "MemTotal" ≠ 0 →
            (appendMemoryMetrics sm now buf).MemUsedPct
              = sm.MemUsedPct ++
                  [{ Time := now,
                     Value := .num (Float64.nearest (100 * Float64.nearest
                       ((meminfoUsedBytes buf : Rat)
                         / ((meminfoValue buf "MemTotal" * 1024 : Int) : Rat)))) }] ∧
            |Float64.nearest (100 * Float64.nearest
                  ((meminfoUsedBytes buf : Rat)
                    / ((meminfoValue buf "MemTotal" * 1024 : Int) : Rat)))
                - 100 * ((meminfoUsedBytes buf : Rat)
                    / ((meminfoValue buf "MemTotal" * 1024 : Int) : Rat))|
              ≤ |100 * ((meminfoUsedBytes buf : Rat)
                    / ((meminfoValue buf "MemTotal" * 1024 : Int) : Rat))|
                  * (1 / 2 ^ 52 + 1 / 2 ^ 106))) := by
  obtain ⟨ht, hf, hb, hc⟩ := memoryTotals_of_lines buf hunique horder
  have hused : wrap64 (((Split buf (Char.ofNat 10)).foldl memoryLine {}).total
        - ((Split buf (Char.ofNat 10)).foldl memoryLine {}).free
        - ((Split buf (Char.ofNat 10)).foldl memoryLine {}).buffers
        - ((Split buf (Char.ofNat 10)).foldl memoryLine {}).cached)
      = wrap64 (meminfoUsedBytes buf) := by
    rw [ht, hf, hb, hc]
    unfold meminfoUsedBytes wrap64
    omega
  have hbytes : (appendMemoryMetrics sm now buf).MemUsedBytes
      = sm.MemUsedBytes ++ [{ Time := now, Value := wrap64 (meminfoUsedBytes buf) }] := by
    unfold appendMemoryMetrics
    simp only [hused]
  have hpct : (appendMemoryMetrics sm now buf).MemUsedPct
      = sm.MemUsedPct ++
          [{ Time := now,
             Value := (Float64.num 100).mul
               ((Float64.ofInt (wrap64 (meminfoUsedBytes buf))).div
                 (Float64.ofInt (wrap64 (meminfoValue buf "MemTotal" * 1024)))) }] := by
    unfold appendMemoryMetrics
    simp only [hused]
    simp only [ht]
  refine ⟨hbytes, hpct, ?_⟩
  intro hrange
  have hT := hrange "MemTotal" (by simp)
  have hF := hrange "MemFree" (by simp)
  have hB := hrange "Buffers" (by simp)
  have hC := hrange "Cached" (by simp)
  have hS := hrange "SReclaimable" (by simp)
  have hu : wrap64 (meminfoUsedBytes buf) = meminfoUsedBytes buf := by
    apply wrap64_of_range <;> unfold meminfoUsedBytes <;> omega
  have htot : wrap64 (meminfoValue buf "MemTotal" * 1024) = meminfoValue buf "MemTotal" * 1024 := by
    apply wrap64_of_range <;> omega
  refine ⟨by rw [hbytes, hu], ?_⟩
  intro hne
  have habs : |meminfoUsedBytes buf| < 2 ^ 53 := by
    rw [abs_lt]
    unfold meminfoUsedBytes
    constructor <;> omega
  obtain ⟨hval, herr⟩ := mul_hundred_div_ofInt (meminfoUsedBytes buf)
    (meminfoValue buf "MemTotal" * 1024) habs (by omega) (by omega)
  exact ⟨by rw [hpct, hu, htot, hval], herr⟩

theorem nearest_seven_hundredths :
    Float64.nearest (100 * Float64.nearest (7 / 100)) = 7881299347898369 / 2 ^ 50 := by
  have h1 : Float64.nearest (7 / 100) = 5044031582654956 / 2 ^ 56 := by
    have h := nearest_eq_of_near (7 / 100) (-4) 5044031582654956 (by norm_num)
      (by norm_num [zpow_neg]) (by norm_num [zpow_neg]) (by
        rw [show ((-4 : Int) - 52) = -56 by norm_num, zpow_neg, abs_lt]
        constructor <;> norm_num)
    rw [h]
    norm_num [zpow_neg]
  have h2 : Float64.nearest (100 * (5044031582654956 / 2 ^ 56)) = 7881299347898369 / 2 ^ 50 := by
    have h := nearest_eq_of_near (100 * (5044031582654956 / 2 ^ 56)) 2 7881299347898369
      (by norm_num) (by norm_num) (by norm_num) (by
        rw [show ((2 : Int) - 52) = -50 by norm_num, zpow_neg, abs_lt]
        constructor <;> norm_num)
    rw [h]
    norm_num [zpow_neg]
  rw [h1, h2]

/-- C17 (amended): for every meminfo text in which no key occurs on two lines
of the form `Key: value kB` and no `Cached` line comes after the
`SReclaimable` line, `appendMemoryMetrics` appends exactly one MemUsedBytes
sample, whose value is `(MemTotal - MemFree - Buffers - Cached -
SReclaimable) * 1024` as an `int` (absent keys counting as 0), and exactly one
MemUsedPct sample, whose value is the `float64` product
`100 * (float64(used) / float64(MemTotal * 1024))`. When the five values are
below `2^41` no `int` overflows and the conversions to `float64` are exact;
when moreover MemTotal is not 0 the percentage is the `float64` nearest to 100
times the `float64` nearest to `used / (MemTotal * 1024)`, and it differs from
the exact `100 * used / (MemTotal * 1024)` by at most `2^-52 + 2^-106` of the
magnitude of the latter. For the sample of the specification (MemTotal
16000000, MemFree 8000000, Buffers 0, Cached 0) the two values are
`(16000000 - 8000000) * 1024` and exactly 50; for MemTotal 100 and MemFree 93
the percentage is `7 + 2^-50`, which prints as `7.000000000000001`. -/
theorem appendMemoryMetrics_used (sm : SystemMeasurements) (now : Int) (buf : String)
    (hunique : ((meminfoLines buf).map Prod.fst).Nodup)
    (horder : ((meminfoLines buf).map Prod.fst).Pairwise
      (fun a b => ¬ (a = "SReclaimable" ∧ b = "Cached"))) :
    ((appendMemoryMetrics sm now buf).MemUsedBytes
        = sm.MemUsedBytes ++ [{ Time := now, Value := wrap64 (meminfoUsedBytes buf) }] ∧
      (appendMemoryMetrics sm now buf).MemUsedPct
        = sm.MemUsedPct ++
            [{ Time := now,
               Value := (Float64.num 100).mul
                 ((Float64.ofInt (wrap64 (meminfoUsedBytes buf))).div
                   (Float64.ofInt (wrap64 (meminfoValue buf "MemTotal" * 1024)))) }] ∧
      ((∀ key, key ∈ ["MemTotal", "MemFree", "Buffers", "Cached", "SReclaimable"] →
          0 ≤ meminfoValue buf key ∧ meminfoValue buf key < 2 ^ 41) →
        (appendMemoryMetrics sm now buf).MemUsedBytes
            = sm.MemUsedBytes ++ [{ Time := now, Value := meminfoUsedBytes buf }] ∧
          (meminfoValue buf "MemTotal" ≠ 0 →
            (appendMemoryMetrics sm now buf).MemUsedPct
              = sm.MemUsedPct ++
                  [{ Time := now,
                     Value := .num (Float64.nearest (100 * Float64.nearest
                       ((meminfoUsedBytes buf : Rat)
                         / ((meminfoValue buf "MemTotal" * 1024 : Int) : Rat)))) }] ∧
            |Float64.nearest (100 * Float64.nearest
                  ((meminfoUsedBytes buf : Rat)
                    / ((meminfoValue buf "MemTotal" * 1024 : Int) : Rat)))
                - 100 * ((meminfoUsedBytes buf : Rat)
                    / ((meminfoValue buf "MemTotal" * 1024 : Int) : Rat))|
              ≤ |100 * ((meminfoUsedBytes buf : Rat)
                    / ((meminfoValue buf "MemTotal" * 1024 : Int) : Rat))|
                  * (1 / 2 ^ 52 + 1 / 2 ^ 106)))) ∧
    ((appendMemoryMetrics sm now meminfoSample).MemUsedBytes
        = sm.MemUsedBytes ++ [{ Time := now, Value := (16000000 - 8000000) * 1024 }] ∧
      (appendMemoryMetrics sm now meminfoSample).MemUsedPct
        = sm.MemUsedPct ++ [{ Time := now, Value := .num 50 }]) ∧
    ((appendMemoryMetrics sm now meminfoSevenPercent).MemUsedBytes
        = sm.MemUsedBytes ++ [{ Time := now, Value := 7 * 1024 }] ∧
      (appendMemoryMetrics sm now meminfoSevenPercent).MemUsedPct
        = sm.MemUsedPct ++ [{ Time := now, Value := .num (7 + 1 / 2 ^ 50) }]) := by
  refine ⟨appendMemoryMetrics_of_lines sm now buf hunique horder, ?_, ?_⟩
  · obtain ⟨_, _, h1⟩ := appendMemoryMetrics_of_lines sm now meminfoSample (by decide) (by decide)
    obtain ⟨hb1, hp1⟩ := h1 (by decide)
    have hu1 : meminfoUsedBytes meminfoSample = 8192000000 := by decide
    have ht1 : meminfoValue meminfoSample "MemTotal" = 16000000 := by decide
    have hhalf : Float64.nearest (1 / 2) = 1 / 2 := by
      have := nearest_exact 1 (-1) (by norm_num) (by norm_num)
      simpa [zpow_neg] using this
    have h50 : Float64.nearest 50 = 50 := by
      have := nearest_intCast 50 (by norm_num)
      simpa using this
    constructor
    · rw [hb1, hu1]; rfl
    · rw [(hp1 (by rw [ht1]; decide)).1, hu1, ht1]
      norm_num [hhalf, h50]
  · obtain ⟨_, _, h3⟩ :=
      appendMemoryMetrics_of_lines sm now meminfoSevenPercent (by decide) (by decide)
    obtain ⟨hb3, hp3⟩ := h3 (by decide)
    have hu3 : meminfoUsedBytes meminfoSevenPercent = 7168 := by decide
    have ht3 : meminfoValue meminfoSevenPercent "MemTotal" = 100 := by decide
    constructor
    · rw [hb3, hu3]; rfl
    · rw [(hp3 (by rw [ht3]; decide)).1, hu3, ht3]
      have : ((7168 : Int) : Rat) / ((100 * 1024 : Int) : Rat) = 7 / 100 := by norm_num
      rw [this, nearest_seven_hundredths]
      norm_num

/-- C17, witness: a text in the order of the kernel, with an `SReclaimable`
line and more lines than the code reads: the used memory is
`(16000000 - 8000000 - 200000 - 3000000 - 800000) * 1024` and the percentage
exactly 25; with it the sample of the specification, 50. -/
theorem appendMemoryMetrics_sample :
    (((meminfoLines meminfoKernel).map Prod.fst).Nodup ∧
        ((meminfoLines meminfoKernel).map Prod.fst).Pairwise
          (fun a b => ¬ (a = "SReclaimable" ∧ b = "Cached"))) ∧
      (appendMemoryMetrics {} 1700000000 meminfoKernel).MemUsedBytes
        = [{ Time := 1700000000,
             Value := (16000000 - 8000000 - 200000 - 3000000 - 800000) * 1024 }] ∧
      (appendMemoryMetrics {} 1700000000 meminfoKernel).MemUsedPct
        = [{ Time := 1700000000, Value := .num 25 }] ∧
      (appendMemoryMetrics {} 1700000000 meminfoSample).MemUsedBytes
        = [{ Time := 1700000000, Value := (16000000 - 8000000) * 1024 }] ∧
      (appendMemoryMetrics {} 1700000000 meminfoSample).MemUsedPct
        = [{ Time := 1700000000, Value := .num 50 }] := by
  obtain ⟨⟨_, _, h2⟩, ⟨hsb, hsp⟩, _⟩ :=
    appendMemoryMetrics_used {} 1700000000 meminfoKernel (by decide) (by decide)
  obtain ⟨hb2, hp2⟩ := h2 (by decide)
  have hu2 : meminfoUsedBytes meminfoKernel = 4096000000 := by decide
  have ht2 : meminfoValue meminfoKernel "MemTotal" = 16000000 := by decide
  have hquarter : Float64.nearest (1 / 4) = 1 / 4 := by
    have := nearest_exact 1 (-2) (by norm_num) (by norm_num)
    norm_num [zpow_neg] at this
    exact this
  have h25 : Float64.nearest 25 = 25 := by
    have := nearest_intCast 25 (by norm_num)
    simpa using this
  refine ⟨⟨by decide, by decide⟩, ?_, ?_, hsb, hsp⟩
  · rw [hb2, hu2]; rfl
  · rw [(hp2 (by rw [ht2]; decide)).1, hu2, ht2]
    norm_num [hquarter, h25]

/-! ## The system monitor: the installation of its dependencies -/

/-- C23: `systemMonitor.SetUp` runs the installation command at most 3 times,
whatever the target answers. If the first `k < 3` attempts fail and the next
one succeeds, it returns nil after exactly `k + 1` attempts; if all 3
attempts fail it returns, after exactly 3 attempts, the error of the third. -/
theorem systemMonitorSetUp_retries (target : Target) (st : JobState) (k : Nat)
    (errs : Nat → GoError) (hk : k ≤ 3)
    (hfail : ∀ j, j < k →
      (target.RunCommand (st.targetCalls + j) installCmd).2 = some (errs j))
    (hsucc : k < 3 → (target.RunCommand (st.targetCalls + k) installCmd).2 = none) :
    (systemMonitorSetUp target st).2.trace.count (.RunCommand installCmd)
        = st.trace.count (.RunCommand installCmd) + min (k + 1) 3 ∧
      (systemMonitorSetUp target st).2.targetCalls = st.targetCalls + min (k + 1) 3 ∧
      (k < 3 → (systemMonitorSetUp target st).1 = none) ∧
      (k = 3 → (systemMonitorSetUp target st).1 = some (errs 2)) ∧
      (∀ (machine : Target) (s : JobState),
        (systemMonitorSetUp machine s).2.trace.count (.RunCommand installCmd)
          ≤ s.trace.count (.RunCommand installCmd) + 3) := by
  refine ⟨?_, ?_, ?_, ?_, ?_⟩
  · interval_cases k
    · have h0 := hsucc (by omega)
      simp only [Nat.add_zero] at h0
      simp [systemMonitorSetUp, systemMonitorSetUpLoop, h0, JobState.ran, JobState.emit,
        List.count_append]
    · have h0 := hfail 0 (by omega)
      have h1 := hsucc (by omega)
      simp only [Nat.add_zero] at h0
      simp [systemMonitorSetUp, systemMonitorSetUpLoop, h0, h1, JobState.ran, JobState.emit,
        List.count_append, List.count_cons]
    · have h0 := hfail 0 (by omega)
      have h1 := hfail 1 (by omega)
      have h2 := hsucc (by omega)
      simp only [Nat.add_zero] at h0
      simp [systemMonitorSetUp, systemMonitorSetUpLoop, h0, h1, h2, JobState.ran, JobState.emit,
        List.count_append, List.count_cons, Nat.add_assoc]
    · have h0 := hfail 0 (by omega)
      have h1 := hfail 1 (by omega)
      have h2 := hfail 2 (by omega)
      simp only [Nat.add_zero] at h0
      simp [systemMonitorSetUp, systemMonitorSetUpLoop, h0, h1, h2, JobState.ran, JobState.emit,
        List.count_append, List.count_cons, Nat.add_assoc]
  · interval_cases k
    · have h0 := hsucc (by omega)
      simp only [Nat.add_zero] at h0
      simp [systemMonitorSetUp, systemMonitorSetUpLoop, h0, JobState.ran, JobState.emit]
    · have h0 := hfail 0 (by omega)
      have h1 := hsucc (by omega)
      simp only [Nat.add_zero] at h0
      simp [systemMonitorSetUp, systemMonitorSetUpLoop, h0, h1, JobState.ran, JobState.emit]
    · have h0 := hfail 0 (by omega)
      have h1 := hfail 1 (by omega)
      have h2 := hsucc (by omega)
      simp only [Nat.add_zero] at h0
      simp [systemMonitorSetUp, systemMonitorSetUpLoop, h0, h1, h2, JobState.ran, JobState.emit,
        Nat.add_assoc]
    · have h0 := hfail 0 (by omega)
      have h1 := hfail 1 (by omega)
      have h2 := hfail 2 (by omega)
      simp only [Nat.add_zero] at h0
      simp [systemMonitorSetUp, systemMonitorSetUpLoop, h0, h1, h2, JobState.ran, JobState.emit,
        Nat.add_assoc]
  · intro h3
    interval_cases k
    · have h0 := hsucc (by omega)
      simp only [Nat.add_zero] at h0
      simp [systemMonitorSetUp, systemMonitorSetUpLoop, h0]
    · have h0 := hfail 0 (by omega)
      have h1 := hsucc (by omega)
      simp only [Nat.add_zero] at h0
      simp [systemMonitorSetUp, systemMonitorSetUpLoop, h0, h1, JobState.ran, JobState.emit]
    · have h0 := hfail 0 (by omega)
      have h1 := hfail 1 (by omega)
      have h2 := hsucc (by omega)
      simp only [Nat.add_zero] at h0
      simp [systemMonitorSetUp, systemMonitorSetUpLoop, h0, h1, h2, JobState.ran, JobState.emit,
        Nat.add_assoc]
  · intro h3
    subst h3
    have h0 := hfail 0 (by omega)
    have h1 := hfail 1 (by omega)
    have h2 := hfail 2 (by omega)
    simp only [Nat.add_zero] at h0
    simp [systemMonitorSetUp, systemMonitorSetUpLoop, h0, h1, h2, JobState.ran, JobState.emit,
      Nat.add_assoc]
  · intro machine s
    unfold systemMonitorSetUp
    simp only [systemMonitorSetUpLoop]
    cases h0 : (machine.RunCommand s.targetCalls installCmd).2 with
    | none => simp [JobState.ran, List.count_append]
    | some e0 =>
      cases h1 : (machine.RunCommand (s.targetCalls + 1) installCmd).2 with
      | none => simp [JobState.ran, JobState.emit, h1, List.count_append, List.count_cons]
      | some e1 =>
        cases h2 : (machine.RunCommand (s.targetCalls + 1 + 1) installCmd).2 with
        | none =>
          simp [JobState.ran, JobState.emit, h1, h2, List.count_append, List.count_cons]
        | some e2 =>
          simp [JobState.ran, JobState.emit, h1, h2, List.count_append, List.count_cons]

/-- C23, witness: the installation fails once and succeeds at the second
attempt; the job's earlier commands (none here) are not counted. -/
theorem systemMonitorSetUp_succeeds_on_second_attempt :
    (∀ j, j < 1 → ((targetFailingAt 0).RunCommand (({} : JobState).targetCalls + j) installCmd).2
        = some (ErrorNew "exit status 1")) ∧
      (systemMonitorSetUp (targetFailingAt 0) {}).1 = none ∧
      (systemMonitorSetUp (targetFailingAt 0) {}).2.trace.count (.RunCommand installCmd) = 2 := by
  have h := systemMonitorSetUp_retries (targetFailingAt 0) {} 1
    (fun _ => ErrorNew "exit status 1") (by decide)
    (fun j hj => by interval_cases j; rfl) (fun _ => rfl)
  exact ⟨fun j hj => by interval_cases j; rfl, h.2.2.1 (by decide), by decide⟩

/-! ## The system monitor: shares of the CPU time -/

theorem sum_map_error (f : Rat → Rat) (c : Rat) :
    ∀ l : List Rat, (∀ q, q ∈ l → |f q - q| ≤ |q| / c) →
      |(l.map f).sum - l.sum| ≤ (l.map (fun q => |q|)).sum / c := by
  intro l
  induction l with
  | nil => intro _; simp
  | cons q rest ih =>
    intro h
    have h1 := h q (by simp)
    have h2 := ih (fun x hx => h x (by simp [hx]))
    simp only [List.map_cons, List.sum_cons]
    have : f q + (rest.map f).sum - (q + rest.sum) = (f q - q) + ((rest.map f).sum - rest.sum) := by
      ring
    rw [this, add_div]
    exact le_trans (abs_add _ _) (add_le_add h1 h2)

theorem appendCPUMetrics_nearest (sm : SystemMeasurements) (now : Int)
    (curr prev : cpuTimeStat)
    (hcurr : ∀ x, x ∈ curr.counters → 0 ≤ x ∧ x < 2 ^ 45)
    (hprev : ∀ x, x ∈ prev.counters → 0 ≤ x ∧ x < 2 ^ 45)
    (hgrows : prev.totalCPUTime < curr.totalCPUTime) :
    cpuSeries (appendCPUMetrics sm now curr prev)
        = List.zipWith
            (fun series q => series ++ [{ Time := now, Value := Float64.num (Float64.nearest q) }])
            (cpuSeries sm) (cpuShares curr prev) ∧
      (∀ q, q ∈ cpuShares curr prev → |Float64.nearest q - q| ≤ |q| / 2 ^ 53) ∧
      (cpuShares curr prev).sum = 100 := by
  have c1 := hcurr curr.user (by simp [cpuTimeStat.counters])
  have c2 := hcurr curr.system (by simp [cpuTimeStat.counters])
  have c3 := hcurr curr.idle (by simp [cpuTimeStat.counters])
  have c4 := hcurr curr.nice (by simp [cpuTimeStat.counters])
  have c5 := hcurr curr.iowait (by simp [cpuTimeStat.counters])
  have c6 := hcurr curr.irq (by simp [cpuTimeStat.counters])
  have c7 := hcurr curr.softIrq (by simp [cpuTimeStat.counters])
  have c8 := hcurr curr.steal (by simp [cpuTimeStat.counters])
  have c9 := hcurr curr.guest (by simp [cpuTimeStat.counters])
  have c10 := hcurr curr.guestNice (by simp [cpuTimeStat.counters])
  have p1 := hprev prev.user (by simp [cpuTimeStat.counters])
  have p2 := hprev prev.system (by simp [cpuTimeStat.counters])
  have p3 := hprev prev.idle (by simp [cpuTimeStat.counters])
  have p4 := hprev prev.nice (by simp [cpuTimeStat.counters])
  have p5 := hprev prev.iowait (by simp [cpuTimeStat.counters])
  have p6 := hprev prev.irq (by simp [cpuTimeStat.counters])
  have p7 := hprev prev.softIrq (by simp [cpuTimeStat.counters])
  have p8 := hprev prev.steal (by simp [cpuTimeStat.counters])
  have p9 := hprev prev.guest (by simp [cpuTimeStat.counters])
  have p10 := hprev prev.guestNice (by simp [cpuTimeStat.counters])
  have htc : curr.totalCPUTime = curr.user + curr.system + curr.nice + curr.iowait + curr.irq
      + curr.softIrq + curr.steal + curr.idle := by
    unfold cpuTimeStat.totalCPUTime
    exact wrap64_of_range _ (by omega) (by omega)
  have htp : prev.totalCPUTime = prev.user + prev.system + prev.nice + prev.iowait + prev.irq
      + prev.softIrq + prev.steal + prev.idle := by
    unfold cpuTimeStat.totalCPUTime
    exact wrap64_of_range _ (by omega) (by omega)
  rw [htc, htp] at hgrows
  have hdelta : wrap64 (curr.totalCPUTime - prev.totalCPUTime)
      = curr.user + curr.system + curr.nice + curr.iowait + curr.irq + curr.softIrq + curr.steal
          + curr.idle
        - (prev.user + prev.system + prev.nice + prev.iowait + prev.irq + prev.softIrq
          + prev.steal + prev.idle) := by
    rw [htc, htp]
    exact wrap64_of_range _ (by omega) (by omega)
  generalize hD : curr.user + curr.system + curr.nice + curr.iowait + curr.irq + curr.softIrq
      + curr.steal + curr.idle
    - (prev.user + prev.system + prev.nice + prev.iowait + prev.irq + prev.softIrq
      + prev.steal + prev.idle) = D at hdelta
  have hD0 : 0 < D := by omega
  have hD53 : D < 2 ^ 53 := by omega
  have hd0 : (D : Rat) ≠ 0 := by
    have : D ≠ 0 := by omega
    exact_mod_cast this
  have hnotlt : (Float64.ofInt D).lt (.num 0) = false :=
    ofInt_nonneg_not_lt_zero D hD0.le (by omega)
  have w1 := wrap64_of_range (100 * (curr.user - prev.user - (curr.guest - prev.guest)))
    (by omega) (by omega)
  have w2 := wrap64_of_range (100 * (curr.system - prev.system)) (by omega) (by omega)
  have w3 := wrap64_of_range (100 * (curr.idle - prev.idle)) (by omega) (by omega)
  have w4 := wrap64_of_range (100 * (curr.nice - prev.nice - (curr.guestNice - prev.guestNice)))
    (by omega) (by omega)
  have w5 := wrap64_of_range (100 * (curr.iowait - prev.iowait)) (by omega) (by omega)
  have w6 := wrap64_of_range (100 * (curr.irq - prev.irq)) (by omega) (by omega)
  have w7 := wrap64_of_range (100 * (curr.softIrq - prev.softIrq)) (by omega) (by omega)
  have w8 := wrap64_of_range (100 * (curr.steal - prev.steal)) (by omega) (by omega)
  have w9 := wrap64_of_range (100 * (curr.guest - prev.guest)) (by omega) (by omega)
  have w10 := wrap64_of_range (100 * (curr.guestNice - prev.guestNice)) (by omega) (by omega)
  have d1 := div_ofInt (100 * (curr.user - prev.user - (curr.guest - prev.guest))) D
    (by rw [abs_lt]; omega) hD0 hD53
  have d2 := div_ofInt (100 * (curr.system - prev.system)) D (by rw [abs_lt]; omega) hD0 hD53
  have d3 := div_ofInt (100 * (curr.idle - prev.idle)) D (by rw [abs_lt]; omega) hD0 hD53
  have d4 := div_ofInt (100 * (curr.nice - prev.nice - (curr.guestNice - prev.guestNice))) D
    (by rw [abs_lt]; omega) hD0 hD53
  have d5 := div_ofInt (100 * (curr.iowait - prev.iowait)) D (by rw [abs_lt]; omega) hD0 hD53
  have d6 := div_ofInt (100 * (curr.irq - prev.irq)) D (by rw [abs_lt]; omega) hD0 hD53
  have d7 := div_ofInt (100 * (curr.softIrq - prev.softIrq)) D (by rw [abs_lt]; omega) hD0 hD53
  have d8 := div_ofInt (100 * (curr.steal - prev.steal)) D (by rw [abs_lt]; omega) hD0 hD53
  have d9 := div_ofInt (100 * (curr.guest - prev.guest)) D (by rw [abs_lt]; omega) hD0 hD53
  have d10 := div_ofInt (100 * (curr.guestNice - prev.guestNice)) D (by rw [abs_lt]; omega)
    hD0 hD53
  refine ⟨?_, ?_, ?_⟩
  · unfold appendCPUMetrics
    simp only [hdelta, w1, w2, w3, w4, w5, w6, w7, w8, w9, w10, hnotlt, Bool.false_eq_true,
      if_false, d1.1, d2.1, d3.1, d4.1, d5.1, d6.1, d7.1, d8.1, d9.1, d10.1, cpuSeries,
      cpuShares, hD, List.zipWith_cons_cons, List.zipWith_nil_right]
  · intro q hq
    simp only [cpuShares, hD, List.mem_cons, List.mem_nil_iff, or_false] at hq
    rcases hq with h | h | h | h | h | h | h | h | h | h <;> rw [h]
    · exact d1.2
    · exact d2.2
    · exact d3.2
    · exact d4.2
    · exact d5.2
    · exact d6.2
    · exact d7.2
    · exact d8.2
    · exact d9.2
    · exact d10.2
  · unfold cpuShares
    simp only [hD, List.sum_cons, List.sum_nil, add_zero, ← add_div]
    rw [div_eq_iff hd0, ← hD]
    push_cast
    ring

theorem nearest_hundred_thirds :
    Float64.nearest (100 / 3) = 4691249611844267 / 2 ^ 47 := by
  rw [nearest_of_nonneg _ (by norm_num)]
  have h := roundMag_eq_of_near (100 / 3) 5 4691249611844267 (by norm_num) (by norm_num)
    (by norm_num) (by
      rw [show ((5 : Int) - 52) = -47 by norm_num, zpow_neg, abs_lt]
      constructor <;> norm_num)
  rw [h]
  norm_num [zpow_neg]

/-- C28 (as stated, refuted): two readings between which one tick of user, one
of system and one of idle time have passed give three exact shares of `100/3`; the machine format has no such
number, each of the three appended values is the nearest one,
`4691249611844267 / 2^47`, a little above `100/3`, and the ten appended
values, taken as exact rationals, sum to `100 + 2^-47`, not to 100. -/
theorem appendCPUMetrics_rounded_shares_exceed_100 :
    cpuShares cpuThirds cpuBusy = [100 / 3, 100 / 3, 100 / 3, 0, 0, 0, 0, 0, 0, 0] ∧
      (cpuSeries (appendCPUMetrics {} 1700000000 cpuThirds cpuBusy)).map
          (fun series => series.map (fun m => m.Value))
        = [[.num (4691249611844267 / 2 ^ 47)], [.num (4691249611844267 / 2 ^ 47)],
           [.num (4691249611844267 / 2 ^ 47)], [.num 0], [.num 0], [.num 0], [.num 0],
           [.num 0], [.num 0], [.num 0]] ∧
      ((cpuSeries (appendCPUMetrics {} 1700000000 cpuThirds cpuBusy)).map
          (fun series => (series.map (fun m => m.Value.toRat)).sum)).sum = 100 + 1 / 2 ^ 47 ∧
      ((cpuSeries (appendCPUMetrics {} 1700000000 cpuThirds cpuBusy)).map
          (fun series => (series.map (fun m => m.Value.toRat)).sum)).sum ≠ 100 := by
  have h := (appendCPUMetrics_nearest {} 1700000000 cpuThirds cpuBusy (by decide) (by decide)
    (by decide)).1
  have hshares : cpuShares cpuThirds cpuBusy = [100 / 3, 100 / 3, 100 / 3, 0, 0, 0, 0, 0, 0, 0] := by
    simp only [cpuShares, cpuThirds, cpuBusy]
    norm_num
  rw [hshares] at h
  have hsum : ((cpuSeries (appendCPUMetrics {} 1700000000 cpuThirds cpuBusy)).map
      (fun series => (series.map (fun m => m.Value.toRat)).sum)).sum = 100 + 1 / 2 ^ 47 := by
    rw [h]
    simp only [cpuSeries, List.zipWith_cons_cons, List.zipWith_nil_right, List.nil_append,
      List.map_cons, List.map_nil, List.sum_cons, List.sum_nil, Float64.toRat,
      nearest_hundred_thirds, nearest_zero]
    norm_num
  refine ⟨hshares, ?_, hsum, ?_⟩
  · rw [h]
    simp only [cpuSeries, List.zipWith_cons_cons, List.zipWith_nil_right, List.nil_append,
      List.map_cons, List.map_nil, nearest_hundred_thirds, nearest_zero]
  · rw [hsum]
    norm_num

/-- C28 (amended): for every pair of readings whose counters are counter
values (from 0 to below `2^45`, so that no `int` overflows and every
conversion to `float64` is exact) and whose total grows, the ten samples that
`appendCPUMetrics` appends, one to each series, are the `float64` values
nearest to the ten exact shares `cpuShares`: the difference of each counter
times 100 over the difference of the totals, the user and nice shares without
the guest and guest-nice differences. The exact shares sum to exactly 100;
each appended value differs from its share by at most `2^-53` of the magnitude
of the share, so the appended values sum to 100 up to `2^-53` of the sum of
the magnitudes of the shares. -/
theorem appendCPUMetrics_shares_nearest (sm : SystemMeasurements) (now : Int)
    (curr prev : cpuTimeStat)
    (hcurr : ∀ x, x ∈ curr.counters → 0 ≤ x ∧ x < 2 ^ 45)
    (hprev : ∀ x, x ∈ prev.counters → 0 ≤ x ∧ x < 2 ^ 45)
    (hgrows : prev.totalCPUTime < curr.totalCPUTime) :
    cpuSeries (appendCPUMetrics sm now curr prev)
        = List.zipWith
            (fun series q => series ++ [{ Time := now, Value := Float64.num (Float64.nearest q) }])
            (cpuSeries sm) (cpuShares curr prev) ∧
      (cpuShares curr prev).length = 10 ∧
      (cpuShares curr prev).sum = 100 ∧
      (∀ q, q ∈ cpuShares curr prev → |Float64.nearest q - q| ≤ |q| / 2 ^ 53) ∧
      |((cpuShares curr prev).map Float64.nearest).sum - 100|
        ≤ ((cpuShares curr prev).map (fun q => |q|)).sum / 2 ^ 53 := by
  obtain ⟨h1, h2, h3⟩ := appendCPUMetrics_nearest sm now curr prev hcurr hprev hgrows
  refine ⟨h1, rfl, h3, h2, ?_⟩
  have := sum_map_error Float64.nearest (2 ^ 53) (cpuShares curr prev) h2
  rw [h3] at this
  exact this

/-- C28, witness: one second on four cores, 400 ticks in all; the shares 40
and 10 of the user and guest time are numbers of the format. -/
theorem appendCPUMetrics_shares_of_busy_second :
    ((∀ x, x ∈ cpuLater.counters → 0 ≤ x ∧ x < 2 ^ 45) ∧
        (∀ x, x ∈ cpuBusy.counters → 0 ≤ x ∧ x < 2 ^ 45) ∧
        cpuBusy.totalCPUTime < cpuLater.totalCPUTime) ∧
      (cpuShares cpuLater cpuBusy).sum = 100 ∧
      (appendCPUMetrics {} 1700000000 cpuLater cpuBusy).CpuUsageUser
        = [{ Time := 1700000000, Value := Float64.num 40 }] ∧
      (appendCPUMetrics {} 1700000000 cpuLater cpuBusy).CpuUsageGuest
        = [{ Time := 1700000000, Value := Float64.num 10 }] := by
  have h := appendCPUMetrics_shares_nearest {} 1700000000 cpuLater cpuBusy (by decide)
    (by decide) (by decide)
  have h40 : Float64.nearest 40 = 40 := by
    have := nearest_intCast 40 (by norm_num)
    simpa using this
  have h10 : Float64.nearest 10 = 10 := by
    have := nearest_intCast 10 (by norm_num)
    simpa using this
  refine ⟨⟨by decide, by decide, by decide⟩, h.2.2.1, ?_, ?_⟩
  · have h1 := congrArg (fun l => l.head?) h.1
    simp only [cpuSeries, cpuShares, List.zipWith_cons_cons, List.head?_cons, Option.some.injEq]
      at h1
    rw [h1]
    norm_num [cpuLater, cpuBusy, h40]
  · have h1 := congrArg (fun l => l.get? 8) h.1
    simp only [cpuSeries, cpuShares, List.zipWith_cons_cons, List.get?_cons_succ,
      List.get?_cons_zero, Option.some.injEq] at h1
    rw [h1]
    norm_num [cpuLater, cpuBusy, h10]

/-! ## The system monitor: the `cpu` line of `/proc/stat` -/

theorem parseCPUTimeStatLines_none (lines : List String) :
    parseCPUTimeStatLines lines = .ok none ↔ ∀ line, line ∈ lines → HasPrefix line "cpu " = false := by
  induction lines with
  | nil => simp [parseCPUTimeStatLines]
  | cons line rest ih =>
    unfold parseCPUTimeStatLines
    by_cases h : HasPrefix line "cpu " = true
    · simp only [h, if_true, List.mem_cons, forall_eq_or_imp]
      constructor
      · intro hres
        cases hc : cpuLineCounters (Fields line) <;> rw [hc] at hres <;> simp at hres
      · intro hall
        exact absurd hall.1 (by decide)
    · simp only [Bool.not_eq_true] at h
      simp only [h, Bool.false_eq_true, if_false, List.mem_cons, forall_eq_or_imp, true_and]
      exact ih

theorem parseCPUTimeStatLines_first (before : List String) (line : String) (later : List String)
    (hbefore : ∀ l, l ∈ before → HasPrefix l "cpu " = false)
    (hline : HasPrefix line "cpu " = true) :
    parseCPUTimeStatLines (before ++ line :: later)
      = match cpuLineCounters (Fields line) with
        | .ok ts => .ok (some ts)
        | .err e => .err e
        | .panic => .panic := by
  induction before with
  | nil => simp [parseCPUTimeStatLines, hline]
  | cons l rest ih =>
    have hl := hbefore l (by simp)
    rw [List.cons_append, parseCPUTimeStatLines]
    simp only [hl, Bool.false_eq_true, if_false]
    exact ih (fun l2 hl2 => hbefore l2 (by simp [hl2]))

/-- C30: `parseCPUTimeStat` returns nil exactly when no line of the text
begins with `cpu ` (so a text of per-core lines `cpu0 ...` gives nil). When
a line begins with `cpu `, no line before it does, and it has the name and at
least ten further fields, the function returns the values of the fields 1 to
10 of that line as user, nice, system, idle, iowait, irq, softirq, steal,
guest, guest-nice, whatever the later lines are. -/
theorem parseCPUTimeStat_first_cpu_line (buf : String) :
    (parseCPUTimeStat buf = .ok none ↔
        ∀ line, line ∈ Split buf (Char.ofNat 10) → HasPrefix line "cpu " = false) ∧
      (∀ (before : List String) (line : String) (later : List String)
          (name f1 f2 f3 f4 f5 f6 f7 f8 f9 f10 : String) (more : List String),
        Split buf (Char.ofNat 10) = before ++ line :: later →
        (∀ l, l ∈ before → HasPrefix l "cpu " = false) →
        HasPrefix line "cpu " = true →
        Fields line = name :: f1 :: f2 :: f3 :: f4 :: f5 :: f6 :: f7 :: f8 :: f9 :: f10 :: more →
        parseCPUTimeStat buf
          = .ok (some { user := (Atoi f1).1, nice := (Atoi f2).1, system := (Atoi f3).1,
                        idle := (Atoi f4).1, iowait := (Atoi f5).1, irq := (Atoi f6).1,
                        softIrq := (Atoi f7).1, steal := (Atoi f8).1, guest := (Atoi f9).1,
                        guestNice := (Atoi f10).1 })) := by
  refine ⟨parseCPUTimeStatLines_none _, ?_⟩
  intro before line later name f1 f2 f3 f4 f5 f6 f7 f8 f9 f10 more hsplit hbefore hline hfields
  unfold parseCPUTimeStat
  rw [hsplit, parseCPUTimeStatLines_first before line later hbefore hline, hfields]
  rfl

/-- C30, witness: the first lines of a `/proc/stat` give the counters of the
line of the totals, in the order of the kernel; per-core lines alone give
nil. -/
theorem parseCPUTimeStat_procStat :
    parseCPUTimeStat procStat
        = .ok (some { user := 700, nice := 10, system := 200, idle := 9000, iowait := 50,
                      irq := 5, softIrq := 5, steal := 30, guest := 0, guestNice := 0 }) ∧
      parseCPUTimeStat procStatPerCore = .ok none := by
  refine ⟨?_, (parseCPUTimeStat_first_cpu_line procStatPerCore).1.mpr (by decide)⟩
  have h := (parseCPUTimeStat_first_cpu_line procStat).2 [] "cpu  700 10 200 9000 50 5 5 30 0 0"
    ["cpu0 350 5 100 4500 25 3 2 15 0 0", "cpu1 350 5 100 4500 25 2 3 15 0 0",
     "intr 123456 0 0", "ctxt 98765", ""]
    "cpu" "700" "10" "200" "9000" "50" "5" "5" "30" "0" "0" []
    (by decide) (by decide) (by decide) (by decide)
  rw [h]
  decide

/-! ## The last line of a command output -/

theorem lastNonEmptyOffset_zero (lines : List String) (h : ∀ l, l ∈ lines → l.length = 0) :
    ∀ k, lastNonEmptyOffset lines k = 0 := by
  induction lines with
  | nil => intro k; rfl
  | cons l rest ih =>
    intro k
    have hl := h l (by simp)
    rw [lastNonEmptyOffset]
    simp only [hl, gt_iff_lt, Nat.lt_irrefl, if_false]
    exact ih (fun l2 hl2 => h l2 (by simp [hl2])) _

theorem lastNonEmptyOffset_skips (empties : List String) (line : String) (earlier : List String)
    (hempty : ∀ l, l ∈ empties → l.length = 0) (hline : line.length > 0) :
    ∀ k, lastNonEmptyOffset (empties ++ line :: earlier) k = k + empties.length := by
  induction empties with
  | nil => intro k; simp [lastNonEmptyOffset, hline]
  | cons l rest ih =>
    intro k
    have hl := hempty l (by simp)
    rw [List.cons_append, lastNonEmptyOffset]
    simp only [hl, gt_iff_lt, Nat.lt_irrefl, if_false]
    rw [ih (fun l2 hl2 => hempty l2 (by simp [hl2]))]
    simp only [List.length_cons]
    omega

theorem LastNonEmptyLine_last (out : String) (before : List String) (line : String)
    (after : List String) (hsplit : Split out (Char.ofNat 10) = before ++ line :: after)
    (hline : line.length > 0) (hafter : ∀ l, l ∈ after → l.length = 0) :
    LastNonEmptyLine out = .ok line := by
  unfold LastNonEmptyLine
  simp only
  rw [hsplit, List.reverse_append, List.reverse_cons, List.append_assoc, List.singleton_append,
    lastNonEmptyOffset_skips after.reverse line before.reverse
      (fun l hl => hafter l (List.mem_reverse.mp hl)) hline]
  have hidx : (before ++ line :: after).length - (1 + after.reverse.length) = before.length := by
    simp only [List.length_append, List.length_cons, List.length_reverse]
    omega
  rw [hidx, List.get?_eq_getElem?, List.getElem?_append_right (Nat.le_refl _)]
  simp

/-- C27 (the code departs from it): on an output without a line of non-zero
length `LastNonEmptyLine` leaves `offset` at 0, indexes `lines[len(lines)]`
and panics: so on the empty output and on an output of newline characters
only, and the `ParseCommandOutput` of the `aws_cli` benchmark, which calls it
first, panics on these outputs instead of returning an error value. When the
output has a line of non-zero length, the last such line is returned. -/
theorem LastNonEmptyLine_panics_without_line :
    LastNonEmptyLine "" = .panic ∧
      LastNonEmptyLine "\n\n" = .panic ∧
      (∀ out : String, (∀ l, l ∈ Split out (Char.ofNat 10) → l.length = 0) →
        LastNonEmptyLine out = .panic) ∧
      (∀ quote : String → String, awscli.ParseCommandOutput quote "" = .panic) ∧
      (∀ quote : String → String, awscli.ParseCommandOutput quote "\n\n" = .panic) ∧
      (∀ (out : String) (before : List String) (line : String) (after : List String),
        Split out (Char.ofNat 10) = before ++ line :: after → line.length > 0 →
        (∀ l, l ∈ after → l.length = 0) → LastNonEmptyLine out = .ok line) ∧
      LastNonEmptyLine "real 12\nuser 3\n\n" = .ok "user 3" := by
  have hgen : ∀ out : String, (∀ l, l ∈ Split out (Char.ofNat 10) → l.length = 0) →
      LastNonEmptyLine out = .panic := by
    intro out h
    unfold LastNonEmptyLine
    simp only
    rw [lastNonEmptyOffset_zero _ (fun l hl => h l (List.mem_reverse.mp hl))]
    simp
  have h1 : LastNonEmptyLine "" = .panic := by decide
  have h2 : LastNonEmptyLine "\n\n" = .panic := by decide
  refine ⟨h1, h2, hgen, ?_, ?_, LastNonEmptyLine_last, by decide⟩
  · intro quote
    unfold awscli.ParseCommandOutput
    rw [h1]
  · intro quote
    unfold awscli.ParseCommandOutput
    rw [h2]

/-! ## The object specifications -/

theorem any_key_eq_false (out : List ObjectSpec) (key : String)
    (h : key ∉ out.map (fun it => it.Key)) : out.any (fun it => it.Key = key) = false := by
  rw [Bool.eq_false_iff]
  intro hany
  rw [List.any_eq_true] at hany
  obtain ⟨x, hx, hk⟩ := hany
  exact h (List.mem_map.mpr ⟨x, hx, of_decide_eq_true hk⟩)

theorem key_not_mem_of_any_false (out : List ObjectSpec) (key : String)
    (h : out.any (fun it => it.Key = key) = false) : key ∉ out.map (fun it => it.Key) := by
  intro hmem
  obtain ⟨x, hx, hk⟩ := List.mem_map.mp hmem
  have : out.any (fun it => it.Key = key) = true :=
    List.any_eq_true.mpr ⟨x, hx, decide_eq_true hk⟩
  rw [h] at this
  cases this

theorem LoadObjectSpecsLoop_accepts (quote : String → String) (lines : List String) :
    ∀ out : List ObjectSpec,
      (∀ entry, entry ∈ lines.filterMap commaFields → (Atoi entry.2).2 = false) →
      (out.map (fun it => it.Key) ++ (lines.filterMap commaFields).map Prod.fst).Nodup →
      LoadObjectSpecsLoop quote lines out
        = .ok (out ++ (lines.filterMap commaFields).map specOfLine) := by
  induction lines with
  | nil => intro out _ _; simp [LoadObjectSpecsLoop]
  | cons line rest ih =>
    intro out hok hnd
    cases hf : commaFields line with
    | none =>
      have hloop : LoadObjectSpecsLoop quote (line :: rest) out
          = LoadObjectSpecsLoop quote rest out := by
        unfold commaFields at hf
        rw [LoadObjectSpecsLoop]
        split
        · rename_i key field more hs
          rw [hs] at hf
          cases hf
        · rfl
      rw [hloop]
      simp only [List.filterMap_cons, hf] at hok hnd ⊢
      exact ih out hok hnd
    | some entry =>
      obtain ⟨key, field⟩ := entry
      simp only [List.filterMap_cons, hf, List.map_cons] at hok hnd ⊢
      have hfield : (Atoi field).2 = false := hok (key, field) (by simp)
      have hkey : key ∉ out.map (fun it => it.Key) := by
        intro hmem
        have := (List.nodup_append.mp hnd).2.2
        exact this hmem (by simp)
      have hloop : LoadObjectSpecsLoop quote (line :: rest) out
          = LoadObjectSpecsLoop quote rest
              (out ++ [{ Key := key, SizeBytes := (Atoi field).1 }]) := by
        unfold commaFields at hf
        rw [LoadObjectSpecsLoop]
        split
        · rename_i key2 field2 more hs
          rw [hs] at hf
          simp only [Option.some.injEq, Prod.mk.injEq] at hf
          obtain ⟨rfl, rfl⟩ := hf
          simp only [hfield, Bool.false_eq_true, if_false, any_key_eq_false out key2 hkey]
        · rename_i hno
          split at hf
          · rename_i key2 field2 more hs
            exact absurd hs (hno key2 field2 more)
          · cases hf
      rw [hloop, ih _ (fun e he => hok e (by simp [he])) (by simpa [List.append_assoc] using hnd)]
      simp [specOfLine, List.append_assoc]

theorem LoadObjectSpecsLoop_accepted (quote : String → String) (lines : List String) :
    ∀ (out r : List ObjectSpec), LoadObjectSpecsLoop quote lines out = .ok r →
      (∀ entry, entry ∈ lines.filterMap commaFields → (Atoi entry.2).2 = false) ∧
        ((out.map (fun it => it.Key)).Nodup →
          (out.map (fun it => it.Key) ++ (lines.filterMap commaFields).map Prod.fst).Nodup) := by
  induction lines with
  | nil => intro out r _; simp
  | cons line rest ih =>
    intro out r hres
    cases hf : commaFields line with
    | none =>
      have hloop : LoadObjectSpecsLoop quote (line :: rest) out
          = LoadObjectSpecsLoop quote rest out := by
        unfold commaFields at hf
        rw [LoadObjectSpecsLoop]
        split
        · rename_i key field more hs
          rw [hs] at hf
          cases hf
        · rfl
      rw [hloop] at hres
      simp only [List.filterMap_cons, hf]
      exact ih out r hres
    | some entry =>
      obtain ⟨key, field⟩ := entry
      have hs : ∃ more, Split line (Char.ofNat 44) = key :: field :: more := by
        unfold commaFields at hf
        split at hf
        · rename_i key2 field2 more hs
          simp only [Option.some.injEq, Prod.mk.injEq] at hf
          obtain ⟨rfl, rfl⟩ := hf
          exact ⟨more, hs⟩
        · cases hf
      obtain ⟨more, hs⟩ := hs
      rw [LoadObjectSpecsLoop, hs] at hres
      simp only at hres
      by_cases hfield : (Atoi field).2 = true
      · simp [hfield] at hres
      · simp only [Bool.not_eq_true] at hfield
        simp only [hfield, Bool.false_eq_true, if_false] at hres
        by_cases hany : out.any (fun it => it.Key = key) = true
        · simp [hany] at hres
        · simp only [Bool.not_eq_true] at hany
          simp only [hany, Bool.false_eq_true, if_false] at hres
          obtain ⟨hok, hnd⟩ := ih _ r hres
          have hkey := key_not_mem_of_any_false out key hany
          simp only [List.filterMap_cons, hf, List.map_cons]
          refine ⟨fun e he => ?_, fun hout => ?_⟩
          · simp only [List.mem_cons] at he
            rcases he with rfl | he
            · exact hfield
            · exact hok e he
          · have := hnd (by
              simp only [List.map_append, List.map_cons, List.map_nil]
              exact List.Nodup.append hout (by simp) (by simpa using hkey))
            simpa [List.append_assoc] using this

theorem not_nodup_iff_repeats (l : List String) :
    ¬ l.Nodup ↔ ∃ before x later, l = before ++ x :: later ∧ x ∈ before := by
  constructor
  · induction l with
    | nil => intro h; exact absurd List.nodup_nil h
    | cons a t ih =>
      intro h
      rw [List.nodup_cons, not_and_or, not_not] at h
      rcases h with h | h
      · obtain ⟨s1, s2, rfl⟩ := List.append_of_mem h
        exact ⟨a :: s1, a, s2, rfl, by simp⟩
      · obtain ⟨b, x, c, rfl, hx⟩ := ih h
        exact ⟨a :: b, x, c, rfl, by simp [hx]⟩
  · rintro ⟨before, x, later, rfl, hx⟩ hnd
    rw [List.nodup_middle, List.nodup_cons] at hnd
    exact hnd.1 (by simp [hx])

theorem SplitChars_length (sep : Char) (cs : List Char) :
    (SplitChars sep cs).length = cs.count sep + 1 := by
  induction cs with
  | nil => rfl
  | cons c rest ih =>
    rw [SplitChars]
    by_cases h : c = sep
    · subst h
      simp [ih]
    · have hne : (c == sep) = false := by simpa using h
      simp only [h, if_false, List.count_cons, hne, Bool.false_eq_true, Nat.add_zero]
      cases hs : SplitChars sep rest with
      | nil => rw [hs] at ih; simp at ih
      | cons piece pieces => rw [hs] at ih; simpa using ih

theorem commaFields_none_iff (line : String) :
    commaFields line = none ↔ Char.ofNat 44 ∉ line.data := by
  have hlen : (Split line (Char.ofNat 44)).length = line.data.count (Char.ofNat 44) + 1 := by
    unfold Split
    rw [List.length_map, SplitChars_length]
  rw [← List.count_eq_zero]
  unfold commaFields
  split
  · rename_i key field more hs
    rw [hs] at hlen
    simp only [List.length_cons] at hlen
    constructor
    · intro h; cases h
    · intro h; omega
  · rename_i hno
    constructor
    · intro _
      cases hs : Split line (Char.ofNat 44) with
      | nil => rw [hs] at hlen; simp at hlen
      | cons key tl =>
        cases tl with
        | nil => rw [hs] at hlen; simp at hlen; omega
        | cons field more => exact absurd hs (hno key field more)
    · intro _; rfl

/-- C29: `LoadObjectSpecsFromBuf` returns an error exactly when some line
containing a comma has a second field that `strconv.Atoi` rejects, or has a
first field equal to the first field of an earlier line containing a comma.
Otherwise it returns one specification per line containing a comma, in the
order of the lines, with the first field as `Key` and the value of the second
as `SizeBytes`. The keys of every list it returns are pairwise distinct, and
lines without a comma contribute nothing: the lines counted are exactly those
in which the character `,` occurs. -/
theorem LoadObjectSpecsFromBuf_spec (quote : String → String) (buf : String) :
    ((∃ e, LoadObjectSpecsFromBuf quote buf = .error e) ↔
        (∃ entry, entry ∈ commaLines buf ∧ (Atoi entry.2).2 = true) ∨
        (∃ before key later, (commaLines buf).map Prod.fst = before ++ key :: later ∧
          key ∈ before)) ∧
      (∀ specs, LoadObjectSpecsFromBuf quote buf = .ok specs →
        specs = (commaLines buf).map specOfLine ∧ (specs.map (fun it => it.Key)).Nodup) ∧
      ((∀ entry, entry ∈ commaLines buf → (Atoi entry.2).2 = false) →
        ((commaLines buf).map Prod.fst).Nodup →
        LoadObjectSpecsFromBuf quote buf = .ok ((commaLines buf).map specOfLine)) ∧
      (∀ line : String, commaFields line = none ↔ Char.ofNat 44 ∉ line.data) := by
  have hacc : (∀ entry, entry ∈ commaLines buf → (Atoi entry.2).2 = false) →
      ((commaLines buf).map Prod.fst).Nodup →
      LoadObjectSpecsFromBuf quote buf = .ok ((commaLines buf).map specOfLine) := by
    intro hok hnd
    unfold LoadObjectSpecsFromBuf
    rw [LoadObjectSpecsLoop_accepts quote _ [] hok (by simpa using hnd)]
    simp [commaLines]
  have hback : ∀ specs, LoadObjectSpecsFromBuf quote buf = .ok specs →
      (∀ entry, entry ∈ commaLines buf → (Atoi entry.2).2 = false) ∧
        ((commaLines buf).map Prod.fst).Nodup := by
    intro specs h
    obtain ⟨hok, hnd⟩ := LoadObjectSpecsLoop_accepted quote _ [] specs h
    exact ⟨hok, by simpa using hnd List.nodup_nil⟩
  refine ⟨?_, ?_, hacc, commaFields_none_iff⟩
  · rw [← not_nodup_iff_repeats]
    constructor
    · rintro ⟨e, he⟩
      by_contra hcon
      rw [not_or, not_not] at hcon
      have hok : ∀ entry, entry ∈ commaLines buf → (Atoi entry.2).2 = false := by
        intro entry hmem
        by_contra hbad
        exact hcon.1 ⟨entry, hmem, by simpa using hbad⟩
      rw [hacc hok hcon.2] at he
      cases he
    · intro h
      cases hres : LoadObjectSpecsFromBuf quote buf with
      | error e => exact ⟨e, rfl⟩
      | ok specs =>
        obtain ⟨hok, hnd⟩ := hback specs hres
        rcases h with ⟨entry, hmem, hbad⟩ | h
        · rw [hok entry hmem] at hbad
          cases hbad
        · exact absurd hnd h
  · intro specs h
    obtain ⟨hok, hnd⟩ := hback specs h
    have := hacc hok hnd
    rw [h] at this
    have hspecs : specs = (commaLines buf).map specOfLine := by
      injection this
    refine ⟨hspecs, ?_⟩
    rw [hspecs, List.map_map]
    exact hnd

/-- C29, witness: three objects between which an empty line is skipped; a
repeated key; a size that is no number. -/
theorem LoadObjectSpecsFromBuf_examples :
    LoadObjectSpecsFromBuf quoteAscii objectsCsv
        = .ok [{ Key := "a/one.bin", SizeBytes := 1024 }, { Key := "b/two.bin", SizeBytes := 2048 },
               { Key := "c/three.bin", SizeBytes := 4096 }] ∧
      (∃ e, LoadObjectSpecsFromBuf quoteAscii objectsCsvDuplicate = .error e) ∧
      (∃ e, LoadObjectSpecsFromBuf quoteAscii objectsCsvBadSize = .error e) := by
  refine ⟨?_, ?_, ?_⟩
  · rw [(LoadObjectSpecsFromBuf_spec quoteAscii objectsCsv).2.2.1 (by decide) (by decide)]
    have hspecs : (commaLines objectsCsv).map specOfLine
        = [{ Key := "a/one.bin", SizeBytes := 1024 }, { Key := "b/two.bin", SizeBytes := 2048 },
           { Key := "c/three.bin", SizeBytes := 4096 }] := by decide
    rw [hspecs]
  · exact (LoadObjectSpecsFromBuf_spec quoteAscii objectsCsvDuplicate).1.mpr
      (Or.inr ⟨["a/one.bin", "b/two.bin"], "a/one.bin", [], by decide, by decide⟩)
  · exact (LoadObjectSpecsFromBuf_spec quoteAscii objectsCsvBadSize).1.mpr
      (Or.inl ⟨("b/two.bin", "2 KiB"), by decide, by decide⟩)

/-! ## The system monitor: the disk series -/

theorem diskLineEntry_panic_iff (parts : List String) :
    diskLineEntry parts = .panic ↔ parts.length < 20 := by
  unfold diskLineEntry
  split <;> simp [*]

theorem appendDiskLines_panic_iff (grow : Nat → Nat) (now : Int) (lines : List String) :
    ∀ (sm : SystemMeasurements) (cap : Nat),
      (appendDiskLines grow now lines sm cap = .panic ↔
          ∃ line, line ∈ lines ∧ (Fields line).length = 19) ∧
        (appendDiskLines grow now lines sm cap ≠ .panic →
          ∃ r, appendDiskLines grow now lines sm cap = .ok r) := by
  induction lines with
  | nil => intro sm cap; simp [appendDiskLines]
  | cons line rest ih =>
    intro sm cap
    rw [appendDiskLines]
    by_cases h19 : (Fields line).length < 19
    · simp only [h19, if_true, List.mem_cons, exists_eq_or_imp]
      have hne : (Fields line).length ≠ 19 := by omega
      simp only [hne, false_or]
      exact ih sm cap
    · simp only [h19, if_false, List.mem_cons, exists_eq_or_imp]
      by_cases h20 : (Fields line).length < 20
      · have hp := (diskLineEntry_panic_iff (Fields line)).mpr h20
        have h : (Fields line).length = 19 := by omega
        simp [hp, h]
      · have hne : (Fields line).length ≠ 19 := by omega
        have hok : ∃ entry, diskLineEntry (Fields line) = .ok entry := by
          unfold diskLineEntry
          simp [h20]
        obtain ⟨entry, hentry⟩ := hok
        simp only [hentry, hne, false_or]
        exact ih _ _

/-- C26 (the code departs from it): a line of exactly 19 fields passes the
test `len(parts) < 19` and the code then reads `parts[19]`: the function
panics. It panics on a text exactly when some line of the text has exactly
19 fields, and completes on every other text. -/
theorem appendDiskIOMetrics_panics_on_19_fields (grow : Nat → Nat) (sm : SystemMeasurements)
    (cap : Nat) (now : Int) :
    (Split diskstats19Fields (Char.ofNat 10)).map (fun line => (Fields line).length) = [19, 0] ∧
      appendDiskIOMetrics grow sm cap now diskstats19Fields = .panic ∧
      (∀ buf : String, appendDiskIOMetrics grow sm cap now buf = .panic ↔
        ∃ line, line ∈ Split buf (Char.ofNat 10) ∧ (Fields line).length = 19) ∧
      (∀ buf : String, appendDiskIOMetrics grow sm cap now buf ≠ .panic →
        ∃ r, appendDiskIOMetrics grow sm cap now buf = .ok r) := by
  have hiff : ∀ buf : String, appendDiskIOMetrics grow sm cap now buf = .panic ↔
      ∃ line, line ∈ Split buf (Char.ofNat 10) ∧ (Fields line).length = 19 :=
    fun buf => (appendDiskLines_panic_iff grow now _ sm cap).1
  refine ⟨by decide, ?_, hiff, fun buf => (appendDiskLines_panic_iff grow now _ sm cap).2⟩
  rw [hiff]
  exact ⟨" 259       0 nvme0n1 1200 30 96000 450 800 20 64000 900 3 1100 1350 0 0 0 0 70",
    by decide, by decide⟩

theorem appendDiskIOMetrics_oneDevice (grow : Nat → Nat) (sm : SystemMeasurements) (cap : Nat)
    (now : Int) :
    appendDiskIOMetrics grow sm cap now diskstatsOneDevice
      = .ok (appendDiskEntry grow now sm cap diskEntryNvme) := by
  have hlines : Split diskstatsOneDevice (Char.ofNat 10)
      = [" 259       0 nvme0n1 1200 30 96000 450 800 20 64000 900 3 1100 1350 0 0 0 0 70 40", ""] := by
    decide
  have hlen : (Fields
      " 259       0 nvme0n1 1200 30 96000 450 800 20 64000 900 3 1100 1350 0 0 0 0 70 40").length
      = 20 := by
    decide
  have hentry : diskLineEntry (Fields
      " 259       0 nvme0n1 1200 30 96000 450 800 20 64000 900 3 1100 1350 0 0 0 0 70 40")
      = .ok diskEntryNvme := by
    decide
  have hempty : (Fields "").length = 0 := by decide
  unfold appendDiskIOMetrics
  rw [hlines]
  simp [appendDiskLines, hlen, hentry, hempty]

/-- C25 (the code departs from it): on a text of one device line, whatever
the measurements held before and whatever the capacities, `DiskReads` gets
its sample of the reads completed, and each of the twelve other disk series
becomes the new contents of `DiskReads` followed by one sample: its earlier
contents are gone and it holds the samples of the reads completed. So
`DiskWrites` and `DiskReadBytes` end with the sample of the reads completed
(1200) followed by one more sample: their own (800 writes, 512 * 96000
bytes) or, when the array behind `DiskReads` had room, the sample of the
requests in progress (3). -/
theorem appendDiskIOMetrics_aliases_DiskReads (grow : Nat → Nat) (sm : SystemMeasurements)
    (cap : Nat) (now : Int) :
    ∃ sm1 cap1, appendDiskIOMetrics grow sm cap now diskstatsOneDevice = .ok (sm1, cap1) ∧
      sm1.DiskReads = sm.DiskReads ++ [deviceSample "nvme0n1" now 1200] ∧
      (∀ series, series ∈ diskSeriesOntoReads sm1 →
        ∃ value, series
          = sm.DiskReads ++ [deviceSample "nvme0n1" now 1200, deviceSample "nvme0n1" now value]) ∧
      (sm1.DiskWrites
          = sm.DiskReads ++ [deviceSample "nvme0n1" now 1200, deviceSample "nvme0n1" now 800] ∨
        sm1.DiskWrites
          = sm.DiskReads ++ [deviceSample "nvme0n1" now 1200, deviceSample "nvme0n1" now 3]) ∧
      (sm1.DiskReadBytes
          = sm.DiskReads
              ++ [deviceSample "nvme0n1" now 1200, deviceSample "nvme0n1" now (512 * 96000)] ∨
        sm1.DiskReadBytes
          = sm.DiskReads ++ [deviceSample "nvme0n1" now 1200, deviceSample "nvme0n1" now 3]) := by
  have hbytes : wrap64 (diskEntryNvme.sectorsRead * 512) = 512 * 96000 := by decide
  refine ⟨(appendDiskEntry grow now sm cap diskEntryNvme).1,
    (appendDiskEntry grow now sm cap diskEntryNvme).2,
    appendDiskIOMetrics_oneDevice grow sm cap now, ?_, ?_, ?_, ?_⟩
  · rfl
  · intro series hmem
    simp only [diskSeriesOntoReads, appendDiskEntry, List.mem_cons, List.mem_singleton,
      List.mem_nil_iff, or_false] at hmem
    rcases hmem with h | h | h | h | h | h | h | h | h | h | h | h <;>
      exact ⟨_, by rw [h]; simp [List.append_assoc, diskEntryNvme]; rfl⟩
  · simp only [appendDiskEntry]
    by_cases hroom : sm.DiskReads.length + 1
        < (if sm.DiskReads.length < cap then cap
            else max (grow sm.DiskReads.length) (sm.DiskReads.length + 1))
    · right; simp [hroom, List.append_assoc, diskEntryNvme]
    · left; simp [hroom, List.append_assoc, diskEntryNvme]
  · simp only [appendDiskEntry, hbytes]
    by_cases hroom : sm.DiskReads.length + 1
        < (if sm.DiskReads.length < cap then cap
            else max (grow sm.DiskReads.length) (sm.DiskReads.length + 1))
    · right; simp [hroom, List.append_assoc, diskEntryNvme]
    · left; simp [hroom, List.append_assoc, diskEntryNvme]

/-! ## The system monitor: peers in the storage service -/

/-- C22 (as stated, refuted): with the two prefixes `52.216.0.0/15` and
`52.216.0.0/16`, both of which contain the listed address `52.216.10.20`
(and the first also `52.217.1.2`), the sample of S3Networks is 1, not 2: the
second prefix is never recorded, since an address is looked up only in the
first prefix that contains it. -/
theorem appendS3IPMetrics_misses_overlapping_prefix :
    foreignAddresses netstatOutput
        = ["203.0.113.9", "52.216.10.20", "52.216.10.20", "52.217.1.2"] ∧
      prefix15.Contains (ParseAddr "52.216.10.20").1 = true ∧
      prefix16.Contains (ParseAddr "52.216.10.20").1 = true ∧
      (appendS3IPMetrics {} 1700000000 netstatOutput [prefix15, prefix16]).S3Networks
        = [{ Time := 1700000000, Value := 1 }] ∧
      (appendS3IPMetrics {} 1700000000 netstatOutput [prefix15, prefix16]).S3IPs
        = [{ Time := 1700000000, Value := 2 }] := by
  decide

theorem s3PrefixStep_found (a : String) (ip : Addr) (acc : s3Found) (p : Prefix)
    (h : a ∈ acc.foundIPs) : s3PrefixStep a ip acc p = acc := by
  unfold s3PrefixStep
  split
  · simp [h]
  · rfl

theorem foldl_s3PrefixStep_found (a : String) (ip : Addr) (ps : List Prefix) :
    ∀ acc : s3Found, a ∈ acc.foundIPs → ps.foldl (s3PrefixStep a ip) acc = acc := by
  induction ps with
  | nil => intro acc _; rfl
  | cons p rest ih =>
    intro acc h
    rw [List.foldl_cons, s3PrefixStep_found a ip acc p h]
    exact ih acc h

theorem foldl_s3PrefixStep (a : String) (ip : Addr) (ps : List Prefix) :
    ∀ acc : s3Found, ps.foldl (s3PrefixStep a ip) acc
      = match ps.find? (fun p => p.Contains ip) with
        | none => acc
        | some p0 =>
          if a ∈ acc.foundIPs then acc
          else
            { uniqueIPs := acc.uniqueIPs + 1
              foundIPs := acc.foundIPs ++ [a]
              foundNetworks :=
                if p0 ∈ acc.foundNetworks then acc.foundNetworks else acc.foundNetworks ++ [p0]
              uniqueNetworks :=
                if p0 ∈ acc.foundNetworks then acc.uniqueNetworks else acc.uniqueNetworks + 1 } := by
  induction ps with
  | nil => intro acc; rfl
  | cons p rest ih =>
    intro acc
    rw [List.foldl_cons, List.find?_cons]
    by_cases hp : p.Contains ip = true
    · simp only [hp]
      by_cases ha : a ∈ acc.foundIPs
      · rw [s3PrefixStep_found a ip acc p ha, foldl_s3PrefixStep_found a ip rest acc ha]
        simp [ha]
      · have hstep : s3PrefixStep a ip acc p
            = { uniqueIPs := acc.uniqueIPs + 1
                foundIPs := acc.foundIPs ++ [a]
                foundNetworks :=
                  if p ∈ acc.foundNetworks then acc.foundNetworks else acc.foundNetworks ++ [p]
                uniqueNetworks :=
                  if p ∈ acc.foundNetworks then acc.uniqueNetworks
                  else acc.uniqueNetworks + 1 } := by
          unfold s3PrefixStep
          simp only [hp, if_true]
          by_cases hn : p ∈ acc.foundNetworks <;> simp [ha, hn]
        rw [hstep, foldl_s3PrefixStep_found a ip rest _ (by simp)]
        simp [ha]
    · simp only [Bool.not_eq_true] at hp
      have hstep : s3PrefixStep a ip acc p = acc := by
        unfold s3PrefixStep
        simp [hp]
      rw [hstep, ih acc]
      simp [hp]

theorem insideSome_iff_firstPrefix (ps : List Prefix) (a : String) :
    insideSome ps a = true ↔ ∃ p, firstPrefix ps a = some p := by
  unfold insideSome firstPrefix
  rw [List.any_eq_true]
  constructor
  · rintro ⟨p, hp, hc⟩
    cases hf : ps.find? (fun p => p.Contains (ParseAddr a).1) with
    | some q => exact ⟨q, rfl⟩
    | none =>
      rw [List.find?_eq_none] at hf
      exact absurd hc (hf p hp)
  · rintro ⟨p, hp⟩
    have hc := List.find?_some hp
    exact ⟨p, List.mem_of_find?_eq_some hp, hc⟩

/-- What the loop over the lines keeps true: the lists of the addresses and of
the prefixes found hold no element twice, and the two counters are their
lengths. -/
theorem foldl_recordAddress (ps : List Prefix) (addrs : List String) :
    ∀ acc : s3Found, acc.foundIPs.Nodup → acc.foundNetworks.Nodup →
      acc.uniqueIPs = acc.foundIPs.length → acc.uniqueNetworks = acc.foundNetworks.length →
      (addrs.foldl (recordAddress ps) acc).foundIPs.Nodup ∧
        (addrs.foldl (recordAddress ps) acc).foundNetworks.Nodup ∧
        (addrs.foldl (recordAddress ps) acc).uniqueIPs
          = (addrs.foldl (recordAddress ps) acc).foundIPs.length ∧
        (addrs.foldl (recordAddress ps) acc).uniqueNetworks
          = (addrs.foldl (recordAddress ps) acc).foundNetworks.length ∧
        (∀ x, x ∈ (addrs.foldl (recordAddress ps) acc).foundIPs ↔
          x ∈ acc.foundIPs ∨ (x ∈ addrs ∧ insideSome ps x = true)) ∧
        (∀ p, p ∈ (addrs.foldl (recordAddress ps) acc).foundNetworks ↔
          p ∈ acc.foundNetworks ∨
            ∃ a, a ∈ addrs ∧ a ∉ acc.foundIPs ∧ firstPrefix ps a = some p) := by
  induction addrs with
  | nil => intro acc h1 h2 h3 h4; simp [h1, h2, h3, h4]
  | cons a rest ih =>
    intro acc h1 h2 h3 h4
    rw [List.foldl_cons]
    have hrec : recordAddress ps acc a
        = match firstPrefix ps a with
          | none => acc
          | some p0 =>
            if a ∈ acc.foundIPs then acc
            else
              { uniqueIPs := acc.uniqueIPs + 1
                foundIPs := acc.foundIPs ++ [a]
                foundNetworks :=
                  if p0 ∈ acc.foundNetworks then acc.foundNetworks
                  else acc.foundNetworks ++ [p0]
                uniqueNetworks :=
                  if p0 ∈ acc.foundNetworks then acc.uniqueNetworks
                  else acc.uniqueNetworks + 1 } :=
      foldl_s3PrefixStep a (ParseAddr a).1 ps acc
    cases hf : firstPrefix ps a with
    | none =>
      rw [hf] at hrec
      simp only at hrec
      rw [hrec]
      have hout : ¬ insideSome ps a = true := by
        rw [insideSome_iff_firstPrefix, hf]
        simp
      obtain ⟨i1, i2, i3, i4, i5, i6⟩ := ih acc h1 h2 h3 h4
      refine ⟨i1, i2, i3, i4, fun x => ?_, fun p => ?_⟩
      · rw [i5 x]
        constructor
        · rintro (h | ⟨h, hin⟩)
          · exact Or.inl h
          · exact Or.inr ⟨List.mem_cons_of_mem _ h, hin⟩
        · rintro (h | ⟨h, hin⟩)
          · exact Or.inl h
          · rcases List.mem_cons.mp h with rfl | h
            · exact absurd hin hout
            · exact Or.inr ⟨h, hin⟩
      · rw [i6 p]
        constructor
        · rintro (h | ⟨b, hb, hnb, hfb⟩)
          · exact Or.inl h
          · exact Or.inr ⟨b, List.mem_cons_of_mem _ hb, hnb, hfb⟩
        · rintro (h | ⟨b, hb, hnb, hfb⟩)
          · exact Or.inl h
          · rcases List.mem_cons.mp hb with rfl | hb
            · rw [hf] at hfb
              cases hfb
            · exact Or.inr ⟨b, hb, hnb, hfb⟩
    | some p0 =>
      rw [hf] at hrec
      simp only at hrec
      have hin : insideSome ps a = true := (insideSome_iff_firstPrefix ps a).mpr ⟨p0, hf⟩
      by_cases ha : a ∈ acc.foundIPs
      · rw [if_pos ha] at hrec
        rw [hrec]
        obtain ⟨i1, i2, i3, i4, i5, i6⟩ := ih acc h1 h2 h3 h4
        refine ⟨i1, i2, i3, i4, fun x => ?_, fun p => ?_⟩
        · rw [i5 x]
          constructor
          · rintro (h | ⟨h, hx⟩)
            · exact Or.inl h
            · exact Or.inr ⟨List.mem_cons_of_mem _ h, hx⟩
          · rintro (h | ⟨h, hx⟩)
            · exact Or.inl h
            · rcases List.mem_cons.mp h with rfl | h
              · exact Or.inl ha
              · exact Or.inr ⟨h, hx⟩
        · rw [i6 p]
          constructor
          · rintro (h | ⟨b, hb, hnb, hfb⟩)
            · exact Or.inl h
            · exact Or.inr ⟨b, List.mem_cons_of_mem _ hb, hnb, hfb⟩
          · rintro (h | ⟨b, hb, hnb, hfb⟩)
            · exact Or.inl h
            · rcases List.mem_cons.mp hb with rfl | hb
              · exact absurd ha hnb
              · exact Or.inr ⟨b, hb, hnb, hfb⟩
      · rw [if_neg ha] at hrec
        rw [hrec]
        have k1 : (acc.foundIPs ++ [a]).Nodup :=
          List.Nodup.append h1 (by simp) (by simpa using ha)
        have k2 : (if p0 ∈ acc.foundNetworks then acc.foundNetworks
            else acc.foundNetworks ++ [p0]).Nodup := by
          split
          · exact h2
          · rename_i hp
            exact List.Nodup.append h2 (by simp) (by simpa using hp)
        have k3 : acc.uniqueIPs + 1 = ((acc.foundIPs ++ [a]).length : Int) := by
          rw [h3]
          simp
        have k4 : (if p0 ∈ acc.foundNetworks then acc.uniqueNetworks
            else acc.uniqueNetworks + 1)
            = (((if p0 ∈ acc.foundNetworks then acc.foundNetworks
                else acc.foundNetworks ++ [p0]).length : Nat) : Int) := by
          split
          · exact h4
          · rw [h4]
            simp
        obtain ⟨i1, i2, i3, i4, i5, i6⟩ := ih
          { uniqueIPs := acc.uniqueIPs + 1
            foundIPs := acc.foundIPs ++ [a]
            foundNetworks :=
              if p0 ∈ acc.foundNetworks then acc.foundNetworks else acc.foundNetworks ++ [p0]
            uniqueNetworks :=
              if p0 ∈ acc.foundNetworks then acc.uniqueNetworks else acc.uniqueNetworks + 1 }
          k1 k2 k3 k4
        refine ⟨i1, i2, i3, i4, fun x => ?_, fun p => ?_⟩
        · rw [i5 x]
          simp only [List.mem_append, List.mem_cons, List.mem_nil_iff, or_false]
          constructor
          · rintro ((h | rfl) | ⟨h, hx⟩)
            · exact Or.inl h
            · exact Or.inr ⟨Or.inl rfl, hin⟩
            · exact Or.inr ⟨Or.inr h, hx⟩
          · rintro (h | ⟨rfl | h, hx⟩)
            · exact Or.inl (Or.inl h)
            · exact Or.inl (Or.inr rfl)
            · exact Or.inr ⟨h, hx⟩
        · rw [i6 p]
          have hnets : p ∈ (if p0 ∈ acc.foundNetworks then acc.foundNetworks
              else acc.foundNetworks ++ [p0]) ↔ p ∈ acc.foundNetworks ∨ p = p0 := by
            split
            · rename_i hp
              constructor
              · exact fun h => Or.inl h
              · rintro (h | rfl)
                · exact h
                · exact hp
            · simp
          rw [hnets]
          simp only [List.mem_append, List.mem_cons, List.mem_nil_iff, or_false, not_or]
          constructor
          · rintro ((h | rfl) | ⟨b, hb, ⟨hnb, _⟩, hfb⟩)
            · exact Or.inl h
            · exact Or.inr ⟨a, Or.inl rfl, ha, hf⟩
            · exact Or.inr ⟨b, Or.inr hb, hnb, hfb⟩
          · rintro (h | ⟨b, rfl | hb, hnb, hfb⟩)
            · exact Or.inl (Or.inl h)
            · rw [hf] at hfb
              injection hfb with hfb
              exact Or.inl (Or.inr hfb.symm)
            · by_cases hba : b = a
              · subst hba
                rw [hf] at hfb
                injection hfb with hfb
                exact Or.inl (Or.inr hfb.symm)
              · exact Or.inr ⟨b, hb, ⟨hnb, hba⟩, hfb⟩

theorem s3IPLines_from (ps : List Prefix) (lines : List String) :
    ∀ (i : Nat) (acc : s3Found), 2 ≤ i →
      s3IPLines ps i lines acc
        = ((lines.filter (fun line => (Fields line).length = 6)).map foreignAddressOf).foldl
            (recordAddress ps) acc := by
  induction lines with
  | nil => intro i acc _; rfl
  | cons line rest ih =>
    intro i acc hi
    rw [s3IPLines, ih (i + 1) _ (by omega)]
    have hi2 : ¬ i < 2 := by omega
    by_cases h6 : (Fields line).length = 6
    · simp [hi2, h6, List.filter_cons, s3IPLine, recordAddress]
    · simp [hi2, h6, List.filter_cons]

theorem s3IPLines_addresses (ps : List Prefix) (buf : String) :
    s3IPLines ps 0 (Split buf (Char.ofNat 10)) {}
      = (foreignAddresses buf).foldl (recordAddress ps) {} := by
  unfold foreignAddresses
  cases Split buf (Char.ofNat 10) with
  | nil => rfl
  | cons l0 rest =>
    cases rest with
    | nil => simp [s3IPLines]
    | cons l1 rest =>
      rw [s3IPLines, s3IPLines]
      simp only [Nat.lt_of_sub_eq_succ, Nat.zero_lt_succ, true_or, if_true, Nat.zero_add,
        Nat.one_lt_ofNat, Nat.reduceAdd, List.drop_succ_cons, List.drop_zero]
      exact s3IPLines_from ps rest 2 {} (by omega)

theorem s3Found_of_listing (ps : List Prefix) (buf : String) :
    (s3IPLines ps 0 (Split buf (Char.ofNat 10)) {}).uniqueIPs
        = ((((foreignAddresses buf).filter (insideSome ps)).dedup.length : Nat) : Int) ∧
      (s3IPLines ps 0 (Split buf (Char.ofNat 10)) {}).uniqueNetworks
        = ((((foreignAddresses buf).filterMap (firstPrefix ps)).dedup.length : Nat) : Int) := by
  rw [s3IPLines_addresses]
  obtain ⟨i1, i2, i3, i4, i5, i6⟩ := foldl_recordAddress ps (foreignAddresses buf) {}
    List.nodup_nil List.nodup_nil rfl rfl
  constructor
  · rw [i3]
    congr 1
    apply List.Perm.length_eq
    rw [List.perm_ext_iff_of_nodup i1 (List.nodup_dedup _)]
    intro x
    rw [i5 x, List.mem_dedup, List.mem_filter]
    simp
  · rw [i4]
    congr 1
    apply List.Perm.length_eq
    rw [List.perm_ext_iff_of_nodup i2 (List.nodup_dedup _)]
    intro p
    rw [i6 p, List.mem_dedup, List.mem_filterMap]
    simp

/-- C21: for every connection listing and every list of prefixes,
`appendS3IPMetrics` appends exactly one S3IPs sample, whose value is the
number of distinct foreign addresses of the listing (fifth column up to the
port, of the lines of six fields after the first two lines) that lie inside
at least one of the prefixes: an address listed on several lines or lying in
several prefixes counts once, an address outside every prefix does not
count. -/
theorem appendS3IPMetrics_counts_addresses (sm : SystemMeasurements) (now : Int) (buf : String)
    (s3Prefixes : List Prefix) :
    (appendS3IPMetrics sm now buf s3Prefixes).S3IPs
      = sm.S3IPs ++
          [{ Time := now,
             Value := ((((foreignAddresses buf).filter (insideSome s3Prefixes)).dedup.length
               : Nat) : Int) }] := by
  unfold appendS3IPMetrics
  simp only [(s3Found_of_listing s3Prefixes buf).1]

/-- C21, on a listing: of the three distinct foreign addresses, the two of the
storage service are counted, one of them listed twice and lying in both
prefixes. -/
theorem appendS3IPMetrics_counts_two_addresses :
    (appendS3IPMetrics {} 1700000000 netstatOutput [prefix15, prefix16]).S3IPs
      = [{ Time := 1700000000, Value := 2 }] := by
  rw [appendS3IPMetrics_counts_addresses]
  decide

/-- C22 (amended): `appendS3IPMetrics` appends exactly one S3Networks sample,
whose value is the number of distinct prefixes that are, for some listed
foreign address, the first prefix of the list to contain it. When no listed
address lies in two different prefixes of the list, that is the number of
distinct prefixes of the list that contain at least one listed foreign
address. -/
theorem appendS3IPMetrics_counts_networks (sm : SystemMeasurements) (now : Int) (buf : String)
    (s3Prefixes : List Prefix)
    (hdisjoint : ∀ a, a ∈ foreignAddresses buf → ∀ p, p ∈ s3Prefixes → ∀ q, q ∈ s3Prefixes →
      p.Contains (ParseAddr a).1 = true → q.Contains (ParseAddr a).1 = true → p = q) :
    (appendS3IPMetrics sm now buf s3Prefixes).S3Networks
        = sm.S3Networks ++
            [{ Time := now,
               Value := (((s3Prefixes.dedup.filter (fun p =>
                 (foreignAddresses buf).any (fun a => p.Contains (ParseAddr a).1))).length
                 : Nat) : Int) }] ∧
      (∀ (listing : String) (prefixes : List Prefix),
        (appendS3IPMetrics sm now listing prefixes).S3Networks
          = sm.S3Networks ++
              [{ Time := now,
                 Value := ((((foreignAddresses listing).filterMap
                   (firstPrefix prefixes)).dedup.length : Nat) : Int) }]) := by
  have hfirst : ∀ (listing : String) (prefixes : List Prefix),
      (appendS3IPMetrics sm now listing prefixes).S3Networks
        = sm.S3Networks ++
            [{ Time := now,
               Value := ((((foreignAddresses listing).filterMap
                 (firstPrefix prefixes)).dedup.length : Nat) : Int) }] := by
    intro listing prefixes
    unfold appendS3IPMetrics
    simp only [(s3Found_of_listing prefixes listing).2]
  refine ⟨?_, hfirst⟩
  rw [hfirst]
  have hlen : ((foreignAddresses buf).filterMap (firstPrefix s3Prefixes)).dedup.length
      = (s3Prefixes.dedup.filter (fun p =>
          (foreignAddresses buf).any (fun a => p.Contains (ParseAddr a).1))).length := by
    apply List.Perm.length_eq
    rw [List.perm_ext_iff_of_nodup (List.nodup_dedup _) ((List.nodup_dedup _).filter _)]
    intro p
    rw [List.mem_dedup, List.mem_filterMap, List.mem_filter, List.mem_dedup, List.any_eq_true]
    constructor
    · rintro ⟨a, ha, hf⟩
      have hfc : s3Prefixes.find? (fun p => p.Contains (ParseAddr a).1) = some p := hf
      have hc := List.find?_some hfc
      exact ⟨List.mem_of_find?_eq_some hfc, a, ha, hc⟩
    · rintro ⟨hp, a, ha, hc⟩
      obtain ⟨q, hq⟩ := (insideSome_iff_firstPrefix s3Prefixes a).mp
        (List.any_eq_true.mpr ⟨p, hp, hc⟩)
      have hqf : s3Prefixes.find? (fun p => p.Contains (ParseAddr a).1) = some q := hq
      have hqc := List.find?_some hqf
      have hqp : q = p := hdisjoint a ha q (List.mem_of_find?_eq_some hqf) p hp hqc hc
      exact ⟨a, ha, by rw [← hqp]; exact hq⟩
  rw [hlen]

/-- C22, witness: with the prefixes `3.5.0.0/19` and `52.216.0.0/15`, which
share no address, the listing has peers in one of the two. -/
theorem appendS3IPMetrics_counts_one_network :
    (∀ a, a ∈ foreignAddresses netstatOutput → ∀ p, p ∈ [prefix19, prefix15] →
        ∀ q, q ∈ [prefix19, prefix15] →
        p.Contains (ParseAddr a).1 = true → q.Contains (ParseAddr a).1 = true → p = q) ∧
      (appendS3IPMetrics {} 1700000000 netstatOutput [prefix19, prefix15]).S3Networks
        = [{ Time := 1700000000, Value := 1 }] := by
  have h := (appendS3IPMetrics_counts_networks {} 1700000000 netstatOutput [prefix19, prefix15]
    (by decide)).1
  refine ⟨by decide, ?_⟩
  rw [h]
  decide

/-! ## The system monitor: one iteration of the sampling loop -/

theorem runCommand_ran (client : SshClient) (cmd : String) (st : MonitorState)
    (h : ∃ out failed, client.session st.sessions cmd = .ran out failed) :
    (runCommand client cmd st).2.commands = st.commands ++ [cmd] ∧
      (runCommand client cmd st).2.sessions = st.sessions + 1 := by
  obtain ⟨out, failed, h⟩ := h
  unfold runCommand
  rw [h]
  exact ⟨rfl, rfl⟩

theorem foldl_appendNetworkLine_recv (now : Int) (lines : List String) :
    ∀ sm : SystemMeasurements,
      (lines.foldl (appendNetworkLine now) sm).NetBytesRecv
        = sm.NetBytesRecv
          ++ (lines.filterMap netdevLineEntry).map
              (fun entry => deviceSample entry.iface now entry.recvBytes) := by
  induction lines with
  | nil => intro sm; simp
  | cons line rest ih =>
    intro sm
    rw [List.foldl_cons, ih, List.filterMap_cons]
    unfold appendNetworkLine
    cases netdevLineEntry line with
    | none => rfl
    | some entry => simp

theorem appendNetworkMetrics_recv (sm : SystemMeasurements) (now : Int) (buf : String)
    (entries : List (Option netdevEntry))
    (h : (Split buf (Char.ofNat 10)).map netdevLineEntry = entries) :
    (appendNetworkMetrics sm now buf).NetBytesRecv
      = sm.NetBytesRecv
        ++ (entries.filterMap id).map
            (fun entry => deviceSample entry.iface now entry.recvBytes) := by
  unfold appendNetworkMetrics
  rw [foldl_appendNetworkLine_recv, ← h, List.filterMap_map]
  rfl

theorem foldl_appendNetworkLine_DiskReads (now : Int) (lines : List String) :
    ∀ sm : SystemMeasurements,
      (lines.foldl (appendNetworkLine now) sm).DiskReads = sm.DiskReads := by
  induction lines with
  | nil => intro sm; rfl
  | cons line rest ih =>
    intro sm
    rw [List.foldl_cons, ih]
    unfold appendNetworkLine
    cases netdevLineEntry line <;> rfl

theorem runCommand_clientOk (cmd out : String) (st : MonitorState)
    (h : ∀ n, clientOk.session n cmd = .ran out false) :
    runCommand clientOk cmd st
      = (out, { st with sessions := st.sessions + 1, commands := st.commands ++ [cmd] }) := by
  unfold runCommand
  rw [h]
  rfl

set_option maxRecDepth 8000

theorem procNetDev_entries :
    (Split procNetDev (Char.ofNat 10)).map netdevLineEntry
      = [none, none,
         some { iface := "lo", recvBytes := 1000, recvPackets := 10, sendBytes := 1000,
                sendPackets := 10 },
         some { iface := "ens5", recvBytes := 9000000, recvPackets := 7000,
                sendBytes := 5000000, sendPackets := 6000 },
         none] := by
  decide

/-- C24 (the code departs from it): an iteration of the sampling loop sends
`cat /proc/diskstats` twice and hands each output to `appendDiskIOMetrics`.
Whenever the stop flag is not set, every session opens and no parser panics,
the iteration executes six commands, not five; on a target with one disk,
one iteration from the start adds two samples of that disk to `DiskReads`,
and one to each series of the network interfaces. -/
theorem runMonitorIteration_reads_diskstats_twice :
    (∀ (grow : Nat → Nat) (client : SshClient) (clock : Nat → Int) (s3Prefixes : List Prefix)
        (st st1 : MonitorState),
      st.stop = false →
      (∀ n cmd, ∃ out failed, client.session n cmd = .ran out failed) →
      runMonitorIteration grow client clock s3Prefixes st = .ok st1 →
      st1.commands = st.commands ++ iterationCommands) ∧
      (∀ (grow : Nat → Nat) (clock : Nat → Int),
        ∃ st1, runMonitorIteration grow clientOk clock [prefix15] {} = .ok st1 ∧
          st1.commands = iterationCommands ∧
          st1.sm.DiskReads
            = [deviceSample "nvme0n1" (clock 1) 1200, deviceSample "nvme0n1" (clock 2) 1200] ∧
          st1.sm.NetBytesRecv
            = [deviceSample "lo" (clock 4) 1000, deviceSample "ens5" (clock 4) 9000000]) := by
  constructor
  · intro grow client clock s3Prefixes st st1 hstop hran h
    unfold runMonitorIteration at h
    simp only [hstop, Bool.false_eq_true, if_false] at h
    cases hp : parseCPUTimeStat (runCommand client "cat /proc/stat" st).1 with
    | panic => rw [hp] at h; cases h
    | err e => rw [hp] at h; cases h
    | ok currCPU =>
      rw [hp] at h
      simp only at h
      generalize hd1 : appendDiskIOMetrics grow _ _ _ _ = d1 at h
      cases d1 with
      | panic => cases h
      | err e => cases h
      | ok disk1 =>
        simp only at h
        generalize hd2 : appendDiskIOMetrics grow _ _ _ _ = d2 at h
        cases d2 with
        | panic => cases h
        | err e => cases h
        | ok disk2 =>
          simp only at h
          injection h with h
          subst h
          simp only [runCommand_ran _ _ _ (hran _ _), iterationCommands, List.append_assoc,
            List.cons_append, List.nil_append]
  · intro grow clock
    have hstat : parseCPUTimeStat procStat
        = .ok (some { user := 700, nice := 10, system := 200, idle := 9000, iowait := 50,
                      irq := 5, softIrq := 5, steal := 30, guest := 0, guestNice := 0 }) := by
      decide
    have hrecv : ∀ (sm : SystemMeasurements) (now : Int),
        (appendNetworkMetrics sm now procNetDev).NetBytesRecv
          = sm.NetBytesRecv ++ [deviceSample "lo" now 1000, deviceSample "ens5" now 9000000] :=
      fun sm now => appendNetworkMetrics_recv sm now procNetDev _ procNetDev_entries
    refine Exists.intro ?w ⟨?h1, ?h2, ?h3, ?h4⟩
    case h1 =>
      unfold runMonitorIteration
      simp only [Bool.false_eq_true, if_false,
        runCommand_clientOk "cat /proc/stat" procStat _ (fun _ => rfl),
        runCommand_clientOk "cat /proc/diskstats" diskstatsOneDevice _ (fun _ => rfl),
        runCommand_clientOk "cat /proc/meminfo" meminfoKernel _ (fun _ => rfl),
        runCommand_clientOk "cat /proc/net/dev" procNetDev _ (fun _ => rfl),
        runCommand_clientOk "netstat -n -4" netstatOutput _ (fun _ => rfl),
        hstat, appendDiskIOMetrics_oneDevice]
      exact rfl
    case h2 => rfl
    case h3 =>
      show (appendNetworkMetrics _ _ _).DiskReads = _
      unfold appendNetworkMetrics
      rw [foldl_appendNetworkLine_DiskReads]
      rfl
    case h4 =>
      show (appendNetworkMetrics _ _ _).NetBytesRecv = _
      rw [hrecv]
      rfl

end S3Benchmark
